import Mathlib

/-!
Psi profile migration.

A shallow embedding of `src/psi_profiles.cpp` (legacy configuration migration and
account serialisation of the Psi instant messenger) together with theorems about it.

Conventions of the embedding.

* An option path such as `options.ui.chat.size` is the list of its dot separated
  segments; the C++ expression `base + ".custom-auth.use"` is `base ++ ["custom-auth", "use"]`
  and the empty `QString` is the empty list.
* A `QDomElement` is an `XmlNode`; a null element is `none`.
* Output parameters (`QString *v`) become an extra argument carrying the old value and a
  result carrying the new one.
* Collaborators that live outside this file (password coding, the PGP key store, Jabber
  id normalisation, translations, ...) are fields of the structure `Env`.
-/

namespace Psi

/-! ## QVariant -/

/-- Modelled from the spec: the values an option path can hold (Qt `QVariant`), restricted
to the types this file stores. `invalid` is the null variant returned for a missing option. -/
inductive Variant where
  | invalid
  | bool (b : Bool)
  | int (i : Int)
  | str (s : String)
  | strList (l : List String)
  | size (w h : Int)
  | rect (x y w h : Int)
  | color (c : Option String)
  | bytes (b : List Nat)
  | keySeq (k : String)
  | keySeqList (l : List String)
deriving DecidableEq, Repr, Inhabited

/-- Decimal digits of a character, when it is one. -/
def digitValue (c : Char) : Option Nat :=
  if c.toNat ≥ 48 ∧ c.toNat ≤ 57 then some (c.toNat - 48) else none

/-- Value of a string of decimal digits read left to right, starting from `acc`. -/
def parseDigits : List Char → Nat → Option Nat
  | [], acc => some acc
  | c :: cs, acc =>
    match digitValue c with
    | some d => parseDigits cs (acc * 10 + d)
    | none => none

/-- White space as `QChar::isSpace` sees it on the ASCII range. -/
def isSpaceChar (c : Char) : Bool :=
  c = ' ' || c = '\t' || c = '\n' || c = '\r' || c.toNat = 11 || c.toNat = 12

/-- Modelled from the spec: `QString::toInt()`, base ten, surrounding white space ignored,
an optional sign, and `0` when the text is no number or does not fit a 32 bit `int`. -/
def qStringToInt (s : String) : Int :=
  let cs := ((s.data.dropWhile isSpaceChar).reverse.dropWhile isSpaceChar).reverse
  let signed : Option Int :=
    match cs with
    | [] => none
    | '-' :: ds => if ds.isEmpty then none else (parseDigits ds 0).map (fun n => - (n : Int))
    | '+' :: ds => if ds.isEmpty then none else (parseDigits ds 0).map (fun n => (n : Int))
    | ds => (parseDigits ds 0).map (fun n => (n : Int))
  match signed with
  | some i => if -2147483648 ≤ i ∧ i ≤ 2147483647 then i else 0
  | none => 0

/-- Modelled from the spec: `QString::number(int)`. -/
def qStringNumber (i : Int) : String :=
  if i < 0 then "-" ++ toString i.natAbs else toString i.natAbs

namespace Variant

/-- Modelled from the spec: `QVariant::toBool()`. -/
def toBool : Variant → Bool
  | bool b => b
  | int i => i ≠ 0
  | str s => !(s.isEmpty || s = "0" || s.toLower = "false")
  | _ => false

/-- Modelled from the spec: `QVariant::toInt()`. -/
def toInt : Variant → Int
  | bool b => if b then 1 else 0
  | int i => i
  | str s => qStringToInt s
  | _ => 0

/-- Modelled from the spec: `QVariant::toString()`. -/
def toQString : Variant → String
  | bool b => if b then "true" else "false"
  | int i => qStringNumber i
  | str s => s
  | strList [s] => s
  | keySeq k => k
  | _ => ""

/-- Modelled from the spec: `QVariant::toStringList()`. -/
def toStringList : Variant → List String
  | str s => [s]
  | strList l => l
  | _ => []

/-- Modelled from the spec: `QVariant::toByteArray()`. -/
def toByteArray : Variant → List Nat
  | bytes b => b
  | str s => s.data.map Char.toNat
  | _ => []

end Variant

/-! ## The option store -/

/-- An option path: the list of its dot separated segments. -/
abbrev OptPath := List String

/-- Modelled from the spec: the hierarchical option store (`OptionsTree`, `PsiOptions`),
an external collaborator consumed through get, set, remove, enumerate and the map
operations. The store is the list of its set options in the order they were first set. -/
structure OptionsTree where
  entries : List (OptPath × Variant)
deriving DecidableEq, Repr, Inhabited

/-- Keeps the first occurrence of every element. -/
def nubFirst {α : Type} [DecidableEq α] : List α → List α
  | [] => []
  | a :: l => a :: (nubFirst l).filter (fun b => b ≠ a)

/-- Replaces the value stored under `k`, or reports that there is none. -/
def replaceEntry (k : OptPath) (v : Variant) :
    List (OptPath × Variant) → Option (List (OptPath × Variant))
  | [] => none
  | e :: es =>
    if e.1 = k then some ((k, v) :: es)
    else (replaceEntry k v es).map (fun r => e :: r)

namespace OptionsTree

/-- The store with no option set. -/
def empty : OptionsTree := ⟨[]⟩

/-- The value stored under a path, when the option is set. -/
def find? (o : OptionsTree) (k : OptPath) : Option Variant :=
  (o.entries.find? (fun e => e.1 = k)).map (fun e => e.2)

/-- `getOption(name, defaultValue)`: the stored value, or the default for a missing option. -/
def getOptionD (o : OptionsTree) (k : OptPath) (d : Variant) : Variant :=
  (o.find? k).getD d

/-- `getOption(name)`: the stored value, or the null variant. -/
def getOption (o : OptionsTree) (k : OptPath) : Variant :=
  o.getOptionD k Variant.invalid

/-- `setOption(name, value)`. -/
def setOption (o : OptionsTree) (k : OptPath) (v : Variant) : OptionsTree :=
  match replaceEntry k v o.entries with
  | some es => ⟨es⟩
  | none => ⟨o.entries ++ [(k, v)]⟩

/-- `removeOption(name, recursive)`: drops the option itself and, when recursive, every
option below it. -/
def removeOption (o : OptionsTree) (k : OptPath) (recursive : Bool := false) : OptionsTree :=
  ⟨o.entries.filter (fun e => !(e.1 = k || (recursive && k.isPrefixOf e.1)))⟩

/-- `allOptionNames()`: the names of all set options. -/
def allOptionNames (o : OptionsTree) : List OptPath :=
  o.entries.map (fun e => e.1)

/-- The nodes strictly between `parent` and `k`, and `k` itself, nearest first. -/
def nodesBelow (parent k : OptPath) : List OptPath :=
  (List.range (k.length - parent.length)).map (fun i => k.take (parent.length + i + 1))

/-- `getChildOptionNames(parent, direct, internal_nodes)`: full names of the options below
`parent`; only the nearest level when `direct`, inner nodes included when `internal`. -/
def getChildOptionNames (o : OptionsTree) (parent : OptPath := [])
    (direct : Bool := false) (internal : Bool := false) : List OptPath :=
  let below := o.allOptionNames.filter
    (fun k => parent.isPrefixOf k && decide (parent.length < k.length))
  match direct, internal with
  | true, true => nubFirst (below.map (fun k => k.take (parent.length + 1)))
  | true, false => nubFirst (below.filter (fun k => k.length = parent.length + 1))
  | false, true => nubFirst (below.flatMap (nodesBelow parent))
  | false, false => nubFirst below

/-- The first index `i` for which `basename.m<i>` is not among `children`. -/
def firstUnusedIndex (basename : OptPath) (children : List OptPath) : Nat :=
  ((List.range (children.length + 1)).find?
    (fun i => decide (basename ++ ["m" ++ toString i] ∉ children))).getD children.length

/-- `mapLookup` without the fallback: the node of the map entry holding `key`. -/
def mapFind? (o : OptionsTree) (basename : OptPath) (key : Variant) : Option OptPath :=
  (o.getChildOptionNames basename true true).find?
    (fun path => o.getOption (path ++ ["key"]) = key)

/-- `mapPut(basename, key)`: the node of the entry for `key`, created under the first unused
name `m<i>` when the map has none. -/
def mapPut (o : OptionsTree) (basename : OptPath) (key : Variant) : OptPath × OptionsTree :=
  match o.mapFind? basename key with
  | some path => (path, o)
  | none =>
    let path := basename ++
      ["m" ++ toString (firstUnusedIndex basename (o.getChildOptionNames basename true true))]
    (path, o.setOption (path ++ ["key"]) key)

/-- `mapLookup(basename, key)`: the node of the entry for `key`; a missing key yields the
name `basename + "XXX"`. -/
def mapLookup (o : OptionsTree) (basename : OptPath) (key : Variant) : OptPath :=
  match o.mapFind? basename key with
  | some path => path
  | none =>
    match basename.reverse with
    | [] => ["XXX"]
    | last :: init => (init.reverse) ++ [last ++ "XXX"]

/-- `mapKeyList(basename)`: the keys of the map, in node order. -/
def mapKeyList (o : OptionsTree) (basename : OptPath) : List Variant :=
  (o.getChildOptionNames basename true true).map (fun path => o.getOption (path ++ ["key"]))

end OptionsTree

/-! ## The legacy document -/

/-- A node of the legacy XML document: an element with its attributes and children, or a
text node. -/
inductive XmlNode where
  | elem (tag : String) (attrs : List (String × String)) (children : List XmlNode)
  | text (data : String)
deriving Repr, Inhabited

namespace XmlNode

/-- `isElement()`. -/
def isElem : XmlNode → Bool
  | elem _ _ _ => true
  | text _ => false

/-- `tagName()`. -/
def tagName : XmlNode → String
  | elem t _ _ => t
  | text _ => ""

/-- The attribute list of an element. -/
def attrs : XmlNode → List (String × String)
  | elem _ a _ => a
  | text _ => []

/-- `childNodes()`. -/
def children : XmlNode → List XmlNode
  | elem _ _ c => c
  | text _ => []

/-- The child elements, text nodes skipped. -/
def childElements (e : XmlNode) : List XmlNode :=
  e.children.filter isElem

/-- `firstChildElement(name)`: the first child element with that tag, or null. -/
def firstChildElement (e : XmlNode) (name : String) : Option XmlNode :=
  e.children.find? (fun c => c.isElem && c.tagName = name)

/-- `hasAttribute(name)`. -/
def hasAttribute (e : XmlNode) (name : String) : Bool :=
  e.attrs.any (fun a => a.1 = name)

/-- `attribute(name, default)`. -/
def attributeValue (e : XmlNode) (name : String) (dflt : String := "") : String :=
  match e.attrs.find? (fun a => a.1 = name) with
  | some a => a.2
  | none => dflt

mutual
/-- `text()`: the text of all text nodes below the node, in document order. -/
def allText : XmlNode → String
  | elem _ _ cs => allTextList cs
  | text d => d
/-- The text below a list of sibling nodes. -/
def allTextList : List XmlNode → String
  | [] => ""
  | c :: cs => allText c ++ allTextList cs
end

mutual
/-- `elementsByTagName(name)`: all descendant elements with that tag, in document order. -/
def elementsByTagName (name : String) : XmlNode → List XmlNode
  | elem _ _ cs => elementsByTagNameList name cs
  | text _ => []
/-- The matching elements among a list of siblings and below them. -/
def elementsByTagNameList (name : String) : List XmlNode → List XmlNode
  | [] => []
  | c :: cs =>
    (if c.isElem && c.tagName = name then [c] else []) ++
      elementsByTagName name c ++ elementsByTagNameList name cs
end

/-- An element whose only child is one text node. -/
def textElem (tag : String) (attrs : List (String × String)) (content : String) : XmlNode :=
  elem tag attrs [text content]

end XmlNode

/-! ## XMLHelper -/

/-- Modelled from the spec: `tagContent`, the data of the first text child, else empty. -/
def tagContent (e : XmlNode) : String :=
  match e.children.find? (fun c => !c.isElem) with
  | some (XmlNode.text d) => d
  | _ => ""

/-- Modelled from the spec: `readEntry`, the string parser of the legacy format. -/
def readEntry (e : XmlNode) (name : String) (v : String) : String :=
  match e.firstChildElement name with
  | none => v
  | some tag => tagContent tag

/-- Modelled from the spec: `readNumEntry`, the integer parser of the legacy format. -/
def readNumEntry (e : XmlNode) (name : String) (v : Int) : Int :=
  match e.firstChildElement name with
  | none => v
  | some tag => qStringToInt (tagContent tag)

/-- Modelled from the spec: `readBoolEntry`, the boolean parser of the legacy format. -/
def readBoolEntry (e : XmlNode) (name : String) (v : Bool) : Bool :=
  match e.firstChildElement name with
  | none => v
  | some tag => decide (tagContent tag = "true")

/-- Modelled from the spec: `readBoolAttribute`. -/
def readBoolAttribute (e : XmlNode) (name : String) (v : Bool) : Bool :=
  if e.hasAttribute name then decide (e.attributeValue name = "true") else v

/-- Modelled from the spec: `xmlToStringList`, the contents of the `item` children. -/
def xmlToStringList (e : XmlNode) (name : String) (v : List String) : List String :=
  match e.firstChildElement name with
  | none => v
  | some tag => (tag.childElements.filter (fun i => i.tagName = "item")).map tagContent

/-- A `QSize`. -/
structure QSize where
  width : Int
  height : Int
deriving DecidableEq, Repr, Inhabited

/-- The default constructed (invalid) `QSize`. -/
def QSize.null : QSize := ⟨-1, -1⟩

/-- A `QRect` by position and extent. -/
structure QRect where
  x : Int
  y : Int
  width : Int
  height : Int
deriving DecidableEq, Repr, Inhabited

/-- The default constructed `QRect`. -/
def QRect.null : QRect := ⟨0, 0, 0, 0⟩

/-- `QString::split(',')`. -/
def splitComma (s : String) : List String :=
  (s.data.splitOn ',').map String.mk

/-- Modelled from the spec: `readSizeEntry`, a `width,height` pair. -/
def readSizeEntry (e : XmlNode) (name : String) (v : QSize) : QSize :=
  match e.firstChildElement name with
  | none => v
  | some tag =>
    match splitComma (tagContent tag) with
    | [w, h] => ⟨qStringToInt w, qStringToInt h⟩
    | _ => v

/-- Modelled from the spec: `readRectEntry`, an `x,y,width,height` quadruple. -/
def readRectEntry (e : XmlNode) (name : String) (v : QRect) : QRect :=
  match e.firstChildElement name with
  | none => v
  | some tag =>
    match splitComma (tagContent tag) with
    | [x, y, w, h] => ⟨qStringToInt x, qStringToInt y, qStringToInt w, qStringToInt h⟩
    | _ => v

/-- Modelled from the spec: `readColorEntry`; `namedColor` is `QColor::setNamedColor`
followed by `isValid`, and `none` is the invalid colour. -/
def readColorEntry (namedColor : String → Option String) (e : XmlNode) (name : String)
    (v : Option String) : Option String :=
  match e.firstChildElement name with
  | none => v
  | some tag =>
    match namedColor (tagContent tag) with
    | some c => some c
    | none => v

/-! ## Field migrators -/

/-- `migrateEntry<T, F>`: when the element has the child `entry`, the value read by the
parser `f` is stored under `option`. -/
def migrateEntry {T : Type} (f : XmlNode → String → T → T) (toVariant : T → Variant)
    (init : T) (element : XmlNode) (entry : String) (option : OptPath)
    (o : OptionsTree) : OptionsTree :=
  if (element.firstChildElement entry).isSome then
    o.setOption option (toVariant (f element entry init))
  else o

/-- `migrateIntEntry`; `init` stands for the uninitialised local `int value`. -/
def migrateIntEntry (element : XmlNode) (entry : String) (option : OptPath)
    (o : OptionsTree) (init : Int := 0) : OptionsTree :=
  migrateEntry readNumEntry Variant.int init element entry option o

/-- `migrateBoolEntry`; `init` stands for the uninitialised local `bool value`. -/
def migrateBoolEntry (element : XmlNode) (entry : String) (option : OptPath)
    (o : OptionsTree) (init : Bool := false) : OptionsTree :=
  migrateEntry readBoolEntry Variant.bool init element entry option o

/-- `migrateSizeEntry`. -/
def migrateSizeEntry (element : XmlNode) (entry : String) (option : OptPath)
    (o : OptionsTree) : OptionsTree :=
  migrateEntry readSizeEntry (fun s => Variant.size s.width s.height) QSize.null
    element entry option o

/-- `migrateStringEntry`. -/
def migrateStringEntry (element : XmlNode) (entry : String) (option : OptPath)
    (o : OptionsTree) : OptionsTree :=
  migrateEntry readEntry Variant.str "" element entry option o

/-- `migrateStringList`. -/
def migrateStringList (element : XmlNode) (entry : String) (option : OptPath)
    (o : OptionsTree) : OptionsTree :=
  migrateEntry xmlToStringList Variant.strList [] element entry option o

/-- `migrateColorEntry`. -/
def migrateColorEntry (namedColor : String → Option String) (element : XmlNode)
    (entry : String) (option : OptPath) (o : OptionsTree) : OptionsTree :=
  migrateEntry (readColorEntry namedColor) Variant.color none element entry option o

/-- `migrateRectEntry`. -/
def migrateRectEntry (element : XmlNode) (entry : String) (option : OptPath)
    (o : OptionsTree) : OptionsTree :=
  migrateEntry readRectEntry (fun r => Variant.rect r.x r.y r.width r.height) QRect.null
    element entry option o

/-! ## External value types -/

/-- Modelled from the spec: a Jabber id (`XMPP::Jid`), kept as its `full()` text. -/
structure Jid where
  full : String
deriving DecidableEq, Repr, Inhabited

/-- Modelled from the spec: a roster subscription state, kept as its `toString()` text. -/
structure Subscription where
  text : String
deriving DecidableEq, Repr, Inhabited

/-- Modelled from the spec: a roster cache entry (`XMPP::RosterItem`). -/
structure RosterItem where
  jid : Jid
  name : String
  subscription : Subscription
  ask : String
  groups : List String
deriving DecidableEq, Repr, Inhabited

/-- Modelled from the spec: a presence status (`XMPP::Status`); the type is kept as its
`typeString()` text. -/
structure Status where
  typeString : String
  status : String
  priority : Int
deriving DecidableEq, Repr, Inhabited

/-- Modelled from the spec: an OpenPGP key of the key store (`QCA::PGPKey`); the null
key is `none`. -/
structure PGPKey where
  keyId : String
deriving DecidableEq, Repr, Inhabited

/-- Modelled from the spec: the PGP key binding table (`VarList`), key and data pairs. -/
abbrev VarList := List (String × String)

/-- Modelled from the spec: the open flag and the sort rank of a roster group. -/
structure GroupData where
  isOpen : Bool
  rank : Int
deriving DecidableEq, Repr, Inhabited

/-- Modelled from the spec: the connection settings of a proxy (`ProxySettings`). -/
structure ProxySettings where
  host : String
  port : Int
  useAuth : Bool
  user : String
  pass : String
deriving DecidableEq, Repr, Inhabited

/-- The default constructed `ProxySettings`. -/
def ProxySettings.init : ProxySettings := ⟨"", 8080, false, "", ""⟩

/-- Modelled from the spec: a proxy definition with its stable storage id (`ProxyItem`). -/
structure ProxyItem where
  id : String
  name : String
  type : String
  settings : ProxySettings
deriving DecidableEq, Repr, Inhabited

/-- The default constructed `ProxyItem`. -/
def ProxyItem.init : ProxyItem := ⟨"", "", "", ProxySettings.init⟩

/-- Modelled from the spec: a status message preset (`StatusPreset`). -/
structure StatusPreset where
  name : String
  message : String
  status : String
  priority : Option Int
deriving DecidableEq, Repr, Inhabited

/-! ## QMap -/

/-- A `QMap<QString, T>`: key and value pairs, kept in ascending key order by `insert`. -/
abbrev QMap (β : Type) := List (String × β)

namespace QMap

/-- `insert(key, value)`: replaces the value of an existing key, else adds the pair at its
place in key order. -/
def insert {β : Type} (k : String) (v : β) : QMap β → QMap β
  | [] => [(k, v)]
  | e :: es =>
    if e.1 = k then (k, v) :: es
    else if k < e.1 then (k, v) :: e :: es
    else e :: insert k v es

/-- `keys()`. -/
def keys {β : Type} (m : QMap β) : List String := m.map (fun e => e.1)

/-- `values()`. -/
def values {β : Type} (m : QMap β) : List β := m.map (fun e => e.2)

/-- The value of a key, when present. -/
def lookup {β : Type} (m : QMap β) (k : String) : Option β :=
  (m.find? (fun e => e.1 = k)).map (fun e => e.2)

/-- `value(key)` and the reading `operator[]`: a default constructed value for a missing
key. -/
def value {β : Type} [Inhabited β] (m : QMap β) (k : String) : β :=
  (lookup m k).getD default

/-- `remove(key)`. -/
def remove {β : Type} (k : String) (m : QMap β) : QMap β :=
  m.filter (fun e => e.1 ≠ k)

end QMap

/-! ## Collaborators outside this file -/

/-- The collaborators the code calls but does not define, and the values C++ leaves
indeterminate. -/
structure Env where
  /-- `ApplicationInfo::name()`. -/
  appName : String
  /-- `decodePassword(pass, key)`. -/
  decodePassword : String → String → String
  /-- `encodePassword(pass, key)`. -/
  encodePassword : String → String → String
  /-- Whether the build defines `HAVE_PGPUTIL`. -/
  havePgpUtil : Bool
  /-- `PGPUtil::instance().getSecretKeyStoreEntry(id)` followed by `pgpSecretKey()`; `none`
  when the store has no such entry. -/
  getSecretKey : String → Option PGPKey
  /-- `XMPP::Jid(QString)`. -/
  jidFromString : String → Jid
  /-- `Subscription::fromString` on a default constructed subscription. -/
  subscriptionFromString : String → Subscription
  /-- `Status::setType(QString)` followed by `typeString()`. -/
  statusTypeString : String → String
  /-- `Status::isAvailable()`, by `typeString()`. -/
  statusIsAvailable : String → Bool
  /-- `RosterItem::fromXml`; `none` when it returns false. -/
  rosterItemFromXml : XmlNode → Option RosterItem
  /-- `VarList::fromXml`. -/
  varListFromXml : XmlNode → VarList → VarList
  /-- `VarList::toOptions`. -/
  varListToOptions : VarList → OptionsTree → OptPath → OptionsTree
  /-- `VarList::fromOptions`. -/
  varListFromOptions : VarList → OptionsTree → OptPath → VarList
  /-- The translation of `General` in the context `ContactProfile`. -/
  trGeneral : String
  /-- The translation of `Agents/Transports` in the context `ContactProfile`. -/
  trAgents : String
  /-- `QObject::tr("%1 Proxy").arg(name)`. -/
  trProxyName : String → String
  /-- `QObject::tr("Event notifier")`. -/
  trEventNotifier : String
  /-- `ProxySettings::fromXml`. -/
  proxySettingsFromXml : XmlNode → ProxySettings → ProxySettings
  /-- `StatusPreset(QDomElement)`; the argument is `none` for a null element. -/
  statusPresetFromXml : Option XmlNode → StatusPreset
  /-- `StatusPreset::toOptions`. -/
  statusPresetToOptions : StatusPreset → OptionsTree → OptionsTree
  /-- `QColor::setNamedColor` followed by `isValid`; `none` for an invalid colour. -/
  namedColor : String → Option String
  /-- `soundDetectPlayer()`. -/
  soundDetectPlayer : String
  /-- `QKeySequence(QString)`, as its portable text. -/
  keySequence : String → String
  /-- `qVersionInt()`. -/
  qVersionInt : Nat
  /-- Whether the build defines `PSI_PLUGINS`. -/
  havePlugins : Bool
  /-- `PluginManager::availablePlugins()`. -/
  availablePlugins : List String
  /-- `PluginManager::shortName(plugin)`. -/
  pluginShortName : String → String
  /-- `QUuid::createUuid().toString()` for the account parsed at a document position. -/
  accountUuid : Nat → String
  /-- `QUuid::createUuid().toString()` for the toolbar record built at a position. -/
  toolbarUuid : Nat → String
  /-- `QUuid::createUuid().toString()` for the `Chat` toolbar of `lateMigration`. -/
  chatToolbarUuid : String
  /-- `QUuid::createUuid().toString()` for the `Groupchat` toolbar of `lateMigration`. -/
  groupchatToolbarUuid : String
  /-- The indeterminate value of the uninitialised local `bool hideMenu`. -/
  uninitHideMenu : Bool
  /-- The indeterminate value of the uninitialised local `int defaultAction`. -/
  uninitDefaultAction : Int
  /-- The indeterminate value of the uninitialised local `int delafterint`. -/
  uninitDelafterint : Int
  /-- The indeterminate value of the uninitialised local `bool soft`. -/
  uninitSoft : Bool
  /-- The indeterminate value of the uninitialised local `int alertstyle`. -/
  uninitAlertstyle : Int
  /-- The indeterminate value of the uninitialised local `bool use`. -/
  uninitUse : Bool
  /-- The indeterminate value of the uninitialised local `bool noGCSound`. -/
  uninitNoGCSound : Bool
  /-- The indeterminate value of the uninitialised local `bool enabled`. -/
  uninitStickEnabled : Bool
  /-- The indeterminate value of the uninitialised local `int offs`. -/
  uninitStickOffs : Int
  /-- The indeterminate value of the uninitialised local `bool toWindows`. -/
  uninitStickToWindows : Bool

/-! ## The account model -/

/-- `PROXY_NONE`. -/
def PROXY_NONE : Int := 0
/-- `PROXY_HTTPS`. -/
def PROXY_HTTPS : Int := 1
/-- `PROXY_SOCKS4`. -/
def PROXY_SOCKS4 : Int := 2
/-- `PROXY_SOCKS5`. -/
def PROXY_SOCKS5 : Int := 3

/-- Modelled from the spec: the SSL mode enum {No, Yes, Auto, Legacy}, first value. -/
def SSL_No : Int := 0
/-- Modelled from the spec: the SSL mode enum {No, Yes, Auto, Legacy}, second value. -/
def SSL_Yes : Int := 1
/-- Modelled from the spec: the SSL mode enum {No, Yes, Auto, Legacy}, third value. -/
def SSL_Auto : Int := 2
/-- Modelled from the spec: the SSL mode enum {No, Yes, Auto, Legacy}, fourth value. -/
def SSL_Legacy : Int := 3

/-- Modelled from the spec: the plain-auth policy enum {Never, Always, OverEncryptedOnly},
first value. -/
def NoAllowPlain : Int := 0
/-- Modelled from the spec: the plain-auth policy enum, second value. -/
def AllowPlain : Int := 1
/-- Modelled from the spec: the plain-auth policy enum, third value. -/
def AllowPlainOverTLS : Int := 2

/-- Modelled from the spec: `QCA::SL_None`. -/
def SL_None : Int := 0

/-- Modelled from the spec: the per-account model (`UserAccount`, declared in
`profiles.h`); the fields are those this file reads or writes. -/
structure UserAccount where
  id : String
  name : String
  opt_enabled : Bool
  opt_auto : Bool
  tog_offline : Bool
  tog_away : Bool
  tog_hidden : Bool
  tog_agents : Bool
  tog_self : Bool
  customAuth : Bool
  storeSaltedHashedPassword : Bool
  req_mutual_auth : Bool
  legacy_ssl_probe : Bool
  security_level : Int
  ssl : Int
  jid : String
  pass : String
  scramSaltedHashPassword : String
  opt_pass : Bool
  port : Int
  opt_host : Bool
  host : String
  opt_automatic_resource : Bool
  priority_dep_on_status : Bool
  ignore_global_actions : Bool
  resource : String
  priority : Int
  ibbOnly : Bool
  opt_keepAlive : Bool
  opt_sm : Bool
  allow_plain : Int
  opt_compress : Bool
  opt_log : Bool
  opt_reconn : Bool
  opt_connectAfterSleep : Bool
  opt_autoSameStatus : Bool
  lastStatusWithPriority : Bool
  opt_ignoreSSLWarnings : Bool
  proxy_index : Int
  proxy_type : Int
  proxy_host : String
  proxy_port : Int
  proxy_user : String
  proxy_pass : String
  stunHosts : List String
  stunHost : String
  stunUser : String
  stunPass : String
  keybind : VarList
  roster : List RosterItem
  groupState : QMap GroupData
  optionsBase : OptPath
  authid : String
  realm : String
  lastStatus : Status
  pgpSecretKey : Option PGPKey
  pgpPassPhrase : String
  proxyID : String
  dtProxy : Jid
  tlsOverrideCert : List Nat
  tlsOverrideDomain : String
  alwaysVisibleContacts : List String
  localMucBookmarks : List String
deriving DecidableEq, Repr, Inhabited

/-- The STUN hosts `reset()` installs. -/
def defaultStunHosts : List String :=
  ["stun.jabber.ru:5249", "stun.habahaba.im", "stun.ekiga.net", "provserver.televolution.net",
   "stun1.voiceeclipse.net", "stun.callwithus.com", "stun.counterpath.net",
   "stun.endigovoip.com", "stun.ideasip.com", "stun.internetcalls.com",
   "stun.noc.ams-ix.net", "stun.phonepower.com", "stun.phoneserve.com", "stun.rnktel.com",
   "stun.softjoys.com", "stun.sipgate.net", "stun.sipgate.net:10000",
   "stun.stunprotocol.org", "stun.voipbuster.com", "stun.voxgratia.org"]

namespace UserAccount

/-- `UserAccount::reset()`; `uuid` is the text of the id `QUuid::createUuid()` hands out. -/
def reset (env : Env) (uuid : String) (u : UserAccount) : UserAccount :=
  { u with
    id := uuid
    name := "Default"
    opt_enabled := true
    opt_auto := false
    tog_offline := true
    tog_away := true
    tog_hidden := false
    tog_agents := true
    tog_self := false
    customAuth := false
    storeSaltedHashedPassword := false
    req_mutual_auth := false
    legacy_ssl_probe := false
    security_level := SL_None
    ssl := SSL_Auto
    jid := ""
    pass := ""
    scramSaltedHashPassword := ""
    opt_pass := false
    port := 5222
    opt_host := false
    host := ""
    opt_automatic_resource := true
    priority_dep_on_status := true
    ignore_global_actions := false
    resource := env.appName
    priority := 5
    ibbOnly := false
    opt_keepAlive := true
    opt_sm := true
    allow_plain := AllowPlainOverTLS
    opt_compress := false
    opt_log := true
    opt_reconn := false
    opt_connectAfterSleep := false
    opt_autoSameStatus := true
    lastStatusWithPriority := false
    opt_ignoreSSLWarnings := false
    proxy_index := 0
    proxy_type := PROXY_NONE
    proxy_host := ""
    proxy_port := 8080
    proxy_user := ""
    proxy_pass := ""
    stunHosts := defaultStunHosts
    stunHost := defaultStunHosts.headD ""
    keybind := []
    roster := [] }

/-- The members of a `UserAccount` before the constructor body runs: `lastStatus` is
`Status::Online`, every other member is default constructed. -/
def blank : UserAccount :=
  { id := "", name := "", opt_enabled := false, opt_auto := false, tog_offline := false,
    tog_away := false, tog_hidden := false, tog_agents := false, tog_self := false,
    customAuth := false, storeSaltedHashedPassword := false, req_mutual_auth := false,
    legacy_ssl_probe := false, security_level := 0, ssl := 0, jid := "", pass := "",
    scramSaltedHashPassword := "", opt_pass := false, port := 0, opt_host := false,
    host := "", opt_automatic_resource := false, priority_dep_on_status := false,
    ignore_global_actions := false, resource := "", priority := 0, ibbOnly := false,
    opt_keepAlive := false, opt_sm := false, allow_plain := 0, opt_compress := false,
    opt_log := false, opt_reconn := false, opt_connectAfterSleep := false,
    opt_autoSameStatus := false, lastStatusWithPriority := false,
    opt_ignoreSSLWarnings := false, proxy_index := 0, proxy_type := 0, proxy_host := "",
    proxy_port := 0, proxy_user := "", proxy_pass := "", stunHosts := [], stunHost := "",
    stunUser := "", stunPass := "", keybind := [], roster := [], groupState := [],
    optionsBase := [], authid := "", realm := "",
    lastStatus := { typeString := "online", status := "", priority := 0 },
    pgpSecretKey := none, pgpPassPhrase := "", proxyID := "", dtProxy := ⟨""⟩,
    tlsOverrideCert := [], tlsOverrideDomain := "", alwaysVisibleContacts := [],
    localMucBookmarks := [] }

/-- `UserAccount::UserAccount()`: a fresh account. -/
def init (env : Env) (uuid : String) : UserAccount :=
  reset env uuid blank

/-- `UserAccount::defaultPriority(status)`; `psi` is the store of `PsiOptions::instance()`. -/
def defaultPriority (env : Env) (psi : OptionsTree) (u : UserAccount) (s : Status) : Int :=
  if u.priority_dep_on_status then
    if env.statusIsAvailable s.typeString then
      (psi.getOption ["options", "status", "default-priority", s.typeString]).toInt
    else 0
  else u.priority

/-- The `group` children of a legacy `groupState` element, inserted in document order. -/
def groupStateFromXml (gs : XmlNode) : QMap GroupData :=
  (gs.childElements.filter (fun i => i.tagName = "group")).foldl
    (fun m i =>
      QMap.insert (i.attributeValue "name")
        { isOpen := decide (i.attributeValue "open" = "true"),
          rank := qStringToInt (i.attributeValue "rank") } m)
    []

/-- The boolean attributes `fromXml` reads first. -/
def fromXmlFlags (a : XmlNode) (u : UserAccount) : UserAccount :=
  { u with
    id := readEntry a "id" u.id
    name := readEntry a "name" u.name
    opt_enabled := readBoolAttribute a "enabled" u.opt_enabled
    opt_auto := readBoolAttribute a "auto" u.opt_auto
    tog_offline := readBoolAttribute a "showOffline" u.tog_offline
    tog_away := readBoolAttribute a "showAway" u.tog_away
    tog_hidden := readBoolAttribute a "showHidden" u.tog_hidden
    tog_agents := readBoolAttribute a "showAgents" u.tog_agents
    tog_self := readBoolAttribute a "showSelf" u.tog_self
    opt_keepAlive := readBoolAttribute a "keepAlive" u.opt_keepAlive
    opt_sm := readBoolAttribute a "enableSM" u.opt_sm
    opt_compress := readBoolAttribute a "compress" u.opt_compress
    req_mutual_auth := readBoolAttribute a "require-mutual-auth" u.req_mutual_auth
    legacy_ssl_probe := readBoolAttribute a "legacy-ssl-probe" u.legacy_ssl_probe
    opt_log := readBoolAttribute a "log" u.opt_log
    opt_reconn := readBoolAttribute a "reconn" u.opt_reconn
    opt_ignoreSSLWarnings := readBoolAttribute a "ignoreSSLWarnings" u.opt_ignoreSSLWarnings
    opt_automatic_resource :=
      readBoolAttribute a "automatic-resource" u.opt_automatic_resource
    priority_dep_on_status :=
      readBoolAttribute a "priority-depends-on-status" u.priority_dep_on_status
    ignore_global_actions :=
      readBoolAttribute a "ignore-global-actions" u.ignore_global_actions }

/-- The `plain` and `ssl` flags with their newer numeric entries, the security level, the
host and the port. -/
def fromXmlConnection (a : XmlNode) (u : UserAccount) : UserAccount :=
  -- Will be overwritten if there is a new option
  let opt_plain := readBoolAttribute a "plain" false
  let allow_plain := if opt_plain then AllowPlain else NoAllowPlain
  let allow_plain := readNumEntry a "allow-plain" allow_plain
  -- Will be overwritten if there is a new option
  let opt_ssl := readBoolAttribute a "ssl" true
  let ssl := if opt_ssl then SSL_Legacy else u.ssl
  { u with
    allow_plain := allow_plain
    security_level := readNumEntry a "security-level" u.security_level
    ssl := readNumEntry a "ssl" ssl
    host := readEntry a "host" u.host
    port := readNumEntry a "port" u.port }

/-- The two historical encodings of the Jabber id, and the `useHost` entry. -/
def fromXmlJid (a : XmlNode) (u : UserAccount) : UserAccount :=
  let u :=
    match a.firstChildElement "jid" with
    | some j =>
      -- 0.8.6 and >= 0.9
      { u with opt_host := readBoolAttribute j "manual" u.opt_host, jid := tagContent j }
    | none =>
      -- 0.8.7
      let user := readEntry a "username" ""
      match a.firstChildElement "vhost" with
      | some j =>
        { u with
          opt_host := readBoolAttribute j "manual" u.opt_host
          jid := user ++ "@" ++ tagContent j }
      | none =>
        { u with opt_host := false, host := "", port := 0, jid := user ++ "@" ++ u.host }
  { u with opt_host := readBoolEntry a "useHost" u.opt_host }

/-- The password, decoded with the Jabber id read before. -/
def fromXmlPassword (env : Env) (a : XmlNode) (u : UserAccount) : UserAccount :=
  let pass := readEntry a "password" u.pass
  if !pass.isEmpty then { u with opt_pass := true, pass := env.decodePassword pass u.jid }
  else { u with pass := pass }

/-- The `custom-auth` block, the resource and the priority. -/
def fromXmlAuth (a : XmlNode) (u : UserAccount) : UserAccount :=
  let u :=
    match a.firstChildElement "custom-auth" with
    | some ca =>
      { u with
        customAuth := readBoolAttribute ca "use" u.customAuth
        authid :=
          match ca.firstChildElement "authid" with
          | some el => tagContent el
          | none => u.authid
        realm :=
          match ca.firstChildElement "realm" with
          | some el => tagContent el
          | none => u.realm }
    | none => u
  { u with
    resource := readEntry a "resource" u.resource
    priority := readNumEntry a "priority" u.priority }

/-- The PGP secret key and pass phrase, read when the build has `HAVE_PGPUTIL`. -/
def fromXmlPgp (env : Env) (a : XmlNode) (u : UserAccount) : UserAccount :=
  let pgpSecretKeyID := readEntry a "pgpSecretKeyID" ""
  if env.havePgpUtil && !pgpSecretKeyID.isEmpty then
    let key :=
      match env.getSecretKey pgpSecretKeyID with
      | some key => some key
      | none => u.pgpSecretKey
    let phrase := readEntry a "passphrase" u.pgpPassPhrase
    { u with
      pgpSecretKey := key
      pgpPassPhrase :=
        if !phrase.isEmpty then env.decodePassword phrase pgpSecretKeyID else phrase }
  else u

/-- The roster cache and the group state. -/
def fromXmlRoster (env : Env) (a : XmlNode) (u : UserAccount) : UserAccount :=
  { u with
    roster :=
      match a.firstChildElement "roster" with
      | some r =>
        u.roster ++
          (r.childElements.filter (fun i => i.tagName = "item")).filterMap
            env.rosterItemFromXml
      | none => u.roster
    groupState :=
      match a.firstChildElement "groupState" with
      | some gs => groupStateFromXml gs
      | none => [] }

/-- The legacy proxy fields, the key bindings and the data transfer proxy. -/
def fromXmlProxy (env : Env) (a : XmlNode) (u : UserAccount) : UserAccount :=
  let proxy_pass := readEntry a "proxypass" u.proxy_pass
  { u with
    proxy_index := readNumEntry a "proxyindex" u.proxy_index
    proxy_type := readNumEntry a "proxytype" u.proxy_type
    proxy_host := readEntry a "proxyhost" u.proxy_host
    proxy_port := readNumEntry a "proxyport" u.proxy_port
    proxy_user := readEntry a "proxyuser" u.proxy_user
    proxy_pass :=
      if !proxy_pass.isEmpty then env.decodePassword proxy_pass u.jid else proxy_pass
    keybind :=
      match a.firstChildElement "pgpkeybindings" with
      | some r => env.varListFromXml r u.keybind
      | none => u.keybind
    dtProxy := env.jidFromString (readEntry a "dtProxy" "") }

/-- `UserAccount::fromXml(a)`: the account read from a legacy `account` element. The body
is cut into its consecutive blocks. -/
def fromXml (env : Env) (uuid : String) (a : XmlNode) (u0 : UserAccount) : UserAccount :=
  fromXmlProxy env a (fromXmlRoster env a (fromXmlPgp env a (fromXmlAuth a
    (fromXmlPassword env a (fromXmlJid a (fromXmlConnection a (fromXmlFlags a
      (reset env uuid u0))))))))

/-- The roster cache entry stored under `rbase`. -/
def rosterItemFromOptions (env : Env) (o : OptionsTree) (rbase : OptPath) : RosterItem :=
  { jid := env.jidFromString (o.getOption (rbase ++ ["jid"])).toQString
    name := (o.getOption (rbase ++ ["name"])).toQString
    subscription :=
      env.subscriptionFromString (o.getOption (rbase ++ ["subscription"])).toQString
    ask := (o.getOption (rbase ++ ["ask"])).toQString
    groups := (o.getOption (rbase ++ ["groups"])).toStringList }

/-- The group state map stored under `base.group-state`. -/
def groupStateFromOptions (o : OptionsTree) (base : OptPath) : QMap GroupData :=
  (o.mapKeyList (base ++ ["group-state"])).foldl
    (fun m k =>
      let sbase := o.mapLookup (base ++ ["group-state"]) k
      QMap.insert k.toQString
        { isOpen := (o.getOption (sbase ++ ["open"])).toBool,
          rank := (o.getOption (sbase ++ ["rank"])).toInt } m)
    []

/-- The flags `fromOptions` reads first. -/
def fromOptionsFlags (o : OptionsTree) (base : OptPath) (u : UserAccount) : UserAccount :=
  { u with
    opt_enabled := (o.getOption (base ++ ["enabled"])).toBool
    opt_auto := (o.getOption (base ++ ["auto"])).toBool
    opt_keepAlive := (o.getOption (base ++ ["keep-alive"])).toBool
    opt_sm := (o.getOptionD (base ++ ["enable-sm"]) (Variant.bool true)).toBool
    opt_compress := (o.getOption (base ++ ["compress"])).toBool
    req_mutual_auth := (o.getOption (base ++ ["require-mutual-auth"])).toBool
    legacy_ssl_probe := (o.getOption (base ++ ["legacy-ssl-probe"])).toBool
    opt_automatic_resource := (o.getOption (base ++ ["automatic-resource"])).toBool
    priority_dep_on_status :=
      (o.getOptionD (base ++ ["priority-depends-on-status"]) (Variant.bool false)).toBool
    ignore_global_actions := (o.getOption (base ++ ["ignore-global-actions"])).toBool
    opt_log := (o.getOption (base ++ ["log"])).toBool
    opt_reconn := (o.getOption (base ++ ["reconn"])).toBool
    opt_ignoreSSLWarnings := (o.getOption (base ++ ["ignore-SSL-warnings"])).toBool }

/-- Whether `connect-after-sleep` is among the names of all set options. -/
def connectAfterSleepSet (o : OptionsTree) (base : OptPath) : Bool :=
  decide (base ++ ["connect-after-sleep"] ∈ o.getChildOptionNames)

/-- The `connect-after-sleep` block of `fromOptions` (FS#771), account side. -/
def fromOptionsSleep (o : OptionsTree) (base : OptPath) (u : UserAccount) : UserAccount :=
  if connectAfterSleepSet o base then
    { u with opt_connectAfterSleep := (o.getOption (base ++ ["connect-after-sleep"])).toBool }
  else u

/-- The `connect-after-sleep` block of `fromOptions` (FS#771), store side: a missing
option is set to the value the account holds. -/
def fromOptionsSleepStore (o : OptionsTree) (base : OptPath) (u : UserAccount) : OptionsTree :=
  if connectAfterSleepSet o base then o
  else o.setOption (base ++ ["connect-after-sleep"]) (Variant.bool u.opt_connectAfterSleep)

/-- The id, name, Jabber id, custom authentication, SCRAM fields and the password. -/
def fromOptionsIdentity (env : Env) (o : OptionsTree) (base : OptPath) (u : UserAccount) :
    UserAccount :=
  let tmpId := (o.getOption (base ++ ["id"])).toQString
  let jid := (o.getOption (base ++ ["jid"])).toQString
  -- read password (we must do this after reading the jid, to decode properly)
  let tmp := (o.getOption (base ++ ["password"])).toQString
  { u with
    id := if !tmpId.isEmpty then tmpId else u.id
    name := (o.getOption (base ++ ["name"])).toQString
    jid := jid
    customAuth := (o.getOption (base ++ ["custom-auth", "use"])).toBool
    authid := (o.getOption (base ++ ["custom-auth", "authid"])).toQString
    realm := (o.getOption (base ++ ["custom-auth", "realm"])).toQString
    storeSaltedHashedPassword :=
      (o.getOption (base ++ ["scram", "store-salted-password"])).toBool
    scramSaltedHashPassword := (o.getOption (base ++ ["scram", "salted-password"])).toQString
    opt_pass := if !tmp.isEmpty then true else u.opt_pass
    pass := if !tmp.isEmpty then env.decodePassword tmp jid else u.pass }

/-- The host flag, security level, SSL mode, host, port, resource and priority. -/
def fromOptionsConnection (o : OptionsTree) (base : OptPath) (u : UserAccount) : UserAccount :=
  let tmp := (o.getOption (base ++ ["ssl"])).toQString
  { u with
    opt_host := (o.getOption (base ++ ["use-host"])).toBool
    security_level := (o.getOption (base ++ ["security-level"])).toInt
    ssl :=
      if tmp = "no" then SSL_No
      else if tmp = "yes" then SSL_Yes
      else if tmp = "auto" then SSL_Auto
      else if tmp = "legacy" then SSL_Legacy
      else SSL_Yes
    host := (o.getOption (base ++ ["host"])).toQString
    port := (o.getOption (base ++ ["port"])).toInt
    resource := (o.getOption (base ++ ["resource"])).toQString
    priority := (o.getOption (base ++ ["priority"])).toInt }

/-- The last status block, read when `auto-same-status` is among the set options. -/
def fromOptionsLastStatus (env : Env) (psi : OptionsTree) (allSetOptions : List OptPath)
    (o : OptionsTree) (base : OptPath) (u : UserAccount) : UserAccount :=
  if base ++ ["auto-same-status"] ∈ allSetOptions then
    let withPriority := (o.getOption (base ++ ["last-with-priority"])).toBool
    let status : Status :=
      { u.lastStatus with
        typeString := env.statusTypeString (o.getOption (base ++ ["last-status"])).toQString
        status := (o.getOption (base ++ ["last-status-message"])).toQString }
    { u with
      opt_autoSameStatus := (o.getOption (base ++ ["auto-same-status"])).toBool
      lastStatusWithPriority := withPriority
      lastStatus :=
        if withPriority then
          { status with priority := (o.getOption (base ++ ["last-priority"])).toInt }
        else
          { status with priority := defaultPriority env psi u status } }
  else u

/-- The PGP secret key and pass phrase, read when the build has `HAVE_PGPUTIL`, and the
plain-auth policy. -/
def fromOptionsPgp (env : Env) (o : OptionsTree) (base : OptPath) (u : UserAccount) :
    UserAccount :=
  let pgpSecretKeyID := (o.getOption (base ++ ["pgp-secret-key-id"])).toQString
  let readKey := env.havePgpUtil && !pgpSecretKeyID.isEmpty
  let phrase := (o.getOption (base ++ ["pgp-pass-phrase"])).toQString
  let tmp := (o.getOption (base ++ ["allow-plain"])).toQString
  { u with
    pgpSecretKey :=
      if readKey then
        match env.getSecretKey pgpSecretKeyID with
        | some key => some key
        | none => u.pgpSecretKey
      else u.pgpSecretKey
    pgpPassPhrase :=
      if readKey then
        if !phrase.isEmpty then env.decodePassword phrase pgpSecretKeyID else phrase
      else u.pgpPassPhrase
    allow_plain :=
      if tmp = "never" then NoAllowPlain
      else if tmp = "always" then AllowPlain
      else if tmp = "over encryped" then AllowPlainOverTLS
      else NoAllowPlain }

/-- The roster cache, the group state, the proxy id, the key bindings and the data
transfer settings. -/
def fromOptionsRoster (env : Env) (o : OptionsTree) (base : OptPath) (u : UserAccount) :
    UserAccount :=
  let rosterCache := o.getChildOptionNames (base ++ ["roster-cache"]) true true
  { u with
    roster := u.roster ++ rosterCache.map (rosterItemFromOptions env o)
    groupState := groupStateFromOptions o base
    proxyID := (o.getOption (base ++ ["proxy-id"])).toQString
    keybind := env.varListFromOptions u.keybind o (base ++ ["pgp-key-bindings"])
    dtProxy := env.jidFromString (o.getOption (base ++ ["bytestreams-proxy"])).toQString
    ibbOnly := (o.getOption (base ++ ["ibb-only"])).toBool }

/-- The STUN settings, the certificate override and the free form lists. -/
def fromOptionsTail (allSetOptions : List OptPath) (o : OptionsTree) (base : OptPath)
    (u : UserAccount) : UserAccount :=
  let stunHostText := (o.getOption (base ++ ["stun-host"])).toQString
  { u with
    stunHosts :=
      if base ++ ["stun-hosts"] ∈ allSetOptions then
        (o.getOption (base ++ ["stun-hosts"])).toStringList
      else u.stunHosts
    stunHost :=
      if base ++ ["stun-hosts"] ∈ allSetOptions then
        if base ++ ["stun-host"] ∈ allSetOptions then stunHostText else u.stunHost
      else if !stunHostText.isEmpty then stunHostText
      else u.stunHost
    stunUser :=
      if base ++ ["stun-username"] ∈ allSetOptions then
        (o.getOption (base ++ ["stun-username"])).toQString
      else u.stunUser
    stunPass :=
      if base ++ ["stun-password"] ∈ allSetOptions then
        (o.getOption (base ++ ["stun-password"])).toQString
      else u.stunPass
    tlsOverrideCert :=
      if base ++ ["tls"] ∈ allSetOptions then
        (o.getOption (base ++ ["tls", "override-certificate"])).toByteArray
      else u.tlsOverrideCert
    tlsOverrideDomain :=
      if base ++ ["tls"] ∈ allSetOptions then
        (o.getOption (base ++ ["tls", "override-domain"])).toQString
      else u.tlsOverrideDomain
    alwaysVisibleContacts := (o.getOption (base ++ ["always-visible-contacts"])).toStringList
    localMucBookmarks := (o.getOption (base ++ ["muc-bookmarks"])).toStringList }

/-- `UserAccount::fromOptions(o, base)`: the account read from the option store, and the
store, to which a missing `connect-after-sleep` is added. `psi` is the store of
`PsiOptions::instance()`, consulted for the default priorities. The body is cut into its
consecutive blocks; `allSetOptions` is enumerated before the store is written. -/
def fromOptions (env : Env) (uuid : String) (psi : OptionsTree) (o : OptionsTree)
    (base : OptPath) (u0 : UserAccount) : UserAccount × OptionsTree :=
  let u := reset env uuid { u0 with optionsBase := base }
  let allSetOptions := o.getChildOptionNames base true true
  let u := fromOptionsSleep o base (fromOptionsFlags o base u)
  let o1 := fromOptionsSleepStore o base u
  let u := fromOptionsConnection o1 base (fromOptionsIdentity env o1 base u)
  let u := fromOptionsLastStatus env psi allSetOptions o1 base u
  let u := fromOptionsRoster env o1 base (fromOptionsPgp env o1 base u)
  (fromOptionsTail allSetOptions o1 base u, o1)

/-- `UserAccount::saveLastStatus(o, base)`. -/
def saveLastStatus (u : UserAccount) (o : OptionsTree) (base : OptPath := []) : OptionsTree :=
  let base := if base.isEmpty then u.optionsBase else base
  let o := o.setOption (base ++ ["last-status"]) (Variant.str u.lastStatus.typeString)
  let o := o.setOption (base ++ ["last-status-message"]) (Variant.str u.lastStatus.status)
  let o := o.setOption (base ++ ["last-with-priority"]) (Variant.bool u.lastStatusWithPriority)
  if u.lastStatusWithPriority then
    o.setOption (base ++ ["last-priority"]) (Variant.int u.lastStatus.priority)
  else
    o.removeOption (base ++ ["last-priority"])

/-- The roster cache loop of `toOptions`: entry `idx`, `idx + 1`, ... for the items. -/
def rosterToOptions (base : OptPath) : List RosterItem → Nat → OptionsTree → OptionsTree
  | [], _, o => o
  | ri :: rest, idx, o =>
    let rbase := base ++ ["roster-cache", "a" ++ toString idx]
    let o := o.setOption (rbase ++ ["jid"]) (Variant.str ri.jid.full)
    let o := o.setOption (rbase ++ ["name"]) (Variant.str ri.name)
    let o := o.setOption (rbase ++ ["subscription"]) (Variant.str ri.subscription.text)
    let o := o.setOption (rbase ++ ["ask"]) (Variant.str ri.ask)
    let o := o.setOption (rbase ++ ["groups"]) (Variant.strList ri.groups)
    rosterToOptions base rest (idx + 1) o

/-- The group names whose state `toOptions` keeps: the account name group, the two built
in groups and the groups of the roster items. -/
def groupList (env : Env) (u : UserAccount) : List String :=
  ["/\\/" ++ u.name ++ "\\/\\", env.trGeneral, env.trAgents] ++
    u.roster.flatMap (fun i => i.groups)

/-- The group state of the account once the entries of unreferenced groups are removed. -/
def prunedGroupState (env : Env) (u : UserAccount) : QMap GroupData :=
  let removeList := (QMap.keys u.groupState).filter (fun group => group ∉ groupList env u)
  removeList.foldl (fun m group => QMap.remove group m) u.groupState

/-- The group state loop of `toOptions`: one map entry per group of `groups`. -/
def groupStateToOptions (base : OptPath) (gs : QMap GroupData) :
    List String → OptionsTree → OptionsTree
  | [], o => o
  | group :: rest, o =>
    let put := o.mapPut (base ++ ["group-state"]) (Variant.str group)
    let o := put.2.setOption (put.1 ++ ["open"]) (Variant.bool (QMap.value gs group).isOpen)
    let o := o.setOption (put.1 ++ ["rank"]) (Variant.int (QMap.value gs group).rank)
    groupStateToOptions base gs rest o

/-- The text `toOptions` stores for the SSL mode; `none` for a value outside the enum. -/
def sslText (u : UserAccount) : Option String :=
  if u.ssl = SSL_No then some "no"
  else if u.ssl = SSL_Yes then some "yes"
  else if u.ssl = SSL_Auto then some "auto"
  else if u.ssl = SSL_Legacy then some "legacy"
  else none

/-- The text `toOptions` stores for the plain-auth policy; `none` for a value outside the
enum. -/
def plainText (u : UserAccount) : Option String :=
  if u.allow_plain = NoAllowPlain then some "never"
  else if u.allow_plain = AllowPlain then some "always"
  else if u.allow_plain = AllowPlainOverTLS then some "over encryped"
  else none

/-- The writes of `toOptions` from `enabled` to `allow-plain`; `ssl` and `plain` are the
texts of the two enum fields. The password and the PGP key are written once each, with
the value the branch taken in the source stores. -/
def toOptionsHead (env : Env) (u : UserAccount) (ssl plain : String) (base : OptPath)
    (o : OptionsTree) : OptionsTree :=
  let o := o.setOption (base ++ ["enabled"]) (Variant.bool u.opt_enabled)
  let o := o.setOption (base ++ ["auto"]) (Variant.bool u.opt_auto)
  let o := o.setOption (base ++ ["keep-alive"]) (Variant.bool u.opt_keepAlive)
  let o := o.setOption (base ++ ["enable-sm"]) (Variant.bool u.opt_sm)
  let o := o.setOption (base ++ ["compress"]) (Variant.bool u.opt_compress)
  let o := o.setOption (base ++ ["require-mutual-auth"]) (Variant.bool u.req_mutual_auth)
  let o := o.setOption (base ++ ["legacy-ssl-probe"]) (Variant.bool u.legacy_ssl_probe)
  let o := o.setOption (base ++ ["automatic-resource"]) (Variant.bool u.opt_automatic_resource)
  let o := o.setOption (base ++ ["priority-depends-on-status"])
    (Variant.bool u.priority_dep_on_status)
  let o := o.setOption (base ++ ["ignore-global-actions"]) (Variant.bool u.ignore_global_actions)
  let o := o.setOption (base ++ ["log"]) (Variant.bool u.opt_log)
  let o := o.setOption (base ++ ["reconn"]) (Variant.bool u.opt_reconn)
  let o := o.setOption (base ++ ["connect-after-sleep"]) (Variant.bool u.opt_connectAfterSleep)
  let o := o.setOption (base ++ ["auto-same-status"]) (Variant.bool u.opt_autoSameStatus)
  let o := o.setOption (base ++ ["ignore-SSL-warnings"]) (Variant.bool u.opt_ignoreSSLWarnings)
  let o := o.setOption (base ++ ["id"]) (Variant.str u.id)
  let o := o.setOption (base ++ ["name"]) (Variant.str u.name)
  let o := o.setOption (base ++ ["jid"]) (Variant.str u.jid)
  let o := o.setOption (base ++ ["custom-auth", "use"]) (Variant.bool u.customAuth)
  let o := o.setOption (base ++ ["custom-auth", "authid"]) (Variant.str u.authid)
  let o := o.setOption (base ++ ["custom-auth", "realm"]) (Variant.str u.realm)
  let o := o.setOption (base ++ ["scram", "store-salted-password"])
    (Variant.bool u.storeSaltedHashedPassword)
  let o := o.setOption (base ++ ["scram", "salted-password"])
    (Variant.str u.scramSaltedHashPassword)
  let password := if u.opt_pass then env.encodePassword u.pass u.jid else ""
  let o := o.setOption (base ++ ["password"]) (Variant.str password)
  let o := o.setOption (base ++ ["use-host"]) (Variant.bool u.opt_host)
  let o := o.setOption (base ++ ["security-level"]) (Variant.int u.security_level)
  let o := o.setOption (base ++ ["ssl"]) (Variant.str ssl)
  let o := o.setOption (base ++ ["host"]) (Variant.str u.host)
  let o := o.setOption (base ++ ["port"]) (Variant.int u.port)
  let o := o.setOption (base ++ ["resource"]) (Variant.str u.resource)
  let o := o.setOption (base ++ ["priority"]) (Variant.int u.priority)
  let keyId :=
    match u.pgpSecretKey with
    | some key => key.keyId
    | none => ""
  let passPhrase :=
    match u.pgpSecretKey with
    | some key => env.encodePassword u.pgpPassPhrase key.keyId
    | none => ""
  let o := o.setOption (base ++ ["pgp-secret-key-id"]) (Variant.str keyId)
  let o := o.setOption (base ++ ["pgp-pass-phrase"]) (Variant.str passPhrase)
  o.setOption (base ++ ["allow-plain"]) (Variant.str plain)

/-- The writes of `toOptions` from `bytestreams-proxy` to `muc-bookmarks`. -/
def toOptionsTail (u : UserAccount) (base : OptPath) (o : OptionsTree) : OptionsTree :=
  let o := o.setOption (base ++ ["bytestreams-proxy"]) (Variant.str u.dtProxy.full)
  let o := o.setOption (base ++ ["ibb-only"]) (Variant.bool u.ibbOnly)
  let o := o.setOption (base ++ ["stun-hosts"]) (Variant.strList u.stunHosts)
  let o := o.setOption (base ++ ["stun-host"]) (Variant.str u.stunHost)
  let o := o.setOption (base ++ ["stun-username"]) (Variant.str u.stunUser)
  let o := o.setOption (base ++ ["stun-password"]) (Variant.str u.stunPass)
  let o := o.setOption (base ++ ["tls", "override-certificate"]) (Variant.bytes u.tlsOverrideCert)
  let o := o.setOption (base ++ ["tls", "override-domain"]) (Variant.str u.tlsOverrideDomain)
  let o := saveLastStatus u o base
  let o := o.setOption (base ++ ["always-visible-contacts"])
    (Variant.strList u.alwaysVisibleContacts)
  o.setOption (base ++ ["muc-bookmarks"]) (Variant.strList u.localMucBookmarks)

/-- All writes of `toOptions`, in order, on the store whose subtree of `base` was cleared:
the scalar fields, the roster cache, the pruned group state, the proxy id, the key
bindings and the remaining fields. -/
def toOptionsWrite (env : Env) (u : UserAccount) (ssl plain : String) (base : OptPath)
    (o : OptionsTree) : OptionsTree :=
  let o := toOptionsHead env u ssl plain base o
  let o := rosterToOptions base u.roster 0 o
  -- now we check for redundant entries, and remove them
  let groupState := prunedGroupState env u
  -- and finally, save the data
  let o := groupStateToOptions base groupState (QMap.keys groupState) o
  let o := o.setOption (base ++ ["proxy-id"]) (Variant.str u.proxyID)
  let o := env.varListToOptions u.keybind o (base ++ ["pgp-key-bindings"])
  toOptionsTail u base o

/-- `UserAccount::toOptions(o, base)`: the account with its group state pruned and the
store with the subtree of `base` rewritten; an error stands for `qFatal` on an enum value
the two `switch` statements do not know. -/
def toOptions (env : Env) (u : UserAccount) (o : OptionsTree) (base : OptPath) :
    Except String (UserAccount × OptionsTree) :=
  let base := if base.isEmpty then u.optionsBase else base
  match sslText u with
  | none => Except.error "unknown ssl enum value in UserAccount::toOptions"
  | some ssl =>
    match plainText u with
    | none => Except.error "unknown allow_plain enum value in UserAccount::toOptions"
    | some plain =>
      Except.ok
        ({ u with groupState := prunedGroupState env u },
          -- clear old data away, then write
          toOptionsWrite env u ssl plain base (o.removeOption base true))

end UserAccount

/-! ## Toolbars and deferred migration data -/

/-- Modelled from the spec: the legacy dock position enum (Qt3 style), `Unmanaged`. -/
def Qt3Dock_Unmanaged : Int := 0
/-- Modelled from the spec: the legacy dock position enum, `TornOff`. -/
def Qt3Dock_TornOff : Int := 1
/-- Modelled from the spec: the legacy dock position enum, `Top`. -/
def Qt3Dock_Top : Int := 2
/-- Modelled from the spec: the legacy dock position enum, `Bottom`. -/
def Qt3Dock_Bottom : Int := 3
/-- Modelled from the spec: the legacy dock position enum, `Right`. -/
def Qt3Dock_Right : Int := 4
/-- Modelled from the spec: the legacy dock position enum, `Left`. -/
def Qt3Dock_Left : Int := 5
/-- Modelled from the spec: the legacy dock position enum, `Minimized`. -/
def Qt3Dock_Minimized : Int := 6

/-- Modelled from the spec: a toolbar record (`ToolbarPrefs`): identity, visibility and
lock flags, ordered action keys, dock position and newline flag. -/
structure ToolbarPrefs where
  id : String
  name : String
  keys : List String
  dock : Int
  nl : Bool
  isOn : Bool
  locked : Bool
deriving DecidableEq, Repr, Inhabited

/-- Modelled from the spec: the default constructed `ToolbarPrefs`, which draws a fresh
id from `QUuid::createUuid()`. -/
def ToolbarPrefs.init (uuid : String) : ToolbarPrefs :=
  { id := uuid, name := "", keys := [], dock := Qt3Dock_Top, nl := true, isOn := false,
    locked := false }

/-- Modelled from the spec: the data gathered by `fromFile` for `lateMigration`
(`LateMigrationData`). -/
structure LateMigrationData where
  serviceRosterIconset : QMap String
  customRosterIconset : QMap String
  sp : QMap StatusPreset
  toolbars : QMap (List ToolbarPrefs)
deriving DecidableEq, Repr, Inhabited

/-- The sticky window settings held by the statics of `GAdvancedWidget`. -/
structure StickSettings where
  enabled : Bool
  offs : Int
  toWindows : Bool
deriving DecidableEq, Repr, Inhabited

/-- What `OptionsMigration` reads and writes: the store of `PsiOptions::instance()`, its
members `accMigration`, `proxyMigration` and `lateMigrationData`, and the sticky window
statics. -/
structure MigrationState where
  options : OptionsTree
  accMigration : List UserAccount
  proxyMigration : List ProxyItem
  lateMigrationData : LateMigrationData
  stick : StickSettings
deriving DecidableEq, Repr, Inhabited

/-- `loadToolbarData(e)`. -/
def loadToolbarData (uuid : String) (e : XmlNode) : ToolbarPrefs :=
  let tb := ToolbarPrefs.init uuid
  let tb := { tb with
    name := readEntry e "name" tb.name
    isOn := readBoolEntry e "on" tb.isOn
    locked := readBoolEntry e "locked" tb.locked
    keys := xmlToStringList e "keys" tb.keys }
  match e.firstChildElement "position" with
  | some tb_position =>
    let dockStr := readEntry tb_position "dock" ""
    let dock :=
      if dockStr = "DockTop" then Qt3Dock_Top
      else if dockStr = "DockBottom" then Qt3Dock_Bottom
      else if dockStr = "DockLeft" then Qt3Dock_Left
      else if dockStr = "DockRight" then Qt3Dock_Right
      else if dockStr = "DockMinimized" then Qt3Dock_Minimized
      else if dockStr = "DockTornOff" then Qt3Dock_TornOff
      else if dockStr = "DockUnmanaged" then Qt3Dock_Unmanaged
      else Qt3Dock_Top
    { tb with dock := dock, nl := readBoolEntry tb_position "nl" tb.nl }
  | none => tb

/-! ## OptionsMigration::fromFile -/

/-- `QString::left(n)`. -/
def qLeft (s : String) (n : Nat) : String := String.mk (s.data.take n)

/-- The accounts loop of `fromFile`: one account per `account` child of `accounts`; the
account at position `i` of the loop draws the id `env.accountUuid i`. -/
def parseAccounts (env : Env) (accs : XmlNode) : List UserAccount :=
  ((accs.childElements.filter (fun a => a.tagName = "account")).enum).map
    (fun ia => UserAccount.fromXml env (env.accountUuid ia.1) ia.2
      (UserAccount.init env (env.accountUuid ia.1)))

/-- The proxy built from the legacy proxy fields of an account. -/
def inlineProxy (env : Env) (a : UserAccount) : ProxyItem :=
  { ProxyItem.init with
    name := env.trProxyName a.name
    type := "http"
    settings :=
      { ProxyItem.init.settings with
        host := a.proxy_host
        port := a.proxy_port
        useAuth := !a.proxy_user.isEmpty
        user := a.proxy_user
        pass := a.proxy_pass } }

/-- The loop `convert old proxy config into new`: every account with `proxy_type > 0`
appends a proxy and takes its one based position as `proxy_index`. -/
def convertProxies (env : Env) :
    List UserAccount → List ProxyItem → List UserAccount × List ProxyItem
  | [], proxies => ([], proxies)
  | a :: rest, proxies =>
    if a.proxy_type > 0 then
      let proxies := proxies ++ [inlineProxy env a]
      -- 1 and up are proxies
      let a := { a with proxy_index := (proxies.length : Int) }
      let r := convertProxies env rest proxies
      (a :: r.1, r.2)
    else
      let r := convertProxies env rest proxies
      (a :: r.1, r.2)

/-- The proxy read from one `proxy` element of the standalone list. -/
def standaloneProxy (env : Env) (e : XmlNode) : ProxyItem :=
  let name := readEntry e "name" ""
  let type := readEntry e "type" ""
  let type := if type = "0" then "http" else type
  let settings :=
    match (e.elementsByTagName "proxySettings").head? with
    | some pset => env.proxySettingsFromXml pset ProxyItem.init.settings
    | none => ProxyItem.init.settings
  { ProxyItem.init with name := name, type := type, settings := settings }

/-- The accounts of the document: the `account` children of its `accounts` element, read
by `fromXml` in document order. -/
def documentAccounts (env : Env) (base : XmlNode) : List UserAccount :=
  match base.firstChildElement "accounts" with
  | some accs => parseAccounts env accs
  | none => []

/-- The `proxy` elements of the standalone `proxies` list of the document, in document
order. -/
def documentProxyElements (base : XmlNode) : List XmlNode :=
  match base.firstChildElement "proxies" with
  | some prox => prox.elementsByTagName "proxy"
  | none => []

/-- The proxies of the standalone `proxies` list of the document, in document order. -/
def parseProxies (env : Env) (base : XmlNode) : List ProxyItem :=
  (documentProxyElements base).map (standaloneProxy env)

/-- The loop assigning the storage id `a<i>` to the proxy at position `i`. -/
def assignProxyIds (proxies : List ProxyItem) : List ProxyItem :=
  proxies.enum.map (fun ip => { ip.2 with id := "a" ++ toString ip.1 })

/-- The loop rewriting the proxy reference of every account with `proxy_index != 0` to
the id of `proxyMigration[proxy_index - 1]`; an index outside the list is an error. -/
def updateAccountProxies (proxies : List ProxyItem) :
    List UserAccount → Except String (List UserAccount)
  | [] => Except.ok []
  | a :: rest =>
    if a.proxy_index ≠ 0 then
      if a.proxy_index - 1 < 0 then
        Except.error "proxyMigration index out of range"
      else
        match proxies.get? (a.proxy_index - 1).toNat with
        | some p =>
          match updateAccountProxies proxies rest with
          | Except.ok r => Except.ok ({ a with proxyID := p.id } :: r)
          | Except.error e => Except.error e
        | none => Except.error "proxyMigration index out of range"
    else
      match updateAccountProxies proxies rest with
      | Except.ok r => Except.ok (a :: r)
      | Except.error e => Except.error e

/-- The contact list visibility toggles: all shown, then those of the first enabled
account. -/
def migrateToggles (accs : List UserAccount) (o : OptionsTree) : OptionsTree :=
  let o := o.setOption
    ["options", "ui", "contactlist", "show", "offline-contacts"] (Variant.bool true)
  let o := o.setOption ["options", "ui", "contactlist", "show", "away-contacts"] (Variant.bool true)
  let o := o.setOption
    ["options", "ui", "contactlist", "show", "hidden-contacts-group"] (Variant.bool true)
  let o := o.setOption
    ["options", "ui", "contactlist", "show", "agent-contacts"] (Variant.bool true)
  let o := o.setOption ["options", "ui", "contactlist", "show", "self-contact"] (Variant.bool true)
  match accs.find? (fun a => a.opt_enabled) with
  | some a =>
    let o := o.setOption
      ["options", "ui", "contactlist", "show", "offline-contacts"] (Variant.bool a.tog_offline)
    let o := o.setOption
      ["options", "ui", "contactlist", "show", "away-contacts"] (Variant.bool a.tog_away)
    let o := o.setOption
      ["options", "ui", "contactlist", "show", "hidden-contacts-group"] (Variant.bool a.tog_hidden)
    let o := o.setOption
      ["options", "ui", "contactlist", "show", "agent-contacts"] (Variant.bool a.tog_agents)
    o.setOption ["options", "ui", "contactlist", "show", "self-contact"] (Variant.bool a.tog_self)
  | none => o

/-- The block `preferences/general/roster`. -/
def migrateRoster (env : Env) (p_roster : XmlNode) (o : OptionsTree) : OptionsTree :=
  let o := migrateBoolEntry p_roster "useleft" ["options", "ui", "contactlist", "use-left-click"] o
  let o := migrateBoolEntry p_roster "singleclick"
    ["options", "ui", "contactlist", "use-single-click"] o
  let hideMenu := readBoolEntry p_roster "hideMenubar" env.uninitHideMenu
  let o := o.setOption ["options", "ui", "contactlist", "show-menubar"] (Variant.bool (!hideMenu))
  let defaultAction := readNumEntry p_roster "defaultAction" env.uninitDefaultAction
  let o := o.setOption ["options", "messages", "default-outgoing-message-type"]
    (Variant.str (if defaultAction = 0 then "message" else "chat"))
  let o := migrateBoolEntry p_roster "useTransportIconsForContacts"
    ["options", "ui", "contactlist", "use-transport-icons"] o
  match p_roster.firstChildElement "sortStyle" with
  | some sorting =>
    let o := migrateStringEntry sorting "contact"
      ["options", "ui", "contactlist", "contact-sort-style"] o
    let o := migrateStringEntry sorting "group"
      ["options", "ui", "contactlist", "group-sort-style"] o
    migrateStringEntry sorting "account" ["options", "ui", "contactlist", "account-sort-style"] o
  | none => o

/-- The block `preferences/general/misc`. -/
def migrateMisc (env : Env) (tag : XmlNode) (o : OptionsTree) : OptionsTree :=
  let delafterint := readNumEntry tag "delChats" env.uninitDelafterint
  let delafter :=
    if delafterint = 0 then "instant"
    else if delafterint = 1 then "hour"
    else if delafterint = 2 then "day"
    else if delafterint = 3 then "never"
    else ""
  let o := o.setOption ["options", "ui", "chat", "delete-contents-after"] (Variant.str delafter)
  let o := migrateBoolEntry tag "alwaysOnTop" ["options", "ui", "contactlist", "always-on-top"] o
  let o := migrateBoolEntry tag "ignoreHeadline" ["options", "messages", "ignore-headlines"] o
  let o := migrateBoolEntry tag "ignoreNonRoster"
    ["options", "messages", "ignore-non-roster-contacts"] o
  let o := migrateBoolEntry tag "excludeGroupChatIgnore"
    ["options", "messages", "exclude-muc-from-ignore"] o
  let o := migrateBoolEntry tag "scrollTo"
    ["options", "ui", "contactlist", "ensure-contact-visible-on-event"] o
  let o := migrateBoolEntry tag "useEmoticons" ["options", "ui", "emoticons", "use-emoticons"] o
  let o := migrateBoolEntry tag "alertOpenChats"
    ["options", "ui", "chat", "alert-for-already-open-chats"] o
  let o := migrateBoolEntry tag "raiseChatWindow"
    ["options", "ui", "chat", "raise-chat-windows-on-new-messages"] o
  let o := migrateBoolEntry tag "showSubjects" ["options", "ui", "message", "show-subjects"] o
  let o := migrateBoolEntry tag "showGroupCounts"
    ["options", "ui", "contactlist", "show-group-counts"] o
  let o := migrateBoolEntry tag "showCounter" ["options", "ui", "message", "show-character-count"] o
  let o := migrateBoolEntry tag "chatSays" ["options", "ui", "chat", "use-chat-says-style"] o
  let o := migrateBoolEntry tag "jidComplete"
    ["options", "ui", "message", "use-jid-auto-completion"] o
  let o := migrateBoolEntry tag "grabUrls"
    ["options", "ui", "message", "auto-grab-urls-from-clipboard"] o
  let o := migrateBoolEntry tag "smallChats" ["options", "ui", "chat", "use-small-chats"] o
  let o := migrateBoolEntry tag "chatLineEdit"
    ["options", "ui", "chat", "use-expanding-line-edit"] o
  let o := migrateBoolEntry tag "useTabs" ["options", "ui", "tabs", "use-tabs"] o
  let o := migrateBoolEntry tag "putTabsAtBottom" ["options", "ui", "tabs", "put-tabs-at-bottom"] o
  let o := migrateBoolEntry tag "autoRosterSize"
    ["options", "ui", "contactlist", "automatically-resize-roster"] o
  let o := migrateBoolEntry tag "autoRosterSizeGrowTop"
    ["options", "ui", "contactlist", "grow-roster-upwards"] o
  let o := migrateBoolEntry tag "autoResolveNicksOnAdd"
    ["options", "contactlist", "resolve-nicks-on-contact-add"] o
  let o := migrateBoolEntry tag "messageEvents" ["options", "messages", "send-composing-events"] o
  let o := migrateBoolEntry tag "inactiveEvents" ["options", "messages", "send-inactivity-events"] o
  let o := migrateStringEntry tag "lastPath" ["options", "ui", "last-used-open-path"] o
  let o := migrateStringEntry tag "lastSavePath" ["options", "ui", "last-used-save-path"] o
  let o := migrateBoolEntry tag "autoCopy" ["options", "ui", "automatically-copy-selected-text"] o
  let o := migrateBoolEntry tag "useCaps"
    ["options", "service-discovery", "enable-entity-capabilities"] o
  let o := migrateBoolEntry tag "rc"
    ["options", "external-control", "adhoc-remote-control", "enable"] o
  -- Migrating for soft return option; the test `!tag.isNull()` always holds here
  let soft := readBoolEntry tag "chatSoftReturn" env.uninitSoft
  let vl :=
    if soft then ["Enter", "Return"]
    else ["Ctrl+Enter", "Ctrl+Return"]
  o.setOption ["options", "shortcuts", "chat", "send"] (Variant.keySeqList vl)

/-- The block `preferences/general`. -/
def migrateGeneral (env : Env) (p_general : XmlNode) (o : OptionsTree) : OptionsTree :=
  let o :=
    match p_general.firstChildElement "roster" with
    | some p_roster => migrateRoster env p_roster o
    | none => o
  let o :=
    match p_general.firstChildElement "misc" with
    | some tag => migrateMisc env tag o
    | none => o
  match p_general.firstChildElement "dock" with
  | some tag =>
    let o := migrateBoolEntry tag "useDock" ["options", "ui", "systemtray", "enable"] o
    let o := migrateBoolEntry tag "dockDCstyle"
      ["options", "ui", "systemtray", "use-double-click"] o
    let o := migrateBoolEntry tag "dockHideMW" ["options", "contactlist", "hide-on-start"] o
    migrateBoolEntry tag "dockToolMW" ["options", "contactlist", "use-toolwindow"] o
  | none => o

/-- Reading `table[index]` of a C array; an index outside the array is an error. -/
def arrayAt (table : List String) (index : Int) : Except String String :=
  if index < 0 then Except.error "array index out of range"
  else
    match table.get? index.toNat with
    | some s => Except.ok s
    | none => Except.error "array index out of range"

/-- The block `preferences/events/receive`. -/
def migrateReceive (tag : XmlNode) (o : OptionsTree) : Except String OptionsTree :=
  let o := migrateBoolEntry tag "popupMsgs" ["options", "ui", "message", "auto-popup"] o
  let o := migrateBoolEntry tag "popupChats" ["options", "ui", "chat", "auto-popup"] o
  let o := migrateBoolEntry tag "popupHeadlines"
    ["options", "ui", "message", "auto-popup-headlines"] o
  let o := migrateBoolEntry tag "popupFiles" ["options", "ui", "file-transfer", "auto-popup"] o
  let o := migrateBoolEntry tag "noAwayPopup"
    ["options", "ui", "notifications", "popup-dialogs", "suppress-while-away"] o
  let o := migrateBoolEntry tag "noUnlistedPopup"
    ["options", "ui", "notifications", "popup-dialogs", "suppress-when-not-on-roster"] o
  let o := migrateBoolEntry tag "raise" ["options", "ui", "contactlist", "raise-on-new-event"] o
  let force := readNumEntry tag "incomingAs" 0
  match arrayAt ["no", "message", "chat", "current-open"] force with
  | Except.ok s => Except.ok (o.setOption
    ["options", "messages", "force-incoming-message-type"] (Variant.str s))
  | Except.error e => Except.error e

/-- The block `preferences/events`. -/
def migrateEvents (env : Env) (p_events : XmlNode) (o : OptionsTree) :
    Except String OptionsTree :=
  let alertstyle := readNumEntry p_events "alertstyle" env.uninitAlertstyle
  match arrayAt ["no", "blink", "animate"] alertstyle with
  | Except.error e => Except.error e
  | Except.ok s =>
    let o := o.setOption ["options", "ui", "notifications", "alert-style"] (Variant.str s)
    let o := migrateBoolEntry p_events "autoAuth"
      ["options", "subscriptions", "automatically-allow-authorization"] o
    let o := migrateBoolEntry p_events "notifyAuth"
      ["options", "ui", "notifications", "successful-subscription"] o
    match p_events.firstChildElement "receive" with
    | some tag => migrateReceive tag o
    | none => Except.ok o

/-- The block `preferences/presence/autostatus`; `use` is one local shared by the three
`use` attributes. -/
def migrateAutostatus (env : Env) (tag : XmlNode) (o : OptionsTree) : OptionsTree :=
  let use := env.uninitUse
  let away := tag.firstChildElement "away"
  let use :=
    match away with
    | some e => if e.hasAttribute "use" then readBoolAttribute e "use" use else use
    | none => use
  let o :=
    match away with
    | some e =>
      if e.hasAttribute "use" then o.setOption
        ["options", "status", "auto-away", "use-away"] (Variant.bool use)
      else o
    | none => o
  let xa := tag.firstChildElement "xa"
  let use :=
    match xa with
    | some e => if e.hasAttribute "use" then readBoolAttribute e "use" use else use
    | none => use
  let o :=
    match xa with
    | some _ => o.setOption
      ["options", "status", "auto-away", "use-not-availible"] (Variant.bool use)
    | none => o
  let offline := tag.firstChildElement "offline"
  let use :=
    match offline with
    | some e => if e.hasAttribute "use" then readBoolAttribute e "use" use else use
    | none => use
  let o :=
    match offline with
    | some _ => o.setOption ["options", "status", "auto-away", "use-offline"] (Variant.bool use)
    | none => o
  let o := migrateIntEntry tag "away" ["options", "status", "auto-away", "away-after"] o
  let o := migrateIntEntry tag "xa" ["options", "status", "auto-away", "not-availible-after"] o
  let o := migrateIntEntry tag "offline" ["options", "status", "auto-away", "offline-after"] o
  migrateStringEntry tag "message" ["options", "status", "auto-away", "message"] o

/-- The status presets of a `statuspresets` element, keyed by name; presets with an empty
name are skipped. -/
def parseStatusPresets (env : Env) (tag : XmlNode) : QMap StatusPreset :=
  tag.children.foldl
    (fun m n =>
      let preset := env.statusPresetFromXml (if n.isElem then some n else none)
      if !preset.name.isEmpty then QMap.insert preset.name preset m else m)
    []

/-- The block `preferences/presence`, option store side. -/
def migratePresence (env : Env) (p_pres : XmlNode) (o : OptionsTree) : OptionsTree :=
  let o :=
    match p_pres.firstChildElement "misc" with
    | some tag =>
      let o := migrateBoolEntry tag "askOnline"
        ["options", "status", "ask-for-message-on-online"] o
      let o := migrateBoolEntry tag "askOffline"
        ["options", "status", "ask-for-message-on-offline"] o
      let o := migrateBoolEntry tag "rosterAnim"
        ["options", "ui", "contactlist", "use-status-change-animation"] o
      let o := migrateBoolEntry tag "autoVCardOnLogin"
        ["options", "vcard", "query-own-vcard-on-login"] o
      migrateBoolEntry tag "xmlConsoleOnLogin" ["options", "xml-console", "enable-at-login"] o
    | none => o
  match p_pres.firstChildElement "autostatus" with
  | some tag => migrateAutostatus env tag o
  | none => o

/-- The block `preferences/presence`, status presets. -/
def migratePresenceLate (env : Env) (p_pres : XmlNode) (late : LateMigrationData) :
    LateMigrationData :=
  match p_pres.firstChildElement "statuspresets" with
  | some tag => { late with sp := parseStatusPresets env tag }
  | none => late

/-- The block `preferences/lookandfeel`. -/
def migrateLookAndFeel (env : Env) (p_lnf : XmlNode) (o : OptionsTree) : OptionsTree :=
  let o := migrateBoolEntry p_lnf "newHeadings"
    ["options", "ui", "look", "contactlist", "use-slim-group-headings"] o
  let o := migrateBoolEntry p_lnf "outline-headings"
    ["options", "ui", "look", "contactlist", "use-outlined-group-headings"] o
  let o := migrateIntEntry p_lnf "chat-opacity" ["options", "ui", "chat", "opacity"] o
  let o := migrateIntEntry p_lnf "roster-opacity" ["options", "ui", "contactlist", "opacity"] o
  let o :=
    match p_lnf.firstChildElement "colors" with
    | some tag =>
      let o := migrateColorEntry env.namedColor tag "online"
        ["options", "ui", "look", "colors", "contactlist", "status", "online"] o
      let o := migrateColorEntry env.namedColor tag "listback"
        ["options", "ui", "look", "colors", "contactlist", "background"] o
      let o := migrateColorEntry env.namedColor tag "away"
        ["options", "ui", "look", "colors", "contactlist", "status", "away"] o
      let o := migrateColorEntry env.namedColor tag "dnd"
        ["options", "ui", "look", "colors", "contactlist", "status", "do-not-disturb"] o
      let o := migrateColorEntry env.namedColor tag "offline"
        ["options", "ui", "look", "colors", "contactlist", "status", "offline"] o
      let o := migrateColorEntry env.namedColor tag "status"
        ["options", "ui", "look", "colors", "contactlist", "status-messages"] o
      let o := migrateColorEntry env.namedColor tag "groupfore"
        ["options", "ui", "look", "colors", "contactlist", "grouping", "header-foreground"] o
      let o := migrateColorEntry env.namedColor tag "groupback"
        ["options", "ui", "look", "colors", "contactlist", "grouping", "header-background"] o
      let o := migrateColorEntry env.namedColor tag "profilefore"
        ["options", "ui", "look", "colors", "contactlist", "profile", "header-foreground"] o
      let o := migrateColorEntry env.namedColor tag "profileback"
        ["options", "ui", "look", "colors", "contactlist", "profile", "header-background"] o
      let o := migrateColorEntry env.namedColor tag "animfront"
        ["options", "ui", "look", "colors", "contactlist", "status-change-animation1"] o
      migrateColorEntry env.namedColor tag "animback"
        ["options", "ui", "look", "colors", "contactlist", "status-change-animation2"] o
    | none => o
  match p_lnf.firstChildElement "fonts" with
  | some tag =>
    let o := migrateStringEntry tag "roster" ["options", "ui", "look", "font", "contactlist"] o
    let o := migrateStringEntry tag "message" ["options", "ui", "look", "font", "message"] o
    let o := migrateStringEntry tag "chat" ["options", "ui", "look", "font", "chat"] o
    migrateStringEntry tag "popup" ["options", "ui", "look", "font", "passive-popup"] o
  | none => o

/-- The block `preferences/sound`. -/
def migrateSound (env : Env) (p_sound : XmlNode) (o : OptionsTree) : OptionsTree :=
  let oldplayer := readEntry p_sound "player" ""
  -- psi now auto detects "play" or "aplay"
  let o :=
    if oldplayer ≠ env.soundDetectPlayer ∧ oldplayer ≠ "play" then
      o.setOption
        ["options", "ui", "notifications", "sounds", "unix-sound-player"] (Variant.str oldplayer)
    else
      o.setOption ["options", "ui", "notifications", "sounds", "unix-sound-player"] (Variant.str "")
  let o := migrateBoolEntry p_sound "noawaysound"
    ["options", "ui", "notifications", "sounds", "silent-while-away"] o
  let noGCSound := readBoolEntry p_sound "noGCSound" env.uninitNoGCSound
  let o := o.setOption
    ["options", "ui", "notifications", "sounds", "notify-every-muc-message"] (Variant.bool (!noGCSound))
  match p_sound.firstChildElement "onevent" with
  | some tag =>
    let o := migrateStringEntry tag "message"
      ["options", "ui", "notifications", "sounds", "incoming-message"] o
    let o := migrateStringEntry tag "chat1"
      ["options", "ui", "notifications", "sounds", "new-chat"] o
    let o := migrateStringEntry tag "chat2"
      ["options", "ui", "notifications", "sounds", "chat-message"] o
    let o := migrateStringEntry tag "system"
      ["options", "ui", "notifications", "sounds", "system-message"] o
    let o := migrateStringEntry tag "headline"
      ["options", "ui", "notifications", "sounds", "incoming-headline"] o
    let o := migrateStringEntry tag "online"
      ["options", "ui", "notifications", "sounds", "contact-online"] o
    let o := migrateStringEntry tag "offline"
      ["options", "ui", "notifications", "sounds", "contact-offline"] o
    let o := migrateStringEntry tag "send"
      ["options", "ui", "notifications", "sounds", "outgoing-chat"] o
    let o := migrateStringEntry tag "incoming_ft"
      ["options", "ui", "notifications", "sounds", "incoming-file-transfer"] o
    migrateStringEntry tag "ft_complete"
      ["options", "ui", "notifications", "sounds", "completed-file-transfer"] o
  | none => o

/-- The state of the toolbar loop: the toolbar map, the two flags and the number of
toolbar records built so far. -/
structure ToolbarLoop where
  toolbars : QMap (List ToolbarPrefs)
  mainWinCleared : Bool
  oldStyle : Bool
  built : Nat
deriving DecidableEq, Repr, Inhabited

/-- One round of the loop over the children of `preferences/toolbars`. -/
def toolbarStep (env : Env) (s : ToolbarLoop) (e : XmlNode) : ToolbarLoop :=
  let goodTags := ["toolbar", "mainWin"]
  match goodTags.find? (fun it => qLeft e.tagName it.length = it) with
  | none => s
  | some it =>
    let flat := decide (qLeft e.tagName 7 = "toolbar")
    let tbGroup := if flat then "mainWin" else it
    let oldStyle := if flat then s.oldStyle else false
    let clear := decide (tbGroup ≠ "mainWin") || !s.mainWinCleared
    let toolbars := if clear then QMap.insert tbGroup [] s.toolbars else s.toolbars
    let mainWinCleared :=
      if clear && decide (tbGroup = "mainWin") then true else s.mainWinCleared
    if oldStyle then
      let tb := loadToolbarData (env.toolbarUuid s.built) e
      { toolbars := QMap.insert tbGroup (QMap.value toolbars tbGroup ++ [tb]) toolbars
        mainWinCleared := mainWinCleared
        oldStyle := oldStyle
        built := s.built + 1 }
    else
      let inner := e.childElements.filter (fun ee => ee.tagName = "toolbar")
      let tbs := inner.enum.map (fun iee => loadToolbarData (env.toolbarUuid (s.built + iee.1)) iee.2)
      { toolbars :=
          if inner.isEmpty then toolbars
          else QMap.insert tbGroup (QMap.value toolbars tbGroup ++ tbs) toolbars
        mainWinCleared := mainWinCleared
        oldStyle := oldStyle
        built := s.built + inner.length }

/-- The block `preferences/toolbars`. -/
def migrateToolbars (env : Env) (progver : String) (p_toolbars : XmlNode)
    (toolbars : QMap (List ToolbarPrefs)) : QMap (List ToolbarPrefs) :=
  let s := p_toolbars.childElements.foldl (toolbarStep env)
    { toolbars := toolbars, mainWinCleared := false, oldStyle := true, built := 0 }
  -- event notifier in these versions was not implemented as an action, so add it
  if progver = "0.9" ∨ progver = "0.9-CVS" then
    let mainWin := QMap.value s.toolbars "mainWin"
    let toolbars := QMap.insert "mainWin" mainWin s.toolbars
    let found := mainWin.any (fun tb => tb.keys.any (fun k => k = "event_notifier"))
    if !found then
      let tb := { ToolbarPrefs.init (env.toolbarUuid s.built) with
        name := env.trEventNotifier
        isOn := false
        locked := true
        keys := ["event_notifier"]
        dock := Qt3Dock_Bottom }
      QMap.insert "mainWin" (mainWin ++ [tb]) toolbars
    else toolbars
  else s.toolbars

/-- The block `preferences/popups`. -/
def migratePopups (env : Env) (p_popup : XmlNode) (o : OptionsTree) : OptionsTree :=
  let o := migrateBoolEntry p_popup "on"
    ["options", "ui", "notifications", "passive-popups", "enabled"] o
  let o := migrateBoolEntry p_popup "online"
    ["options", "ui", "notifications", "passive-popups", "status", "online"] o
  let o := migrateBoolEntry p_popup "offline"
    ["options", "ui", "notifications", "passive-popups", "status", "offline"] o
  let o := migrateBoolEntry p_popup "statusChange"
    ["options", "ui", "notifications", "passive-popups", "status", "other-changes"] o
  let o := migrateBoolEntry p_popup "message"
    ["options", "ui", "notifications", "passive-popups", "incoming-message"] o
  let o := migrateBoolEntry p_popup "chat"
    ["options", "ui", "notifications", "passive-popups", "incoming-chat"] o
  let o := migrateBoolEntry p_popup "headline"
    ["options", "ui", "notifications", "passive-popups", "incoming-headline"] o
  let o := migrateBoolEntry p_popup "file"
    ["options", "ui", "notifications", "passive-popups", "incoming-file-transfer"] o
  let o := migrateIntEntry p_popup "jidClip"
    ["options", "ui", "notifications", "passive-popups", "maximum-jid-length"] o
  let o := migrateIntEntry p_popup "statusClip"
    ["options", "ui", "notifications", "passive-popups", "maximum-status-length"] o
  let o := migrateIntEntry p_popup "textClip"
    ["options", "ui", "notifications", "passive-popups", "maximum-text-length"] o
  let o := migrateIntEntry p_popup "hideTime"
    ["options", "ui", "notifications", "passive-popups", "duration"] o
  migrateColorEntry env.namedColor p_popup "borderColor"
    ["options", "ui", "look", "colors", "passive-popup", "border"] o

/-- The map built from the child elements of a `service` or `custom` icon set element,
keyed by the attribute `keyAttr`. -/
def parseIconsetMap (keyAttr : String) (e : XmlNode) : QMap String :=
  e.childElements.foldl
    (fun m i => QMap.insert (i.attributeValue keyAttr) (i.attributeValue "iconset") m) []

/-- The block `preferences/iconset`, option store side. -/
def migrateIconset (p_iconset : XmlNode) (o : OptionsTree) : OptionsTree :=
  let o := migrateStringEntry p_iconset "system" ["options", "iconsets", "system"] o
  let o :=
    match p_iconset.firstChildElement "roster" with
    | some roster => migrateStringEntry roster "default" ["options", "iconsets", "status"] o
    | none => o
  match p_iconset.firstChildElement "emoticons" with
  | some emoticons =>
    let emoticons_list :=
      (emoticons.childElements.filter (fun i => i.tagName = "item")).map XmlNode.allText
    o.setOption ["options", "iconsets", "emoticons"] (Variant.strList emoticons_list)
  | none => o

/-- The block `preferences/iconset`, the service and custom icon set maps. -/
def migrateIconsetLate (p_iconset : XmlNode) (late : LateMigrationData) : LateMigrationData :=
  match p_iconset.firstChildElement "roster" with
  | some roster =>
    let late :=
      match roster.firstChildElement "service" with
      | some service => { late with serviceRosterIconset := parseIconsetMap "service" service }
      | none => late
    match roster.firstChildElement "custom" with
    | some custom => { late with customRosterIconset := parseIconsetMap "regExp" custom }
    | none => late
  | none => late

/-- The block `preferences/globalAccel`. -/
def migrateGlobalAccel (env : Env) (p_globalAccel : XmlNode) (o : OptionsTree) : OptionsTree :=
  (p_globalAccel.childElements.filter
      (fun i => i.tagName = "command" && i.hasAttribute "type")).foldl
    (fun o i =>
      let k := Variant.keySeq (env.keySequence i.allText)
      let shortcut :=
        if i.attributeValue "type" = "processNextEvent" then "event" else "toggle-visibility"
      o.setOption (["options", "shortcuts", "global"] ++ [shortcut]) k)
    o

/-- The block `preferences/advancedWidget`. -/
def migrateAdvancedWidget (env : Env) (p_advWidget : XmlNode) (stick : StickSettings) :
    StickSettings :=
  match p_advWidget.firstChildElement "sticky" with
  | some stick =>
    { enabled := readBoolAttribute stick "enabled" env.uninitStickEnabled
      offs := readNumEntry stick "offset" env.uninitStickOffs
      toWindows := readBoolEntry stick "stickToWindows" env.uninitStickToWindows }
  | none => stick

/-- The blocks of `preferences` after `events`, option store side. -/
def migratePreferencesRest (env : Env) (p : XmlNode) (o : OptionsTree) : OptionsTree :=
  let o :=
    match p.firstChildElement "presence" with
    | some p_pres => migratePresence env p_pres o
    | none => o
  let o :=
    match p.firstChildElement "lookandfeel" with
    | some p_lnf => migrateLookAndFeel env p_lnf o
    | none => o
  let o :=
    match p.firstChildElement "sound" with
    | some p_sound => migrateSound env p_sound o
    | none => o
  let o :=
    match p.firstChildElement "sizes" with
    | some p_sizes =>
      let o := migrateSizeEntry p_sizes "eventdlg" ["options", "ui", "message", "size"] o
      let o := migrateSizeEntry p_sizes "chatdlg" ["options", "ui", "chat", "size"] o
      migrateSizeEntry p_sizes "tabdlg" ["options", "ui", "tabs", "size"] o
    | none => o
  -- group chat
  let o :=
    match p.firstChildElement "groupchat" with
    | some p_groupchat =>
      let o := migrateBoolEntry p_groupchat "nickcoloring"
        ["options", "ui", "muc", "use-nick-coloring"] o
      let o := migrateBoolEntry p_groupchat "highlighting"
        ["options", "ui", "muc", "use-highlighting"] o
      let o := migrateStringList p_groupchat "highlightwords"
        ["options", "ui", "muc", "highlight-words"] o
      migrateStringList p_groupchat "nickcolors"
        ["options", "ui", "look", "colors", "muc", "nick-colors"] o
    | none => o
  -- Bouncing dock icon (Mac OS X)
  let o :=
    match p.firstChildElement "dock" with
    | some p_dock =>
      o.setOption
        ["options", "ui", "notifications", "bounce-dock"] (Variant.str (p_dock.attributeValue "bounce"))
    | none => o
  let o :=
    match p.firstChildElement "popups" with
    | some p_popup => migratePopups env p_popup o
    | none => o
  let o :=
    match p.firstChildElement "lockdown" with
    | some p_lockdown =>
      let o := migrateBoolEntry p_lockdown "roster"
        ["options", "ui", "contactlist", "lockdown-roster"] o
      migrateBoolEntry p_lockdown "services"
        ["options", "ui", "contactlist", "disable-service-discovery"] o
    | none => o
  let o :=
    match p.firstChildElement "iconset" with
    | some p_iconset => migrateIconset p_iconset o
    | none => o
  let o :=
    match p.firstChildElement "tipOfTheDay" with
    | some p_tip =>
      let o := migrateIntEntry p_tip "num" ["options", "ui", "tip", "number"] o
      migrateBoolEntry p_tip "show" ["options", "ui", "tip", "show"] o
    | none => o
  let o :=
    match p.firstChildElement "disco" with
    | some p_disco =>
      let o := migrateBoolEntry p_disco "items"
        ["options", "ui", "service-discovery", "automatically-get-items"] o
      migrateBoolEntry p_disco "info"
        ["options", "ui", "service-discovery", "automatically-get-info"] o
    | none => o
  let o :=
    match p.firstChildElement "dt" with
    | some p_dt =>
      let o := migrateIntEntry p_dt "port" ["options", "p2p", "bytestreams", "listen-port"] o
      migrateStringEntry p_dt "external" ["options", "p2p", "bytestreams", "external-address"] o
    | none => o
  match p.firstChildElement "globalAccel" with
  | some p_globalAccel => migrateGlobalAccel env p_globalAccel o
  | none => o

/-- The data `preferences` leaves for `lateMigration`: status presets, toolbars and icon
set maps. -/
def migratePreferencesLate (env : Env) (progver : String) (p : XmlNode)
    (late : LateMigrationData) : LateMigrationData :=
  let late :=
    match p.firstChildElement "presence" with
    | some p_pres => migratePresenceLate env p_pres late
    | none => late
  let late :=
    match p.firstChildElement "toolbars" with
    | some p_toolbars =>
      { late with toolbars := migrateToolbars env progver p_toolbars late.toolbars }
    | none => late
  match p.firstChildElement "iconset" with
  | some p_iconset => migrateIconsetLate p_iconset late
  | none => late

/-- The sticky window settings `preferences` installs. -/
def migratePreferencesStick (env : Env) (p : XmlNode) (stick : StickSettings) : StickSettings :=
  match p.firstChildElement "advancedWidget" with
  | some p_advWidget => migrateAdvancedWidget env p_advWidget stick
  | none => stick

/-- The block `preferences`. The option store is written block by block; the deferred
data and the sticky window settings are gathered beside it. -/
def migratePreferences (env : Env) (progver : String) (p : XmlNode) (st : MigrationState) :
    Except String MigrationState :=
  let o :=
    match p.firstChildElement "general" with
    | some p_general => migrateGeneral env p_general st.options
    | none => st.options
  let events : Except String OptionsTree :=
    match p.firstChildElement "events" with
    | some p_events => migrateEvents env p_events o
    | none => Except.ok o
  match events with
  | Except.error e => Except.error e
  | Except.ok o =>
    Except.ok
      { st with
        options := migratePreferencesRest env p o
        lateMigrationData := migratePreferencesLate env progver p st.lateMigrationData
        stick := migratePreferencesStick env p st.stick }

/-- The top level entries `fromFile` migrates first. -/
def migrateTopLevel (base : XmlNode) (o : OptionsTree) : OptionsTree :=
  let o := migrateStringList base "recentGCList" ["options", "muc", "recent-joins", "jids"] o
  let o := migrateStringList base "recentBrowseList"
    ["options", "ui", "service-discovery", "recent-jids"] o
  let o := migrateStringEntry base "lastStatusString" ["options", "status", "last-message"] o
  migrateBoolEntry base "useSound" ["options", "ui", "notifications", "sounds", "enable"] o

/-- The body of `fromFile` once the header of the document is accepted. -/
def migrateDocument (env : Env) (base : XmlNode) (st : MigrationState) :
    Except String MigrationState :=
  let progver := readEntry base "progver" ""
  let o := migrateTopLevel base st.options
  let accs := st.accMigration ++ documentAccounts env base
  -- convert old proxy config into new
  let converted := convertProxies env accs st.proxyMigration
  let proxies := converted.2 ++ parseProxies env base
  -- assign storage IDs to proxies and update accounts
  let proxies := assignProxyIds proxies
  match updateAccountProxies proxies converted.1 with
  | Except.error e => Except.error e
  | Except.ok accs =>
    let o := migrateToggles accs o
    let st := { st with options := o, accMigration := accs, proxyMigration := proxies }
    match base.firstChildElement "preferences" with
    | some p => migratePreferences env progver p st
    | none => Except.ok st

/-- `OptionsMigration::fromFile(fname)`: `doc` is the document `AtomicXmlFile` loads from
the file, `none` when loading fails. The result is the returned flag and the state left
behind; an error stands for an access outside an array or list. -/
def fromFile (env : Env) (doc : Option XmlNode) (st : MigrationState) :
    Except String (Bool × MigrationState) :=
  match doc with
  | none => Except.ok (false, st)
  | some base =>
    if base.tagName ≠ "psiconf" then Except.ok (false, st)
    else
      let confver := base.attributeValue "version"
      if confver ≠ "1.0" then Except.ok (false, st)
      else
        match migrateDocument env base st with
        | Except.ok st => Except.ok (true, st)
        | Except.error e => Except.error e

/-! ## OptionsMigration::lateMigration -/

/-- Modelled from the spec: `PsiToolBar::structToOptions`, which stores a toolbar record
in the map `options.ui.contactlist.toolbars` under its id; `lateMigration` reads the same
layout back. -/
def structToOptions (o : OptionsTree) (tb : ToolbarPrefs) : OptionsTree :=
  let put := o.mapPut ["options", "ui", "contactlist", "toolbars"] (Variant.str tb.id)
  let base := put.1
  let o := put.2
  let o := o.setOption (base ++ ["name"]) (Variant.str tb.name)
  let o := o.setOption (base ++ ["visible"]) (Variant.bool tb.isOn)
  let o := o.setOption (base ++ ["locked"]) (Variant.bool tb.locked)
  let o := o.setOption (base ++ ["actions"]) (Variant.strList tb.keys)
  let o := o.setOption (base ++ ["dock", "position"]) (Variant.int tb.dock)
  o.setOption (base ++ ["dock", "nl"]) (Variant.bool tb.nl)

/-- `QList::indexOf(value)`: the position of the first occurrence, or `-1`. -/
def qIndexOf (l : List String) (s : String) : Int :=
  match l.indexOf? s with
  | some i => (i : Int)
  | none => -1

/-- `QList::removeAt(i)`: an index outside the list removes nothing. -/
def qRemoveAt (l : List String) (i : Int) : List String :=
  if 0 ≤ i ∧ i < (l.length : Int) then l.eraseIdx i.toNat else l

/-- The action keys contributed by the available plugins. -/
def pluginsKeys (env : Env) : List String :=
  if env.havePlugins then env.availablePlugins.map (fun plugin => env.pluginShortName plugin ++ "-plugin")
  else []

/-- The default `Chat` toolbar synthesized by `lateMigration`. -/
def chatToolbar (env : Env) (o : OptionsTree) : ToolbarPrefs :=
  let keys := ["chat_clear", "chat_find", "chat_html_text", "chat_add_contact"] ++
    pluginsKeys env ++
    ["spacer", "chat_icon", "chat_file", "chat_pgp", "chat_info", "chat_history", "chat_voice",
      "chat_active_contacts"]
  let keys :=
    if (o.getOption ["options", "ui", "chat", "disable-paste-send"]).toBool then
      qRemoveAt keys (qIndexOf keys "chat_ps")
    else keys
  { ToolbarPrefs.init env.chatToolbarUuid with
    isOn := (o.getOption ["options", "ui", "chat", "central-toolbar"]).toBool
    name := "Chat"
    keys := keys }

/-- The default `Groupchat` toolbar synthesized by `lateMigration`; `isOn` is the flag of
the chat toolbar. -/
def groupchatToolbar (env : Env) (o : OptionsTree) (isOn : Bool) : ToolbarPrefs :=
  let keys := ["gchat_clear", "gchat_find", "gchat_html_text", "gchat_configure"] ++
    pluginsKeys env ++ ["spacer", "gchat_icon"]
  let keys :=
    if (o.getOption ["options", "ui", "chat", "disable-paste-send"]).toBool then
      qRemoveAt keys (qIndexOf keys "gchat_ps")
    else keys
  { ToolbarPrefs.init env.groupchatToolbarUuid with
    isOn := isOn
    name := "Groupchat"
    keys := keys }

/-- The toolbar record stored under `base`, or `none` when the node does not look like a
toolbar. -/
def toolbarFromOptions (o : OptionsTree) (base : OptPath) : Option ToolbarPrefs :=
  let id := (o.getOption (base ++ ["key"])).toQString
  let name := (o.getOption (base ++ ["name"])).toQString
  if id.isEmpty || name.isEmpty then none
  else
    some
      { id := id
        name := name
        isOn := (o.getOption (base ++ ["visible"])).toBool
        locked := (o.getOption (base ++ ["locked"])).toBool
        dock := (o.getOption (base ++ ["dock", "position"])).toInt
        nl := (o.getOption (base ++ ["dock", "nl"])).toBool
        keys := (o.getOption (base ++ ["actions"])).toStringList }

/-- The first block of `lateMigration`: unless the first toolbar is already `Chat`, the
default chat and groupchat toolbars are put in front of the stored ones. -/
def addDefaultToolbars (env : Env) (o : OptionsTree) : OptionsTree :=
  if (o.getOption
    ["options", "ui", "contactlist", "toolbars", "m0", "name"]).toQString ≠ "Chat" then
    let chat := chatToolbar env o
    let o1 := o.removeOption ["options", "ui", "chat", "central-toolbar"]
    let groupchat := groupchatToolbar env o1 chat.isOn
    let o2 := o1.removeOption ["options", "ui", "chat", "disable-paste-send"]
    let toolbarBases := o2.getChildOptionNames
      ["options", "ui", "contactlist", "toolbars"] true true
    let toolbars := [chat, groupchat] ++ toolbarBases.filterMap (toolbarFromOptions o2)
    let o3 := o2.removeOption ["options", "ui", "contactlist", "toolbars"] true
    toolbars.foldl (fun o tb => structToOptions o { tb with locked := true }) o3
  else o

/-- Whether `lateMigration` finds its work already done: some option name starts with one
of the three map prefixes. -/
def alreadyMigrated (o : OptionsTree) : Bool :=
  o.allOptionNames.any (fun opt =>
    (["options", "status", "presets"].isPrefixOf opt && decide (3 < opt.length)) ||
    (["options", "iconsets", "service-status"].isPrefixOf opt && decide (3 < opt.length)) ||
    (["options", "iconsets", "custom-status"].isPrefixOf opt && decide (3 < opt.length)))

/-- The loop writing `serviceRosterIconset` to the store. -/
def serviceIconsetsToOptions : List (String × String) → OptionsTree → OptionsTree
  | [], o => o
  | kv :: rest, o =>
    let put := o.mapPut ["options", "iconsets", "service-status"] (Variant.str kv.1)
    serviceIconsetsToOptions rest (put.2.setOption (put.1 ++ ["iconset"]) (Variant.str kv.2))

/-- The loop writing `customRosterIconset` to the store, entry `idx`, `idx + 1`, ... -/
def customIconsetsToOptions : List (String × String) → Nat → OptionsTree → OptionsTree
  | [], _, o => o
  | kv :: rest, idx, o =>
    let base := ["options", "iconsets", "custom-status"] ++ ["a" ++ toString idx]
    let o := o.setOption (base ++ ["regexp"]) (Variant.str kv.1)
    let o := o.setOption (base ++ ["iconset"]) (Variant.str kv.2)
    customIconsetsToOptions rest (idx + 1) o

/-- The part of `lateMigration` after the test for an earlier migration. -/
def flushLateData (env : Env) (late : LateMigrationData) (o : OptionsTree) : OptionsTree :=
  let o := serviceIconsetsToOptions late.serviceRosterIconset o
  let o := customIconsetsToOptions late.customRosterIconset 0 o
  let o := (QMap.values late.sp).foldl (fun o sp => env.statusPresetToOptions sp o) o
  let mainWin := QMap.value late.toolbars "mainWin"
  let toolbars := if env.qVersionInt ≥ 0x040300 then mainWin else mainWin.reverse
  let o := toolbars.foldl structToOptions o
  -- 2016-02-09 touches Psi+ users. but let it be here for awhile
  if (o.getOptionD ["options", "contactlist", "use-autohide"] (Variant.bool false)).toBool then
    let o := o.setOption ["options", "contactlist", "autohide-interval"] (Variant.int 0)
    o.removeOption ["options", "contactlist", "use-autohide"]
  else o

/-- `OptionsMigration::lateMigration()`. -/
def lateMigration (env : Env) (st : MigrationState) : MigrationState :=
  -- Add default chat and groupchat toolbars
  let o := addDefaultToolbars env st.options
  if alreadyMigrated o then { st with options := o }
  else
    let late := st.lateMigrationData
    { st with
      options := flushLateData env late o
      lateMigrationData :=
        { late with
          toolbars := QMap.insert "mainWin" (QMap.value late.toolbars "mainWin") late.toolbars } }

/-! ## Sample collaborators and inputs -/

/-- A concrete choice of the collaborators, for evaluating the code on sample inputs:
passwords are stored as they are, there is no PGP support and there are no plugins. -/
def sampleEnv : Env :=
  { appName := "Psi"
    decodePassword := fun pass _ => pass
    encodePassword := fun pass _ => pass
    havePgpUtil := false
    getSecretKey := fun _ => none
    jidFromString := fun s => ⟨s⟩
    subscriptionFromString := fun s => ⟨s⟩
    statusTypeString := fun s => s
    statusIsAvailable := fun s => decide (s ≠ "offline")
    rosterItemFromXml := fun _ => none
    varListFromXml := fun _ v => v
    varListToOptions := fun _ o _ => o
    varListFromOptions := fun v _ _ => v
    trGeneral := "General"
    trAgents := "Agents/Transports"
    trProxyName := fun name => name ++ " Proxy"
    trEventNotifier := "Event notifier"
    proxySettingsFromXml := fun _ s => s
    statusPresetFromXml := fun _ => ⟨"", "", "", none⟩
    statusPresetToOptions := fun _ o => o
    namedColor := fun s => if s.isEmpty then none else some s
    soundDetectPlayer := "play"
    keySequence := fun s => s
    qVersionInt := 0x040800
    havePlugins := false
    availablePlugins := []
    pluginShortName := fun s => s
    accountUuid := fun i => "account-" ++ toString i
    toolbarUuid := fun i => "toolbar-" ++ toString i
    chatToolbarUuid := "toolbar-chat"
    groupchatToolbarUuid := "toolbar-groupchat"
    uninitHideMenu := false
    uninitDefaultAction := 0
    uninitDelafterint := 0
    uninitSoft := false
    uninitAlertstyle := 0
    uninitUse := false
    uninitNoGCSound := false
    uninitStickEnabled := false
    uninitStickOffs := 0
    uninitStickToWindows := false }

/-- The state of a freshly constructed `OptionsMigration` over the store `o`. -/
def MigrationState.fresh (o : OptionsTree) : MigrationState :=
  { options := o
    accMigration := []
    proxyMigration := []
    lateMigrationData :=
      { serviceRosterIconset := [], customRosterIconset := [], sp := [], toolbars := [] }
    stick := { enabled := false, offs := 0, toWindows := false } }

/-- Whether a loaded document passes the header test of `fromFile`: it loaded, its root
is `psiconf` and it carries the attribute `version` with the value `1.0`. -/
def headerValid : Option XmlNode → Bool
  | none => false
  | some base =>
    decide (base.tagName = "psiconf") && base.hasAttribute "version" &&
      decide (base.attributeValue "version" = "1.0")

/-- A store seeded with two options, for sample runs. -/
def sampleStore : OptionsTree :=
  ⟨[(["options", "ui", "chat", "opacity"], Variant.int 90),
    (["options", "status", "last-message"], Variant.str "away from keyboard")]⟩

/-- The proxies `fromFile` derives from the legacy proxy fields of the accounts of the
document (those with `proxy_type > 0`), in account order and before ids are assigned. -/
def inlineProxies (env : Env) (base : XmlNode) : List ProxyItem :=
  ((documentAccounts env base).filter (fun a => decide (a.proxy_type > 0))).map
    (inlineProxy env)

/-- The state `fromFile` leaves behind when it returns, and the state it was given when it
does not. -/
def fromFileState (env : Env) (doc : Option XmlNode) (st : MigrationState) : MigrationState :=
  match fromFile env doc st with
  | Except.ok r => r.2
  | Except.error _ => st

/-- A legacy document with two accounts and a standalone proxy list: the first account
carries an inline proxy, the second points at the first proxy of the list. -/
def sampleDocument : XmlNode :=
  XmlNode.elem "psiconf" [("version", "1.0")]
    [XmlNode.textElem "progver" [] "0.10",
     XmlNode.elem "accounts" []
       [XmlNode.elem "account" [("enabled", "true")]
          [XmlNode.textElem "name" [] "Home",
           XmlNode.textElem "jid" [("manual", "false")] "alice@example.org",
           XmlNode.textElem "proxytype" [] "1",
           XmlNode.textElem "proxyhost" [] "inline.example.org",
           XmlNode.textElem "proxyport" [] "3128"],
        XmlNode.elem "account" [("enabled", "true")]
          [XmlNode.textElem "name" [] "Work",
           XmlNode.textElem "jid" [("manual", "false")] "alice@example.com",
           XmlNode.textElem "proxyindex" [] "1"]],
     XmlNode.elem "proxies" []
       [XmlNode.elem "proxy" []
          [XmlNode.textElem "name" [] "Office",
           XmlNode.textElem "type" [] "0"]]]

/-- The legacy document of the example: one account with the inline proxy
`proxy.example.com:1080` and the proxy user `bob`, and no standalone proxy list. -/
def sampleProxyDocument : XmlNode :=
  XmlNode.elem "psiconf" [("version", "1.0")]
    [XmlNode.elem "accounts" []
       [XmlNode.elem "account" []
          [XmlNode.textElem "name" [] "Home",
           XmlNode.textElem "jid" [] "alice@example.org",
           XmlNode.textElem "proxytype" [] "1",
           XmlNode.textElem "proxyhost" [] "proxy.example.com",
           XmlNode.textElem "proxyport" [] "1080",
           XmlNode.textElem "proxyuser" [] "bob"]]]

/-- The account of `sampleProxyDocument`, as `fromXml` reads it. -/
def sampleProxyAccount : UserAccount :=
  (documentAccounts sampleEnv sampleProxyDocument).headD UserAccount.blank

/-- The fields of an account that the legacy Jabber id encodings decide. -/
def UserAccount.jidTuple (u : UserAccount) : String × String × Int × Bool :=
  (u.jid, u.host, u.port, u.opt_host)

/-- An account element in the `jid` encoding, for a sample run. -/
def sampleJidAccount : XmlNode :=
  XmlNode.elem "account" [("enabled", "true")]
    ([XmlNode.textElem "name" [] "Home"] ++
      [XmlNode.textElem "jid" [("manual", "true")] ("alice" ++ "@" ++ "example.org")] ++
      [XmlNode.textElem "host" [] "talk.example.org", XmlNode.textElem "port" [] "5223"])

/-- The same account in the `username` and `vhost` encoding. -/
def sampleVhostAccount : XmlNode :=
  XmlNode.elem "account" [("enabled", "true")]
    ([XmlNode.textElem "name" [] "Home"] ++
      [XmlNode.textElem "username" [] "alice",
        XmlNode.textElem "vhost" [("manual", "true")] "example.org"] ++
      [XmlNode.textElem "host" [] "talk.example.org", XmlNode.textElem "port" [] "5223"])

/-- Value of a digit list read left to right, starting from `acc`. -/
def digitsValue (acc : Nat) (l : List Char) : Nat :=
  l.foldl (fun a c => a * 10 + (c.toNat - 48)) acc

/-- The options of the store at or below the path `p`, in store order. -/
def OptionsTree.sub (o : OptionsTree) (p : OptPath) : OptionsTree :=
  ⟨o.entries.filter (fun e => p.isPrefixOf e.1)⟩

/-- The store `o'` holds, outside the paths selected by `K`, the same options as `o`, in
the same order. -/
def OptionsTree.AgreeOutside (K : OptPath → Bool) (o o' : OptionsTree) : Prop :=
  o'.entries.filter (fun e => !K e.1) = o.entries.filter (fun e => !K e.1)

/-- The paths `toOptionsHead` writes. -/
def headKeys (base : OptPath) : List OptPath :=
  [base ++ ["enabled"], base ++ ["auto"], base ++ ["keep-alive"], base ++ ["enable-sm"],
   base ++ ["compress"], base ++ ["require-mutual-auth"], base ++ ["legacy-ssl-probe"],
   base ++ ["automatic-resource"], base ++ ["priority-depends-on-status"],
   base ++ ["ignore-global-actions"], base ++ ["log"], base ++ ["reconn"],
   base ++ ["connect-after-sleep"], base ++ ["auto-same-status"],
   base ++ ["ignore-SSL-warnings"], base ++ ["id"], base ++ ["name"], base ++ ["jid"],
   base ++ ["custom-auth", "use"], base ++ ["custom-auth", "authid"],
   base ++ ["custom-auth", "realm"], base ++ ["scram", "store-salted-password"],
   base ++ ["scram", "salted-password"], base ++ ["password"], base ++ ["use-host"],
   base ++ ["security-level"], base ++ ["ssl"], base ++ ["host"], base ++ ["port"],
   base ++ ["resource"], base ++ ["priority"], base ++ ["pgp-secret-key-id"],
   base ++ ["pgp-pass-phrase"], base ++ ["allow-plain"]]

/-- The paths `toOptionsTail` writes or removes. -/
def tailKeys (base : OptPath) : List OptPath :=
  [base ++ ["bytestreams-proxy"], base ++ ["ibb-only"], base ++ ["stun-hosts"],
   base ++ ["stun-host"], base ++ ["stun-username"], base ++ ["stun-password"],
   base ++ ["tls", "override-certificate"], base ++ ["tls", "override-domain"],
   base ++ ["last-status"], base ++ ["last-status-message"], base ++ ["last-with-priority"],
   base ++ ["last-priority"], base ++ ["always-visible-contacts"], base ++ ["muc-bookmarks"]]

/-- The keys of a `QMap` ascend strictly, as they do in every map the C++ code holds. -/
def QMap.WF {β : Type} (m : QMap β) : Prop :=
  (QMap.keys m).Pairwise (fun a b => a < b)

/-- The node `m<j>` of the option map at `p`. -/
def mapNode (p : OptPath) (j : Nat) : OptPath := p ++ ["m" ++ toString j]

/-- The option map at `p` holds exactly the keys `ks`, the key at position `j` in the
node `m<j>`, and the nodes are enumerated in that order. -/
def OptionsTree.MapLayout (o : OptionsTree) (p : OptPath) (ks : List Variant) : Prop :=
  o.getChildOptionNames p true true = (List.range ks.length).map (mapNode p) ∧
  ∀ j key, ks[j]? = some key → o.getOption (mapNode p j ++ ["key"]) = key

/-- The store after the options `b ++ s` are set to `v`, for the pairs `(s, v)` in order. -/
def OptionsTree.setAll (o : OptionsTree) (b : OptPath) (pairs : List (OptPath × Variant)) :
    OptionsTree :=
  pairs.foldl (fun o kv => o.setOption (b ++ kv.1) kv.2) o

/-- The paths below the base, and the values, that `toOptionsHead` writes, in order. -/
def UserAccount.headPairs (env : Env) (u : UserAccount) (ssl plain : String) :
    List (OptPath × Variant) :=
  [(["enabled"], Variant.bool u.opt_enabled),
   (["auto"], Variant.bool u.opt_auto),
   (["keep-alive"], Variant.bool u.opt_keepAlive),
   (["enable-sm"], Variant.bool u.opt_sm),
   (["compress"], Variant.bool u.opt_compress),
   (["require-mutual-auth"], Variant.bool u.req_mutual_auth),
   (["legacy-ssl-probe"], Variant.bool u.legacy_ssl_probe),
   (["automatic-resource"], Variant.bool u.opt_automatic_resource),
   (["priority-depends-on-status"], Variant.bool u.priority_dep_on_status),
   (["ignore-global-actions"], Variant.bool u.ignore_global_actions),
   (["log"], Variant.bool u.opt_log),
   (["reconn"], Variant.bool u.opt_reconn),
   (["connect-after-sleep"], Variant.bool u.opt_connectAfterSleep),
   (["auto-same-status"], Variant.bool u.opt_autoSameStatus),
   (["ignore-SSL-warnings"], Variant.bool u.opt_ignoreSSLWarnings),
   (["id"], Variant.str u.id),
   (["name"], Variant.str u.name),
   (["jid"], Variant.str u.jid),
   (["custom-auth", "use"], Variant.bool u.customAuth),
   (["custom-auth", "authid"], Variant.str u.authid),
   (["custom-auth", "realm"], Variant.str u.realm),
   (["scram", "store-salted-password"], Variant.bool u.storeSaltedHashedPassword),
   (["scram", "salted-password"], Variant.str u.scramSaltedHashPassword),
   (["password"], Variant.str (if u.opt_pass then env.encodePassword u.pass u.jid else "")),
   (["use-host"], Variant.bool u.opt_host),
   (["security-level"], Variant.int u.security_level),
   (["ssl"], Variant.str ssl),
   (["host"], Variant.str u.host),
   (["port"], Variant.int u.port),
   (["resource"], Variant.str u.resource),
   (["priority"], Variant.int u.priority),
   (["pgp-secret-key-id"], Variant.str
      (match u.pgpSecretKey with
       | some key => key.keyId
       | none => "")),
   (["pgp-pass-phrase"], Variant.str
      (match u.pgpSecretKey with
       | some key => env.encodePassword u.pgpPassPhrase key.keyId
       | none => "")),
   (["allow-plain"], Variant.str plain)]

/-- The paths below the base, and the values, that `toOptionsTail` writes before the last
priority, in order. -/
def UserAccount.tailPairs (u : UserAccount) : List (OptPath × Variant) :=
  [(["bytestreams-proxy"], Variant.str u.dtProxy.full),
   (["ibb-only"], Variant.bool u.ibbOnly),
   (["stun-hosts"], Variant.strList u.stunHosts),
   (["stun-host"], Variant.str u.stunHost),
   (["stun-username"], Variant.str u.stunUser),
   (["stun-password"], Variant.str u.stunPass),
   (["tls", "override-certificate"], Variant.bytes u.tlsOverrideCert),
   (["tls", "override-domain"], Variant.str u.tlsOverrideDomain),
   (["last-status"], Variant.str u.lastStatus.typeString),
   (["last-status-message"], Variant.str u.lastStatus.status),
   (["last-with-priority"], Variant.bool u.lastStatusWithPriority)]

/-- The paths below the base, and the values, that `toOptionsTail` writes after the last
priority. -/
def UserAccount.tailPairsEnd (u : UserAccount) : List (OptPath × Variant) :=
  [(["always-visible-contacts"], Variant.strList u.alwaysVisibleContacts),
   (["muc-bookmarks"], Variant.strList u.localMucBookmarks)]

/-- The paths below the base `b` whose remainder satisfies `S`. -/
def atBase (b : OptPath) (S : OptPath → Bool) (k : OptPath) : Bool :=
  b.isPrefixOf k && S (k.drop b.length)

/-- The paths that start with one of the segments `segs`, and the paths `exact`. -/
def suffixIn (segs : List String) (exact : List OptPath) (s : OptPath) : Bool :=
  (match s with
   | [] => false
   | x :: _ => decide (x ∈ segs)) || decide (s ∈ exact)

/-- The account that `toOptions` followed by `fromOptions` hands back: the group state is
pruned, and the fields `toOptions` does not store (the roster visibility toggles and the
legacy proxy fields) hold the values of `reset()`. -/
def UserAccount.persisted (env : Env) (u : UserAccount) : UserAccount :=
  { u with
    groupState := UserAccount.prunedGroupState env u
    tog_offline := true
    tog_away := true
    tog_hidden := false
    tog_agents := true
    tog_self := false
    proxy_index := 0
    proxy_type := PROXY_NONE
    proxy_host := ""
    proxy_port := 8080
    proxy_user := ""
    proxy_pass := "" }

/-- What the option store can hold of an account: the conditions under which every stored
field of `u` is read back as it was written under the base `b`. -/
structure UserAccount.Storable (env : Env) (psi : OptionsTree) (b : OptPath)
    (u : UserAccount) : Prop where
  /-- The account is stored under its own base. -/
  base : u.optionsBase = b
  /-- An empty id is replaced by a new one on reading. -/
  id : u.id ≠ ""
  /-- The SSL mode is one of the four enum values. -/
  ssl : u.ssl = SSL_No ∨ u.ssl = SSL_Yes ∨ u.ssl = SSL_Auto ∨ u.ssl = SSL_Legacy
  /-- The plain-auth policy is one of the three enum values. -/
  plain : u.allow_plain = NoAllowPlain ∨ u.allow_plain = AllowPlain ∨
    u.allow_plain = AllowPlainOverTLS
  /-- A saved password has a non-empty encoding that decodes to it; an account that does
  not save the password holds none. -/
  password :
    if u.opt_pass then
      env.encodePassword u.pass u.jid ≠ "" ∧
        env.decodePassword (env.encodePassword u.pass u.jid) u.jid = u.pass
    else u.pass = ""
  /-- The type of the last status is in the form that `setType` keeps. -/
  statusType : env.statusTypeString u.lastStatus.typeString = u.lastStatus.typeString
  /-- Without a stored priority the last status carries the default priority. -/
  statusPriority : u.lastStatusWithPriority = false →
    u.lastStatus.priority = UserAccount.defaultPriority env psi u u.lastStatus
  /-- A PGP key is one the key store knows under its id, and the pass phrase survives the
  encoding; an account without a key has no pass phrase. -/
  pgp :
    match u.pgpSecretKey with
    | none => u.pgpPassPhrase = ""
    | some key =>
      env.havePgpUtil = true ∧ key.keyId ≠ "" ∧ env.getSecretKey key.keyId = some key ∧
        (if (env.encodePassword u.pgpPassPhrase key.keyId).isEmpty then
          env.encodePassword u.pgpPassPhrase key.keyId
        else env.decodePassword (env.encodePassword u.pgpPassPhrase key.keyId) key.keyId) =
          u.pgpPassPhrase
  /-- The Jabber ids and subscriptions of the roster survive their text form. -/
  roster : ∀ ri ∈ u.roster, env.jidFromString ri.jid.full = ri.jid ∧
    env.subscriptionFromString ri.subscription.text = ri.subscription
  /-- The data transfer proxy survives its text form. -/
  dtProxy : env.jidFromString u.dtProxy.full = u.dtProxy
  /-- The group state is a map: its keys ascend strictly. -/
  groupState : QMap.WF u.groupState
  /-- Writing key bindings touches nothing outside `b.pgp-key-bindings`. -/
  keybindFrame : ∀ v o,
    (env.varListToOptions v o (b ++ ["pgp-key-bindings"])).removeOption
      (b ++ ["pgp-key-bindings"]) true = o.removeOption (b ++ ["pgp-key-bindings"]) true
  /-- The key bindings written below an empty `b.pgp-key-bindings` are read back from any
  store that holds the same subtree. -/
  keybindRead : ∀ o o', o.sub (b ++ ["pgp-key-bindings"]) = ⟨[]⟩ →
    o'.sub (b ++ ["pgp-key-bindings"]) =
      (env.varListToOptions u.keybind o (b ++ ["pgp-key-bindings"])).sub
        (b ++ ["pgp-key-bindings"]) →
    env.varListFromOptions [] o' (b ++ ["pgp-key-bindings"]) = u.keybind

/-- The store `w` holds the account `u` under the base `b`: the scalar fields are set to
the values `toOptions` writes (with `ssl` and `plain` the texts of the two enum fields),
and the roster cache, the group state and the key bindings are read back as those of `u`,
the group state pruned. -/
structure UserAccount.StoredIn (env : Env) (u : UserAccount) (ssl plain : String)
    (b : OptPath) (w : OptionsTree) : Prop where
  /-- The fields from `enabled` to `allow-plain`. -/
  head : ∀ s v, (s, v) ∈ UserAccount.headPairs env u ssl plain → w.find? (b ++ s) = some v
  /-- The fields from `bytestreams-proxy` to `muc-bookmarks`, the last priority apart. -/
  tail : ∀ s v, (s, v) ∈ UserAccount.tailPairs u ++ UserAccount.tailPairsEnd u →
    w.find? (b ++ s) = some v
  /-- The last priority, when the account keeps one. -/
  lastPriority : u.lastStatusWithPriority = true →
    w.find? (b ++ ["last-priority"]) = some (Variant.int u.lastStatus.priority)
  /-- The proxy id. -/
  proxyId : w.find? (b ++ ["proxy-id"]) = some (Variant.str u.proxyID)
  /-- The roster cache. -/
  roster : (w.getChildOptionNames (b ++ ["roster-cache"]) true true).map
    (UserAccount.rosterItemFromOptions env w) = u.roster
  /-- The group state. -/
  groupState : UserAccount.groupStateFromOptions w b = UserAccount.prunedGroupState env u
  /-- The key bindings. -/
  keybind : env.varListFromOptions [] w (b ++ ["pgp-key-bindings"]) = u.keybind

/-- An account as the application holds it: a saved password, one roster item in the
group `Friends`, group state for `Friends` and for a group `Old` that no roster item
names, and a last status with its own priority. -/
def sampleStoredAccount : UserAccount :=
  { UserAccount.init sampleEnv "account-1" with
    optionsBase := ["accounts", "a0"]
    name := "Work"
    jid := "alice@example.org"
    opt_pass := true
    pass := "secret"
    host := "xmpp.example.org"
    opt_host := true
    roster :=
      [{ jid := ⟨"bob@example.org"⟩, name := "Bob", subscription := ⟨"both"⟩, ask := "",
         groups := ["Friends"] }]
    groupState := [("Friends", ⟨true, 1⟩), ("Old", ⟨false, 2⟩)]
    lastStatus := ⟨"away", "out for lunch", 7⟩
    lastStatusWithPriority := true
    proxyID := "a0"
    dtProxy := ⟨"proxy.example.org"⟩
    stunUser := "alice"
    alwaysVisibleContacts := ["bob@example.org"] }

/-- The sample account of a user who hides offline contacts, as `fromXml` reads it from a
legacy account with `showOffline="false"`. -/
def sampleToggledAccount : UserAccount :=
  { sampleStoredAccount with tog_offline := false }

/-- A store that holds, under `accounts.a0`, an account that `toOptions` did not write: a
name, an SSL mode text that `fromOptions` does not know, and an option that is not a field
of the account. -/
def sampleForeignStore : OptionsTree :=
  ⟨[(["accounts", "a0", "name"], Variant.str "Work"),
    (["accounts", "a0", "ssl"], Variant.str "tls"),
    (["accounts", "a0", "note"], Variant.str "keep me")]⟩

/-- The paths outside the toolbar map `options.ui.contactlist.toolbars`. -/
def outsideToolbars (k : OptPath) : Bool :=
  !(["options", "ui", "contactlist", "toolbars"].isPrefixOf k)

/-- The first toolbar of the store has the name `n0` and the key `k0`. -/
def OptionsTree.FirstToolbar (x : OptionsTree) (n0 k0 : Variant) : Prop :=
  x.find? ["options", "ui", "contactlist", "toolbars", "m0", "name"] = some n0 ∧
    x.getOption ["options", "ui", "contactlist", "toolbars", "m0", "key"] = k0

/-- A migration state as `fromFile` leaves it: the sample store, one service icon set and
one main window toolbar waiting for `lateMigration`. -/
def sampleLateState : MigrationState :=
  { MigrationState.fresh sampleStore with
    lateMigrationData :=
      { serviceRosterIconset := [("aim", "crystal-service.jisp")]
        customRosterIconset := []
        sp := []
        toolbars :=
          [("mainWin",
            [{ ToolbarPrefs.init "toolbar-0" with
               name := "Buttons", keys := ["button_options", "button_status"],
               isOn := true }])] } }

/-- An account element that carries both the legacy flags `ssl` and `plain` and the
newer numeric entries `ssl` and `allow-plain`. -/
def sampleSslAccount : XmlNode :=
  XmlNode.elem "account" [("enabled", "true"), ("ssl", "true"), ("plain", "true")]
    [XmlNode.textElem "name" [] "Home",
      XmlNode.textElem "jid" [] "alice@example.org",
      XmlNode.textElem "ssl" [] "1",
      XmlNode.textElem "allow-plain" [] "2"]

/-- The paths the default toolbar block of `lateMigration` may write or remove: the toolbar
map and the two chat options it folds into the toolbars. -/
def defaultToolbarPaths (k : OptPath) : Bool :=
  ["options", "ui", "contactlist", "toolbars"].isPrefixOf k ||
    decide (k = ["options", "ui", "chat", "central-toolbar"]) ||
    decide (k = ["options", "ui", "chat", "disable-paste-send"])

/-- A migration state whose store was migrated before (it holds a status preset) but has
no toolbars yet and still carries the option `options.ui.chat.central-toolbar`. -/
def sampleMigratedState : MigrationState :=
  MigrationState.fresh
    ⟨[(["options", "status", "presets", "m0", "name"], Variant.str "Lunch"),
      (["options", "ui", "chat", "central-toolbar"], Variant.bool true)]⟩

/-! ## Profile directories

The profile functions work on directories through `QDir`. The file system is modelled as
the list of its files and directories, each under its path from the root directory; the
operations of `QDir` used by the source are functions on that list. An operation can also
be refused by the system (permissions, a file in use): the paths for which this happens
are given by `ProfileEnv.denied`. A name handed to `QDir` is one path segment. -/

/-- A path of the file system: the names from the root directory down. -/
abbrev FsPath := List String

/-- The files and directories below the root directory, by path; the flag is true for a
directory. The root directory itself always exists. -/
structure FileSystem where
  entries : List (FsPath × Bool)
deriving DecidableEq, Repr

/-- What the profile functions take from their surroundings: the three directories
`ApplicationInfo::profilesDir` returns, `QChar::isLetterOrNumber`, and the entries the
system refuses to create, remove or rename. -/
structure ProfileEnv where
  configProfilesDir : FsPath
  dataProfilesDir : FsPath
  cacheProfilesDir : FsPath
  isLetterOrNumber : Char → Bool
  denied : FsPath → Bool

namespace FileSystem

/-- `QDir(p).exists()` and `QFileInfo::isDir()`: there is a directory at `p`. -/
def isDir (fs : FileSystem) (p : FsPath) : Bool :=
  p.isEmpty || fs.entries.contains (p, true)

/-- `QDir(d).exists(name)`: there is a file or a directory called `name` in `d`. -/
def childExists (fs : FileSystem) (d : FsPath) (name : String) : Bool :=
  !name.isEmpty && fs.entries.any (fun e => e.1 = d ++ [name])

/-- Some file or directory lies strictly below `p`. -/
def hasEntriesBelow (fs : FileSystem) (p : FsPath) : Bool :=
  fs.entries.any (fun e => p.isPrefixOf e.1 && decide (p.length < e.1.length))

/-- `QDir(d).entryList()`: `.` and `..`, then the names of the entries of `d`. -/
def entryList (fs : FileSystem) (d : FsPath) : List String :=
  "." :: ".." :: nubFirst (fs.entries.filterMap (fun e =>
    match e.1.getLast? with
    | some name => if e.1 = d ++ [name] then some name else none
    | none => none))

/-- `QDir(d).mkdir(name)`: creates the directory `name` in `d`; fails when `d` is no
directory, when the name is taken or when the system refuses. -/
def mkdir (env : ProfileEnv) (fs : FileSystem) (d : FsPath) (name : String) :
    Bool × FileSystem :=
  if name.isEmpty || !fs.isDir d || fs.childExists d name || env.denied (d ++ [name]) then
    (false, fs)
  else
    (true, ⟨fs.entries ++ [(d ++ [name], true)]⟩)

/-- `QDir(d).rename(oldName, newName)`: moves the entry `oldName` of `d`, with all below
it, to `newName`; fails when there is no such entry, when the new name is taken or when
the system refuses. -/
def rename (env : ProfileEnv) (fs : FileSystem) (d : FsPath) (oldName newName : String) :
    Bool × FileSystem :=
  if oldName.isEmpty || newName.isEmpty || !fs.childExists d oldName ||
      fs.childExists d newName || env.denied (d ++ [oldName]) ||
      env.denied (d ++ [newName]) then
    (false, fs)
  else
    (true, ⟨fs.entries.map (fun e =>
      if (d ++ [oldName]).isPrefixOf e.1 then
        (d ++ [newName] ++ e.1.drop (d.length + 1), e.2)
      else e)⟩)

/-- `QDir(d).remove(fileName)`: removes the file `fileName` of `d`; fails when there is no
such file or when the system refuses. -/
def remove (env : ProfileEnv) (fs : FileSystem) (d : FsPath) (fileName : String) :
    Bool × FileSystem :=
  if !fs.entries.contains (d ++ [fileName], false) || env.denied (d ++ [fileName]) then
    (false, fs)
  else
    (true, ⟨fs.entries.filter (fun e => e.1 ≠ d ++ [fileName])⟩)

/-- `QDir(d).rmdir(name)`: removes the directory `name` of `d`; fails when there is no such
directory, when it is not empty or when the system refuses. -/
def rmdir (env : ProfileEnv) (fs : FileSystem) (d : FsPath) (name : String) :
    Bool × FileSystem :=
  if !fs.entries.contains (d ++ [name], true) || fs.hasEntriesBelow (d ++ [name]) ||
      env.denied (d ++ [name]) then
    (false, fs)
  else
    (true, ⟨fs.entries.filter (fun e => e.1 ≠ d ++ [name])⟩)

/-- The loop of `getProfilesList` over the listing of `d`: the names of the entries that
are directories, `.` and `..` left out. -/
def subdirectories (fs : FileSystem) (d : FsPath) : List String :=
  (fs.entryList d).filter (fun name =>
    !(name = "." || name = "..") && fs.isDir (d ++ [name]))

end FileSystem

/-- The check of `profileNew` and `profileRename` that the string is sane: every character
is a letter or a number. -/
def nameIsSane (env : ProfileEnv) (name : String) : Bool :=
  name.toList.all env.isLetterOrNumber

/-- `profileNew(name)`: the result and the file system afterwards. -/
def profileNew (env : ProfileEnv) (name : String) (fs : FileSystem) : Bool × FileSystem :=
  if name.isEmpty then (false, fs)
  -- verify the string is sane
  else if !nameIsSane env name then (false, fs)
  -- make it
  else if !fs.isDir env.configProfilesDir then (false, fs)
  else
    let made :=
      if !fs.isDir (env.configProfilesDir ++ [name]) then
        fs.mkdir env env.configProfilesDir name
      else (true, fs)
    if !made.1 then (false, made.2)
    else
      let fs := made.2
      if !fs.isDir env.dataProfilesDir then (false, fs)
      else
        let made :=
          if !fs.isDir (env.dataProfilesDir ++ [name]) then
            fs.mkdir env env.dataProfilesDir name
          else (true, fs)
        if !made.1 then (false, made.2)
        else
          let fs := (made.2.mkdir env (env.dataProfilesDir ++ [name]) "history").2
          if !fs.isDir env.cacheProfilesDir then (false, fs)
          else
            let made :=
              if !fs.isDir (env.cacheProfilesDir ++ [name]) then
                fs.mkdir env env.cacheProfilesDir name
              else (true, fs)
            if !made.1 then (false, made.2)
            else
              (true, (made.2.mkdir env (env.cacheProfilesDir ++ [name]) "vcard").2)

/-- The folders `profileRename` goes through: the config directory, then the data and the
cache directory unless already listed. -/
def profileRenamePaths (env : ProfileEnv) : List FsPath :=
  let paths := [env.configProfilesDir]
  let paths :=
    if !paths.contains env.dataProfilesDir then paths ++ [env.dataProfilesDir] else paths
  if !paths.contains env.cacheProfilesDir then paths ++ [env.cacheProfilesDir] else paths

/-- The loop of `profileRename` over the folders. -/
def profileRenameLoop (env : ProfileEnv) (oldname name : String) :
    List FsPath → FileSystem → Bool × FileSystem
  | [], fs => (true, fs)
  | path :: rest, fs =>
    if !fs.isDir path || !fs.childExists path oldname then
      profileRenameLoop env oldname name rest fs
    else
      let renamed := fs.rename env path oldname name
      if !renamed.1 then (false, renamed.2)
      else profileRenameLoop env oldname name rest renamed.2

/-- `profileRename(oldname, name)`: the result and the file system afterwards. -/
def profileRename (env : ProfileEnv) (oldname name : String) (fs : FileSystem) :
    Bool × FileSystem :=
  -- verify the string is sane
  if !nameIsSane env name then (false, fs)
  -- First we need to check configDir for existing
  else if !fs.isDir env.configProfilesDir then (false, fs)
  -- and if all ok we may rename it.
  else profileRenameLoop env oldname name (profileRenamePaths env) fs

/-- The loop of `folderRemove` over the listing of `d`; `recurse` is `folderRemove` itself.
The result is `none` when the recursion runs out of steps, and the flag is false when the
loop left the function with `return false`. The result of `d.remove` is not looked at. -/
def folderRemoveEntries (env : ProfileEnv)
    (recurse : FileSystem → FsPath → Option (Bool × FileSystem)) (d : FsPath) :
    List String → FileSystem → Option (Bool × FileSystem)
  | [], fs => some (true, fs)
  | name :: rest, fs =>
    if name = "." || name = ".." then folderRemoveEntries env recurse d rest fs
    else if fs.isDir (d ++ [name]) then
      match recurse fs (d ++ [name]) with
      | none => none
      | some (false, fs) => some (false, fs)
      | some (true, fs) => folderRemoveEntries env recurse d rest fs
    else
      folderRemoveEntries env recurse d rest (fs.remove env d name).2

/-- `folderRemove(d)` with a bound on the depth of the recursion: empties the directory,
moves up (`cdUp`, which the root directory cannot) and removes the directory itself. The
result of `d.rmdir` is not looked at. -/
def folderRemoveFuel (env : ProfileEnv) :
    Nat → FileSystem → FsPath → Option (Bool × FileSystem)
  | 0, _, _ => none
  | fuel + 1, fs, d =>
    match folderRemoveEntries env (folderRemoveFuel env fuel) d (fs.entryList d) fs with
    | none => none
    | some (false, fs) => some (false, fs)
    | some (true, fs) =>
      match d.getLast? with
      | none => some (false, fs)
      | some name =>
        if !fs.isDir d.dropLast then some (false, fs)
        else some (true, (fs.rmdir env d.dropLast name).2)

/-- `folderRemove(d)`: the recursion is at most as deep as the file system has entries. -/
def folderRemove (env : ProfileEnv) (fs : FileSystem) (d : FsPath) :
    Option (Bool × FileSystem) :=
  folderRemoveFuel env (fs.entries.length + 1) fs d

/-- `profileDelete(paths)`: the result and the file system afterwards. -/
def profileDelete (env : ProfileEnv) : List FsPath → FileSystem → Option (Bool × FileSystem)
  | [], fs => some (true, fs)
  | path :: rest, fs =>
    if !fs.isDir path then profileDelete env rest fs
    else
      match folderRemove env fs path with
      | none => none
      | some (false, fs) => some (false, fs)
      | some (true, fs) => profileDelete env rest fs

/-- Profile directories below `home`, with ASCII letters and digits as the characters of a
name; the system refuses to touch the history log of the profile `default`. -/
def sampleProfileEnv : ProfileEnv :=
  { configProfilesDir := ["home", "config", "profiles"]
    dataProfilesDir := ["home", "data", "profiles"]
    cacheProfilesDir := ["home", "cache", "profiles"]
    isLetterOrNumber := Char.isAlphanum
    denied := fun p => p = ["home", "data", "profiles", "default", "history", "log.txt"] }

/-- A file system with the profile `default` in all three locations. -/
def sampleFileSystem : FileSystem :=
  ⟨[(["home"], true),
    (["home", "config"], true),
    (["home", "config", "profiles"], true),
    (["home", "config", "profiles", "default"], true),
    (["home", "config", "profiles", "default", "config.xml"], false),
    (["home", "data"], true),
    (["home", "data", "profiles"], true),
    (["home", "data", "profiles", "default"], true),
    (["home", "data", "profiles", "default", "history"], true),
    (["home", "data", "profiles", "default", "history", "log.txt"], false),
    (["home", "cache"], true),
    (["home", "cache", "profiles"], true),
    (["home", "cache", "profiles", "default"], true)]⟩

/-- The paths outside the contact list visibility toggles
`options.ui.contactlist.show.*`. -/
def outsideShowToggles (k : OptPath) : Bool :=
  !(List.isPrefixOf ["options", "ui", "contactlist", "show"] k)

/-- Whether the account is enabled, and its five contact list visibility toggles. -/
def UserAccount.toggleView (a : UserAccount) : Bool × Bool × Bool × Bool × Bool × Bool :=
  (a.opt_enabled, a.tog_offline, a.tog_away, a.tog_hidden, a.tog_agents, a.tog_self)

/-- A legacy document with three accounts, the first one disabled, and a `preferences`
element: the second account hides offline contacts, the hidden group and the self
contact, the third one hides away contacts and agents. -/
def sampleTogglesDocument : XmlNode :=
  XmlNode.elem "psiconf" [("version", "1.0")]
    [XmlNode.elem "accounts" []
       [XmlNode.elem "account"
          [("enabled", "false"), ("showOffline", "false"), ("showAway", "false"),
            ("showHidden", "false"), ("showAgents", "false"), ("showSelf", "false")]
          [XmlNode.textElem "name" [] "Old"],
        XmlNode.elem "account"
          [("enabled", "true"), ("showOffline", "false"), ("showAway", "true"),
            ("showHidden", "false"), ("showAgents", "true"), ("showSelf", "false")]
          [XmlNode.textElem "name" [] "Home"],
        XmlNode.elem "account"
          [("enabled", "true"), ("showOffline", "true"), ("showAway", "false"),
            ("showHidden", "true"), ("showAgents", "false"), ("showSelf", "true")]
          [XmlNode.textElem "name" [] "Work"]],
     XmlNode.elem "preferences" []
       [XmlNode.elem "general" []
          [XmlNode.elem "roster" [] [XmlNode.textElem "useleft" [] "true"]]]]

/-- An account element whose numeric entries `ssl` and `allow-plain` hold numbers outside
the two enumerations. -/
def sampleBadEnumAccount : XmlNode :=
  XmlNode.elem "account" [("enabled", "true")]
    [XmlNode.textElem "name" [] "Home",
      XmlNode.textElem "jid" [] "alice@example.org",
      XmlNode.textElem "ssl" [] "7",
      XmlNode.textElem "allow-plain" [] "-1"]

/-- An account element that mentions `ssl` nowhere. -/
def samplePlainAccount : XmlNode :=
  XmlNode.elem "account" [("enabled", "true")]
    [XmlNode.textElem "name" [] "Home",
      XmlNode.textElem "jid" [] "alice@example.org"]

/-- An account element whose boolean attribute `ssl` is false. -/
def sampleNoSslAccount : XmlNode :=
  XmlNode.elem "account" [("enabled", "true"), ("ssl", "false")]
    [XmlNode.textElem "name" [] "Home",
      XmlNode.textElem "jid" [] "alice@example.org"]

/-- A store without toolbars in which `options.ui.chat.disable-paste-send` is true. -/
def samplePasteSendStore : OptionsTree :=
  ⟨[(["options", "ui", "chat", "central-toolbar"], Variant.bool true),
    (["options", "ui", "chat", "disable-paste-send"], Variant.bool true)]⟩

/-- A legacy document whose only account points, with `proxyindex` 5, at a proxy that does
not exist: the document has no proxy list and the account no inline proxy. -/
def sampleDanglingProxyDocument : XmlNode :=
  XmlNode.elem "psiconf" [("version", "1.0")]
    [XmlNode.elem "accounts" []
       [XmlNode.elem "account" [("enabled", "true")]
          [XmlNode.textElem "name" [] "Home",
           XmlNode.textElem "jid" [] "alice@example.org",
           XmlNode.textElem "proxyindex" [] "5"]]]

/-- A legacy document whose `events` element carries the alert style 7. -/
def sampleAlertStyleDocument : XmlNode :=
  XmlNode.elem "psiconf" [("version", "1.0")]
    [XmlNode.elem "preferences" []
       [XmlNode.elem "events" [] [XmlNode.textElem "alertstyle" [] "7"]]]

/-- A legacy document whose `receive` element carries the value -1 for `incomingAs`. -/
def sampleIncomingAsDocument : XmlNode :=
  XmlNode.elem "psiconf" [("version", "1.0")]
    [XmlNode.elem "preferences" []
       [XmlNode.elem "events" []
          [XmlNode.textElem "alertstyle" [] "1",
           XmlNode.elem "receive" [] [XmlNode.textElem "incomingAs" [] "-1"]]]]

/-- A legacy document with the sections `roster`, `misc` and `sound`, each without any of
its fields. -/
def sampleEmptySectionsDocument : XmlNode :=
  XmlNode.elem "psiconf" [("version", "1.0")]
    [XmlNode.elem "preferences" []
       [XmlNode.elem "general" []
          [XmlNode.elem "roster" [] [], XmlNode.elem "misc" [] []],
        XmlNode.elem "sound" [] []]]

/-- A store in which the user has set the six options the sections `roster`, `misc` and
`sound` write without a test. -/
def sampleSectionsStore : OptionsTree :=
  ⟨[(["options", "ui", "contactlist", "show-menubar"], Variant.bool false),
    (["options", "messages", "default-outgoing-message-type"], Variant.str "chat"),
    (["options", "ui", "chat", "delete-contents-after"], Variant.str "day"),
    (["options", "shortcuts", "chat", "send"], Variant.keySeqList ["Enter", "Return"]),
    (["options", "ui", "notifications", "sounds", "unix-sound-player"], Variant.str "aplay"),
    (["options", "ui", "notifications", "sounds", "notify-every-muc-message"],
      Variant.bool false)]⟩

/-- The paths other than the three options `fromFile` fills from its value tables:
`options.ui.notifications.alert-style`, `options.ui.chat.delete-contents-after` and
`options.messages.force-incoming-message-type`. -/
def outsideTableOptions (k : OptPath) : Bool :=
  !(decide (k = ["options", "ui", "notifications", "alert-style"]) ||
    decide (k = ["options", "ui", "chat", "delete-contents-after"]) ||
    decide (k = ["options", "messages", "force-incoming-message-type"]))

/-- A legacy document that sets the alert style 2, `delChats` 1 and `incomingAs` 3. -/
def sampleTablesDocument : XmlNode :=
  XmlNode.elem "psiconf" [("version", "1.0")]
    [XmlNode.elem "preferences" []
       [XmlNode.elem "general" []
          [XmlNode.elem "misc" [] [XmlNode.textElem "delChats" [] "1"]],
        XmlNode.elem "events" []
          [XmlNode.textElem "alertstyle" [] "2",
           XmlNode.elem "receive" [] [XmlNode.textElem "incomingAs" [] "3"]]]]

/-- The toolbar records loaded from a list of elements, in order; the record at position
`i` draws the id `env.toolbarUuid (n + i)`. -/
def loadToolbars (env : Env) : Nat → List XmlNode → List ToolbarPrefs
  | _, [] => []
  | n, e :: es => loadToolbarData (env.toolbarUuid n) e :: loadToolbars env (n + 1) es

/-- Two toolbar records, as the children of a toolbar element. -/
def sampleToolbarRecords : List (List XmlNode) :=
  [[XmlNode.textElem "name" [] "Buttons", XmlNode.textElem "on" [] "true",
      XmlNode.elem "position" [] [XmlNode.textElem "dock" [] "DockBottom"]],
    [XmlNode.textElem "name" [] "Status", XmlNode.textElem "locked" [] "true"]]

/-- A legacy document holding the sample toolbar records in the flat shape. -/
def sampleFlatToolbarsDocument : XmlNode :=
  XmlNode.elem "psiconf" [("version", "1.0")]
    [XmlNode.elem "preferences" []
       [XmlNode.elem "toolbars" []
          [XmlNode.elem "toolbar0" [] (sampleToolbarRecords.getD 0 []),
           XmlNode.elem "toolbar1" [] (sampleToolbarRecords.getD 1 [])]]]

/-- A legacy document holding the sample toolbar records in the nested shape. -/
def sampleNestedToolbarsDocument : XmlNode :=
  XmlNode.elem "psiconf" [("version", "1.0")]
    [XmlNode.elem "preferences" []
       [XmlNode.elem "toolbars" []
          [XmlNode.elem "mainWin" []
             [XmlNode.elem "toolbar" [] (sampleToolbarRecords.getD 0 []),
              XmlNode.elem "toolbar" [] (sampleToolbarRecords.getD 1 [])]]]]

/-! # Theorems -/

/-! ## Facts about the option store -/

theorem find?_replaceEntry (k : OptPath) (v : Variant) (k' : OptPath) :
    ∀ (es r : List (OptPath × Variant)), replaceEntry k v es = some r →
      (r.find? (fun e => e.1 = k')).map (fun e => e.2) =
        if k' = k then some v else (es.find? (fun e => e.1 = k')).map (fun e => e.2)
  | [], r, h => by simp [replaceEntry] at h
  | e :: es, r, h => by
    unfold replaceEntry at h
    by_cases hk : e.1 = k
    · simp only [hk, if_true, Option.some.injEq] at h
      subst h
      by_cases hk' : k' = k
      · simp [hk']
      · have : ¬ k = k' := fun h => hk' h.symm
        have h2 : ¬ e.1 = k' := by rw [hk]; exact this
        simp [List.find?_cons, hk', this, h2]
    · simp only [hk, if_false, Option.map_eq_some'] at h
      obtain ⟨r', hr', rfl⟩ := h
      have ih := find?_replaceEntry k v k' es r' hr'
      by_cases he : e.1 = k'
      · have : ¬ k' = k := fun h => hk (he.trans h)
        simp [List.find?_cons, he, this]
      · simp only [List.find?_cons, he, decide_False]
        exact ih

theorem replaceEntry_eq_none (k : OptPath) (v : Variant) :
    ∀ (es : List (OptPath × Variant)), replaceEntry k v es = none →
      es.find? (fun e => e.1 = k) = none
  | [], _ => rfl
  | e :: es, h => by
    unfold replaceEntry at h
    by_cases hk : e.1 = k
    · simp [hk] at h
    · simp only [hk, if_false, Option.map_eq_none'] at h
      simp [List.find?_cons, hk, replaceEntry_eq_none k v es h]

namespace OptionsTree

theorem find?_setOption (o : OptionsTree) (k : OptPath) (v : Variant) (k' : OptPath) :
    (o.setOption k v).find? k' = if k' = k then some v else o.find? k' := by
  unfold setOption find?
  cases h : replaceEntry k v o.entries with
  | some r => exact find?_replaceEntry k v k' o.entries r h
  | none =>
    have hn := replaceEntry_eq_none k v o.entries h
    by_cases hk : k' = k
    · subst hk
      simp [List.find?_append, hn]
    · have : ¬ k = k' := fun h => hk h.symm
      simp only [List.find?_append, hk, if_false]
      cases hf : o.entries.find? (fun e => e.1 = k') with
      | some e => simp
      | none => simp [List.find?_cons, this]

theorem getOption_setOption (o : OptionsTree) (k : OptPath) (v : Variant) (k' : OptPath) :
    (o.setOption k v).getOption k' = if k' = k then v else o.getOption k' := by
  unfold getOption getOptionD
  rw [find?_setOption]
  split <;> rfl

theorem getOption_setOption_self (o : OptionsTree) (k : OptPath) (v : Variant) :
    (o.setOption k v).getOption k = v := by
  rw [getOption_setOption]; simp

theorem getOption_setOption_of_ne (o : OptionsTree) (k : OptPath) (v : Variant)
    (k' : OptPath) (h : k' ≠ k) : (o.setOption k v).getOption k' = o.getOption k' := by
  rw [getOption_setOption]; simp [h]

end OptionsTree

/-! ## The header test of `fromFile` -/

theorem attributeValue_of_hasAttribute_false (e : XmlNode) (name dflt : String)
    (h : e.hasAttribute name = false) : e.attributeValue name dflt = dflt := by
  unfold XmlNode.hasAttribute at h
  unfold XmlNode.attributeValue
  have : e.attrs.find? (fun a => decide (a.1 = name)) = none := by
    rw [List.find?_eq_none]
    intro a ha
    have := (List.any_eq_false.mp h) a ha
    simpa using this
  rw [this]

/-- C1. A document that failed to load, whose root is not `psiconf`, or whose `version`
attribute is missing or not `1.0` makes `fromFile` return false and leaves the option
store, the account list, the proxy list and everything else of the state as it was. -/
theorem fromFile_rejects_invalid_header (env : Env) (doc : Option XmlNode)
    (st : MigrationState) (h : headerValid doc = false) :
    fromFile env doc st = Except.ok (false, st) := by
  cases doc with
  | none => rfl
  | some base =>
    unfold fromFile
    simp only [headerValid, Bool.and_eq_false_imp, Bool.and_eq_true, decide_eq_true_eq,
      decide_eq_false_iff_not, and_imp] at h
    by_cases ht : base.tagName = "psiconf"
    · by_cases ha : base.hasAttribute "version" = true
      · have := h ht ha
        simp [ht, this]
      · have ha' : base.hasAttribute "version" = false := by simpa using ha
        have := attributeValue_of_hasAttribute_false base "version" "" ha'
        simp [ht, this]
    · simp [ht]

theorem fromFile_rejects_invalid_header_witness :
    fromFile sampleEnv (some (XmlNode.elem "psiconf" [("version", "0.9")]
        [XmlNode.textElem "useSound" [] "true"])) (MigrationState.fresh sampleStore) =
      Except.ok (false, MigrationState.fresh sampleStore) :=
  fromFile_rejects_invalid_header sampleEnv _ _ (by decide)

/-! ## Field migrators -/

theorem migrateEntry_of_absent {T : Type} (f : XmlNode → String → T → T)
    (toVariant : T → Variant) (init : T) (element : XmlNode) (entry : String)
    (option : OptPath) (o : OptionsTree) (h : element.firstChildElement entry = none) :
    migrateEntry f toVariant init element entry option o = o := by
  simp [migrateEntry, h]

theorem migrateEntry_of_present {T : Type} (f : XmlNode → String → T → T)
    (toVariant : T → Variant) (init : T) (element : XmlNode) (entry : String)
    (option : OptPath) (o : OptionsTree) (child : XmlNode)
    (h : element.firstChildElement entry = some child) :
    migrateEntry f toVariant init element entry option o =
      o.setOption option (toVariant (f element entry init)) := by
  simp [migrateEntry, h]

/-- C2. When the legacy element has no child element named by the entry, every field
migrator returns the option store it was given. -/
theorem migrators_absent_field_unchanged (namedColor : String → Option String)
    (element : XmlNode) (entry : String) (option : OptPath) (o : OptionsTree)
    (initInt : Int) (initBool : Bool) (h : element.firstChildElement entry = none) :
    migrateIntEntry element entry option o initInt = o ∧
    migrateBoolEntry element entry option o initBool = o ∧
    migrateSizeEntry element entry option o = o ∧
    migrateStringEntry element entry option o = o ∧
    migrateStringList element entry option o = o ∧
    migrateColorEntry namedColor element entry option o = o ∧
    migrateRectEntry element entry option o = o :=
  ⟨migrateEntry_of_absent _ _ _ _ _ _ _ h, migrateEntry_of_absent _ _ _ _ _ _ _ h,
   migrateEntry_of_absent _ _ _ _ _ _ _ h, migrateEntry_of_absent _ _ _ _ _ _ _ h,
   migrateEntry_of_absent _ _ _ _ _ _ _ h, migrateEntry_of_absent _ _ _ _ _ _ _ h,
   migrateEntry_of_absent _ _ _ _ _ _ _ h⟩

theorem migrators_absent_field_unchanged_witness :
    migrateIntEntry (XmlNode.elem "lookandfeel" [] [XmlNode.textElem "roster-opacity" [] "70"])
        "chat-opacity" ["options", "ui", "chat", "opacity"] sampleStore 0 = sampleStore ∧
    migrateBoolEntry (XmlNode.elem "lookandfeel" [] [XmlNode.textElem "roster-opacity" [] "70"])
        "chat-opacity" ["options", "ui", "chat", "opacity"] sampleStore false = sampleStore ∧
    migrateSizeEntry (XmlNode.elem "lookandfeel" [] [XmlNode.textElem "roster-opacity" [] "70"])
        "chat-opacity" ["options", "ui", "chat", "opacity"] sampleStore = sampleStore ∧
    migrateStringEntry (XmlNode.elem "lookandfeel" [] [XmlNode.textElem "roster-opacity" [] "70"])
        "chat-opacity" ["options", "ui", "chat", "opacity"] sampleStore = sampleStore ∧
    migrateStringList (XmlNode.elem "lookandfeel" [] [XmlNode.textElem "roster-opacity" [] "70"])
        "chat-opacity" ["options", "ui", "chat", "opacity"] sampleStore = sampleStore ∧
    migrateColorEntry sampleEnv.namedColor
        (XmlNode.elem "lookandfeel" [] [XmlNode.textElem "roster-opacity" [] "70"])
        "chat-opacity" ["options", "ui", "chat", "opacity"] sampleStore = sampleStore ∧
    migrateRectEntry (XmlNode.elem "lookandfeel" [] [XmlNode.textElem "roster-opacity" [] "70"])
        "chat-opacity" ["options", "ui", "chat", "opacity"] sampleStore = sampleStore :=
  migrators_absent_field_unchanged sampleEnv.namedColor _ _ _ _ 0 false rfl

/-- C3. When the legacy element has a child element named by the entry, every field
migrator returns the store with the option path set to the value its typed parser reads
for the entry; the value found under the option path afterwards is that value and every
other option path keeps its value. For the integer, boolean and string migrators the value
is spelled out from the content of the child. -/
theorem migrators_present_field_written (namedColor : String → Option String)
    (element : XmlNode) (entry : String) (option : OptPath) (o : OptionsTree)
    (initInt : Int) (initBool : Bool) (child : XmlNode)
    (h : element.firstChildElement entry = some child) :
    (migrateIntEntry element entry option o initInt =
        o.setOption option (Variant.int (readNumEntry element entry initInt)) ∧
      readNumEntry element entry initInt = qStringToInt (tagContent child)) ∧
    (migrateBoolEntry element entry option o initBool =
        o.setOption option (Variant.bool (readBoolEntry element entry initBool)) ∧
      readBoolEntry element entry initBool = decide (tagContent child = "true")) ∧
    migrateSizeEntry element entry option o =
      o.setOption option (Variant.size (readSizeEntry element entry QSize.null).width
        (readSizeEntry element entry QSize.null).height) ∧
    (migrateStringEntry element entry option o =
        o.setOption option (Variant.str (readEntry element entry "")) ∧
      readEntry element entry "" = tagContent child) ∧
    (migrateStringList element entry option o =
        o.setOption option (Variant.strList (xmlToStringList element entry [])) ∧
      xmlToStringList element entry [] =
        (child.childElements.filter (fun i => i.tagName = "item")).map tagContent) ∧
    migrateColorEntry namedColor element entry option o =
      o.setOption option (Variant.color (readColorEntry namedColor element entry none)) ∧
    migrateRectEntry element entry option o =
      o.setOption option (Variant.rect (readRectEntry element entry QRect.null).x
        (readRectEntry element entry QRect.null).y
        (readRectEntry element entry QRect.null).width
        (readRectEntry element entry QRect.null).height) ∧
    (∀ v : Variant, (o.setOption option v).getOption option = v ∧
      ∀ p : OptPath, p ≠ option → (o.setOption option v).getOption p = o.getOption p) := by
  refine ⟨⟨migrateEntry_of_present _ _ _ _ _ _ _ child h, ?_⟩,
    ⟨migrateEntry_of_present _ _ _ _ _ _ _ child h, ?_⟩,
    migrateEntry_of_present _ _ _ _ _ _ _ child h,
    ⟨migrateEntry_of_present _ _ _ _ _ _ _ child h, ?_⟩,
    ⟨migrateEntry_of_present _ _ _ _ _ _ _ child h, ?_⟩,
    migrateEntry_of_present _ _ _ _ _ _ _ child h,
    migrateEntry_of_present _ _ _ _ _ _ _ child h, ?_⟩
  · simp [readNumEntry, h]
  · simp [readBoolEntry, h]
  · simp [readEntry, h]
  · simp [xmlToStringList, h]
  · intro v
    exact ⟨OptionsTree.getOption_setOption_self o option v,
      fun p hp => OptionsTree.getOption_setOption_of_ne o option v p hp⟩

theorem migrators_present_field_written_witness :
    (migrateIntEntry (XmlNode.elem "lookandfeel" [] [XmlNode.textElem "chat-opacity" [] "70"])
        "chat-opacity" ["options", "ui", "chat", "opacity"] sampleStore 0).getOption
      ["options", "ui", "chat", "opacity"] = Variant.int 70 ∧
    (migrateIntEntry (XmlNode.elem "lookandfeel" [] [XmlNode.textElem "chat-opacity" [] "70"])
        "chat-opacity" ["options", "ui", "chat", "opacity"] sampleStore 0).getOption
      ["options", "status", "last-message"] = Variant.str "away from keyboard" := by
  have h := migrators_present_field_written sampleEnv.namedColor
    (XmlNode.elem "lookandfeel" [] [XmlNode.textElem "chat-opacity" [] "70"])
    "chat-opacity" ["options", "ui", "chat", "opacity"] sampleStore 0 false
    (XmlNode.textElem "chat-opacity" [] "70") rfl
  obtain ⟨⟨h1, h2⟩, -, -, -, -, -, -, h8⟩ := h
  rw [h1, h2]
  refine ⟨(h8 _).1, ?_⟩
  rw [(h8 _).2 _ (by decide)]
  decide


/-! ## Proxy migration in `fromFile` -/

theorem convertProxies_snd (env : Env) :
    ∀ (accs : List UserAccount) (proxies : List ProxyItem),
      (convertProxies env accs proxies).2 =
        proxies ++ (accs.filter (fun a => decide (a.proxy_type > 0))).map (inlineProxy env)
  | [], proxies => by simp [convertProxies]
  | a :: rest, proxies => by
    unfold convertProxies
    by_cases h : a.proxy_type > 0
    · simp only [h, if_true]
      rw [convertProxies_snd env rest]
      simp [List.filter_cons, h]
    · simp only [h, if_false]
      rw [convertProxies_snd env rest]
      simp [List.filter_cons, h]

theorem assignProxyIds_length (proxies : List ProxyItem) :
    (assignProxyIds proxies).length = proxies.length := by
  simp [assignProxyIds, List.enum_length]

theorem assignProxyIds_get? (proxies : List ProxyItem) (i : Nat) :
    (assignProxyIds proxies).get? i =
      (proxies.get? i).map (fun p => { p with id := "a" ++ toString i }) := by
  simp [assignProxyIds, List.get?_eq_getElem?, List.getElem?_map, List.getElem?_enum]
  cases proxies[i]? <;> rfl

theorem assignProxyIds_map_clear (proxies : List ProxyItem) :
    (assignProxyIds proxies).map (fun p => { p with id := "" }) =
      proxies.map (fun p => { p with id := "" }) := by
  apply List.ext_get?
  intro i
  simp [assignProxyIds, List.get?_eq_getElem?, List.getElem?_map, List.getElem?_enum]
  cases proxies[i]? <;> simp

theorem migratePreferences_lists (env : Env) (progver : String) (p : XmlNode)
    (st st' : MigrationState) (h : migratePreferences env progver p st = Except.ok st') :
    st'.accMigration = st.accMigration ∧ st'.proxyMigration = st.proxyMigration := by
  unfold migratePreferences at h
  simp only at h
  split at h
  · exact absurd h (by simp)
  · simp only [Except.ok.injEq] at h
    subst h
    exact ⟨rfl, rfl⟩

theorem migrateDocument_proxyMigration (env : Env) (base : XmlNode)
    (st st' : MigrationState) (h : migrateDocument env base st = Except.ok st') :
    st'.proxyMigration =
      assignProxyIds ((convertProxies env (st.accMigration ++ documentAccounts env base)
        st.proxyMigration).2 ++ parseProxies env base) := by
  unfold migrateDocument at h
  simp only at h
  split at h
  · exact absurd h (by simp)
  · split at h
    · exact (migratePreferences_lists env _ _ _ _ h).2
    · simp only [Except.ok.injEq] at h
      subst h
      rfl

theorem fromFile_ok_of_headerValid (env : Env) (doc : Option XmlNode)
    (st : MigrationState) (ret : Bool) (st' : MigrationState)
    (hv : headerValid doc = true) (h : fromFile env doc st = Except.ok (ret, st')) :
    ret = true ∧ ∃ base, doc = some base ∧ migrateDocument env base st = Except.ok st' := by
  cases doc with
  | none => simp [headerValid] at hv
  | some base =>
    simp only [headerValid, Bool.and_eq_true, decide_eq_true_eq] at hv
    unfold fromFile at h
    simp only [hv.1.1, hv.2, ne_eq, not_true_eq_false, if_false] at h
    split at h
    · simp only [Except.ok.injEq, Prod.mk.injEq] at h
      exact ⟨h.1.symm, base, rfl, by rw [← h.2]; assumption⟩
    · exact absurd h (by simp)

/-- C4. For a header-valid document read into a fresh migration object, with `N` accounts
carrying an inline proxy (`proxy_type > 0`) and `M` `proxy` elements in the standalone
list: when `fromFile` returns, it returns true, the proxy list has `N + M` entries, entry
`i` has the id `a` followed by the decimal form of `i`, the first `N` entries are the
inline proxies in account order and the last `M` the standalone proxies in document
order. -/
theorem fromFile_proxy_ids (env : Env) (base : XmlNode) (st : MigrationState)
    (ret : Bool) (st' : MigrationState)
    (hv : headerValid (some base) = true)
    (hacc : st.accMigration = []) (hprox : st.proxyMigration = [])
    (h : fromFile env (some base) st = Except.ok (ret, st')) :
    ret = true ∧
    st'.proxyMigration.length =
      ((documentAccounts env base).filter (fun a => decide (a.proxy_type > 0))).length +
        (documentProxyElements base).length ∧
    (∀ i, i < st'.proxyMigration.length →
      (st'.proxyMigration.get? i).map (fun p => p.id) = some ("a" ++ toString i)) ∧
    (st'.proxyMigration.take
        ((documentAccounts env base).filter (fun a => decide (a.proxy_type > 0))).length).map
      (fun p => { p with id := "" }) = inlineProxies env base ∧
    (st'.proxyMigration.drop
        ((documentAccounts env base).filter (fun a => decide (a.proxy_type > 0))).length).map
      (fun p => { p with id := "" }) = (documentProxyElements base).map (standaloneProxy env) := by
  obtain ⟨hret, base', hb, hdoc⟩ := fromFile_ok_of_headerValid env _ st ret st' hv h
  cases hb
  have hp := migrateDocument_proxyMigration env base st st' hdoc
  rw [hacc, hprox, convertProxies_snd, List.nil_append, List.nil_append] at hp
  have hlen : ((documentAccounts env base).filter (fun a => decide (a.proxy_type > 0))).length =
      (inlineProxies env base).length := by simp [inlineProxies]
  have hclear : ∀ l : List ProxyItem, (∀ p ∈ l, p.id = "") →
      l.map (fun p => { p with id := "" }) = l := by
    intro l hl
    conv_rhs => rw [← List.map_id l]
    apply List.map_congr_left
    intro p hp'
    have := hl p hp'
    cases p
    simp_all
  have hin : ∀ p ∈ inlineProxies env base, p.id = "" := by
    intro p hp'
    simp only [inlineProxies, List.mem_map] at hp'
    obtain ⟨a, -, rfl⟩ := hp'
    rfl
  have hst : ∀ p ∈ (documentProxyElements base).map (standaloneProxy env), p.id = "" := by
    intro p hp'
    simp only [List.mem_map] at hp'
    obtain ⟨e, -, rfl⟩ := hp'
    rfl
  refine ⟨hret, ?_, ?_, ?_, ?_⟩
  · rw [hp, assignProxyIds_length]
    simp [parseProxies]
  · intro i hi
    rw [hp, assignProxyIds_get?]
    rw [hp, assignProxyIds_length] at hi
    rw [List.get?_eq_getElem?, List.getElem?_eq_getElem hi]
    rfl
  · rw [List.map_take, hp, assignProxyIds_map_clear, List.map_append, hlen]
    change List.take (inlineProxies env base).length
      ((inlineProxies env base).map _ ++ _) = _
    rw [hclear _ hin, List.take_left]
  · rw [List.map_drop, hp, assignProxyIds_map_clear, List.map_append, hlen]
    change List.drop (inlineProxies env base).length
      ((inlineProxies env base).map _ ++ _) = _
    rw [hclear _ hin, List.drop_left, parseProxies, hclear _ hst]

theorem fromFile_proxy_ids_witness :
    headerValid (some sampleDocument) = true ∧
    (fromFileState sampleEnv (some sampleDocument)
        (MigrationState.fresh sampleStore)).proxyMigration.length = 1 + 1 ∧
    (fromFileState sampleEnv (some sampleDocument)
        (MigrationState.fresh sampleStore)).proxyMigration.map (fun p => p.id) = ["a0", "a1"] ∧
    ((fromFileState sampleEnv (some sampleDocument)
        (MigrationState.fresh sampleStore)).proxyMigration.take 1).map
      (fun p => { p with id := "" }) = inlineProxies sampleEnv sampleDocument := by
  have h := fromFile_proxy_ids sampleEnv sampleDocument (MigrationState.fresh sampleStore) true
    (fromFileState sampleEnv (some sampleDocument) (MigrationState.fresh sampleStore))
    rfl rfl rfl rfl
  exact ⟨rfl, h.2.1, by decide, h.2.2.2.1⟩

/-- C5 (the code at the failing input). In `sampleDocument` the account `Work` has the
legacy `proxyindex` 1 and so points at `Office`, the first proxy of the standalone list,
while the account `Home` contributes an inline proxy. `fromFile` gives `Office` the id
`a1` but rewrites the reference of `Work` to `a0`, the id of the inline proxy of `Home`. -/
theorem fromFile_proxy_reference_shifted :
    (fromFileState sampleEnv (some sampleDocument)
        (MigrationState.fresh sampleStore)).proxyMigration.map (fun p => (p.id, p.name)) =
      [("a0", "Home Proxy"), ("a1", "Office")] ∧
    (fromFileState sampleEnv (some sampleDocument)
        (MigrationState.fresh sampleStore)).accMigration.map (fun a => (a.name, a.proxyID)) =
      [("Home", "a0"), ("Work", "a0")] ∧
    fromFile sampleEnv (some sampleDocument) (MigrationState.fresh sampleStore) =
      Except.ok (true, fromFileState sampleEnv (some sampleDocument)
        (MigrationState.fresh sampleStore)) :=
  ⟨by decide, by decide, rfl⟩

theorem migrateDocument_accMigration (env : Env) (base : XmlNode)
    (st st' : MigrationState) (h : migrateDocument env base st = Except.ok st') :
    updateAccountProxies
        (assignProxyIds ((convertProxies env (st.accMigration ++ documentAccounts env base)
          st.proxyMigration).2 ++ parseProxies env base))
        (convertProxies env (st.accMigration ++ documentAccounts env base)
          st.proxyMigration).1 = Except.ok st'.accMigration := by
  unfold migrateDocument at h
  simp only at h
  split at h
  · exact absurd h (by simp)
  · rename_i accs hacc
    rw [hacc]
    split at h
    · rw [(migratePreferences_lists env _ _ _ _ h).1]
    · simp only [Except.ok.injEq] at h
      subst h
      rfl

/-- C6. For a header-valid document read into a fresh migration object, with exactly one
account, whose legacy proxy type is 1, and no standalone `proxies` block: when `fromFile`
returns, the proxy list is the single item with id `a0`, type `http`, the host, port and
user of the legacy proxy fields of the account and `useAuth` set exactly when the user is
not empty, and the proxy reference of the account is `a0`. -/
theorem fromFile_single_inline_proxy (env : Env) (base : XmlNode) (st : MigrationState)
    (ret : Bool) (st' : MigrationState) (a : UserAccount)
    (hv : headerValid (some base) = true)
    (hacc : st.accMigration = []) (hprox : st.proxyMigration = [])
    (hdoc : documentAccounts env base = [a]) (htype : a.proxy_type = 1)
    (hnone : base.firstChildElement "proxies" = none)
    (h : fromFile env (some base) st = Except.ok (ret, st')) :
    ret = true ∧
    st'.proxyMigration =
      [{ id := "a0", name := env.trProxyName a.name, type := "http",
         settings :=
           { host := a.proxy_host, port := a.proxy_port,
             useAuth := !a.proxy_user.isEmpty, user := a.proxy_user,
             pass := a.proxy_pass } }] ∧
    st'.accMigration.map (fun u => u.proxyID) = ["a0"] := by
  obtain ⟨hret, base', hb, hd⟩ := fromFile_ok_of_headerValid env _ st ret st' hv h
  cases hb
  have hp := migrateDocument_proxyMigration env base st st' hd
  have ha := migrateDocument_accMigration env base st st' hd
  have hpp : parseProxies env base = [] := by
    simp [parseProxies, documentProxyElements, hnone]
  have hpos : a.proxy_type > 0 := by rw [htype]; decide
  have hconv : convertProxies env [a] [] =
      ([{ a with proxy_index := 1 }], [inlineProxy env a]) := by
    simp [convertProxies, hpos]
  rw [hacc, hprox, hdoc, List.nil_append, hpp, hconv] at hp ha
  simp only [List.append_nil] at hp ha
  have hids : assignProxyIds [inlineProxy env a] =
      [{ inlineProxy env a with id := "a0" }] := by
    simp [assignProxyIds, List.enum, List.enumFrom]
    rfl
  rw [hids] at hp ha
  refine ⟨hret, ?_, ?_⟩
  · rw [hp]
    rfl
  · simp [updateAccountProxies] at ha
    rw [← ha]
    rfl

theorem fromFile_single_inline_proxy_witness :
    sampleProxyAccount.proxy_type = 1 ∧
    (fromFileState sampleEnv (some sampleProxyDocument)
        (MigrationState.fresh sampleStore)).proxyMigration =
      [{ id := "a0", name := "Home Proxy", type := "http",
         settings :=
           { host := "proxy.example.com", port := 1080, useAuth := true, user := "bob",
             pass := "" } }] ∧
    (fromFileState sampleEnv (some sampleProxyDocument)
        (MigrationState.fresh sampleStore)).accMigration.map (fun u => u.proxyID) = ["a0"] := by
  have h := fromFile_single_inline_proxy sampleEnv sampleProxyDocument
    (MigrationState.fresh sampleStore) true
    (fromFileState sampleEnv (some sampleProxyDocument) (MigrationState.fresh sampleStore))
    sampleProxyAccount rfl rfl rfl rfl rfl rfl rfl
  exact ⟨rfl, h.2.1, h.2.2⟩

/-! ## The two legacy encodings of the Jabber id -/

theorem firstChildElement_elem (tag : String) (attrs : List (String × String))
    (cs : List XmlNode) (name : String) :
    (XmlNode.elem tag attrs cs).firstChildElement name =
      cs.find? (fun c => c.isElem && decide (c.tagName = name)) := rfl

theorem find?_tag_eq_none_of_forall (cs : List XmlNode) (name : String)
    (h : ∀ c ∈ cs, c.tagName ≠ name) :
    cs.find? (fun c => c.isElem && decide (c.tagName = name)) = none := by
  rw [List.find?_eq_none]
  intro c hc
  simp [h c hc]

theorem fromXml_jidTuple (env : Env) (uuid : String) (a : XmlNode) (u0 : UserAccount) :
    (UserAccount.fromXml env uuid a u0).jidTuple =
      (UserAccount.fromXmlJid a (UserAccount.fromXmlConnection a
        (UserAccount.fromXmlFlags a (UserAccount.reset env uuid u0)))).jidTuple := by
  unfold UserAccount.fromXml UserAccount.jidTuple
  generalize UserAccount.fromXmlJid a (UserAccount.fromXmlConnection a
    (UserAccount.fromXmlFlags a (UserAccount.reset env uuid u0))) = u
  have h1 : ∀ v : UserAccount, (UserAccount.fromXmlProxy env a v).jid = v.jid ∧
      (UserAccount.fromXmlProxy env a v).host = v.host ∧
      (UserAccount.fromXmlProxy env a v).port = v.port ∧
      (UserAccount.fromXmlProxy env a v).opt_host = v.opt_host := fun v => ⟨rfl, rfl, rfl, rfl⟩
  have h2 : ∀ v : UserAccount, (UserAccount.fromXmlRoster env a v).jid = v.jid ∧
      (UserAccount.fromXmlRoster env a v).host = v.host ∧
      (UserAccount.fromXmlRoster env a v).port = v.port ∧
      (UserAccount.fromXmlRoster env a v).opt_host = v.opt_host := fun v => ⟨rfl, rfl, rfl, rfl⟩
  have h3 : ∀ v : UserAccount, (UserAccount.fromXmlPgp env a v).jid = v.jid ∧
      (UserAccount.fromXmlPgp env a v).host = v.host ∧
      (UserAccount.fromXmlPgp env a v).port = v.port ∧
      (UserAccount.fromXmlPgp env a v).opt_host = v.opt_host := by
    intro v
    unfold UserAccount.fromXmlPgp
    simp only
    split <;> exact ⟨rfl, rfl, rfl, rfl⟩
  have h4 : ∀ v : UserAccount, (UserAccount.fromXmlAuth a v).jid = v.jid ∧
      (UserAccount.fromXmlAuth a v).host = v.host ∧
      (UserAccount.fromXmlAuth a v).port = v.port ∧
      (UserAccount.fromXmlAuth a v).opt_host = v.opt_host := by
    intro v
    unfold UserAccount.fromXmlAuth
    simp only
    split <;> exact ⟨rfl, rfl, rfl, rfl⟩
  have h5 : ∀ v : UserAccount, (UserAccount.fromXmlPassword env a v).jid = v.jid ∧
      (UserAccount.fromXmlPassword env a v).host = v.host ∧
      (UserAccount.fromXmlPassword env a v).port = v.port ∧
      (UserAccount.fromXmlPassword env a v).opt_host = v.opt_host := by
    intro v
    unfold UserAccount.fromXmlPassword
    simp only
    split <;> exact ⟨rfl, rfl, rfl, rfl⟩
  simp only [h1, h2, h3, h4, h5]

theorem jidTuple_fromXmlJid (env : Env) (uuid : String) (a : XmlNode) (u0 : UserAccount) :
    (UserAccount.fromXmlJid a (UserAccount.fromXmlConnection a
      (UserAccount.fromXmlFlags a (UserAccount.reset env uuid u0)))).jidTuple =
    match a.firstChildElement "jid" with
    | some j =>
      (tagContent j, readEntry a "host" "", readNumEntry a "port" 5222,
        readBoolEntry a "useHost" (readBoolAttribute j "manual" false))
    | none =>
      match a.firstChildElement "vhost" with
      | some j =>
        (readEntry a "username" "" ++ "@" ++ tagContent j, readEntry a "host" "",
          readNumEntry a "port" 5222,
          readBoolEntry a "useHost" (readBoolAttribute j "manual" false))
      | none =>
        (readEntry a "username" "" ++ "@" ++ readEntry a "host" "", "", 0,
          readBoolEntry a "useHost" false) := by
  unfold UserAccount.fromXmlJid UserAccount.jidTuple
  cases hj : a.firstChildElement "jid" with
  | some j => rfl
  | none => cases hv : a.firstChildElement "vhost" <;> rfl

theorem find?_skip_middle (p : XmlNode → Bool) (pre mid post : List XmlNode)
    (h : ∀ c ∈ mid, p c = false) :
    (pre ++ mid ++ post).find? p = (pre ++ post).find? p := by
  have hm : mid.find? p = none := by
    rw [List.find?_eq_none]
    intro c hc
    simp [h c hc]
  simp [List.find?_append, hm]

theorem textElem_isElem (tag : String) (attrs : List (String × String)) (content : String) :
    (XmlNode.textElem tag attrs content).isElem = true := rfl

theorem textElem_tagName (tag : String) (attrs : List (String × String)) (content : String) :
    (XmlNode.textElem tag attrs content).tagName = tag := rfl

theorem tagContent_textElem (tag : String) (attrs : List (String × String))
    (content : String) : tagContent (XmlNode.textElem tag attrs content) = content := rfl

theorem readBoolAttribute_textElem (tag tag2 : String) (attrs : List (String × String))
    (content content2 name : String) (v : Bool) :
    readBoolAttribute (XmlNode.textElem tag attrs content) name v =
      readBoolAttribute (XmlNode.textElem tag2 attrs content2) name v := rfl

/-- C9. An account element carrying `<jid manual=m>u@v</jid>` and the otherwise identical
element carrying `<username>u</username>` and `<vhost manual=m>v</vhost>` in its place are
read by `fromXml` to the same Jabber id, host, port and manual host flag. The remaining
children are any that are not themselves named `jid`, `username` or `vhost`; `mattrs` is
the attribute list carrying the manual flag. -/
theorem fromXml_jid_shapes_agree (env : Env) (uuid1 uuid2 : String) (u0 : UserAccount)
    (tag : String) (attrs mattrs : List (String × String)) (user domain : String)
    (pre post : List XmlNode)
    (hpre : ∀ c ∈ pre, c.tagName ≠ "jid" ∧ c.tagName ≠ "username" ∧ c.tagName ≠ "vhost")
    (hpost : ∀ c ∈ post, c.tagName ≠ "jid" ∧ c.tagName ≠ "username" ∧ c.tagName ≠ "vhost") :
    (UserAccount.fromXml env uuid1
        (XmlNode.elem tag attrs
          (pre ++ [XmlNode.textElem "jid" mattrs (user ++ "@" ++ domain)] ++ post)) u0).jidTuple =
      (UserAccount.fromXml env uuid2
        (XmlNode.elem tag attrs
          (pre ++ [XmlNode.textElem "username" [] user,
            XmlNode.textElem "vhost" mattrs domain] ++ post)) u0).jidTuple := by
  have pj := find?_tag_eq_none_of_forall pre "jid" (fun c hc => (hpre c hc).1)
  have pu := find?_tag_eq_none_of_forall pre "username" (fun c hc => (hpre c hc).2.1)
  have pv := find?_tag_eq_none_of_forall pre "vhost" (fun c hc => (hpre c hc).2.2)
  have qj := find?_tag_eq_none_of_forall post "jid" (fun c hc => (hpost c hc).1)
  -- entries other than the three in question are read from the common children
  have skipA : ∀ name : String, name ≠ "jid" →
      (XmlNode.elem tag attrs
        (pre ++ [XmlNode.textElem "jid" mattrs (user ++ "@" ++ domain)] ++
          post)).firstChildElement name =
      (XmlNode.elem tag attrs (pre ++ post)).firstChildElement name := by
    intro name hn
    rw [firstChildElement_elem, firstChildElement_elem]
    apply find?_skip_middle
    intro c hc
    simp only [List.mem_singleton] at hc
    subst hc
    simp [textElem_tagName, Ne.symm hn]
  have skipB : ∀ name : String, name ≠ "username" → name ≠ "vhost" →
      (XmlNode.elem tag attrs
        (pre ++ [XmlNode.textElem "username" [] user,
          XmlNode.textElem "vhost" mattrs domain] ++ post)).firstChildElement name =
      (XmlNode.elem tag attrs (pre ++ post)).firstChildElement name := by
    intro name hn hn2
    rw [firstChildElement_elem, firstChildElement_elem]
    apply find?_skip_middle
    intro c hc
    simp only [List.mem_cons, List.mem_singleton, List.not_mem_nil, or_false] at hc
    rcases hc with rfl | rfl
    · simp [textElem_tagName, Ne.symm hn]
    · simp [textElem_tagName, Ne.symm hn2]
  have jidA : (XmlNode.elem tag attrs
        (pre ++ [XmlNode.textElem "jid" mattrs (user ++ "@" ++ domain)] ++
          post)).firstChildElement "jid" =
      some (XmlNode.textElem "jid" mattrs (user ++ "@" ++ domain)) := by
    rw [firstChildElement_elem]
    simp [List.find?_append, pj, List.find?_cons, textElem_isElem, textElem_tagName]
  have jidB : (XmlNode.elem tag attrs
        (pre ++ [XmlNode.textElem "username" [] user,
          XmlNode.textElem "vhost" mattrs domain] ++ post)).firstChildElement "jid" = none := by
    rw [skipB "jid" (by decide) (by decide), firstChildElement_elem]
    simp [List.find?_append, pj, qj]
  have vhostB : (XmlNode.elem tag attrs
        (pre ++ [XmlNode.textElem "username" [] user,
          XmlNode.textElem "vhost" mattrs domain] ++ post)).firstChildElement "vhost" =
      some (XmlNode.textElem "vhost" mattrs domain) := by
    rw [firstChildElement_elem]
    simp [List.find?_append, pv, List.find?_cons, textElem_isElem, textElem_tagName]
  have userB : (XmlNode.elem tag attrs
        (pre ++ [XmlNode.textElem "username" [] user,
          XmlNode.textElem "vhost" mattrs domain] ++ post)).firstChildElement "username" =
      some (XmlNode.textElem "username" [] user) := by
    rw [firstChildElement_elem]
    simp [List.find?_append, pu, List.find?_cons, textElem_isElem, textElem_tagName]
  rw [fromXml_jidTuple, fromXml_jidTuple, jidTuple_fromXmlJid, jidTuple_fromXmlJid,
    jidA, jidB, vhostB]
  simp only [readEntry, readNumEntry, readBoolEntry, userB,
    skipA "host" (by decide), skipA "port" (by decide), skipA "useHost" (by decide),
    skipB "host" (by decide) (by decide), skipB "port" (by decide) (by decide),
    skipB "useHost" (by decide) (by decide), tagContent_textElem]
  rw [readBoolAttribute_textElem "jid" "vhost" mattrs (user ++ "@" ++ domain) domain]

theorem fromXml_jid_shapes_agree_witness :
    (UserAccount.fromXml sampleEnv "id-1" sampleJidAccount UserAccount.blank).jidTuple =
      (UserAccount.fromXml sampleEnv "id-2" sampleVhostAccount UserAccount.blank).jidTuple ∧
    (UserAccount.fromXml sampleEnv "id-1" sampleJidAccount UserAccount.blank).jidTuple =
      ("alice@example.org", "talk.example.org", 5223, true) :=
  ⟨fromXml_jid_shapes_agree sampleEnv "id-1" "id-2" UserAccount.blank "account"
      [("enabled", "true")] [("manual", "true")] "alice" "example.org"
      [XmlNode.textElem "name" [] "Home"]
      [XmlNode.textElem "host" [] "talk.example.org", XmlNode.textElem "port" [] "5223"]
      (by intro c hc; simp only [List.mem_singleton] at hc; subst hc; decide)
      (by
        intro c hc
        simp only [List.mem_cons, List.mem_singleton, List.not_mem_nil, or_false] at hc
        rcases hc with rfl | rfl <;> decide),
    by decide⟩


/-! ## Decimal rendering -/

theorem digitChar_toNat (k : Nat) (h : k < 10) : (Nat.digitChar k).toNat - 48 = k := by
  interval_cases k <;> rfl

theorem digitsValue_toDigitsCore :
    ∀ (fuel n : Nat) (ds : List Char), n < fuel →
      digitsValue 0 (Nat.toDigitsCore 10 fuel n ds) = digitsValue n ds
  | 0, n, ds, h => absurd h (Nat.not_lt_zero n)
  | fuel + 1, n, ds, h => by
    unfold Nat.toDigitsCore
    have hd : (Nat.digitChar (n % 10)).toNat - 48 = n % 10 :=
      digitChar_toNat _ (Nat.mod_lt _ (by decide))
    by_cases h0 : n / 10 = 0
    · simp only [h0, if_true]
      simp only [digitsValue, List.foldl_cons, hd, Nat.zero_mul, Nat.zero_add]
      have : n % 10 = n := by omega
      rw [this]
    · simp only [h0, if_false]
      rw [digitsValue_toDigitsCore fuel (n / 10) _ (by omega)]
      simp only [digitsValue, List.foldl_cons, hd]
      have : n / 10 * 10 + n % 10 = n := by omega
      rw [this]

theorem toString_nat_injective (a b : Nat) (h : toString a = toString b) : a = b := by
  have h' : Nat.toDigits 10 a = Nat.toDigits 10 b := by
    have : (Nat.repr a) = (Nat.repr b) := h
    unfold Nat.repr at this
    have := congrArg String.data this
    simpa [List.asString] using this
  have ha := digitsValue_toDigitsCore (a + 1) a [] (Nat.lt_succ_self a)
  have hb := digitsValue_toDigitsCore (b + 1) b [] (Nat.lt_succ_self b)
  unfold Nat.toDigits at h'
  rw [h'] at ha
  rw [ha] at hb
  simpa [digitsValue] using hb

theorem segment_injective (pre : String) (a b : Nat)
    (h : pre ++ toString a = pre ++ toString b) : a = b := by
  apply toString_nat_injective
  have := congrArg String.data h
  simp only [String.data_append] at this
  have := List.append_cancel_left this
  exact String.ext this

/-! ## Paths -/

theorem isPrefixOf_iff (p k : OptPath) : p.isPrefixOf k = true ↔ p <+: k :=
  List.isPrefixOf_iff_prefix

theorem isPrefixOf_append_self (p x : OptPath) : p.isPrefixOf (p ++ x) = true := by
  rw [isPrefixOf_iff]; exact List.prefix_append p x

theorem isPrefixOf_append_append (b x y : OptPath) :
    (b ++ x).isPrefixOf (b ++ y) = x.isPrefixOf y := by
  rw [Bool.eq_iff_iff, isPrefixOf_iff, isPrefixOf_iff]
  exact List.prefix_append_right_inj b

theorem isPrefixOf_trans (p q k : OptPath) (h1 : p.isPrefixOf q = true)
    (h2 : q.isPrefixOf k = true) : p.isPrefixOf k = true := by
  rw [isPrefixOf_iff] at *
  exact h1.trans h2

/-! ## Store algebra -/

theorem replaceEntry_filter_of_true (P : OptPath → Bool) (k : OptPath) (v : Variant)
    (hk : P k = true) :
    ∀ es : List (OptPath × Variant),
      replaceEntry k v (es.filter (fun e => P e.1)) =
        (replaceEntry k v es).map (fun r => r.filter (fun e => P e.1))
  | [] => rfl
  | e :: es => by
    by_cases he : e.1 = k
    · have hpe : P e.1 = true := by rw [he]; exact hk
      simp [List.filter_cons, hpe, replaceEntry, he, hk]
    · by_cases hpe : P e.1 = true
      · simp only [List.filter_cons, hpe, if_true, replaceEntry, he, if_false]
        rw [replaceEntry_filter_of_true P k v hk es]
        cases replaceEntry k v es <;> simp [List.filter_cons, hpe]
      · have hpe' : P e.1 = false := by simpa using hpe
        simp only [List.filter_cons, hpe', replaceEntry, he, if_false, Bool.false_eq_true]
        rw [replaceEntry_filter_of_true P k v hk es]
        cases replaceEntry k v es <;> simp [List.filter_cons, hpe']

theorem replaceEntry_filter_of_false (P : OptPath → Bool) (k : OptPath) (v : Variant)
    (hk : P k = false) :
    ∀ (es r : List (OptPath × Variant)), replaceEntry k v es = some r →
      r.filter (fun e => P e.1) = es.filter (fun e => P e.1)
  | [], r, h => by simp [replaceEntry] at h
  | e :: es, r, h => by
    unfold replaceEntry at h
    by_cases he : e.1 = k
    · simp only [he, if_true, Option.some.injEq] at h
      subst h
      have hpe : P e.1 = false := by rw [he]; exact hk
      simp [List.filter_cons, hpe, hk]
    · simp only [he, if_false, Option.map_eq_some'] at h
      obtain ⟨r', hr', rfl⟩ := h
      simp [List.filter_cons, replaceEntry_filter_of_false P k v hk es r' hr']

namespace OptionsTree

theorem filter_setOption_of_true (P : OptPath → Bool) (o : OptionsTree) (k : OptPath)
    (v : Variant) (hk : P k = true) :
    (o.setOption k v).entries.filter (fun e => P e.1) =
      (setOption ⟨o.entries.filter (fun e => P e.1)⟩ k v).entries := by
  unfold setOption
  simp only
  rw [replaceEntry_filter_of_true P k v hk]
  cases replaceEntry k v o.entries <;> simp [List.filter_append, hk]

theorem filter_setOption_of_false (P : OptPath → Bool) (o : OptionsTree) (k : OptPath)
    (v : Variant) (hk : P k = false) :
    (o.setOption k v).entries.filter (fun e => P e.1) =
      o.entries.filter (fun e => P e.1) := by
  unfold setOption
  cases h : replaceEntry k v o.entries with
  | some r => exact replaceEntry_filter_of_false P k v hk _ r h
  | none => simp [List.filter_append, hk]

theorem sub_setOption_of_under (o : OptionsTree) (p k : OptPath) (v : Variant)
    (h : p.isPrefixOf k = true) : (o.setOption k v).sub p = (o.sub p).setOption k v := by
  unfold sub
  rw [filter_setOption_of_true (fun q => p.isPrefixOf q) o k v h]

theorem sub_setOption_of_not_under (o : OptionsTree) (p k : OptPath) (v : Variant)
    (h : p.isPrefixOf k = false) : (o.setOption k v).sub p = o.sub p := by
  unfold sub
  rw [filter_setOption_of_false (fun q => p.isPrefixOf q) o k v h]

theorem removeOption_recursive_entries (o : OptionsTree) (p : OptPath) :
    (o.removeOption p true).entries = o.entries.filter (fun e => !p.isPrefixOf e.1) := by
  unfold removeOption
  simp only
  apply List.filter_congr
  intro e _
  by_cases h : e.1 = p
  · simp [h, isPrefixOf_iff]
  · simp [h]

theorem removeOption_setOption_of_under (o : OptionsTree) (p k : OptPath) (v : Variant)
    (h : p.isPrefixOf k = true) :
    (o.setOption k v).removeOption p true = o.removeOption p true := by
  have := filter_setOption_of_false (fun q => !p.isPrefixOf q) o k v (by simp [h])
  cases hh : (o.setOption k v).removeOption p true
  cases hh2 : o.removeOption p true
  have e1 := removeOption_recursive_entries (o.setOption k v) p
  have e2 := removeOption_recursive_entries o p
  rw [hh] at e1
  rw [hh2] at e2
  simp only at e1 e2
  rw [e1, e2, this]

theorem sub_removeOption_recursive (o : OptionsTree) (p q : OptPath)
    (h : p.isPrefixOf q = true) : (o.removeOption p true).sub q = ⟨[]⟩ := by
  unfold sub
  rw [removeOption_recursive_entries]
  simp only [List.filter_filter, mk.injEq, List.filter_eq_nil_iff]
  intro e _
  by_cases hq : q.isPrefixOf e.1 = true
  · simp [isPrefixOf_trans p q e.1 h hq]
  · simp [hq]

theorem find?_sub (o : OptionsTree) (p k : OptPath) (h : p.isPrefixOf k = true) :
    (o.sub p).find? k = o.find? k := by
  unfold sub find?
  simp only
  congr 1
  induction o.entries with
  | nil => rfl
  | cons e es ih =>
    by_cases hp : p.isPrefixOf e.1 = true
    · simp only [List.filter_cons, hp, if_true, List.find?_cons]
      rw [ih]
    · have : ¬ e.1 = k := by
        intro hek
        rw [hek] at hp
        exact hp h
      simp [List.filter_cons, hp, List.find?_cons, this, ih]

theorem getOption_sub (o : OptionsTree) (p k : OptPath) (h : p.isPrefixOf k = true) :
    (o.sub p).getOption k = o.getOption k := by
  unfold getOption getOptionD
  rw [find?_sub o p k h]

theorem getChildOptionNames_sub (o : OptionsTree) (p : OptPath) (direct internal : Bool) :
    (o.sub p).getChildOptionNames p direct internal =
      o.getChildOptionNames p direct internal := by
  unfold getChildOptionNames
  have : (o.sub p).allOptionNames.filter
        (fun k => p.isPrefixOf k && decide (p.length < k.length)) =
      o.allOptionNames.filter (fun k => p.isPrefixOf k && decide (p.length < k.length)) := by
    unfold allOptionNames sub
    simp only [List.filter_map, List.filter_filter]
    congr 1
    apply List.filter_congr
    intro e _
    simp only [Function.comp]
    by_cases hp : p.isPrefixOf e.1 = true <;> simp [hp]
  simp only [this]

end OptionsTree


/-! ## Enumeration -/

theorem mem_nubFirst {α : Type} [DecidableEq α] (a : α) :
    ∀ l : List α, a ∈ nubFirst l ↔ a ∈ l
  | [] => by simp [nubFirst]
  | b :: l => by
    unfold nubFirst
    by_cases h : a = b
    · simp [h]
    · simp [List.mem_filter, mem_nubFirst a l, h]

theorem nubFirst_filter {α : Type} [DecidableEq α] (P : α → Bool) :
    ∀ l : List α, (nubFirst l).filter P = nubFirst (l.filter P)
  | [] => rfl
  | a :: l => by
    by_cases h : P a = true
    · simp only [nubFirst, List.filter_cons, h, if_true]
      rw [List.filter_filter, ← nubFirst_filter P l, List.filter_filter]
      congr 1
      apply List.filter_congr
      intro x _
      exact Bool.and_comm _ _
    · have h' : P a = false := by simpa using h
      simp only [nubFirst, List.filter_cons, h', Bool.false_eq_true, if_false]
      rw [List.filter_filter, ← nubFirst_filter P l]
      apply List.filter_congr
      intro x _
      by_cases hx : x = a
      · simp [hx, h']
      · simp [hx]

theorem nubFirst_cons {α : Type} [DecidableEq α] (a : α) (l : List α) :
    nubFirst (a :: l) = a :: nubFirst (l.filter (fun b => decide (b ≠ a))) := by
  rw [← nubFirst_filter]
  rfl

theorem nubFirst_of_nodup {α : Type} [DecidableEq α] :
    ∀ l : List α, l.Nodup → nubFirst l = l
  | [], _ => rfl
  | a :: l, h => by
    rw [List.nodup_cons] at h
    rw [nubFirst_cons, List.filter_eq_self.mpr, nubFirst_of_nodup l h.2]
    intro b hb
    have : b ≠ a := fun e => h.1 (e ▸ hb)
    simp [this]

theorem nodup_nubFirst {α : Type} [DecidableEq α] : ∀ l : List α, (nubFirst l).Nodup
  | [] => by simp [nubFirst]
  | a :: l => by
    unfold nubFirst
    rw [List.nodup_cons]
    refine ⟨by simp [List.mem_filter], (nodup_nubFirst l).filter _⟩

namespace OptionsTree

theorem mem_allOptionNames_of_find? (o : OptionsTree) (k : OptPath) (v : Variant)
    (h : o.find? k = some v) : k ∈ o.allOptionNames := by
  unfold find? at h
  unfold allOptionNames
  simp only [Option.map_eq_some'] at h
  obtain ⟨e, he, -⟩ := h
  have hm := List.mem_of_find?_eq_some he
  have hk := List.find?_some he
  simp only [decide_eq_true_eq] at hk
  exact List.mem_map.mpr ⟨e, hm, hk⟩

theorem find?_isSome_of_mem (o : OptionsTree) (k : OptPath) (h : k ∈ o.allOptionNames) :
    (o.find? k).isSome = true := by
  unfold allOptionNames at h
  unfold find?
  obtain ⟨e, he, hk⟩ := List.mem_map.mp h
  rw [Option.isSome_map']
  rw [List.find?_isSome]
  exact ⟨e, he, by simp [hk]⟩

/-- A child listed by the direct enumeration is the parent followed by one segment, and
some set option lies at or below it. -/
theorem mem_getChildOptionNames_direct (o : OptionsTree) (p c : OptPath) :
    c ∈ o.getChildOptionNames p true true ↔
      ∃ k ∈ o.allOptionNames, p.isPrefixOf k = true ∧ p.length < k.length ∧
        c = k.take (p.length + 1) := by
  unfold getChildOptionNames
  simp only [mem_nubFirst, List.mem_map, List.mem_filter, Bool.and_eq_true, decide_eq_true_eq]
  constructor
  · rintro ⟨k, ⟨hk, hp, hl⟩, rfl⟩
    exact ⟨k, hk, hp, hl, rfl⟩
  · rintro ⟨k, hk, hp, hl, rfl⟩
    exact ⟨k, ⟨hk, hp, hl⟩, rfl⟩

theorem child_shape (o : OptionsTree) (p c : OptPath)
    (h : c ∈ o.getChildOptionNames p true true) : ∃ seg : String, c = p ++ [seg] := by
  rw [mem_getChildOptionNames_direct] at h
  obtain ⟨k, -, hp, hl, rfl⟩ := h
  rw [isPrefixOf_iff] at hp
  obtain ⟨t, rfl⟩ := hp
  cases t with
  | nil => simp at hl
  | cons seg t =>
    refine ⟨seg, ?_⟩
    rw [List.take_append_eq_append_take]
    simp

/-- A set option one or more segments below the parent puts its first node among the
children. -/
theorem child_mem_of_find? (o : OptionsTree) (p : OptPath) (seg : String) (t : OptPath)
    (v : Variant) (h : o.find? (p ++ seg :: t) = some v) :
    p ++ [seg] ∈ o.getChildOptionNames p true true := by
  rw [mem_getChildOptionNames_direct]
  refine ⟨p ++ seg :: t, mem_allOptionNames_of_find? o _ v h, isPrefixOf_append_self _ _,
    by simp, ?_⟩
  rw [List.take_append_eq_append_take]
  simp

theorem mem_getChildOptionNames_all (o : OptionsTree) (k : OptPath) (hk : k ≠ []) :
    k ∈ o.getChildOptionNames ↔ k ∈ o.allOptionNames := by
  unfold getChildOptionNames
  simp only [mem_nubFirst, List.mem_filter, List.isPrefixOf, List.length_nil, Bool.true_and,
    decide_eq_true_eq]
  constructor
  · exact fun h => h.1
  · intro h
    exact ⟨h, List.length_pos.mpr hk⟩

end OptionsTree


/-! ## The map operations -/

namespace OptionsTree

theorem mapNode_injective (basename : OptPath) (i j : Nat)
    (h : basename ++ ["m" ++ toString i] = basename ++ ["m" ++ toString j]) : i = j := by
  have := List.append_cancel_left h
  simp only [List.cons.injEq, and_true] at this
  exact segment_injective "m" i j this

theorem firstUnusedIndex_not_mem (basename : OptPath) (children : List OptPath) :
    basename ++ ["m" ++ toString (firstUnusedIndex basename children)] ∉ children := by
  unfold firstUnusedIndex
  cases h : (List.range (children.length + 1)).find?
      (fun i => decide (basename ++ ["m" ++ toString i] ∉ children)) with
  | some i =>
    have := List.find?_some h
    simpa using this
  | none =>
    exfalso
    rw [List.find?_eq_none] at h
    have hall : ∀ i ∈ List.range (children.length + 1),
        basename ++ ["m" ++ toString i] ∈ children := by
      intro i hi
      have := h i hi
      simpa using this
    have hnd : ((List.range (children.length + 1)).map
        (fun i => basename ++ ["m" ++ toString i])).Nodup := by
      apply List.Nodup.map _ (List.nodup_range _)
      intro i j hij
      exact mapNode_injective basename i j hij
    have hsub : ((List.range (children.length + 1)).map
        (fun i => basename ++ ["m" ++ toString i])) ⊆ children := by
      intro x hx
      obtain ⟨i, hi, rfl⟩ := List.mem_map.mp hx
      exact hall i hi
    have := (List.subperm_of_subset hnd hsub).length_le
    simp at this

theorem firstUnusedIndex_min (basename : OptPath) (children : List OptPath) (j : Nat)
    (hj : j < firstUnusedIndex basename children) :
    basename ++ ["m" ++ toString j] ∈ children := by
  unfold firstUnusedIndex at hj
  cases h : (List.range (children.length + 1)).find?
      (fun i => decide (basename ++ ["m" ++ toString i] ∉ children)) with
  | some i =>
    rw [h] at hj
    simp only [Option.getD_some] at hj
    rw [List.find?_range_eq_some] at h
    have := h.2.2 j hj
    simpa using this
  | none =>
    exfalso
    have := firstUnusedIndex_not_mem basename children
    unfold firstUnusedIndex at this
    rw [h] at this
    rw [List.find?_eq_none] at h
    have h1 := h children.length (by simp)
    simp only [Option.getD_none] at this
    simp [this] at h1

theorem find?_congr_mem {α : Type} (p q : α → Bool) :
    ∀ l : List α, (∀ x ∈ l, p x = q x) → l.find? p = l.find? q
  | [], _ => rfl
  | a :: l, h => by
    have ha := h a (List.mem_cons_self a l)
    have ih := find?_congr_mem p q l (fun x hx => h x (List.mem_cons_of_mem a hx))
    simp [List.find?_cons, ha, ih]

/-- The node `mapPut` returns lies directly below the map. -/
theorem mapPut_fst_shape (o : OptionsTree) (basename : OptPath) (key : Variant) :
    ∃ seg : String, (o.mapPut basename key).1 = basename ++ [seg] := by
  unfold mapPut
  cases h : o.mapFind? basename key with
  | some path =>
    simp only
    unfold mapFind? at h
    exact child_shape o basename path (List.mem_of_find?_eq_some h)
  | none => exact ⟨_, rfl⟩

theorem mapFind?_sub (o : OptionsTree) (p : OptPath) (key : Variant) :
    (o.sub p).mapFind? p key = o.mapFind? p key := by
  unfold mapFind?
  rw [getChildOptionNames_sub]
  apply find?_congr_mem
  intro c hc
  obtain ⟨seg, rfl⟩ := child_shape o p c hc
  rw [getOption_sub]
  rw [List.append_assoc]
  exact isPrefixOf_append_self _ _

theorem mapPut_sub_fst (o : OptionsTree) (p : OptPath) (key : Variant) :
    ((o.sub p).mapPut p key).1 = (o.mapPut p key).1 := by
  unfold mapPut
  rw [mapFind?_sub, getChildOptionNames_sub]
  cases o.mapFind? p key <;> rfl

theorem mapPut_sub_snd (o : OptionsTree) (p : OptPath) (key : Variant) :
    ((o.sub p).mapPut p key).2 = (o.mapPut p key).2.sub p := by
  unfold mapPut
  rw [mapFind?_sub, getChildOptionNames_sub]
  cases o.mapFind? p key with
  | some path => rfl
  | none =>
    simp only
    rw [sub_setOption_of_under]
    rw [List.append_assoc]
    exact isPrefixOf_append_self _ _

/-- `mapPut` writes nothing outside the map. -/
theorem removeOption_mapPut (o : OptionsTree) (p q : OptPath) (key : Variant)
    (h : q.isPrefixOf p = true) :
    (o.mapPut p key).2.removeOption q true = o.removeOption q true := by
  unfold mapPut
  cases o.mapFind? p key with
  | some path => rfl
  | none =>
    simp only
    apply removeOption_setOption_of_under
    apply isPrefixOf_trans q p _ h
    rw [List.append_assoc]
    exact isPrefixOf_append_self _ _

end OptionsTree


/-! ## Writes outside a subtree -/

theorem find?_filter_key (P : OptPath → Bool) (k : OptPath) (hk : P k = true) :
    ∀ es : List (OptPath × Variant),
      (es.filter (fun e => P e.1)).find? (fun e => decide (e.1 = k)) =
        es.find? (fun e => decide (e.1 = k))
  | [] => rfl
  | e :: es => by
    by_cases hp : P e.1 = true
    · simp only [List.filter_cons, hp, if_true, List.find?_cons]
      rw [find?_filter_key P k hk es]
    · have : ¬ e.1 = k := by
        intro hek
        rw [hek] at hp
        exact hp hk
      simp [List.filter_cons, hp, List.find?_cons, this, find?_filter_key P k hk es]

namespace OptionsTree

theorem find?_removeOption_of_not_under (o : OptionsTree) (p k : OptPath)
    (h : p.isPrefixOf k = false) : (o.removeOption p true).find? k = o.find? k := by
  unfold find?
  rw [removeOption_recursive_entries]
  rw [find?_filter_key (fun q => !p.isPrefixOf q) k (by simp [h])]

theorem getOption_congr_outside (o o' : OptionsTree) (p k : OptPath)
    (he : o'.removeOption p true = o.removeOption p true) (h : p.isPrefixOf k = false) :
    o'.getOption k = o.getOption k := by
  unfold getOption getOptionD
  rw [← find?_removeOption_of_not_under o' p k h, he, find?_removeOption_of_not_under o p k h]

theorem find?_congr_outside (o o' : OptionsTree) (p k : OptPath)
    (he : o'.removeOption p true = o.removeOption p true) (h : p.isPrefixOf k = false) :
    o'.find? k = o.find? k := by
  rw [← find?_removeOption_of_not_under o' p k h, he, find?_removeOption_of_not_under o p k h]

theorem sub_removeOption_of_disjoint (o : OptionsTree) (p q : OptPath)
    (hd : ∀ k : OptPath, q.isPrefixOf k = true → p.isPrefixOf k = false) :
    (o.removeOption p true).sub q = o.sub q := by
  unfold sub
  rw [removeOption_recursive_entries, List.filter_filter]
  congr 1
  apply List.filter_congr
  intro e _
  by_cases hq : q.isPrefixOf e.1 = true
  · simp [hq, hd e.1 hq]
  · simp [hq]

theorem sub_congr_outside (o o' : OptionsTree) (p q : OptPath)
    (he : o'.removeOption p true = o.removeOption p true)
    (hd : ∀ k : OptPath, q.isPrefixOf k = true → p.isPrefixOf k = false) :
    o'.sub q = o.sub q := by
  rw [← sub_removeOption_of_disjoint o' p q hd, he, sub_removeOption_of_disjoint o p q hd]

theorem eq_of_entries (a b : OptionsTree) (h : a.entries = b.entries) : a = b := by
  cases a; cases b; simp_all

theorem removeOption_removeOption_of_under (o : OptionsTree) (p r : OptPath)
    (h : r.isPrefixOf p = true) :
    (o.removeOption p true).removeOption r true = o.removeOption r true := by
  apply eq_of_entries
  rw [removeOption_recursive_entries, removeOption_recursive_entries,
    removeOption_recursive_entries, List.filter_filter]
  apply List.filter_congr
  intro e _
  by_cases hr : r.isPrefixOf e.1 = true
  · simp [hr]
  · have hp : p.isPrefixOf e.1 = false := by
      by_contra hc
      have hc' : p.isPrefixOf e.1 = true := by simpa using hc
      exact hr (isPrefixOf_trans r p e.1 h hc')
    simp [hr, hp]

theorem removeOption_congr_outside (o o' : OptionsTree) (p r : OptPath)
    (he : o'.removeOption p true = o.removeOption p true) (h : r.isPrefixOf p = true) :
    o'.removeOption r true = o.removeOption r true := by
  rw [← removeOption_removeOption_of_under o' p r h, he,
    removeOption_removeOption_of_under o p r h]

theorem replaceEntry_none_of_forall (k : OptPath) (v : Variant) :
    ∀ es : List (OptPath × Variant), (∀ e ∈ es, e.1 ≠ k) → replaceEntry k v es = none
  | [], _ => rfl
  | e :: es, h => by
    unfold replaceEntry
    have he := h e (List.mem_cons_self e es)
    simp only [he, if_false]
    rw [replaceEntry_none_of_forall k v es (fun x hx => h x (List.mem_cons_of_mem e hx))]
    rfl

theorem setOption_of_not_mem (o : OptionsTree) (k : OptPath) (v : Variant)
    (h : ∀ e ∈ o.entries, e.1 ≠ k) : o.setOption k v = ⟨o.entries ++ [(k, v)]⟩ := by
  unfold setOption
  rw [replaceEntry_none_of_forall k v o.entries h]

end OptionsTree

/-! ## Sibling subtrees -/

theorem isPrefixOf_sibling (b : OptPath) (x y : String) (hxy : x ≠ y) (t : OptPath)
    (k : OptPath) (h : (b ++ x :: t).isPrefixOf k = true) :
    (b ++ [y]).isPrefixOf k = false := by
  rw [isPrefixOf_iff] at h
  obtain ⟨s, rfl⟩ := h
  by_contra hc
  have hc' : (b ++ [y]).isPrefixOf (b ++ x :: t ++ s) = true := by simpa using hc
  rw [List.append_assoc, isPrefixOf_append_append] at hc'
  simp [List.isPrefixOf] at hc'
  exact hxy hc'.symm

theorem isPrefixOf_singleton_cons (b : OptPath) (x y : String) (t : OptPath) :
    (b ++ [x]).isPrefixOf (b ++ y :: t) = decide (x = y) := by
  rw [isPrefixOf_append_append]
  simp only [List.isPrefixOf, Bool.and_true]
  rfl

/-! ## The roster cache in the store -/

theorem rosterNode_injective (b : OptPath) (i j : Nat) (f g : OptPath)
    (h : b ++ ["roster-cache", "a" ++ toString i] ++ f =
      b ++ ["roster-cache", "a" ++ toString j] ++ g) : i = j ∧ f = g := by
  rw [List.append_assoc, List.append_assoc] at h
  have := List.append_cancel_left h
  simp only [List.cons_append, List.nil_append, List.cons.injEq, true_and] at this
  exact ⟨segment_injective "a" i j this.1, this.2⟩

theorem removeOption_rosterToOptions (b : OptPath) (r : OptPath)
    (h : r.isPrefixOf (b ++ ["roster-cache"]) = true) :
    ∀ (l : List RosterItem) (idx : Nat) (o : OptionsTree),
      (UserAccount.rosterToOptions b l idx o).removeOption r true = o.removeOption r true
  | [], _, _ => rfl
  | ri :: rest, idx, o => by
    have hu : ∀ f : String,
        r.isPrefixOf (b ++ ["roster-cache", "a" ++ toString idx] ++ [f]) = true := by
      intro f
      apply isPrefixOf_trans r _ _ h
      rw [isPrefixOf_iff]
      exact ⟨["a" ++ toString idx, f], by simp⟩
    unfold UserAccount.rosterToOptions
    simp only
    rw [removeOption_rosterToOptions b r h rest (idx + 1)]
    rw [OptionsTree.removeOption_setOption_of_under _ _ _ _ (hu _),
      OptionsTree.removeOption_setOption_of_under _ _ _ _ (hu _),
      OptionsTree.removeOption_setOption_of_under _ _ _ _ (hu _),
      OptionsTree.removeOption_setOption_of_under _ _ _ _ (hu _),
      OptionsTree.removeOption_setOption_of_under _ _ _ _ (hu _)]

theorem sub_rosterToOptions (b : OptPath) :
    ∀ (l : List RosterItem) (idx : Nat) (o : OptionsTree),
      (UserAccount.rosterToOptions b l idx o).sub (b ++ ["roster-cache"]) =
        UserAccount.rosterToOptions b l idx (o.sub (b ++ ["roster-cache"]))
  | [], _, _ => rfl
  | ri :: rest, idx, o => by
    have hu : ∀ f : String, (b ++ ["roster-cache"]).isPrefixOf
        (b ++ ["roster-cache", "a" ++ toString idx] ++ [f]) = true := by
      intro f
      rw [isPrefixOf_iff]
      exact ⟨["a" ++ toString idx, f], by simp⟩
    unfold UserAccount.rosterToOptions
    simp only
    rw [sub_rosterToOptions b rest (idx + 1)]
    rw [OptionsTree.sub_setOption_of_under _ _ _ _ (hu _),
      OptionsTree.sub_setOption_of_under _ _ _ _ (hu _),
      OptionsTree.sub_setOption_of_under _ _ _ _ (hu _),
      OptionsTree.sub_setOption_of_under _ _ _ _ (hu _),
      OptionsTree.sub_setOption_of_under _ _ _ _ (hu _)]

theorem nubFirst_append_singleton {α : Type} [DecidableEq α] (c : α) :
    ∀ l : List α, nubFirst (l ++ [c]) = if c ∈ l then nubFirst l else nubFirst l ++ [c]
  | [] => by simp [nubFirst]
  | a :: l => by
    have e1 : nubFirst (a :: l ++ [c]) =
        a :: (nubFirst (l ++ [c])).filter (fun b => decide (b ≠ a)) := rfl
    have e2 : nubFirst (a :: l) = a :: (nubFirst l).filter (fun b => decide (b ≠ a)) := rfl
    rw [e1, e2, nubFirst_append_singleton c l]
    by_cases hc : c ∈ l
    · simp [hc]
    · by_cases hca : c = a
      · subst hca
        simp [hc, List.filter_append]
      · have : ¬ c ∈ a :: l := by simp [hca, hc]
        simp [hc, this, hca, List.filter_append]

theorem replaceEntry_keys (k : OptPath) (v : Variant) :
    ∀ (es r : List (OptPath × Variant)), replaceEntry k v es = some r →
      r.map (fun e => e.1) = es.map (fun e => e.1) ∧ k ∈ es.map (fun e => e.1)
  | [], r, h => by simp [replaceEntry] at h
  | e :: es, r, h => by
    unfold replaceEntry at h
    by_cases he : e.1 = k
    · simp only [he, if_true, Option.some.injEq] at h
      subst h
      simp [he]
    · simp only [he, if_false, Option.map_eq_some'] at h
      obtain ⟨r', hr', rfl⟩ := h
      have ih := replaceEntry_keys k v es r' hr'
      simp only [List.map_cons, ih.1, List.mem_cons, true_and]
      exact Or.inr ih.2

theorem replaceEntry_none_not_mem (k : OptPath) (v : Variant) :
    ∀ es : List (OptPath × Variant), replaceEntry k v es = none →
      k ∉ es.map (fun e => e.1)
  | [], _ => by simp
  | e :: es, h => by
    unfold replaceEntry at h
    by_cases he : e.1 = k
    · simp [he] at h
    · simp only [he, if_false, Option.map_eq_none'] at h
      have ih := replaceEntry_none_not_mem k v es h
      simp only [List.map_cons, List.mem_cons, not_or]
      exact ⟨fun hk => he hk.symm, ih⟩

namespace OptionsTree

theorem allOptionNames_setOption (o : OptionsTree) (k : OptPath) (v : Variant) :
    (o.setOption k v).allOptionNames =
      if k ∈ o.allOptionNames then o.allOptionNames else o.allOptionNames ++ [k] := by
  unfold setOption allOptionNames
  cases h : replaceEntry k v o.entries with
  | some r =>
    have := replaceEntry_keys k v o.entries r h
    simp [this.1, this.2]
  | none =>
    have := replaceEntry_none_not_mem k v o.entries h
    simp [this]

/-- Setting an option below `p` leaves the direct children of `p` as they are when the
node of the option is already listed, and lists that node last otherwise. -/
theorem getChildOptionNames_setOption_of_under (o : OptionsTree) (p k : OptPath)
    (v : Variant) (hp : p.isPrefixOf k = true) (hl : p.length < k.length) :
    (o.setOption k v).getChildOptionNames p true true =
      if k.take (p.length + 1) ∈ o.getChildOptionNames p true true then
        o.getChildOptionNames p true true
      else o.getChildOptionNames p true true ++ [k.take (p.length + 1)] := by
  unfold getChildOptionNames
  simp only
  rw [allOptionNames_setOption]
  by_cases hk : k ∈ o.allOptionNames
  · have hm : k.take (p.length + 1) ∈ nubFirst
        ((o.allOptionNames.filter
          (fun k => p.isPrefixOf k && decide (p.length < k.length))).map
          (fun k => k.take (p.length + 1))) := by
      rw [mem_nubFirst]
      exact List.mem_map.mpr ⟨k, List.mem_filter.mpr ⟨hk, by simp [hp, hl]⟩, rfl⟩
    simp [hk, hm]
  · simp only [hk, if_false, List.filter_append, List.filter_cons, hp, hl, decide_True,
      Bool.and_self, if_true, List.filter_nil, List.map_append, List.map_cons, List.map_nil]
    rw [nubFirst_append_singleton]
    simp only [mem_nubFirst]
    by_cases hm : List.take (p.length + 1) k ∈
        List.map (fun k => List.take (p.length + 1) k)
          (List.filter (fun k => p.isPrefixOf k && decide (p.length < k.length))
            o.allOptionNames)
    · rw [if_pos hm, if_pos hm]
    · rw [if_neg hm, if_neg hm]

theorem getChildOptionNames_congr_sub (o o' : OptionsTree) (p : OptPath)
    (h : o'.sub p = o.sub p) :
    o'.getChildOptionNames p true true = o.getChildOptionNames p true true := by
  rw [← getChildOptionNames_sub o', h, getChildOptionNames_sub]

theorem getChildOptionNames_setOption_of_not_under (o : OptionsTree) (p k : OptPath)
    (v : Variant) (hp : p.isPrefixOf k = false) :
    (o.setOption k v).getChildOptionNames p true true = o.getChildOptionNames p true true :=
  getChildOptionNames_congr_sub o _ p (sub_setOption_of_not_under o p k v hp)

end OptionsTree

/-- The node of the roster cache entry with a given index. -/
theorem rosterNode_take (b : OptPath) (i : Nat) (f : String) :
    (b ++ ["roster-cache", "a" ++ toString i] ++ [f]).take ((b ++ ["roster-cache"]).length + 1) =
      b ++ ["roster-cache", "a" ++ toString i] := by
  have : b ++ ["roster-cache", "a" ++ toString i] ++ [f] =
      (b ++ ["roster-cache", "a" ++ toString i]) ++ [f] := rfl
  rw [this, List.take_append_eq_append_take]
  simp

theorem getChildOptionNames_rosterToOptions (b : OptPath) :
    ∀ (l : List RosterItem) (idx : Nat) (o : OptionsTree),
      (∀ j, idx ≤ j → b ++ ["roster-cache", "a" ++ toString j] ∉
        o.getChildOptionNames (b ++ ["roster-cache"]) true true) →
      (UserAccount.rosterToOptions b l idx o).getChildOptionNames (b ++ ["roster-cache"])
          true true =
        o.getChildOptionNames (b ++ ["roster-cache"]) true true ++
          (List.range' idx l.length).map (fun j => b ++ ["roster-cache", "a" ++ toString j])
  | [], _, _, _ => by simp [UserAccount.rosterToOptions]
  | ri :: rest, idx, o, h => by
    have hu : ∀ f : String, (b ++ ["roster-cache"]).isPrefixOf
        (b ++ ["roster-cache", "a" ++ toString idx] ++ [f]) = true := by
      intro f
      rw [isPrefixOf_iff]
      exact ⟨["a" ++ toString idx, f], by simp⟩
    have hlen : ∀ f : String, (b ++ ["roster-cache"]).length <
        (b ++ ["roster-cache", "a" ++ toString idx] ++ [f]).length := by
      intro f
      simp
    unfold UserAccount.rosterToOptions
    simp only
    have step : ∀ (o1 : OptionsTree) (f : String) (v : Variant),
        b ++ ["roster-cache", "a" ++ toString idx] ∈
          o1.getChildOptionNames (b ++ ["roster-cache"]) true true →
        (o1.setOption (b ++ ["roster-cache", "a" ++ toString idx] ++ [f]) v).getChildOptionNames
          (b ++ ["roster-cache"]) true true =
          o1.getChildOptionNames (b ++ ["roster-cache"]) true true := by
      intro o1 f v hm
      rw [OptionsTree.getChildOptionNames_setOption_of_under _ _ _ _ (hu f) (hlen f),
        rosterNode_take]
      simp [hm]
    have first : (o.setOption (b ++ ["roster-cache", "a" ++ toString idx] ++ ["jid"])
          (Variant.str ri.jid.full)).getChildOptionNames (b ++ ["roster-cache"]) true true =
        o.getChildOptionNames (b ++ ["roster-cache"]) true true ++
          [b ++ ["roster-cache", "a" ++ toString idx]] := by
      rw [OptionsTree.getChildOptionNames_setOption_of_under _ _ _ _ (hu _) (hlen _),
        rosterNode_take]
      simp [h idx (le_refl _)]
    have hmem1 : b ++ ["roster-cache", "a" ++ toString idx] ∈
        (o.setOption (b ++ ["roster-cache", "a" ++ toString idx] ++ ["jid"])
          (Variant.str ri.jid.full)).getChildOptionNames (b ++ ["roster-cache"]) true true := by
      rw [first]
      simp
    rw [getChildOptionNames_rosterToOptions b rest (idx + 1)]
    · rw [step _ _ _ (by rw [step _ _ _ (by rw [step _ _ _ (by rw [step _ _ _ hmem1]; exact hmem1)]; rw [step _ _ _ hmem1]; exact hmem1)]; rw [step _ _ _ (by rw [step _ _ _ hmem1]; exact hmem1)]; rw [step _ _ _ hmem1]; exact hmem1)]
      rw [step _ _ _ (by rw [step _ _ _ (by rw [step _ _ _ hmem1]; exact hmem1)]; rw [step _ _ _ hmem1]; exact hmem1)]
      rw [step _ _ _ (by rw [step _ _ _ hmem1]; exact hmem1)]
      rw [step _ _ _ hmem1, first]
      simp [List.range'_succ]
    · intro j hj
      rw [step _ _ _ (by rw [step _ _ _ (by rw [step _ _ _ (by rw [step _ _ _ hmem1]; exact hmem1)]; rw [step _ _ _ hmem1]; exact hmem1)]; rw [step _ _ _ (by rw [step _ _ _ hmem1]; exact hmem1)]; rw [step _ _ _ hmem1]; exact hmem1)]
      rw [step _ _ _ (by rw [step _ _ _ (by rw [step _ _ _ hmem1]; exact hmem1)]; rw [step _ _ _ hmem1]; exact hmem1)]
      rw [step _ _ _ (by rw [step _ _ _ hmem1]; exact hmem1)]
      rw [step _ _ _ hmem1, first]
      simp only [List.mem_append, List.mem_singleton, not_or]
      refine ⟨h j (by omega), ?_⟩
      intro heq
      have := (rosterNode_injective b j idx [] [] (by simpa using heq)).1
      omega


/-! ## Stores that agree outside a set of paths -/

namespace OptionsTree

theorem AgreeOutside.refl (K : OptPath → Bool) (o : OptionsTree) : AgreeOutside K o o := rfl

theorem AgreeOutside.trans {K : OptPath → Bool} {o1 o2 o3 : OptionsTree}
    (h1 : AgreeOutside K o1 o2) (h2 : AgreeOutside K o2 o3) : AgreeOutside K o1 o3 := by
  unfold AgreeOutside at *
  rw [h2, h1]

theorem AgreeOutside.mono {K K' : OptPath → Bool} {o o' : OptionsTree}
    (h : AgreeOutside K o o') (hk : ∀ k, K k = true → K' k = true) : AgreeOutside K' o o' := by
  unfold AgreeOutside at *
  have e : ∀ es : List (OptPath × Variant), es.filter (fun e => !K' e.1) =
      (es.filter (fun e => !K e.1)).filter (fun e => !K' e.1) := by
    intro es
    rw [List.filter_filter]
    apply List.filter_congr
    intro x _
    by_cases h1 : K x.1 = true
    · simp [h1, hk x.1 h1]
    · simp [h1]
  rw [e o'.entries, e o.entries, h]

theorem AgreeOutside.setOption (K : OptPath → Bool) (o : OptionsTree) (k : OptPath)
    (v : Variant) (hk : K k = true) : AgreeOutside K o (o.setOption k v) :=
  filter_setOption_of_false (fun q => !K q) o k v (by simp [hk])

theorem AgreeOutside.removeOption_single (K : OptPath → Bool) (o : OptionsTree)
    (k : OptPath) (hk : K k = true) : AgreeOutside K o (o.removeOption k false) := by
  unfold AgreeOutside OptionsTree.removeOption
  simp only [Bool.false_and, Bool.or_false, List.filter_filter]
  apply List.filter_congr
  intro e _
  by_cases he : e.1 = k
  · simp [he, hk]
  · simp [he]

theorem AgreeOutside.find? {K : OptPath → Bool} {o o' : OptionsTree}
    (h : AgreeOutside K o o') (k : OptPath) (hk : K k = false) : o'.find? k = o.find? k := by
  unfold AgreeOutside at h
  unfold OptionsTree.find?
  rw [← find?_filter_key (fun q => !K q) k (by simp [hk]) o'.entries, h,
    find?_filter_key (fun q => !K q) k (by simp [hk]) o.entries]

theorem AgreeOutside.getOption {K : OptPath → Bool} {o o' : OptionsTree}
    (h : AgreeOutside K o o') (k : OptPath) (hk : K k = false) :
    o'.getOption k = o.getOption k := by
  unfold OptionsTree.getOption OptionsTree.getOptionD
  rw [h.find? k hk]

theorem AgreeOutside.sub {K : OptPath → Bool} {o o' : OptionsTree}
    (h : AgreeOutside K o o') (q : OptPath)
    (hq : ∀ k : OptPath, q.isPrefixOf k = true → K k = false) : o'.sub q = o.sub q := by
  unfold AgreeOutside at h
  unfold OptionsTree.sub
  have e : ∀ es : List (OptPath × Variant), es.filter (fun e => q.isPrefixOf e.1) =
      (es.filter (fun e => !K e.1)).filter (fun e => q.isPrefixOf e.1) := by
    intro es
    rw [List.filter_filter]
    apply List.filter_congr
    intro x _
    by_cases h1 : q.isPrefixOf x.1 = true
    · simp [h1, hq x.1 h1]
    · simp [h1]
  rw [e o'.entries, e o.entries, h]

theorem AgreeOutside.removeOption {K : OptPath → Bool} {o o' : OptionsTree}
    (h : AgreeOutside K o o') (r : OptPath)
    (hr : ∀ k : OptPath, K k = true → r.isPrefixOf k = true) :
    o'.removeOption r true = o.removeOption r true := by
  apply eq_of_entries
  rw [removeOption_recursive_entries, removeOption_recursive_entries]
  exact @AgreeOutside.mono K (fun k => r.isPrefixOf k) o o' h hr

theorem agreeOutside_of_removeOption {o o' : OptionsTree} (p : OptPath)
    (h : o'.removeOption p true = o.removeOption p true) :
    AgreeOutside (fun k => p.isPrefixOf k) o o' := by
  unfold AgreeOutside
  rw [← removeOption_recursive_entries, ← removeOption_recursive_entries, h]

theorem AgreeOutside.mapPut (K : OptPath → Bool) (o : OptionsTree) (p : OptPath)
    (key : Variant) (hk : ∀ k, p.isPrefixOf k = true → K k = true) :
    AgreeOutside K o (o.mapPut p key).2 := by
  unfold OptionsTree.mapPut
  cases o.mapFind? p key with
  | some path => exact AgreeOutside.refl K o
  | none =>
    apply AgreeOutside.setOption
    apply hk
    rw [List.append_assoc]
    exact isPrefixOf_append_self _ _

end OptionsTree

theorem agreeOutside_rosterToOptions (K : OptPath → Bool) (b : OptPath)
    (hk : ∀ k, (b ++ ["roster-cache"]).isPrefixOf k = true → K k = true) :
    ∀ (l : List RosterItem) (idx : Nat) (o : OptionsTree),
      OptionsTree.AgreeOutside K o (UserAccount.rosterToOptions b l idx o)
  | [], _, o => OptionsTree.AgreeOutside.refl K o
  | ri :: rest, idx, o => by
    have hu : ∀ f : String, K (b ++ ["roster-cache", "a" ++ toString idx] ++ [f]) = true := by
      intro f
      apply hk
      rw [isPrefixOf_iff]
      exact ⟨["a" ++ toString idx, f], by simp⟩
    unfold UserAccount.rosterToOptions
    simp only
    refine OptionsTree.AgreeOutside.trans ?_ (agreeOutside_rosterToOptions K b hk rest (idx + 1) _)
    refine OptionsTree.AgreeOutside.trans ?_ (OptionsTree.AgreeOutside.setOption K _ _ _ (hu _))
    refine OptionsTree.AgreeOutside.trans ?_ (OptionsTree.AgreeOutside.setOption K _ _ _ (hu _))
    refine OptionsTree.AgreeOutside.trans ?_ (OptionsTree.AgreeOutside.setOption K _ _ _ (hu _))
    refine OptionsTree.AgreeOutside.trans ?_ (OptionsTree.AgreeOutside.setOption K _ _ _ (hu _))
    exact OptionsTree.AgreeOutside.setOption K _ _ _ (hu _)

theorem agreeOutside_groupStateToOptions (K : OptPath → Bool) (b : OptPath)
    (gs : QMap GroupData)
    (hk : ∀ k, (b ++ ["group-state"]).isPrefixOf k = true → K k = true) :
    ∀ (l : List String) (o : OptionsTree),
      OptionsTree.AgreeOutside K o (UserAccount.groupStateToOptions b gs l o)
  | [], o => OptionsTree.AgreeOutside.refl K o
  | group :: rest, o => by
    obtain ⟨seg, hseg⟩ := OptionsTree.mapPut_fst_shape o (b ++ ["group-state"])
      (Variant.str group)
    have hu : ∀ f : String,
        K ((o.mapPut (b ++ ["group-state"]) (Variant.str group)).1 ++ [f]) = true := by
      intro f
      apply hk
      rw [hseg, List.append_assoc]
      exact isPrefixOf_append_self _ _
    unfold UserAccount.groupStateToOptions
    simp only
    refine OptionsTree.AgreeOutside.trans ?_
      (agreeOutside_groupStateToOptions K b gs hk rest _)
    refine OptionsTree.AgreeOutside.trans ?_ (OptionsTree.AgreeOutside.setOption K _ _ _ (hu _))
    refine OptionsTree.AgreeOutside.trans ?_ (OptionsTree.AgreeOutside.setOption K _ _ _ (hu _))
    exact OptionsTree.AgreeOutside.mapPut K o _ _ hk


/-! ## The writes of `toOptions` -/

theorem OptionsTree.AgreeOutside.step {K : OptPath → Bool} {o o1 : OptionsTree}
    (k : OptPath) (v : Variant) (h : OptionsTree.AgreeOutside K o o1) (hk : K k = true) :
    OptionsTree.AgreeOutside K o (o1.setOption k v) :=
  h.trans (OptionsTree.AgreeOutside.setOption K o1 k v hk)

theorem OptionsTree.AgreeOutside.step_remove {K : OptPath → Bool} {o o1 : OptionsTree}
    (k : OptPath) (h : OptionsTree.AgreeOutside K o o1) (hk : K k = true) :
    OptionsTree.AgreeOutside K o (o1.removeOption k false) :=
  h.trans (OptionsTree.AgreeOutside.removeOption_single K o1 k hk)

theorem agreeOutside_toOptionsHead (env : Env) (u : UserAccount) (ssl plain : String)
    (b : OptPath) (o : OptionsTree) :
    OptionsTree.AgreeOutside (fun k => decide (k ∈ headKeys b)) o
      (UserAccount.toOptionsHead env u ssl plain b o) := by
  unfold UserAccount.toOptionsHead
  simp only
  iterate 34 (refine OptionsTree.AgreeOutside.step _ _ ?_ (by simp [headKeys]))
  exact OptionsTree.AgreeOutside.refl _ _

theorem agreeOutside_toOptionsTail (u : UserAccount) (b : OptPath) (o : OptionsTree)
    (hb : b ≠ []) :
    OptionsTree.AgreeOutside (fun k => decide (k ∈ tailKeys b)) o
      (UserAccount.toOptionsTail u b o) := by
  unfold UserAccount.toOptionsTail UserAccount.saveLastStatus
  have hbe : b.isEmpty = false := by cases b <;> simp_all
  simp only [hbe, Bool.false_eq_true, if_false]
  cases u.lastStatusWithPriority
  · simp only [Bool.false_eq_true, if_false, if_true]
    iterate 2 (refine OptionsTree.AgreeOutside.step _ _ ?_ (by simp [tailKeys]))
    refine OptionsTree.AgreeOutside.step_remove _ ?_ (by simp [tailKeys])
    iterate 11 (refine OptionsTree.AgreeOutside.step _ _ ?_ (by simp [tailKeys]))
    exact OptionsTree.AgreeOutside.refl _ _
  · simp only [Bool.false_eq_true, if_false, if_true]
    iterate 14 (refine OptionsTree.AgreeOutside.step _ _ ?_ (by simp [tailKeys]))
    exact OptionsTree.AgreeOutside.refl _ _


/-! ## QMap -/

namespace QMap

theorem insert_of_all_lt {β : Type} (k : String) (v : β) :
    ∀ m : QMap β, (∀ e ∈ m, e.1 < k) → insert k v m = m ++ [(k, v)]
  | [], _ => rfl
  | e :: es, h => by
    have he := h e (List.mem_cons_self e es)
    have h1 : ¬ e.1 = k := ne_of_lt he
    have h2 : ¬ k < e.1 := lt_asymm he
    simp only [insert, h1, h2, if_false, List.cons_append]
    rw [insert_of_all_lt k v es (fun x hx => h x (List.mem_cons_of_mem e hx))]

theorem foldl_insert_sorted {β : Type} (f : String → β) :
    ∀ (ks : List String) (acc : QMap β),
      (∀ e ∈ acc, ∀ g ∈ ks, e.1 < g) → ks.Pairwise (fun a b => a < b) →
      ks.foldl (fun m g => insert g (f g) m) acc = acc ++ ks.map (fun g => (g, f g))
  | [], acc, _, _ => by simp
  | g :: ks, acc, h, hs => by
    rw [List.pairwise_cons] at hs
    simp only [List.foldl_cons, List.map_cons]
    rw [insert_of_all_lt g (f g) acc (fun e he => h e he g (List.mem_cons_self g ks))]
    rw [foldl_insert_sorted f ks _ _ hs.2]
    · simp
    · intro e he x hx
      rcases List.mem_append.mp he with he | he
      · exact h e he x (List.mem_cons_of_mem g hx)
      · simp only [List.mem_singleton] at he
        subst he
        exact hs.1 x hx

theorem foldl_remove {β : Type} (rs : List String) :
    ∀ (m : QMap β), rs.foldl (fun m g => remove g m) m =
      m.filter (fun e => decide (e.1 ∉ rs)) := by
  induction rs with
  | nil => intro m; simp
  | cons r rs ih =>
    intro m
    rw [List.foldl_cons, ih (remove r m)]
    unfold remove
    rw [List.filter_filter]
    apply List.filter_congr
    intro e _
    by_cases h1 : e.1 = r <;> by_cases h2 : e.1 ∈ rs <;> simp [h1, h2]

theorem value_of_mem {β : Type} [Inhabited β] :
    ∀ (m : QMap β), (keys m).Nodup → ∀ e ∈ m, value m e.1 = e.2
  | [], _, e, he => by simp at he
  | x :: xs, hn, e, he => by
    unfold keys at hn
    rw [List.map_cons, List.nodup_cons] at hn
    unfold value lookup
    rcases List.mem_cons.mp he with rfl | he'
    · simp
    · have hne : ¬ x.1 = e.1 := by
        intro hxe
        apply hn.1
        rw [hxe]
        exact List.mem_map.mpr ⟨e, he', rfl⟩
      simp only [List.find?_cons, hne, decide_False]
      exact value_of_mem xs hn.2 e he'

theorem map_value_self {β : Type} [Inhabited β] (m : QMap β) (hn : (keys m).Nodup) :
    (keys m).map (fun g => (g, value m g)) = m := by
  unfold keys
  rw [List.map_map]
  conv_rhs => rw [← List.map_id m]
  apply List.map_congr_left
  intro e he
  simp only [Function.comp, id]
  rw [value_of_mem m hn e he]

theorem WF.nodup {β : Type} {m : QMap β} (h : WF m) : (keys m).Nodup := by
  unfold WF at h
  exact h.imp (fun hab => ne_of_lt hab)

theorem WF.filter {β : Type} {m : QMap β} (h : WF m) (P : String × β → Bool) :
    WF (m.filter P) := by
  unfold WF keys at *
  exact (List.pairwise_map.mp h).filter P |> List.pairwise_map.mpr

end QMap

theorem prunedGroupState_eq (env : Env) (u : UserAccount) :
    UserAccount.prunedGroupState env u =
      u.groupState.filter (fun e => decide (e.1 ∈ UserAccount.groupList env u)) := by
  unfold UserAccount.prunedGroupState
  simp only
  rw [QMap.foldl_remove]
  apply List.filter_congr
  intro e he
  have hk : e.1 ∈ QMap.keys u.groupState := List.mem_map.mpr ⟨e, he, rfl⟩
  simp [List.mem_filter, hk]

theorem prunedGroupState_wf (env : Env) (u : UserAccount) (h : QMap.WF u.groupState) :
    QMap.WF (UserAccount.prunedGroupState env u) := by
  rw [prunedGroupState_eq]
  exact h.filter _

theorem prunedGroupState_idem (env : Env) (u : UserAccount) (v : UserAccount)
    (hg : v.groupState = UserAccount.prunedGroupState env u)
    (hl : UserAccount.groupList env v = UserAccount.groupList env u) :
    UserAccount.prunedGroupState env v = UserAccount.prunedGroupState env u := by
  rw [prunedGroupState_eq env v, hg, hl, prunedGroupState_eq env u, List.filter_filter]
  apply List.filter_congr
  intro e _
  simp


/-! ## The layout of an option map -/

theorem mapNode_inj (p : OptPath) (i j : Nat) (f g : OptPath)
    (h : mapNode p i ++ f = mapNode p j ++ g) : i = j ∧ f = g := by
  unfold mapNode at h
  rw [List.append_assoc, List.append_assoc] at h
  have := List.append_cancel_left h
  simp only [List.cons_append, List.nil_append, List.cons.injEq] at this
  exact ⟨segment_injective "m" i j this.1, this.2⟩

theorem mapNode_under (p : OptPath) (j : Nat) (f : String) :
    p.isPrefixOf (mapNode p j ++ [f]) = true := by
  unfold mapNode
  rw [List.append_assoc]
  exact isPrefixOf_append_self _ _

theorem mapNode_take (p : OptPath) (j : Nat) (f : String) :
    (mapNode p j ++ [f]).take (p.length + 1) = mapNode p j := by
  unfold mapNode
  rw [List.take_append_eq_append_take]
  simp

namespace OptionsTree

theorem firstUnusedIndex_range (p : OptPath) (n : Nat) :
    firstUnusedIndex p ((List.range n).map (mapNode p)) = n := by
  have h1 := firstUnusedIndex_not_mem p ((List.range n).map (mapNode p))
  have h2 := firstUnusedIndex_min p ((List.range n).map (mapNode p))
  rcases Nat.lt_trichotomy (firstUnusedIndex p ((List.range n).map (mapNode p))) n with h | h | h
  · exfalso
    apply h1
    exact List.mem_map.mpr ⟨_, List.mem_range.mpr h, rfl⟩
  · exact h
  · exfalso
    have := h2 n h
    obtain ⟨i, hi, he⟩ := List.mem_map.mp this
    have := (mapNode_inj p i n [] [] (by simpa using he)).1
    rw [List.mem_range] at hi
    omega

theorem MapLayout.mapFind?_none {o : OptionsTree} {p : OptPath} {ks : List Variant}
    (h : o.MapLayout p ks) (key : Variant) (hk : key ∉ ks) : o.mapFind? p key = none := by
  unfold mapFind?
  rw [h.1, List.find?_eq_none]
  intro c hc
  obtain ⟨j, hj, rfl⟩ := List.mem_map.mp hc
  rw [List.mem_range] at hj
  have := h.2 j ks[j] (List.getElem?_eq_getElem hj)
  simp only [decide_eq_true_eq]
  rw [this]
  intro he
  exact hk (he ▸ List.getElem_mem hj)

theorem MapLayout.mapFind?_some {o : OptionsTree} {p : OptPath} {ks : List Variant}
    (h : o.MapLayout p ks) (hn : ks.Nodup) (j : Nat) (key : Variant)
    (hj : ks[j]? = some key) : o.mapFind? p key = some (mapNode p j) := by
  unfold mapFind?
  rw [h.1, List.find?_map]
  have hlt : j < ks.length := by
    rw [List.getElem?_eq_some] at hj
    exact hj.1
  have : (List.range ks.length).find?
      ((fun path => decide (o.getOption (path ++ ["key"]) = key)) ∘ mapNode p) = some j := by
    rw [List.find?_range_eq_some]
    refine ⟨?_, List.mem_range.mpr hlt, ?_⟩
    · simp [h.2 j key hj]
    · intro i hi
      have hil : i < ks.length := by omega
      have hv := h.2 i ks[i] (List.getElem?_eq_getElem hil)
      simp only [Function.comp, hv, Bool.not_eq_true', decide_eq_false_iff_not]
      intro he
      have hj' : ks[j] = key := by
        rw [List.getElem?_eq_getElem hlt] at hj
        exact Option.some.inj hj
      have hij : i = j := (List.Nodup.getElem_inj_iff hn).mp (he.trans hj'.symm)
      omega
  rw [this]
  rfl

theorem MapLayout.mapKeyList {o : OptionsTree} {p : OptPath} {ks : List Variant}
    (h : o.MapLayout p ks) : o.mapKeyList p = ks := by
  unfold OptionsTree.mapKeyList
  rw [h.1, List.map_map]
  apply List.ext_getElem
  · simp
  · intro j h1 h2
    simp only [List.getElem_map, List.getElem_range, Function.comp]
    exact h.2 j ks[j] (List.getElem?_eq_getElem h2)

theorem MapLayout.mapLookup {o : OptionsTree} {p : OptPath} {ks : List Variant}
    (h : o.MapLayout p ks) (hn : ks.Nodup) (j : Nat) (key : Variant)
    (hj : ks[j]? = some key) : o.mapLookup p key = mapNode p j := by
  unfold OptionsTree.mapLookup
  rw [h.mapFind?_some hn j key hj]

/-- Putting a new key into a map adds the node after the last one and stores the key. -/
theorem MapLayout.mapPut_fresh {o : OptionsTree} {p : OptPath} {ks : List Variant}
    (h : o.MapLayout p ks) (key : Variant) (hk : key ∉ ks) :
    o.mapPut p key =
      (mapNode p ks.length, o.setOption (mapNode p ks.length ++ ["key"]) key) ∧
    (o.setOption (mapNode p ks.length ++ ["key"]) key).MapLayout p (ks ++ [key]) := by
  have hput : o.mapPut p key =
      (mapNode p ks.length, o.setOption (mapNode p ks.length ++ ["key"]) key) := by
    unfold OptionsTree.mapPut
    rw [h.mapFind?_none key hk]
    simp only
    rw [h.1, firstUnusedIndex_range]
    rfl
  refine ⟨hput, ?_, ?_⟩
  · rw [getChildOptionNames_setOption_of_under _ _ _ _ (mapNode_under p _ _)
      (by unfold mapNode; simp), mapNode_take, h.1]
    have : mapNode p ks.length ∉ (List.range ks.length).map (mapNode p) := by
      intro hm
      obtain ⟨i, hi, he⟩ := List.mem_map.mp hm
      have := (mapNode_inj p i ks.length [] [] (by simpa using he)).1
      rw [List.mem_range] at hi
      omega
    simp [this, List.range_succ]
  · intro j k hjk
    rw [getOption_setOption]
    by_cases hj : j = ks.length
    · subst hj
      simp at hjk
      simp [hjk]
    · have hlt : j < ks.length := by
        have := (List.getElem?_eq_some.mp hjk).1
        simp at this
        omega
      have hne : ¬ mapNode p j ++ ["key"] = mapNode p ks.length ++ ["key"] := by
        intro he
        exact hj (mapNode_inj p j ks.length _ _ he).1
      rw [if_neg hne]
      apply h.2
      rw [List.getElem?_append_left hlt] at hjk
      exact hjk

/-- Writing a field other than the key into an existing node keeps the layout. -/
theorem MapLayout.setOption_field {o : OptionsTree} {p : OptPath} {ks : List Variant}
    (h : o.MapLayout p ks) (j : Nat) (hj : j < ks.length) (f : String) (hf : f ≠ "key")
    (v : Variant) : (o.setOption (mapNode p j ++ [f]) v).MapLayout p ks := by
  refine ⟨?_, ?_⟩
  · rw [getChildOptionNames_setOption_of_under _ _ _ _ (mapNode_under p _ _)
      (by unfold mapNode; simp), mapNode_take, h.1]
    have : mapNode p j ∈ (List.range ks.length).map (mapNode p) :=
      List.mem_map.mpr ⟨j, List.mem_range.mpr hj, rfl⟩
    simp [this]
  · intro i k hik
    rw [getOption_setOption]
    have hne : ¬ mapNode p i ++ ["key"] = mapNode p j ++ [f] := by
      intro he
      have := (mapNode_inj p i j _ _ he).2
      simp only [List.cons.injEq, and_true] at this
      exact hf this.symm
    rw [if_neg hne]
    exact h.2 i k hik

/-- The layout of a map is a matter of its subtree alone. -/
theorem MapLayout.of_sub {o o' : OptionsTree} {p : OptPath} {ks : List Variant}
    (h : o.MapLayout p ks) (hs : o'.sub p = o.sub p) : o'.MapLayout p ks := by
  refine ⟨?_, ?_⟩
  · rw [getChildOptionNames_congr_sub o o' p hs]
    exact h.1
  · intro j k hjk
    rw [← getOption_sub o' p _ (mapNode_under p j "key"), hs,
      getOption_sub o p _ (mapNode_under p j "key")]
    exact h.2 j k hjk

theorem MapLayout.of_empty (o : OptionsTree) (p : OptPath) (h : o.sub p = ⟨[]⟩) :
    o.MapLayout p [] := by
  refine ⟨?_, ?_⟩
  · rw [← getChildOptionNames_sub, h]
    rfl
  · intro j k hjk
    simp at hjk

end OptionsTree

/-! ## The group state in the store -/

theorem foldl_congr_mem {α β : Type} (f g : β → α → β) :
    ∀ (l : List α) (init : β), (∀ x ∈ l, ∀ m, f m x = g m x) →
      l.foldl f init = l.foldl g init
  | [], _, _ => rfl
  | x :: xs, init, h => by
    rw [List.foldl_cons, List.foldl_cons, h x (List.mem_cons_self x xs) init]
    exact foldl_congr_mem f g xs _ (fun y hy => h y (List.mem_cons_of_mem x hy))

theorem variant_str_injective : Function.Injective Variant.str := by
  intro a b h
  injection h

/-- The group state loop lays the groups out as the nodes `m0`, `m1`, ... of the map at
`base.group-state`, after the nodes `done` that the map holds already, and stores the
open flag and the rank of each group in its node. -/
theorem groupStateToOptions_layout (b : OptPath) (gs : QMap GroupData) :
    ∀ (l done : List String) (o : OptionsTree),
      (done ++ l).Nodup →
      o.MapLayout (b ++ ["group-state"]) (done.map Variant.str) →
      (∀ j g, done[j]? = some g →
        o.getOption (mapNode (b ++ ["group-state"]) j ++ ["open"]) =
            Variant.bool (QMap.value gs g).isOpen ∧
          o.getOption (mapNode (b ++ ["group-state"]) j ++ ["rank"]) =
            Variant.int (QMap.value gs g).rank) →
      (UserAccount.groupStateToOptions b gs l o).MapLayout (b ++ ["group-state"])
          ((done ++ l).map Variant.str) ∧
        ∀ j g, (done ++ l)[j]? = some g →
          (UserAccount.groupStateToOptions b gs l o).getOption
              (mapNode (b ++ ["group-state"]) j ++ ["open"]) =
              Variant.bool (QMap.value gs g).isOpen ∧
            (UserAccount.groupStateToOptions b gs l o).getOption
              (mapNode (b ++ ["group-state"]) j ++ ["rank"]) =
              Variant.int (QMap.value gs g).rank
  | [], done, o, _, hl, hv => by
    rw [List.append_nil]
    exact ⟨hl, hv⟩
  | group :: rest, done, o, hn, hl, hv => by
    have hfresh : Variant.str group ∉ done.map Variant.str := by
      intro hm
      obtain ⟨g, hg, he⟩ := List.mem_map.mp hm
      have : g = group := variant_str_injective he
      subst this
      rw [List.nodup_append] at hn
      exact hn.2.2 hg (List.mem_cons_self _ _)
    obtain ⟨hput, hl1⟩ := hl.mapPut_fresh (Variant.str group) hfresh
    rw [List.length_map] at hput hl1
    have hlen : done.length < (done.map Variant.str ++ [Variant.str group]).length := by simp
    have hl2 := hl1.setOption_field done.length hlen "open" (by decide)
      (Variant.bool (QMap.value gs group).isOpen)
    have hl3 := hl2.setOption_field done.length hlen "rank" (by decide)
      (Variant.int (QMap.value gs group).rank)
    have e : done ++ group :: rest = (done ++ [group]) ++ rest := by simp
    unfold UserAccount.groupStateToOptions
    simp only [hput]
    rw [e]
    apply groupStateToOptions_layout b gs rest (done ++ [group]) _ (by rw [← e]; exact hn)
    · rw [List.map_append]
      exact hl3
    · intro j g hjg
      simp only [OptionsTree.getOption_setOption]
      by_cases hj : j = done.length
      · subst hj
        simp at hjg
        subst hjg
        simp
      · have hlt : j < done.length := by
          have := (List.getElem?_eq_some.mp hjg).1
          simp at this
          omega
        rw [List.getElem?_append_left hlt] at hjg
        have hne : ∀ f f' : String,
            ¬ mapNode (b ++ ["group-state"]) j ++ [f] =
              mapNode (b ++ ["group-state"]) done.length ++ [f'] := by
          intro f f' he
          exact hj (mapNode_inj _ _ _ _ _ he).1
        simp only [hne, if_false]
        exact hv j g hjg

/-- Reading a laid out group state back gives the map that is built from the groups in
node order. -/
theorem groupStateFromOptions_of_layout (o : OptionsTree) (b : OptPath)
    (gs : QMap GroupData) (ks : List String) (hn : ks.Nodup)
    (hl : o.MapLayout (b ++ ["group-state"]) (ks.map Variant.str))
    (hv : ∀ j g, ks[j]? = some g →
      o.getOption (mapNode (b ++ ["group-state"]) j ++ ["open"]) =
          Variant.bool (QMap.value gs g).isOpen ∧
        o.getOption (mapNode (b ++ ["group-state"]) j ++ ["rank"]) =
          Variant.int (QMap.value gs g).rank) :
    UserAccount.groupStateFromOptions o b =
      ks.foldl (fun m g => QMap.insert g (QMap.value gs g) m) [] := by
  unfold UserAccount.groupStateFromOptions
  rw [hl.mapKeyList, List.foldl_map]
  apply foldl_congr_mem
  intro g hg m
  obtain ⟨j, hj, hjg⟩ := List.getElem_of_mem hg
  have hjs : ks[j]? = some g := by rw [List.getElem?_eq_getElem hj, hjg]
  have hlook := hl.mapLookup (hn.map variant_str_injective) j (Variant.str g)
    (by rw [List.getElem?_map, hjs]; rfl)
  simp only [hlook, (hv j g hjs).1, (hv j g hjs).2]
  rfl

/-- The group state loop on the keys of a well formed map, started on a store that holds
nothing below `base.group-state`, is read back as that map. -/
theorem groupStateFromOptions_groupStateToOptions (b : OptPath) (gs : QMap GroupData)
    (hw : QMap.WF gs) (o o' : OptionsTree) (ho : o.sub (b ++ ["group-state"]) = ⟨[]⟩)
    (hs : o'.sub (b ++ ["group-state"]) =
      (UserAccount.groupStateToOptions b gs (QMap.keys gs) o).sub (b ++ ["group-state"])) :
    UserAccount.groupStateFromOptions o' b = gs := by
  have h := groupStateToOptions_layout b gs (QMap.keys gs) [] o
    (by simpa using hw.nodup) (OptionsTree.MapLayout.of_empty o _ ho)
    (by intro j g hjg; simp at hjg)
  rw [List.nil_append] at h
  have hl := h.1.of_sub hs
  rw [groupStateFromOptions_of_layout o' b gs (QMap.keys gs) hw.nodup hl]
  · rw [QMap.foldl_insert_sorted (fun g => QMap.value gs g) (QMap.keys gs) []
      (by intro e he; simp at he) hw]
    rw [List.nil_append]
    exact QMap.map_value_self gs hw.nodup
  · intro j g hjg
    have hu : ∀ f : String, (b ++ ["group-state"]).isPrefixOf
        (mapNode (b ++ ["group-state"]) j ++ [f]) = true := mapNode_under _ _
    rw [← OptionsTree.getOption_sub o' _ _ (hu "open"),
      ← OptionsTree.getOption_sub o' _ _ (hu "rank"), hs,
      OptionsTree.getOption_sub _ _ _ (hu "open"), OptionsTree.getOption_sub _ _ _ (hu "rank")]
    exact h.2 j g hjg

/-! ## The roster cache in the store -/

/-- The roster loop leaves every option alone that is not a field of one of its nodes. -/
theorem getOption_rosterToOptions_of_ne (b : OptPath) (k : OptPath) :
    ∀ (l : List RosterItem) (idx : Nat) (o : OptionsTree),
      (∀ j f, idx ≤ j → k ≠ b ++ ["roster-cache", "a" ++ toString j] ++ [f]) →
      (UserAccount.rosterToOptions b l idx o).getOption k = o.getOption k
  | [], _, _, _ => rfl
  | ri :: rest, idx, o, h => by
    unfold UserAccount.rosterToOptions
    simp only
    rw [getOption_rosterToOptions_of_ne b k rest (idx + 1) _
      (fun j f hj => h j f (by omega))]
    simp only [OptionsTree.getOption_setOption, h idx _ (le_refl _), if_false]

/-- The roster loop stores item `j` of the list in the node `a<idx + j>`. -/
theorem getOption_rosterToOptions (b : OptPath) :
    ∀ (l : List RosterItem) (idx : Nat) (o : OptionsTree) (j : Nat) (ri : RosterItem),
      l[j]? = some ri →
      (UserAccount.rosterToOptions b l idx o).getOption
          (b ++ ["roster-cache", "a" ++ toString (idx + j)] ++ ["jid"]) =
          Variant.str ri.jid.full ∧
        (UserAccount.rosterToOptions b l idx o).getOption
          (b ++ ["roster-cache", "a" ++ toString (idx + j)] ++ ["name"]) =
          Variant.str ri.name ∧
        (UserAccount.rosterToOptions b l idx o).getOption
          (b ++ ["roster-cache", "a" ++ toString (idx + j)] ++ ["subscription"]) =
          Variant.str ri.subscription.text ∧
        (UserAccount.rosterToOptions b l idx o).getOption
          (b ++ ["roster-cache", "a" ++ toString (idx + j)] ++ ["ask"]) =
          Variant.str ri.ask ∧
        (UserAccount.rosterToOptions b l idx o).getOption
          (b ++ ["roster-cache", "a" ++ toString (idx + j)] ++ ["groups"]) =
          Variant.strList ri.groups
  | [], _, _, j, ri, h => by simp at h
  | r0 :: rest, idx, o, 0, ri, h => by
    simp only [List.getElem?_cons_zero, Option.some.injEq] at h
    subst h
    have hne : ∀ f : String, ∀ j f', idx + 1 ≤ j →
        b ++ ["roster-cache", "a" ++ toString (idx + 0)] ++ [f] ≠
          b ++ ["roster-cache", "a" ++ toString j] ++ [f'] := by
      intro f j f' hj he
      have := (rosterNode_injective b _ _ _ _ he).1
      omega
    unfold UserAccount.rosterToOptions
    simp only
    rw [getOption_rosterToOptions_of_ne b _ rest (idx + 1) _ (hne "jid"),
      getOption_rosterToOptions_of_ne b _ rest (idx + 1) _ (hne "name"),
      getOption_rosterToOptions_of_ne b _ rest (idx + 1) _ (hne "subscription"),
      getOption_rosterToOptions_of_ne b _ rest (idx + 1) _ (hne "ask"),
      getOption_rosterToOptions_of_ne b _ rest (idx + 1) _ (hne "groups")]
    simp [OptionsTree.getOption_setOption]
  | r0 :: rest, idx, o, j + 1, ri, h => by
    simp only [List.getElem?_cons_succ] at h
    unfold UserAccount.rosterToOptions
    simp only
    have e : idx + (j + 1) = idx + 1 + j := by omega
    rw [e]
    exact getOption_rosterToOptions b rest (idx + 1) _ j ri h

/-- Reading the roster cache of a store whose roster subtree is the one the roster loop
wrote gives the roster back, when the Jabber ids and subscriptions survive their text
form. -/
theorem roster_read_back (env : Env) (b : OptPath) (l : List RosterItem)
    (o o' : OptionsTree) (ho : o.sub (b ++ ["roster-cache"]) = ⟨[]⟩)
    (hs : o'.sub (b ++ ["roster-cache"]) =
      (UserAccount.rosterToOptions b l 0 o).sub (b ++ ["roster-cache"]))
    (hj : ∀ ri ∈ l, env.jidFromString ri.jid.full = ri.jid ∧
      env.subscriptionFromString ri.subscription.text = ri.subscription) :
    (o'.getChildOptionNames (b ++ ["roster-cache"]) true true).map
      (UserAccount.rosterItemFromOptions env o') = l := by
  have hc0 : o.getChildOptionNames (b ++ ["roster-cache"]) true true = [] := by
    rw [← OptionsTree.getChildOptionNames_sub, ho]
    rfl
  rw [OptionsTree.getChildOptionNames_congr_sub _ o' _ hs,
    getChildOptionNames_rosterToOptions b l 0 o (by intro j _; rw [hc0]; simp), hc0,
    List.nil_append, List.map_map]
  apply List.ext_getElem
  · simp
  · intro j h1 h2
    have hjs : l[j]? = some l[j] := List.getElem?_eq_getElem h2
    have hv := getOption_rosterToOptions b l 0 o j l[j] hjs
    have hu : ∀ f : String, (b ++ ["roster-cache"]).isPrefixOf
        (b ++ ["roster-cache", "a" ++ toString (0 + j)] ++ [f]) = true := by
      intro f
      rw [isPrefixOf_iff]
      exact ⟨["a" ++ toString (0 + j), f], by simp⟩
    have hr : ∀ f : String,
        o'.getOption (b ++ ["roster-cache", "a" ++ toString (0 + j)] ++ [f]) =
          (UserAccount.rosterToOptions b l 0 o).getOption
            (b ++ ["roster-cache", "a" ++ toString (0 + j)] ++ [f]) := by
      intro f
      rw [← OptionsTree.getOption_sub o' _ _ (hu f), hs, OptionsTree.getOption_sub _ _ _ (hu f)]
    simp only [List.getElem_map, List.getElem_range', Function.comp, one_mul]
    unfold UserAccount.rosterItemFromOptions
    rw [hr "jid", hr "name", hr "subscription", hr "ask", hr "groups", hv.1, hv.2.1,
      hv.2.2.1, hv.2.2.2.1, hv.2.2.2.2]
    have hn := hj l[j] (List.getElem_mem h2)
    simp only [Variant.toQString, Variant.toStringList, hn.1, hn.2]

/-! ## Chains of writes -/

namespace OptionsTree

theorem find?_setAll_of_not_mem (b : OptPath) (k : OptPath) :
    ∀ (pairs : List (OptPath × Variant)) (o : OptionsTree),
      k ∉ pairs.map Prod.fst → (o.setAll b pairs).find? (b ++ k) = o.find? (b ++ k)
  | [], _, _ => rfl
  | p :: ps, o, h => by
    simp only [List.map_cons, List.mem_cons, not_or] at h
    unfold setAll
    rw [List.foldl_cons]
    have := find?_setAll_of_not_mem b k ps (o.setOption (b ++ p.1) p.2) h.2
    unfold setAll at this
    rw [this, find?_setOption]
    simp [h.1]

/-- A chain of writes to distinct paths stores each value under its path. -/
theorem find?_setAll (b : OptPath) :
    ∀ (pairs : List (OptPath × Variant)) (o : OptionsTree), (pairs.map Prod.fst).Nodup →
      ∀ k v, (k, v) ∈ pairs → (o.setAll b pairs).find? (b ++ k) = some v
  | [], _, _, _, _, h => by simp at h
  | p :: ps, o, hn, k, v, h => by
    rw [List.map_cons, List.nodup_cons] at hn
    rcases List.mem_cons.mp h with rfl | h'
    · have := find?_setAll_of_not_mem b _ ps (o.setOption (b ++ k) v) hn.1
      unfold setAll at this ⊢
      rw [List.foldl_cons, this, find?_setOption]
      simp
    · have := find?_setAll b ps (o.setOption (b ++ p.1) p.2) hn.2 k v h'
      unfold setAll at this ⊢
      rw [List.foldl_cons, this]

theorem agreeOutside_setAll (K : OptPath → Bool) (b : OptPath) :
    ∀ (pairs : List (OptPath × Variant)) (o : OptionsTree),
      (∀ p ∈ pairs, K (b ++ p.1) = true) → AgreeOutside K o (o.setAll b pairs)
  | [], o, _ => AgreeOutside.refl K o
  | p :: ps, o, h => by
    unfold setAll
    rw [List.foldl_cons]
    exact (AgreeOutside.setOption K o _ _ (h p (List.mem_cons_self _ _))).trans
      (agreeOutside_setAll K b ps _ (fun q hq => h q (List.mem_cons_of_mem _ hq)))

theorem find?_removeOption_single (o : OptionsTree) (k k' : OptPath) :
    (o.removeOption k false).find? k' = if k' = k then none else o.find? k' := by
  unfold removeOption find?
  simp only [Bool.false_and, Bool.or_false]
  by_cases h : k' = k
  · subst h
    rw [if_pos rfl]
    have : (o.entries.filter (fun e => !decide (e.1 = k'))).find? (fun e => e.1 = k') = none := by
      rw [List.find?_eq_none]
      intro e he
      have := (List.mem_filter.mp he).2
      simpa using this
    rw [this]
    rfl
  · rw [if_neg h]
    rw [find?_filter_key (fun q => !decide (q = k)) k' (by simp [h]) o.entries]

end OptionsTree

theorem toOptionsHead_eq_setAll (env : Env) (u : UserAccount) (ssl plain : String)
    (b : OptPath) (o : OptionsTree) :
    UserAccount.toOptionsHead env u ssl plain b o =
      o.setAll b (UserAccount.headPairs env u ssl plain) := by
  unfold UserAccount.toOptionsHead OptionsTree.setAll UserAccount.headPairs
  simp only [List.foldl_cons, List.foldl_nil]

theorem headPairs_keys (env : Env) (u : UserAccount) (ssl plain : String) :
    (UserAccount.headPairs env u ssl plain).map Prod.fst = (headKeys []).map id := rfl

theorem headKeys_nodup : (headKeys []).Nodup := by decide

theorem tailKeys_nodup : (tailKeys []).Nodup := by decide


/-! ## Paths below the base -/

theorem atBase_append (b : OptPath) (S : OptPath → Bool) (s : OptPath) :
    atBase b S (b ++ s) = S s := by
  unfold atBase
  rw [isPrefixOf_append_self, List.drop_left]
  rfl

theorem atBase_of_under (b : OptPath) (S : OptPath → Bool) (x : String)
    (h : ∀ t, S (x :: t) = true) :
    ∀ k, (b ++ [x]).isPrefixOf k = true → atBase b S k = true := by
  intro k hk
  rw [isPrefixOf_iff] at hk
  obtain ⟨t, rfl⟩ := hk
  rw [List.append_assoc, atBase_append]
  exact h t

theorem OptionsTree.AgreeOutside.find?_atBase {b : OptPath} {S : OptPath → Bool}
    {o o' : OptionsTree} (h : OptionsTree.AgreeOutside (atBase b S) o o') (s : OptPath)
    (hs : S s = false) : o'.find? (b ++ s) = o.find? (b ++ s) :=
  h.find? _ (by rw [atBase_append]; exact hs)

theorem OptionsTree.AgreeOutside.sub_atBase {b : OptPath} {S : OptPath → Bool}
    {o o' : OptionsTree} (h : OptionsTree.AgreeOutside (atBase b S) o o') (x : String)
    (hs : ∀ t, S (x :: t) = false) : o'.sub (b ++ [x]) = o.sub (b ++ [x]) := by
  apply h.sub
  intro k hk
  rw [isPrefixOf_iff] at hk
  obtain ⟨t, rfl⟩ := hk
  rw [List.append_assoc, atBase_append]
  exact hs t

theorem tailKeys_eq_map (b : OptPath) : tailKeys b = (tailKeys []).map (fun s => b ++ s) := rfl

theorem headKeys_eq_map (b : OptPath) : headKeys b = (headKeys []).map (fun s => b ++ s) := rfl

theorem mem_tailKeys_atBase (b : OptPath) (S : OptPath → Bool)
    (h : ∀ s ∈ tailKeys [], S s = true) : ∀ k, k ∈ tailKeys b → atBase b S k = true := by
  intro k hk
  rw [tailKeys_eq_map, List.mem_map] at hk
  obtain ⟨s, hs, rfl⟩ := hk
  rw [atBase_append]
  exact h s hs

theorem mem_headKeys_atBase (b : OptPath) (S : OptPath → Bool)
    (h : ∀ s ∈ headKeys [], S s = true) : ∀ k, k ∈ headKeys b → atBase b S k = true := by
  intro k hk
  rw [headKeys_eq_map, List.mem_map] at hk
  obtain ⟨s, hs, rfl⟩ := hk
  rw [atBase_append]
  exact h s hs

/-! ## The phases of `toOptions` and the paths they write -/

theorem agree_head (env : Env) (u : UserAccount) (ssl plain : String) (b : OptPath)
    (S : OptPath → Bool) (h : ∀ s ∈ headKeys [], S s = true) (o : OptionsTree) :
    OptionsTree.AgreeOutside (atBase b S) o (UserAccount.toOptionsHead env u ssl plain b o) :=
  (agreeOutside_toOptionsHead env u ssl plain b o).mono
    (fun k hk => mem_headKeys_atBase b S h k (by simpa using hk))

theorem agree_roster (b : OptPath) (S : OptPath → Bool) (h : ∀ t, S ("roster-cache" :: t) = true)
    (l : List RosterItem) (o : OptionsTree) :
    OptionsTree.AgreeOutside (atBase b S) o (UserAccount.rosterToOptions b l 0 o) :=
  agreeOutside_rosterToOptions _ b (atBase_of_under b S "roster-cache" h) l 0 o

theorem agree_groupState (b : OptPath) (S : OptPath → Bool)
    (h : ∀ t, S ("group-state" :: t) = true) (gs : QMap GroupData) (l : List String)
    (o : OptionsTree) :
    OptionsTree.AgreeOutside (atBase b S) o (UserAccount.groupStateToOptions b gs l o) :=
  agreeOutside_groupStateToOptions _ b gs (atBase_of_under b S "group-state" h) l o

theorem agree_proxyId (b : OptPath) (S : OptPath → Bool) (h : S ["proxy-id"] = true)
    (v : Variant) (o : OptionsTree) :
    OptionsTree.AgreeOutside (atBase b S) o (o.setOption (b ++ ["proxy-id"]) v) :=
  OptionsTree.AgreeOutside.setOption _ o _ v (by rw [atBase_append]; exact h)

theorem agree_keybind (env : Env) (b : OptPath) (S : OptPath → Bool)
    (h : ∀ t, S ("pgp-key-bindings" :: t) = true)
    (hf : ∀ v o, (env.varListToOptions v o (b ++ ["pgp-key-bindings"])).removeOption
      (b ++ ["pgp-key-bindings"]) true = o.removeOption (b ++ ["pgp-key-bindings"]) true)
    (v : VarList) (o : OptionsTree) :
    OptionsTree.AgreeOutside (atBase b S) o
      (env.varListToOptions v o (b ++ ["pgp-key-bindings"])) :=
  (OptionsTree.agreeOutside_of_removeOption (b ++ ["pgp-key-bindings"]) (hf v o)).mono
    (atBase_of_under b S "pgp-key-bindings" h)

theorem agree_tail (u : UserAccount) (b : OptPath) (hb : b ≠ []) (S : OptPath → Bool)
    (h : ∀ s ∈ tailKeys [], S s = true) (o : OptionsTree) :
    OptionsTree.AgreeOutside (atBase b S) o (UserAccount.toOptionsTail u b o) :=
  (agreeOutside_toOptionsTail u b o hb).mono
    (fun k hk => mem_tailKeys_atBase b S h k (by simpa using hk))

theorem setAll_cons (o : OptionsTree) (b : OptPath) (p : OptPath × Variant)
    (ps : List (OptPath × Variant)) :
    o.setAll b (p :: ps) = (o.setOption (b ++ p.1) p.2).setAll b ps := rfl

theorem setAll_nil (o : OptionsTree) (b : OptPath) : o.setAll b [] = o := rfl

theorem setAll_tailPairs (u : UserAccount) (b : OptPath) (o : OptionsTree) :
    o.setAll b (UserAccount.tailPairs u) =
      (((((((((((o.setOption (b ++ ["bytestreams-proxy"]) (Variant.str u.dtProxy.full)).setOption
        (b ++ ["ibb-only"]) (Variant.bool u.ibbOnly)).setOption
        (b ++ ["stun-hosts"]) (Variant.strList u.stunHosts)).setOption
        (b ++ ["stun-host"]) (Variant.str u.stunHost)).setOption
        (b ++ ["stun-username"]) (Variant.str u.stunUser)).setOption
        (b ++ ["stun-password"]) (Variant.str u.stunPass)).setOption
        (b ++ ["tls", "override-certificate"]) (Variant.bytes u.tlsOverrideCert)).setOption
        (b ++ ["tls", "override-domain"]) (Variant.str u.tlsOverrideDomain)).setOption
        (b ++ ["last-status"]) (Variant.str u.lastStatus.typeString)).setOption
        (b ++ ["last-status-message"]) (Variant.str u.lastStatus.status)).setOption
        (b ++ ["last-with-priority"]) (Variant.bool u.lastStatusWithPriority)) := by
  unfold UserAccount.tailPairs
  simp only [setAll_cons, setAll_nil]

theorem toOptionsTail_eq (u : UserAccount) (b : OptPath) (hb : b ≠ []) (o : OptionsTree) :
    UserAccount.toOptionsTail u b o =
      (if u.lastStatusWithPriority then
        (o.setAll b (UserAccount.tailPairs u)).setOption (b ++ ["last-priority"])
          (Variant.int u.lastStatus.priority)
      else
        (o.setAll b (UserAccount.tailPairs u)).removeOption (b ++ ["last-priority"])).setAll b
        (UserAccount.tailPairsEnd u) := by
  have hbe : b.isEmpty = false := by cases b <;> simp_all
  rw [setAll_tailPairs]
  unfold UserAccount.tailPairsEnd
  rw [setAll_cons, setAll_cons, setAll_nil]
  unfold UserAccount.toOptionsTail UserAccount.saveLastStatus
  simp only [hbe, Bool.false_eq_true, if_false]

/-! ## What the store holds after `toOptions` -/

theorem sub_eq_nil_of_under (o : OptionsTree) (p q : OptPath) (h : p.isPrefixOf q = true)
    (hp : o.sub p = ⟨[]⟩) : o.sub q = ⟨[]⟩ := by
  unfold OptionsTree.sub at *
  simp only [OptionsTree.mk.injEq, List.filter_eq_nil_iff] at *
  intro e he hq
  exact hp e he (isPrefixOf_trans p q e.1 h hq)

theorem suffixIn_cons_of_mem (segs : List String) (exact : List OptPath) (x : String)
    (h : x ∈ segs) (t : OptPath) : suffixIn segs exact (x :: t) = true := by
  simp [suffixIn, h]

theorem suffixIn_cons_of_not_mem (segs : List String) (exact : List OptPath) (x : String)
    (h : x ∉ segs) (h2 : ∀ k ∈ exact, k.head? ≠ some x) (t : OptPath) :
    suffixIn segs exact (x :: t) = false := by
  have : x :: t ∉ exact := by
    intro hm
    exact h2 _ hm rfl
  simp [suffixIn, h, this]

/-- Every scalar field written by `toOptionsHead` is in the final store with the value
written. -/
theorem find?_toOptionsWrite_head (env : Env) (u : UserAccount) (ssl plain : String)
    (b : OptPath) (o0 : OptionsTree) (hb : b ≠ [])
    (hf : ∀ v o, (env.varListToOptions v o (b ++ ["pgp-key-bindings"])).removeOption
      (b ++ ["pgp-key-bindings"]) true = o.removeOption (b ++ ["pgp-key-bindings"]) true)
    (s : OptPath) (v : Variant) (h : (s, v) ∈ UserAccount.headPairs env u ssl plain) :
    (UserAccount.toOptionsWrite env u ssl plain b o0).find? (b ++ s) = some v := by
  have hs : s ∈ headKeys [] := by
    have : s ∈ (UserAccount.headPairs env u ssl plain).map Prod.fst :=
      List.mem_map.mpr ⟨(s, v), h, rfl⟩
    rw [headPairs_keys, List.map_id] at this
    exact this
  have hS : ∀ s ∈ headKeys [],
      suffixIn ["roster-cache", "group-state", "pgp-key-bindings"]
        (["proxy-id"] :: tailKeys []) s = false := by decide
  unfold UserAccount.toOptionsWrite
  simp only
  have ha := ((((agree_roster b
      (suffixIn ["roster-cache", "group-state", "pgp-key-bindings"] (["proxy-id"] :: tailKeys []))
      (suffixIn_cons_of_mem _ _ _ (by decide)) u.roster
      (UserAccount.toOptionsHead env u ssl plain b o0)).trans
    (agree_groupState b _ (suffixIn_cons_of_mem _ _ _ (by decide))
      (UserAccount.prunedGroupState env u)
      (QMap.keys (UserAccount.prunedGroupState env u)) _)).trans
    (agree_proxyId b _ (by decide) (Variant.str u.proxyID) _)).trans
    (agree_keybind env b _ (suffixIn_cons_of_mem _ _ _ (by decide)) hf u.keybind _)).trans
    (agree_tail u b hb _ (by decide) _)
  rw [ha.find?_atBase s (hS s hs), toOptionsHead_eq_setAll]
  apply OptionsTree.find?_setAll b _ _ _ s v h
  rw [headPairs_keys, List.map_id]
  exact headKeys_nodup

theorem tailPairs_keys (u : UserAccount) :
    (UserAccount.tailPairs u).map Prod.fst = (tailKeys []).take 11 := rfl

theorem tailPairsEnd_keys (u : UserAccount) :
    (UserAccount.tailPairsEnd u).map Prod.fst = (tailKeys []).drop 12 := rfl

/-- Every field written by `toOptionsTail`, the last priority apart, is in the store with
the value written. -/
theorem find?_toOptionsTail (u : UserAccount) (b : OptPath) (o : OptionsTree) (hb : b ≠ [])
    (s : OptPath) (v : Variant)
    (h : (s, v) ∈ UserAccount.tailPairs u ++ UserAccount.tailPairsEnd u) :
    (UserAccount.toOptionsTail u b o).find? (b ++ s) = some v := by
  rw [toOptionsTail_eq u b hb]
  rcases List.mem_append.mp h with h | h
  · have hs : s ∈ (tailKeys []).take 11 := by
      rw [← tailPairs_keys u]
      exact List.mem_map.mpr ⟨(s, v), h, rfl⟩
    have h1 : ∀ s ∈ (tailKeys []).take 11, s ∉ (tailKeys []).drop 12 ∧ s ≠ ["last-priority"] := by
      decide
    have hn : ¬ b ++ s = b ++ ["last-priority"] := by
      rw [List.append_cancel_left_eq]
      exact (h1 s hs).2
    rw [OptionsTree.find?_setAll_of_not_mem b s _ _ (by rw [tailPairsEnd_keys]; exact (h1 s hs).1)]
    have hv := OptionsTree.find?_setAll b (UserAccount.tailPairs u) o
      (by rw [tailPairs_keys]; decide) s v h
    split
    · rw [OptionsTree.find?_setOption, if_neg hn]
      exact hv
    · rw [OptionsTree.find?_removeOption_single, if_neg hn]
      exact hv
  · exact OptionsTree.find?_setAll b _ _ (by rw [tailPairsEnd_keys]; decide) s v h

/-- The last priority is in the store when the account keeps it. -/
theorem find?_toOptionsTail_lastPriority (u : UserAccount) (b : OptPath) (o : OptionsTree)
    (hb : b ≠ []) (hp : u.lastStatusWithPriority = true) :
    (UserAccount.toOptionsTail u b o).find? (b ++ ["last-priority"]) =
      some (Variant.int u.lastStatus.priority) := by
  rw [toOptionsTail_eq u b hb, hp, if_pos rfl,
    OptionsTree.find?_setAll_of_not_mem b _ _ _ (by rw [tailPairsEnd_keys]; decide),
    OptionsTree.find?_setOption, if_pos rfl]

theorem find?_toOptionsWrite_tail (env : Env) (u : UserAccount) (ssl plain : String)
    (b : OptPath) (o0 : OptionsTree) (hb : b ≠ []) (s : OptPath) (v : Variant)
    (h : (s, v) ∈ UserAccount.tailPairs u ++ UserAccount.tailPairsEnd u) :
    (UserAccount.toOptionsWrite env u ssl plain b o0).find? (b ++ s) = some v :=
  find?_toOptionsTail u b _ hb s v h

theorem find?_toOptionsWrite_lastPriority (env : Env) (u : UserAccount) (ssl plain : String)
    (b : OptPath) (o0 : OptionsTree) (hb : b ≠ []) (hp : u.lastStatusWithPriority = true) :
    (UserAccount.toOptionsWrite env u ssl plain b o0).find? (b ++ ["last-priority"]) =
      some (Variant.int u.lastStatus.priority) :=
  find?_toOptionsTail_lastPriority u b _ hb hp

theorem find?_toOptionsWrite_proxyId (env : Env) (u : UserAccount) (ssl plain : String)
    (b : OptPath) (o0 : OptionsTree) (hb : b ≠ [])
    (hf : ∀ v o, (env.varListToOptions v o (b ++ ["pgp-key-bindings"])).removeOption
      (b ++ ["pgp-key-bindings"]) true = o.removeOption (b ++ ["pgp-key-bindings"]) true) :
    (UserAccount.toOptionsWrite env u ssl plain b o0).find? (b ++ ["proxy-id"]) =
      some (Variant.str u.proxyID) := by
  unfold UserAccount.toOptionsWrite
  simp only
  have ha := (agree_keybind env b (suffixIn ["pgp-key-bindings"] (tailKeys []))
      (suffixIn_cons_of_mem _ _ _ (by decide)) hf u.keybind
      ((UserAccount.groupStateToOptions b (UserAccount.prunedGroupState env u)
        (QMap.keys (UserAccount.prunedGroupState env u))
        (UserAccount.rosterToOptions b u.roster 0
          (UserAccount.toOptionsHead env u ssl plain b o0))).setOption
        (b ++ ["proxy-id"]) (Variant.str u.proxyID))).trans
    (agree_tail u b hb _ (by decide) _)
  rw [ha.find?_atBase ["proxy-id"] (by decide), OptionsTree.find?_setOption, if_pos rfl]

theorem sub_roster_toOptionsWrite (env : Env) (u : UserAccount) (ssl plain : String)
    (b : OptPath) (o0 : OptionsTree) (hb : b ≠ [])
    (hf : ∀ v o, (env.varListToOptions v o (b ++ ["pgp-key-bindings"])).removeOption
      (b ++ ["pgp-key-bindings"]) true = o.removeOption (b ++ ["pgp-key-bindings"]) true) :
    (UserAccount.toOptionsWrite env u ssl plain b o0).sub (b ++ ["roster-cache"]) =
      (UserAccount.rosterToOptions b u.roster 0
        (UserAccount.toOptionsHead env u ssl plain b o0)).sub (b ++ ["roster-cache"]) := by
  unfold UserAccount.toOptionsWrite
  simp only
  have ha := (((agree_groupState b
      (suffixIn ["group-state", "pgp-key-bindings"] (["proxy-id"] :: tailKeys []))
      (suffixIn_cons_of_mem _ _ _ (by decide)) (UserAccount.prunedGroupState env u)
      (QMap.keys (UserAccount.prunedGroupState env u))
      (UserAccount.rosterToOptions b u.roster 0
        (UserAccount.toOptionsHead env u ssl plain b o0))).trans
    (agree_proxyId b _ (by decide) (Variant.str u.proxyID) _)).trans
    (agree_keybind env b _ (suffixIn_cons_of_mem _ _ _ (by decide)) hf u.keybind _)).trans
    (agree_tail u b hb _ (by decide) _)
  exact ha.sub_atBase "roster-cache" (suffixIn_cons_of_not_mem _ _ _ (by decide) (by decide))

theorem sub_groupState_toOptionsWrite (env : Env) (u : UserAccount) (ssl plain : String)
    (b : OptPath) (o0 : OptionsTree) (hb : b ≠ [])
    (hf : ∀ v o, (env.varListToOptions v o (b ++ ["pgp-key-bindings"])).removeOption
      (b ++ ["pgp-key-bindings"]) true = o.removeOption (b ++ ["pgp-key-bindings"]) true) :
    (UserAccount.toOptionsWrite env u ssl plain b o0).sub (b ++ ["group-state"]) =
      (UserAccount.groupStateToOptions b (UserAccount.prunedGroupState env u)
        (QMap.keys (UserAccount.prunedGroupState env u))
        (UserAccount.rosterToOptions b u.roster 0
          (UserAccount.toOptionsHead env u ssl plain b o0))).sub (b ++ ["group-state"]) := by
  unfold UserAccount.toOptionsWrite
  simp only
  have ha := ((agree_proxyId b
      (suffixIn ["pgp-key-bindings"] (["proxy-id"] :: tailKeys [])) (by decide)
      (Variant.str u.proxyID)
      (UserAccount.groupStateToOptions b (UserAccount.prunedGroupState env u)
        (QMap.keys (UserAccount.prunedGroupState env u))
        (UserAccount.rosterToOptions b u.roster 0
          (UserAccount.toOptionsHead env u ssl plain b o0)))).trans
    (agree_keybind env b _ (suffixIn_cons_of_mem _ _ _ (by decide)) hf u.keybind _)).trans
    (agree_tail u b hb _ (by decide) _)
  exact ha.sub_atBase "group-state" (suffixIn_cons_of_not_mem _ _ _ (by decide) (by decide))

theorem sub_keybind_toOptionsWrite (env : Env) (u : UserAccount) (ssl plain : String)
    (b : OptPath) (o0 : OptionsTree) (hb : b ≠ []) :
    (UserAccount.toOptionsWrite env u ssl plain b o0).sub (b ++ ["pgp-key-bindings"]) =
      (env.varListToOptions u.keybind
        ((UserAccount.groupStateToOptions b (UserAccount.prunedGroupState env u)
          (QMap.keys (UserAccount.prunedGroupState env u))
          (UserAccount.rosterToOptions b u.roster 0
            (UserAccount.toOptionsHead env u ssl plain b o0))).setOption
          (b ++ ["proxy-id"]) (Variant.str u.proxyID))
        (b ++ ["pgp-key-bindings"])).sub (b ++ ["pgp-key-bindings"]) := by
  unfold UserAccount.toOptionsWrite
  simp only
  exact (agree_tail u b hb (suffixIn [] (tailKeys [])) (by decide) _).sub_atBase
    "pgp-key-bindings" (suffixIn_cons_of_not_mem _ _ _ (by decide) (by decide))

theorem sub_roster_head_nil (env : Env) (u : UserAccount) (ssl plain : String)
    (b : OptPath) (o0 : OptionsTree) (h0 : o0.sub b = ⟨[]⟩) :
    (UserAccount.toOptionsHead env u ssl plain b o0).sub (b ++ ["roster-cache"]) = ⟨[]⟩ := by
  rw [(agree_head env u ssl plain b (suffixIn [] (headKeys [])) (by decide) o0).sub_atBase
    "roster-cache" (suffixIn_cons_of_not_mem _ _ _ (by decide) (by decide))]
  exact sub_eq_nil_of_under o0 b _ (isPrefixOf_append_self _ _) h0

theorem sub_groupState_roster_nil (env : Env) (u : UserAccount) (ssl plain : String)
    (b : OptPath) (o0 : OptionsTree) (h0 : o0.sub b = ⟨[]⟩) :
    (UserAccount.rosterToOptions b u.roster 0
      (UserAccount.toOptionsHead env u ssl plain b o0)).sub (b ++ ["group-state"]) = ⟨[]⟩ := by
  rw [((agree_head env u ssl plain b (suffixIn ["roster-cache"] (headKeys [])) (by decide)
      o0).trans (agree_roster b _ (suffixIn_cons_of_mem _ _ _ (by decide)) u.roster _)).sub_atBase
    "group-state" (suffixIn_cons_of_not_mem _ _ _ (by decide) (by decide))]
  exact sub_eq_nil_of_under o0 b _ (isPrefixOf_append_self _ _) h0

theorem sub_keybind_proxyId_nil (env : Env) (u : UserAccount) (ssl plain : String)
    (b : OptPath) (o0 : OptionsTree) (h0 : o0.sub b = ⟨[]⟩) :
    ((UserAccount.groupStateToOptions b (UserAccount.prunedGroupState env u)
        (QMap.keys (UserAccount.prunedGroupState env u))
        (UserAccount.rosterToOptions b u.roster 0
          (UserAccount.toOptionsHead env u ssl plain b o0))).setOption
        (b ++ ["proxy-id"]) (Variant.str u.proxyID)).sub (b ++ ["pgp-key-bindings"]) = ⟨[]⟩ := by
  rw [((((agree_head env u ssl plain b
      (suffixIn ["roster-cache", "group-state"] (["proxy-id"] :: headKeys [])) (by decide)
      o0).trans (agree_roster b _ (suffixIn_cons_of_mem _ _ _ (by decide)) u.roster _)).trans
    (agree_groupState b _ (suffixIn_cons_of_mem _ _ _ (by decide))
      (UserAccount.prunedGroupState env u)
      (QMap.keys (UserAccount.prunedGroupState env u)) _)).trans
    (agree_proxyId b _ (by decide) (Variant.str u.proxyID) _)).sub_atBase
    "pgp-key-bindings" (suffixIn_cons_of_not_mem _ _ _ (by decide) (by decide))]
  exact sub_eq_nil_of_under o0 b _ (isPrefixOf_append_self _ _) h0

/-! ## The store after `toOptions` holds the account -/

theorem getOption_of_find? (o : OptionsTree) (k : OptPath) (v : Variant)
    (h : o.find? k = some v) : o.getOption k = v := by
  unfold OptionsTree.getOption OptionsTree.getOptionD
  rw [h]
  rfl

theorem getOptionD_of_find? (o : OptionsTree) (k : OptPath) (v d : Variant)
    (h : o.find? k = some v) : o.getOptionD k d = v := by
  unfold OptionsTree.getOptionD
  rw [h]
  rfl

/-- The writes of `toOptions` on a store that holds nothing below the base leave a store
that holds the account. -/
theorem storedIn_toOptionsWrite (env : Env) (psi : OptionsTree) (u : UserAccount)
    (ssl plain : String) (b : OptPath) (o0 : OptionsTree) (hb : b ≠ [])
    (h0 : o0.sub b = ⟨[]⟩) (hs : UserAccount.Storable env psi b u) :
    UserAccount.StoredIn env u ssl plain b (UserAccount.toOptionsWrite env u ssl plain b o0) where
  head := find?_toOptionsWrite_head env u ssl plain b o0 hb hs.keybindFrame
  tail := find?_toOptionsWrite_tail env u ssl plain b o0 hb
  lastPriority := find?_toOptionsWrite_lastPriority env u ssl plain b o0 hb
  proxyId := find?_toOptionsWrite_proxyId env u ssl plain b o0 hb hs.keybindFrame
  roster :=
    roster_read_back env b u.roster _ _ (sub_roster_head_nil env u ssl plain b o0 h0)
      (sub_roster_toOptionsWrite env u ssl plain b o0 hb hs.keybindFrame) hs.roster
  groupState :=
    groupStateFromOptions_groupStateToOptions b _
      (prunedGroupState_wf env u hs.groupState) _ _
      (sub_groupState_roster_nil env u ssl plain b o0 h0)
      (sub_groupState_toOptionsWrite env u ssl plain b o0 hb hs.keybindFrame)
  keybind :=
    hs.keybindRead _ _ (sub_keybind_proxyId_nil env u ssl plain b o0 h0)
      (sub_keybind_toOptionsWrite env u ssl plain b o0 hb)

/-! ## Reading single fields back -/

theorem isEmpty_eq_false_of_ne (s : String) (h : s ≠ "") : s.isEmpty = false := by
  cases hs : s.isEmpty
  · rfl
  · exfalso
    apply h
    simpa [String.isEmpty_iff] using hs

theorem sslText_read (u : UserAccount) (ssl : String) (h : UserAccount.sslText u = some ssl) :
    (if ssl = "no" then SSL_No
      else if ssl = "yes" then SSL_Yes
      else if ssl = "auto" then SSL_Auto
      else if ssl = "legacy" then SSL_Legacy
      else SSL_Yes) = u.ssl := by
  unfold UserAccount.sslText at h
  split at h
  · injection h with h; subst h; simp_all
  · split at h
    · injection h with h; subst h; simp_all
    · split at h
      · injection h with h; subst h; simp_all
      · split at h
        · injection h with h; subst h; simp_all
        · simp at h

theorem plainText_read (u : UserAccount) (plain : String)
    (h : UserAccount.plainText u = some plain) :
    (if plain = "never" then NoAllowPlain
      else if plain = "always" then AllowPlain
      else if plain = "over encryped" then AllowPlainOverTLS
      else NoAllowPlain) = u.allow_plain := by
  unfold UserAccount.plainText at h
  split at h
  · injection h with h; subst h; simp_all
  · split at h
    · injection h with h; subst h; simp_all
    · split at h
      · injection h with h; subst h; simp_all
      · simp at h

theorem password_read (env : Env) (psi : OptionsTree) (b : OptPath) (u : UserAccount)
    (hs : UserAccount.Storable env psi b u) :
    (if (!(if u.opt_pass = true then env.encodePassword u.pass u.jid else "").isEmpty) = true then
      env.decodePassword (if u.opt_pass = true then env.encodePassword u.pass u.jid else "") u.jid
    else "") = u.pass ∧
    (if (!(if u.opt_pass = true then env.encodePassword u.pass u.jid else "").isEmpty) = true
      then true else false) = u.opt_pass := by
  have hp := hs.password
  cases h : u.opt_pass
  · rw [h] at hp
    simp only [Bool.false_eq_true, if_false] at hp ⊢
    have he : "".isEmpty = true := rfl
    exact ⟨by simp [hp, he], by simp [he]⟩
  · rw [h] at hp
    simp only [if_true] at hp ⊢
    simp [isEmpty_eq_false_of_ne _ hp.1, hp.2]

theorem pgp_read (env : Env) (psi : OptionsTree) (b : OptPath) (u : UserAccount)
    (hs : UserAccount.Storable env psi b u) :
    (if (env.havePgpUtil &&
          !(match u.pgpSecretKey with
            | some key => key.keyId
            | none => "").isEmpty) = true then
        match env.getSecretKey
          (match u.pgpSecretKey with
            | some key => key.keyId
            | none => "") with
        | some key => some key
        | none => UserAccount.blank.pgpSecretKey
      else UserAccount.blank.pgpSecretKey) = u.pgpSecretKey ∧
    (if (env.havePgpUtil &&
          !(match u.pgpSecretKey with
            | some key => key.keyId
            | none => "").isEmpty) = true then
        if (!(match u.pgpSecretKey with
              | some key => env.encodePassword u.pgpPassPhrase key.keyId
              | none => "").isEmpty) = true then
          env.decodePassword
            (match u.pgpSecretKey with
              | some key => env.encodePassword u.pgpPassPhrase key.keyId
              | none => "")
            (match u.pgpSecretKey with
              | some key => key.keyId
              | none => "")
        else
          match u.pgpSecretKey with
          | some key => env.encodePassword u.pgpPassPhrase key.keyId
          | none => ""
      else UserAccount.blank.pgpPassPhrase) = u.pgpPassPhrase := by
  have hp := hs.pgp
  cases h : u.pgpSecretKey with
  | none =>
    rw [h] at hp
    simp only at hp
    have e1 : UserAccount.blank.pgpSecretKey = none := rfl
    have e2 : UserAccount.blank.pgpPassPhrase = "" := rfl
    have he : "".isEmpty = true := rfl
    simp [e1, e2, hp, he]
  | some key =>
    rw [h] at hp
    simp only at hp
    obtain ⟨h1, h2, h3, h4⟩ := hp
    simp only [h1, isEmpty_eq_false_of_ne _ h2, h3, Bool.not_false, Bool.and_self, if_true]
    refine ⟨trivial, ?_⟩
    generalize env.encodePassword u.pgpPassPhrase key.keyId = e at h4 ⊢
    cases he : e.isEmpty <;> simp_all

set_option maxHeartbeats 4000000 in
/-- Reading a store that holds a storable account gives the account back, with its group
state pruned and the fields that are not stored at their `reset()` values; the store is
not written. -/
theorem fromOptions_of_storedIn (env : Env) (uuid uuid0 : String) (psi : OptionsTree)
    (u : UserAccount) (ssl plain : String) (b : OptPath) (w : OptionsTree)
    (hs : UserAccount.Storable env psi b u) (hw : UserAccount.StoredIn env u ssl plain b w)
    (hssl : UserAccount.sslText u = some ssl) (hplain : UserAccount.plainText u = some plain) :
    UserAccount.fromOptions env uuid psi w b (UserAccount.init env uuid0) =
      (UserAccount.persisted env u, w) := by
  have hh0 := hw.head _ _
    (@List.getElem?_mem _ (UserAccount.headPairs env u ssl plain) 0 _ rfl)
  have g0 := getOption_of_find? _ _ _ hh0
  have hh1 := hw.head _ _
    (@List.getElem?_mem _ (UserAccount.headPairs env u ssl plain) 1 _ rfl)
  have g1 := getOption_of_find? _ _ _ hh1
  have hh2 := hw.head _ _
    (@List.getElem?_mem _ (UserAccount.headPairs env u ssl plain) 2 _ rfl)
  have g2 := getOption_of_find? _ _ _ hh2
  have hh3 := hw.head _ _
    (@List.getElem?_mem _ (UserAccount.headPairs env u ssl plain) 3 _ rfl)
  have g3 := getOption_of_find? _ _ _ hh3
  have hh4 := hw.head _ _
    (@List.getElem?_mem _ (UserAccount.headPairs env u ssl plain) 4 _ rfl)
  have g4 := getOption_of_find? _ _ _ hh4
  have hh5 := hw.head _ _
    (@List.getElem?_mem _ (UserAccount.headPairs env u ssl plain) 5 _ rfl)
  have g5 := getOption_of_find? _ _ _ hh5
  have hh6 := hw.head _ _
    (@List.getElem?_mem _ (UserAccount.headPairs env u ssl plain) 6 _ rfl)
  have g6 := getOption_of_find? _ _ _ hh6
  have hh7 := hw.head _ _
    (@List.getElem?_mem _ (UserAccount.headPairs env u ssl plain) 7 _ rfl)
  have g7 := getOption_of_find? _ _ _ hh7
  have hh8 := hw.head _ _
    (@List.getElem?_mem _ (UserAccount.headPairs env u ssl plain) 8 _ rfl)
  have g8 := getOption_of_find? _ _ _ hh8
  have hh9 := hw.head _ _
    (@List.getElem?_mem _ (UserAccount.headPairs env u ssl plain) 9 _ rfl)
  have g9 := getOption_of_find? _ _ _ hh9
  have hh10 := hw.head _ _
    (@List.getElem?_mem _ (UserAccount.headPairs env u ssl plain) 10 _ rfl)
  have g10 := getOption_of_find? _ _ _ hh10
  have hh11 := hw.head _ _
    (@List.getElem?_mem _ (UserAccount.headPairs env u ssl plain) 11 _ rfl)
  have g11 := getOption_of_find? _ _ _ hh11
  have hh12 := hw.head _ _
    (@List.getElem?_mem _ (UserAccount.headPairs env u ssl plain) 12 _ rfl)
  have g12 := getOption_of_find? _ _ _ hh12
  have hh13 := hw.head _ _
    (@List.getElem?_mem _ (UserAccount.headPairs env u ssl plain) 13 _ rfl)
  have g13 := getOption_of_find? _ _ _ hh13
  have hh14 := hw.head _ _
    (@List.getElem?_mem _ (UserAccount.headPairs env u ssl plain) 14 _ rfl)
  have g14 := getOption_of_find? _ _ _ hh14
  have hh15 := hw.head _ _
    (@List.getElem?_mem _ (UserAccount.headPairs env u ssl plain) 15 _ rfl)
  have g15 := getOption_of_find? _ _ _ hh15
  have hh16 := hw.head _ _
    (@List.getElem?_mem _ (UserAccount.headPairs env u ssl plain) 16 _ rfl)
  have g16 := getOption_of_find? _ _ _ hh16
  have hh17 := hw.head _ _
    (@List.getElem?_mem _ (UserAccount.headPairs env u ssl plain) 17 _ rfl)
  have g17 := getOption_of_find? _ _ _ hh17
  have hh18 := hw.head _ _
    (@List.getElem?_mem _ (UserAccount.headPairs env u ssl plain) 18 _ rfl)
  have g18 := getOption_of_find? _ _ _ hh18
  have hh19 := hw.head _ _
    (@List.getElem?_mem _ (UserAccount.headPairs env u ssl plain) 19 _ rfl)
  have g19 := getOption_of_find? _ _ _ hh19
  have hh20 := hw.head _ _
    (@List.getElem?_mem _ (UserAccount.headPairs env u ssl plain) 20 _ rfl)
  have g20 := getOption_of_find? _ _ _ hh20
  have hh21 := hw.head _ _
    (@List.getElem?_mem _ (UserAccount.headPairs env u ssl plain) 21 _ rfl)
  have g21 := getOption_of_find? _ _ _ hh21
  have hh22 := hw.head _ _
    (@List.getElem?_mem _ (UserAccount.headPairs env u ssl plain) 22 _ rfl)
  have g22 := getOption_of_find? _ _ _ hh22
  have hh23 := hw.head _ _
    (@List.getElem?_mem _ (UserAccount.headPairs env u ssl plain) 23 _ rfl)
  have g23 := getOption_of_find? _ _ _ hh23
  have hh24 := hw.head _ _
    (@List.getElem?_mem _ (UserAccount.headPairs env u ssl plain) 24 _ rfl)
  have g24 := getOption_of_find? _ _ _ hh24
  have hh25 := hw.head _ _
    (@List.getElem?_mem _ (UserAccount.headPairs env u ssl plain) 25 _ rfl)
  have g25 := getOption_of_find? _ _ _ hh25
  have hh26 := hw.head _ _
    (@List.getElem?_mem _ (UserAccount.headPairs env u ssl plain) 26 _ rfl)
  have g26 := getOption_of_find? _ _ _ hh26
  have hh27 := hw.head _ _
    (@List.getElem?_mem _ (UserAccount.headPairs env u ssl plain) 27 _ rfl)
  have g27 := getOption_of_find? _ _ _ hh27
  have hh28 := hw.head _ _
    (@List.getElem?_mem _ (UserAccount.headPairs env u ssl plain) 28 _ rfl)
  have g28 := getOption_of_find? _ _ _ hh28
  have hh29 := hw.head _ _
    (@List.getElem?_mem _ (UserAccount.headPairs env u ssl plain) 29 _ rfl)
  have g29 := getOption_of_find? _ _ _ hh29
  have hh30 := hw.head _ _
    (@List.getElem?_mem _ (UserAccount.headPairs env u ssl plain) 30 _ rfl)
  have g30 := getOption_of_find? _ _ _ hh30
  have hh31 := hw.head _ _
    (@List.getElem?_mem _ (UserAccount.headPairs env u ssl plain) 31 _ rfl)
  have g31 := getOption_of_find? _ _ _ hh31
  have hh32 := hw.head _ _
    (@List.getElem?_mem _ (UserAccount.headPairs env u ssl plain) 32 _ rfl)
  have g32 := getOption_of_find? _ _ _ hh32
  have hh33 := hw.head _ _
    (@List.getElem?_mem _ (UserAccount.headPairs env u ssl plain) 33 _ rfl)
  have g33 := getOption_of_find? _ _ _ hh33
  have ht0 := hw.tail _ _
    (@List.getElem?_mem _ (UserAccount.tailPairs u ++ UserAccount.tailPairsEnd u) 0 _ rfl)
  have t0 := getOption_of_find? _ _ _ ht0
  have ht1 := hw.tail _ _
    (@List.getElem?_mem _ (UserAccount.tailPairs u ++ UserAccount.tailPairsEnd u) 1 _ rfl)
  have t1 := getOption_of_find? _ _ _ ht1
  have ht2 := hw.tail _ _
    (@List.getElem?_mem _ (UserAccount.tailPairs u ++ UserAccount.tailPairsEnd u) 2 _ rfl)
  have t2 := getOption_of_find? _ _ _ ht2
  have ht3 := hw.tail _ _
    (@List.getElem?_mem _ (UserAccount.tailPairs u ++ UserAccount.tailPairsEnd u) 3 _ rfl)
  have t3 := getOption_of_find? _ _ _ ht3
  have ht4 := hw.tail _ _
    (@List.getElem?_mem _ (UserAccount.tailPairs u ++ UserAccount.tailPairsEnd u) 4 _ rfl)
  have t4 := getOption_of_find? _ _ _ ht4
  have ht5 := hw.tail _ _
    (@List.getElem?_mem _ (UserAccount.tailPairs u ++ UserAccount.tailPairsEnd u) 5 _ rfl)
  have t5 := getOption_of_find? _ _ _ ht5
  have ht6 := hw.tail _ _
    (@List.getElem?_mem _ (UserAccount.tailPairs u ++ UserAccount.tailPairsEnd u) 6 _ rfl)
  have t6 := getOption_of_find? _ _ _ ht6
  have ht7 := hw.tail _ _
    (@List.getElem?_mem _ (UserAccount.tailPairs u ++ UserAccount.tailPairsEnd u) 7 _ rfl)
  have t7 := getOption_of_find? _ _ _ ht7
  have ht8 := hw.tail _ _
    (@List.getElem?_mem _ (UserAccount.tailPairs u ++ UserAccount.tailPairsEnd u) 8 _ rfl)
  have t8 := getOption_of_find? _ _ _ ht8
  have ht9 := hw.tail _ _
    (@List.getElem?_mem _ (UserAccount.tailPairs u ++ UserAccount.tailPairsEnd u) 9 _ rfl)
  have t9 := getOption_of_find? _ _ _ ht9
  have ht10 := hw.tail _ _
    (@List.getElem?_mem _ (UserAccount.tailPairs u ++ UserAccount.tailPairsEnd u) 10 _ rfl)
  have t10 := getOption_of_find? _ _ _ ht10
  have ht11 := hw.tail _ _
    (@List.getElem?_mem _ (UserAccount.tailPairs u ++ UserAccount.tailPairsEnd u) 11 _ rfl)
  have t11 := getOption_of_find? _ _ _ ht11
  have ht12 := hw.tail _ _
    (@List.getElem?_mem _ (UserAccount.tailPairs u ++ UserAccount.tailPairsEnd u) 12 _ rfl)
  have t12 := getOption_of_find? _ _ _ ht12
  have d3 := fun d => getOptionD_of_find? _ _ _ d hh3
  have d8 := fun d => getOptionD_of_find? _ _ _ d hh8
  have gp := getOption_of_find? _ _ _ hw.proxyId
  have hsleep : UserAccount.connectAfterSleepSet w b = true := by
    unfold UserAccount.connectAfterSleepSet
    rw [decide_eq_true_eq, OptionsTree.mem_getChildOptionNames_all _ _ (by simp)]
    exact OptionsTree.mem_allOptionNames_of_find? w _ _ hh12
  have a1 := OptionsTree.child_mem_of_find? w b _ _ _ hh13
  have a2 := OptionsTree.child_mem_of_find? w b _ _ _ ht2
  have a3 := OptionsTree.child_mem_of_find? w b _ _ _ ht3
  have a4 := OptionsTree.child_mem_of_find? w b _ _ _ ht4
  have a5 := OptionsTree.child_mem_of_find? w b _ _ _ ht5
  have a6 := OptionsTree.child_mem_of_find? w b _ _ _ ht6
  have hid : (if (!u.id.isEmpty) = true then u.id else uuid) = u.id := by
    rw [isEmpty_eq_false_of_ne _ hs.id]
    rfl
  have hsslr := sslText_read u ssl hssl
  have hplainr := plainText_read u plain hplain
  have hpass := (password_read env psi b u hs).1
  have hopass := (password_read env psi b u hs).2
  have hpgp1 := (pgp_read env psi b u hs).1
  have hpgp2 := (pgp_read env psi b u hs).2
  have hdt := hs.dtProxy
  have hty := hs.statusType
  have hbase := hs.base
  have hti : ∀ i : Int, (Variant.int i).toInt = i := fun _ => rfl
  have hlast : (if u.lastStatusWithPriority = true then
        ({ typeString := u.lastStatus.typeString, status := u.lastStatus.status,
           priority := (w.getOption (b ++ ["last-priority"])).toInt } : Status)
      else
        { typeString := u.lastStatus.typeString, status := u.lastStatus.status,
          priority :=
            if u.priority_dep_on_status = true then
              if env.statusIsAvailable u.lastStatus.typeString = true then
                (psi.getOption
                  ["options", "status", "default-priority", u.lastStatus.typeString]).toInt
              else 0
            else u.priority }) = u.lastStatus := by
    cases hwp : u.lastStatusWithPriority
    · have hpr := hs.statusPriority hwp
      unfold UserAccount.defaultPriority at hpr
      simp only [Bool.false_eq_true, if_false]
      rw [← hpr]
    · have hlp := getOption_of_find? _ _ _ (hw.lastPriority hwp)
      simp only [if_true, hlp, Variant.toInt]
  unfold UserAccount.fromOptions
  simp only [UserAccount.fromOptionsSleepStore, hsleep, if_true]
  apply Prod.ext
  · simp only [UserAccount.fromOptionsTail, UserAccount.fromOptionsRoster,
      UserAccount.fromOptionsPgp, UserAccount.fromOptionsLastStatus,
      UserAccount.fromOptionsConnection, UserAccount.fromOptionsIdentity,
      UserAccount.fromOptionsSleep, UserAccount.fromOptionsFlags, UserAccount.reset,
      UserAccount.init, UserAccount.persisted, UserAccount.defaultPriority, hsleep, if_true,
      a1, a2, a3, a4, a5, a6,
      g0, g1, g2, g3, g4, g5, g6, g7, g8, g9, g10, g11, g12, g13, g14, g15, g16, g17, g18,
    g19, g20, g21, g22, g23, g24, g25, g26, g27, g28, g29, g30, g31, g32, g33, t0, t1,
    t2, t3, t4, t5, t6, t7, t8, t9, t10, t11, t12, d3, d8, gp, Variant.toBool, Variant.toQString,
      Variant.toStringList, Variant.toByteArray, hw.roster, hw.groupState, hw.keybind,
      List.nil_append, hid, hsslr, hplainr, hpass, hopass, hpgp1, hpgp2, hdt, hty, hbase, hti, hlast]
  · rfl

/-! ## Writing an account and reading it back -/

theorem sslText_isSome (u : UserAccount)
    (h : u.ssl = SSL_No ∨ u.ssl = SSL_Yes ∨ u.ssl = SSL_Auto ∨ u.ssl = SSL_Legacy) :
    ∃ ssl, UserAccount.sslText u = some ssl := by
  unfold UserAccount.sslText
  rcases h with h | h | h | h <;> rw [h] <;> simp [SSL_No, SSL_Yes, SSL_Auto, SSL_Legacy]

theorem plainText_isSome (u : UserAccount)
    (h : u.allow_plain = NoAllowPlain ∨ u.allow_plain = AllowPlain ∨
      u.allow_plain = AllowPlainOverTLS) :
    ∃ plain, UserAccount.plainText u = some plain := by
  unfold UserAccount.plainText
  rcases h with h | h | h <;> rw [h] <;> simp [NoAllowPlain, AllowPlain, AllowPlainOverTLS]

theorem toOptions_eq (env : Env) (u : UserAccount) (o : OptionsTree) (b : OptPath)
    (hb : b ≠ []) (ssl plain : String) (hssl : UserAccount.sslText u = some ssl)
    (hplain : UserAccount.plainText u = some plain) :
    UserAccount.toOptions env u o b =
      Except.ok ({ u with groupState := UserAccount.prunedGroupState env u },
        UserAccount.toOptionsWrite env u ssl plain b (o.removeOption b true)) := by
  have hbe : b.isEmpty = false := by cases b <;> simp_all
  unfold UserAccount.toOptions
  simp only [hbe, Bool.false_eq_true, if_false, hssl, hplain]

theorem sampleStoredAccount_storable :
    UserAccount.Storable sampleEnv sampleStore ["accounts", "a0"] sampleStoredAccount where
  base := rfl
  id := by decide
  ssl := Or.inr (Or.inr (Or.inl rfl))
  plain := Or.inr (Or.inr rfl)
  password := by decide
  statusType := rfl
  statusPriority := fun h => absurd h (by decide)
  pgp := rfl
  roster := by decide
  dtProxy := rfl
  groupState := by
    unfold QMap.WF QMap.keys
    refine List.Pairwise.cons ?_ (List.Pairwise.cons (by simp) List.Pairwise.nil)
    intro g hg
    simp only [List.map_cons, List.map_nil, List.mem_singleton] at hg
    subst hg
    exact String.lt_iff_toList_lt.mpr (by decide)
  keybindFrame := fun _ _ => rfl
  keybindRead := fun _ _ _ _ => rfl

set_option maxRecDepth 100000 in
/-- C7 (counterexample). The sample account of a user who hides offline contacts is
written by `toOptions` and read back by `fromOptions` on a fresh account with the flag
`tog_offline` set again: the field differs from the one of the account written. -/
theorem toOptions_fromOptions_resets_toggles :
    sampleToggledAccount.tog_offline = false ∧
    ∃ u' o', UserAccount.toOptions sampleEnv sampleToggledAccount sampleStore
        ["accounts", "a0"] = Except.ok (u', o') ∧
      (UserAccount.fromOptions sampleEnv "account-2" sampleStore o' ["accounts", "a0"]
        (UserAccount.init sampleEnv "account-2")).1.tog_offline = true :=
  ⟨rfl, { sampleToggledAccount with
      groupState := UserAccount.prunedGroupState sampleEnv sampleToggledAccount },
    UserAccount.toOptionsWrite sampleEnv sampleToggledAccount "auto" "over encryped"
      ["accounts", "a0"] (sampleStore.removeOption ["accounts", "a0"] true), rfl, rfl⟩

/-- C7 (amended). For every account `u` that the store can hold under the non-empty base
`b` (`Storable`), every store `o` and every fresh account: `toOptions(o, b)` succeeds,
hands back `u` with its group state pruned, and `fromOptions(o, b)` on the fresh account
then yields `u` with the group state pruned to the groups that a roster item or one of
the three pseudo-groups names, and with the fields `toOptions` does not store (the five
roster visibility toggles and the six legacy proxy fields) at their `reset()` values;
every other field is equal to the one of `u`, and reading does not change the store. -/
theorem toOptions_fromOptions_round_trip (env : Env) (uuid uuid0 : String)
    (psi : OptionsTree) (u : UserAccount) (o : OptionsTree) (b : OptPath) (hb : b ≠ [])
    (hs : UserAccount.Storable env psi b u) :
    ∃ o', UserAccount.toOptions env u o b =
        Except.ok ({ u with groupState := UserAccount.prunedGroupState env u }, o') ∧
      UserAccount.fromOptions env uuid psi o' b (UserAccount.init env uuid0) =
        (UserAccount.persisted env u, o') := by
  obtain ⟨ssl, hssl⟩ := sslText_isSome u hs.ssl
  obtain ⟨plain, hplain⟩ := plainText_isSome u hs.plain
  refine ⟨_, toOptions_eq env u o b hb ssl plain hssl hplain, ?_⟩
  exact fromOptions_of_storedIn env uuid uuid0 psi u ssl plain b _ hs
    (storedIn_toOptionsWrite env psi u ssl plain b _ hb
      (OptionsTree.sub_removeOption_recursive o b b (by simp)) hs)
    hssl hplain

theorem toOptions_fromOptions_round_trip_witness :
    UserAccount.Storable sampleEnv sampleStore ["accounts", "a0"] sampleStoredAccount ∧
    ∃ o', UserAccount.toOptions sampleEnv sampleStoredAccount sampleStore ["accounts", "a0"] =
        Except.ok ({ sampleStoredAccount with
          groupState := UserAccount.prunedGroupState sampleEnv sampleStoredAccount }, o') ∧
      UserAccount.fromOptions sampleEnv "account-2" sampleStore o' ["accounts", "a0"]
          (UserAccount.init sampleEnv "account-3") =
        (UserAccount.persisted sampleEnv sampleStoredAccount, o') :=
  ⟨sampleStoredAccount_storable,
    toOptions_fromOptions_round_trip sampleEnv "account-2" "account-3" sampleStore
      sampleStoredAccount sampleStore ["accounts", "a0"] (by decide)
      sampleStoredAccount_storable⟩

/-! ## Reading an account and writing it back -/

theorem removeOption_toOptionsWrite (env : Env) (u : UserAccount) (ssl plain : String)
    (b : OptPath) (o0 : OptionsTree) (hb : b ≠ [])
    (hf : ∀ v o, (env.varListToOptions v o (b ++ ["pgp-key-bindings"])).removeOption
      (b ++ ["pgp-key-bindings"]) true = o.removeOption (b ++ ["pgp-key-bindings"]) true) :
    (UserAccount.toOptionsWrite env u ssl plain b o0).removeOption b true =
      o0.removeOption b true := by
  unfold UserAccount.toOptionsWrite
  simp only
  have ha := (((((agree_head env u ssl plain b (fun _ => true) (fun _ _ => rfl) o0).trans
    (agree_roster b _ (fun _ => rfl) u.roster _)).trans
    (agree_groupState b _ (fun _ => rfl) (UserAccount.prunedGroupState env u)
      (QMap.keys (UserAccount.prunedGroupState env u)) _)).trans
    (agree_proxyId b _ rfl (Variant.str u.proxyID) _)).trans
    (agree_keybind env b _ (fun _ => rfl) hf u.keybind _)).trans
    (agree_tail u b hb _ (fun _ _ => rfl) _)
  apply ha.removeOption b
  intro k hk
  unfold atBase at hk
  simp only [Bool.and_true] at hk
  exact hk

theorem toOptionsWrite_persisted (env : Env) (u : UserAccount) (ssl plain : String)
    (b : OptPath) (o0 : OptionsTree) :
    UserAccount.toOptionsWrite env (UserAccount.persisted env u) ssl plain b o0 =
      UserAccount.toOptionsWrite env u ssl plain b o0 := by
  have hg : UserAccount.prunedGroupState env (UserAccount.persisted env u) =
      UserAccount.prunedGroupState env u :=
    prunedGroupState_idem env u (UserAccount.persisted env u) rfl rfl
  have hh : ∀ o, UserAccount.toOptionsHead env (UserAccount.persisted env u) ssl plain b o =
      UserAccount.toOptionsHead env u ssl plain b o := fun o => rfl
  have ht : ∀ o, UserAccount.toOptionsTail (UserAccount.persisted env u) b o =
      UserAccount.toOptionsTail u b o := fun o => rfl
  unfold UserAccount.toOptionsWrite
  simp only [hg, hh, ht]
  rfl

set_option maxRecDepth 100000 in
/-- C8 (counterexample). The sample store holds under `accounts.a0` the SSL mode text
`tls` and an option `note`. Reading the account with `fromOptions` and writing it back
with `toOptions` leaves the SSL mode text `yes` and no option `note`: the subtree is not
what it was before, and the difference is not a group-state entry. -/
theorem fromOptions_toOptions_rewrites_subtree :
    sampleForeignStore.find? ["accounts", "a0", "ssl"] = some (Variant.str "tls") ∧
    sampleForeignStore.find? ["accounts", "a0", "note"] = some (Variant.str "keep me") ∧
    ∃ v o2,
      UserAccount.toOptions sampleEnv
        (UserAccount.fromOptions sampleEnv "account-2" sampleStore sampleForeignStore
          ["accounts", "a0"] (UserAccount.init sampleEnv "account-2")).1
        (UserAccount.fromOptions sampleEnv "account-2" sampleStore sampleForeignStore
          ["accounts", "a0"] (UserAccount.init sampleEnv "account-2")).2
        ["accounts", "a0"] = Except.ok (v, o2) ∧
      o2.find? ["accounts", "a0", "ssl"] = some (Variant.str "yes") ∧
      o2.find? ["accounts", "a0", "note"] = none :=
  ⟨rfl, rfl, _, _, rfl, rfl, rfl⟩

/-- C8 (amended). For every store `o1` that `toOptions(o, b)` wrote for an account the
store can hold under the non-empty base `b` (`Storable`): reading the account with
`fromOptions(o1, b)` into a fresh account and writing it back with `toOptions(o1, b)`
succeeds and leaves the whole store equal to `o1`; no group-state entry is pruned, since
the first write removed the unreferenced ones. -/
theorem fromOptions_toOptions_restores_store (env : Env) (uuid uuid0 : String)
    (psi : OptionsTree) (u u' : UserAccount) (o o1 : OptionsTree) (b : OptPath) (hb : b ≠ [])
    (hs : UserAccount.Storable env psi b u)
    (h : UserAccount.toOptions env u o b = Except.ok (u', o1)) :
    ∃ v, UserAccount.toOptions env
        (UserAccount.fromOptions env uuid psi o1 b (UserAccount.init env uuid0)).1
        (UserAccount.fromOptions env uuid psi o1 b (UserAccount.init env uuid0)).2 b =
      Except.ok (v, o1) := by
  obtain ⟨ssl, hssl⟩ := sslText_isSome u hs.ssl
  obtain ⟨plain, hplain⟩ := plainText_isSome u hs.plain
  rw [toOptions_eq env u o b hb ssl plain hssl hplain] at h
  simp only [Except.ok.injEq, Prod.mk.injEq] at h
  obtain ⟨-, rfl⟩ := h
  rw [fromOptions_of_storedIn env uuid uuid0 psi u ssl plain b _ hs
    (storedIn_toOptionsWrite env psi u ssl plain b _ hb
      (OptionsTree.sub_removeOption_recursive o b b (by simp)) hs) hssl hplain]
  refine ⟨{ UserAccount.persisted env u with
    groupState := UserAccount.prunedGroupState env (UserAccount.persisted env u) }, ?_⟩
  simp only
  rw [toOptions_eq env (UserAccount.persisted env u) _ b hb ssl plain hssl hplain,
    removeOption_toOptionsWrite env u ssl plain b _ hb hs.keybindFrame,
    OptionsTree.removeOption_removeOption_of_under o b b (by simp),
    toOptionsWrite_persisted]

theorem fromOptions_toOptions_restores_store_witness :
    UserAccount.Storable sampleEnv sampleStore ["accounts", "a0"] sampleStoredAccount ∧
    ∃ v, UserAccount.toOptions sampleEnv
        (UserAccount.fromOptions sampleEnv "account-2" sampleStore
          (UserAccount.toOptionsWrite sampleEnv sampleStoredAccount "auto" "over encryped"
            ["accounts", "a0"] (sampleStore.removeOption ["accounts", "a0"] true))
          ["accounts", "a0"] (UserAccount.init sampleEnv "account-3")).1
        (UserAccount.fromOptions sampleEnv "account-2" sampleStore
          (UserAccount.toOptionsWrite sampleEnv sampleStoredAccount "auto" "over encryped"
            ["accounts", "a0"] (sampleStore.removeOption ["accounts", "a0"] true))
          ["accounts", "a0"] (UserAccount.init sampleEnv "account-3")).2
        ["accounts", "a0"] =
      Except.ok (v, UserAccount.toOptionsWrite sampleEnv sampleStoredAccount "auto"
        "over encryped" ["accounts", "a0"]
        (sampleStore.removeOption ["accounts", "a0"] true)) :=
  ⟨sampleStoredAccount_storable,
    fromOptions_toOptions_restores_store sampleEnv "account-2" "account-3" sampleStore
      sampleStoredAccount
      { sampleStoredAccount with
        groupState := UserAccount.prunedGroupState sampleEnv sampleStoredAccount }
      sampleStore _ ["accounts", "a0"] (by decide) sampleStoredAccount_storable rfl⟩

/-! ## The first toolbar of the toolbar map -/

theorem mapNode_zero (p : OptPath) : mapNode p 0 = p ++ ["m0"] := rfl

/-- When the first node of a map holds another key, `mapPut` answers with another node. -/
theorem mapPut_fst_ne_first (x : OptionsTree) (p : OptPath) (key n0 : Variant) (t : OptPath)
    (h0 : x.find? (p ++ "m0" :: t) = some n0)
    (hk : x.getOption (p ++ ["m0"] ++ ["key"]) ≠ key) :
    ∃ seg : String, (x.mapPut p key).1 = p ++ [seg] ∧ seg ≠ "m0" := by
  have hc : p ++ ["m0"] ∈ x.getChildOptionNames p true true :=
    OptionsTree.child_mem_of_find? x p "m0" t n0 h0
  obtain ⟨seg, hseg⟩ := OptionsTree.mapPut_fst_shape x p key
  refine ⟨seg, hseg, ?_⟩
  intro hs
  subst hs
  unfold OptionsTree.mapPut at hseg
  cases hf : x.mapFind? p key with
  | some path =>
    rw [hf] at hseg
    simp only at hseg
    unfold OptionsTree.mapFind? at hf
    have := List.find?_some hf
    simp only [decide_eq_true_eq] at this
    rw [hseg] at this
    exact hk this
  | none =>
    rw [hf] at hseg
    simp only at hseg
    have hn := OptionsTree.firstUnusedIndex_not_mem p (x.getChildOptionNames p true true)
    rw [hseg] at hn
    exact hn hc

theorem mapPut_snd_find?_first (x : OptionsTree) (p : OptPath) (key n0 : Variant)
    (t : OptPath) (h0 : x.find? (p ++ "m0" :: t) = some n0)
    (hk : x.getOption (p ++ ["m0"] ++ ["key"]) ≠ key) (f : OptPath) :
    (x.mapPut p key).2.find? (p ++ ["m0"] ++ f) = x.find? (p ++ ["m0"] ++ f) := by
  obtain ⟨seg, hseg, hne⟩ := mapPut_fst_ne_first x p key n0 t h0 hk
  unfold OptionsTree.mapPut at hseg ⊢
  cases hf : x.mapFind? p key with
  | some path => rfl
  | none =>
    rw [hf] at hseg
    simp only at hseg ⊢
    rw [OptionsTree.find?_setOption, if_neg]
    intro he
    rw [hseg, List.append_assoc, List.append_assoc] at he
    have := List.append_cancel_left he
    simp only [List.cons_append, List.nil_append, List.cons.injEq] at this
    exact hne this.1.symm

/-- A toolbar with an id other than the key of the first toolbar leaves the first
toolbar as it is. -/
theorem structToOptions_find?_first (x : OptionsTree) (tb : ToolbarPrefs) (n0 : Variant)
    (t : OptPath)
    (h0 : x.find? (["options", "ui", "contactlist", "toolbars"] ++ "m0" :: t) = some n0)
    (hk : x.getOption (["options", "ui", "contactlist", "toolbars"] ++ ["m0"] ++ ["key"]) ≠
      Variant.str tb.id) (f : OptPath) :
    (structToOptions x tb).find? (["options", "ui", "contactlist", "toolbars"] ++ ["m0"] ++ f) =
      x.find? (["options", "ui", "contactlist", "toolbars"] ++ ["m0"] ++ f) := by
  obtain ⟨seg, hseg, hne⟩ := mapPut_fst_ne_first x _ (Variant.str tb.id) n0 t h0 hk
  have hd : ∀ g : OptPath,
      ¬ ["options", "ui", "contactlist", "toolbars"] ++ ["m0"] ++ f =
        (x.mapPut ["options", "ui", "contactlist", "toolbars"] (Variant.str tb.id)).1 ++ g := by
    intro g he
    rw [hseg, List.append_assoc, List.append_assoc] at he
    have := List.append_cancel_left he
    simp only [List.cons_append, List.nil_append, List.cons.injEq] at this
    exact hne this.1.symm
  unfold structToOptions
  simp only [OptionsTree.find?_setOption, if_neg (hd _)]
  exact mapPut_snd_find?_first x _ (Variant.str tb.id) n0 t h0 hk f

theorem getOption_congr_find? (x y : OptionsTree) (k : OptPath) (h : y.find? k = x.find? k) :
    y.getOption k = x.getOption k := by
  unfold OptionsTree.getOption OptionsTree.getOptionD
  rw [h]

theorem firstToolbar_structToOptions (x : OptionsTree) (tb : ToolbarPrefs) (n0 k0 : Variant)
    (h : x.FirstToolbar n0 k0) (hk : Variant.str tb.id ≠ k0) :
    (structToOptions x tb).FirstToolbar n0 k0 := by
  have hk' : x.getOption (["options", "ui", "contactlist", "toolbars"] ++ ["m0"] ++ ["key"]) ≠
      Variant.str tb.id := by
    intro he
    exact hk (he.symm.trans h.2)
  have e := structToOptions_find?_first x tb n0 ["name"] h.1 hk'
  exact ⟨(e ["name"]).trans h.1, (getOption_congr_find? x _ _ (e ["key"])).trans h.2⟩

theorem firstToolbar_foldl (g : ToolbarPrefs → ToolbarPrefs) (n0 k0 : Variant) :
    ∀ (tbs : List ToolbarPrefs) (x : OptionsTree),
      (∀ tb ∈ tbs, Variant.str (g tb).id ≠ k0) → x.FirstToolbar n0 k0 →
      (tbs.foldl (fun o tb => structToOptions o (g tb)) x).FirstToolbar n0 k0
  | [], _, _, h => h
  | tb :: rest, x, hk, h => by
    rw [List.foldl_cons]
    exact firstToolbar_foldl g n0 k0 rest _
      (fun t ht => hk t (List.mem_cons_of_mem _ ht))
      (firstToolbar_structToOptions x (g tb) n0 k0 h (hk tb (List.mem_cons_self _ _)))

theorem firstToolbar_of_agree {x y : OptionsTree} {n0 k0 : Variant}
    (ha : OptionsTree.AgreeOutside outsideToolbars x y) (h : x.FirstToolbar n0 k0) :
    y.FirstToolbar n0 k0 :=
  ⟨(ha.find? ["options", "ui", "contactlist", "toolbars", "m0", "name"] rfl).trans h.1,
    (ha.getOption ["options", "ui", "contactlist", "toolbars", "m0", "key"] rfl).trans h.2⟩

/-- The first toolbar written into an empty toolbar map is the node `m0`. -/
theorem firstToolbar_structToOptions_empty (x : OptionsTree) (tb : ToolbarPrefs)
    (h : x.sub ["options", "ui", "contactlist", "toolbars"] = ⟨[]⟩) :
    (structToOptions x tb).FirstToolbar (Variant.str tb.name) (Variant.str tb.id) := by
  have hput := ((OptionsTree.MapLayout.of_empty x _ h).mapPut_fresh (Variant.str tb.id)
    (by simp)).1
  unfold structToOptions OptionsTree.FirstToolbar
  simp only [hput]
  constructor
  · simp only [OptionsTree.find?_setOption]
    rfl
  · simp only [OptionsTree.getOption_setOption]
    rfl

/-! ## The phases of `lateMigration` outside the toolbar map -/

theorem agree_serviceIconsets :
    ∀ (l : List (String × String)) (o : OptionsTree),
      OptionsTree.AgreeOutside outsideToolbars o (serviceIconsetsToOptions l o)
  | [], o => OptionsTree.AgreeOutside.refl _ o
  | kv :: rest, o => by
    obtain ⟨seg, hseg⟩ := OptionsTree.mapPut_fst_shape o
      ["options", "iconsets", "service-status"] (Variant.str kv.1)
    unfold serviceIconsetsToOptions
    simp only
    refine OptionsTree.AgreeOutside.trans ?_ (agree_serviceIconsets rest _)
    refine OptionsTree.AgreeOutside.trans
      (OptionsTree.AgreeOutside.mapPut outsideToolbars o _ _ ?_)
      (OptionsTree.AgreeOutside.setOption _ _ _ _ ?_)
    · intro k hk
      rw [isPrefixOf_iff] at hk
      obtain ⟨t, rfl⟩ := hk
      rfl
    · rw [hseg]
      rfl

theorem agree_customIconsets :
    ∀ (l : List (String × String)) (idx : Nat) (o : OptionsTree),
      OptionsTree.AgreeOutside outsideToolbars o (customIconsetsToOptions l idx o)
  | [], _, o => OptionsTree.AgreeOutside.refl _ o
  | kv :: rest, idx, o => by
    unfold customIconsetsToOptions
    simp only
    refine OptionsTree.AgreeOutside.trans ?_ (agree_customIconsets rest (idx + 1) _)
    exact (OptionsTree.AgreeOutside.setOption _ _ _ _ rfl).trans
      (OptionsTree.AgreeOutside.setOption _ _ _ _ rfl)

theorem agree_statusPresets (env : Env)
    (hp : ∀ sp o, (env.statusPresetToOptions sp o).removeOption
      ["options", "status", "presets"] true =
      o.removeOption ["options", "status", "presets"] true) :
    ∀ (l : List StatusPreset) (o : OptionsTree),
      OptionsTree.AgreeOutside outsideToolbars o
        (l.foldl (fun o sp => env.statusPresetToOptions sp o) o)
  | [], o => OptionsTree.AgreeOutside.refl _ o
  | sp :: rest, o => by
    rw [List.foldl_cons]
    refine OptionsTree.AgreeOutside.trans ?_ (agree_statusPresets env hp rest _)
    refine (OptionsTree.agreeOutside_of_removeOption _ (hp sp o)).mono ?_
    intro k hk
    rw [isPrefixOf_iff] at hk
    obtain ⟨t, rfl⟩ := hk
    rfl

theorem firstToolbar_flushLateData (env : Env) (late : LateMigrationData) (o : OptionsTree)
    (n0 k0 : Variant)
    (hp : ∀ sp o, (env.statusPresetToOptions sp o).removeOption
      ["options", "status", "presets"] true =
      o.removeOption ["options", "status", "presets"] true)
    (hl : ∀ tb ∈ QMap.value late.toolbars "mainWin", Variant.str tb.id ≠ k0)
    (h : o.FirstToolbar n0 k0) : (flushLateData env late o).FirstToolbar n0 k0 := by
  have h3 : ((QMap.values late.sp).foldl (fun o sp => env.statusPresetToOptions sp o)
      (customIconsetsToOptions late.customRosterIconset 0
        (serviceIconsetsToOptions late.serviceRosterIconset o))).FirstToolbar n0 k0 :=
    firstToolbar_of_agree
      (((agree_serviceIconsets late.serviceRosterIconset o).trans
        (agree_customIconsets late.customRosterIconset 0 _)).trans
        (agree_statusPresets env hp (QMap.values late.sp) _)) h
  have hmem : ∀ tb ∈ (if env.qVersionInt ≥ 0x040300 then QMap.value late.toolbars "mainWin"
      else (QMap.value late.toolbars "mainWin").reverse), Variant.str tb.id ≠ k0 := by
    intro tb htb
    apply hl
    split at htb
    · exact htb
    · exact List.mem_reverse.mp htb
  unfold flushLateData
  simp only
  generalize (if env.qVersionInt ≥ 0x040300 then QMap.value late.toolbars "mainWin"
      else (QMap.value late.toolbars "mainWin").reverse) = tbs at hmem ⊢
  have h4 : (tbs.foldl structToOptions
      ((QMap.values late.sp).foldl (fun o sp => env.statusPresetToOptions sp o)
        (customIconsetsToOptions late.customRosterIconset 0
          (serviceIconsetsToOptions late.serviceRosterIconset o)))).FirstToolbar n0 k0 :=
    firstToolbar_foldl id n0 k0 tbs _ hmem h3
  split
  · exact firstToolbar_of_agree
      ((OptionsTree.AgreeOutside.setOption outsideToolbars _
          ["options", "contactlist", "autohide-interval"] _ rfl).trans
        (OptionsTree.AgreeOutside.removeOption_single outsideToolbars _
          ["options", "contactlist", "use-autohide"] rfl)) h4
  · exact h4

theorem firstToolbar_addDefaultToolbars (env : Env) (o : OptionsTree)
    (hgc : env.groupchatToolbarUuid ≠ env.chatToolbarUuid)
    (hold : ∀ base ∈ o.getChildOptionNames ["options", "ui", "contactlist", "toolbars"]
      true true, (o.getOption (base ++ ["key"])).toQString ≠ env.chatToolbarUuid) :
    ∃ n0 k0, (addDefaultToolbars env o).FirstToolbar n0 k0 ∧ n0.toQString = "Chat" ∧
      (k0 = o.getOption ["options", "ui", "contactlist", "toolbars", "m0", "key"] ∨
        k0 = Variant.str env.chatToolbarUuid) := by
  unfold addDefaultToolbars
  split
  · -- the default toolbars are written in front of the stored ones
    refine ⟨Variant.str "Chat", Variant.str env.chatToolbarUuid, ?_, rfl, Or.inr rfl⟩
    simp only
    have ha : OptionsTree.AgreeOutside outsideToolbars o
        ((o.removeOption ["options", "ui", "chat", "central-toolbar"]).removeOption
          ["options", "ui", "chat", "disable-paste-send"]) :=
      (OptionsTree.AgreeOutside.removeOption_single outsideToolbars o
          ["options", "ui", "chat", "central-toolbar"] rfl).trans
        (OptionsTree.AgreeOutside.removeOption_single outsideToolbars _
          ["options", "ui", "chat", "disable-paste-send"] rfl)
    have hsub := ha.sub ["options", "ui", "contactlist", "toolbars"]
      (by
        intro k hk
        unfold outsideToolbars
        rw [hk]
        rfl)
    rw [List.foldl_append, List.foldl_cons, List.foldl_cons, List.foldl_nil]
    apply firstToolbar_foldl (fun tb => { tb with locked := true })
    · intro tb htb
      rw [List.mem_filterMap] at htb
      obtain ⟨base, hbase, htb⟩ := htb
      rw [OptionsTree.getChildOptionNames_congr_sub _ _ _ hsub] at hbase
      obtain ⟨seg, rfl⟩ := OptionsTree.child_shape o _ base hbase
      have hv := hold _ hbase
      have hu : ["options", "ui", "contactlist", "toolbars"].isPrefixOf
          (["options", "ui", "contactlist", "toolbars"] ++ [seg] ++ ["key"]) = true := rfl
      rw [← OptionsTree.getOption_sub o _ _ hu, ← hsub, OptionsTree.getOption_sub _ _ _ hu] at hv
      unfold toolbarFromOptions at htb
      simp only at htb
      split at htb
      · exact absurd htb (by simp)
      · simp only [Option.some.injEq] at htb
        subst htb
        simp only [ne_eq, Variant.str.injEq]
        exact hv
    · apply firstToolbar_structToOptions
      · exact firstToolbar_structToOptions_empty _ _
          (OptionsTree.sub_removeOption_recursive _ _ _ rfl)
      · simp only [ne_eq, Variant.str.injEq]
        exact hgc
  · -- the first toolbar is `Chat` already
    rename_i hc
    simp only [ne_eq, Decidable.not_not] at hc
    cases hf : o.find? ["options", "ui", "contactlist", "toolbars", "m0", "name"] with
    | none =>
      exfalso
      unfold OptionsTree.getOption OptionsTree.getOptionD at hc
      rw [hf] at hc
      exact absurd hc (by decide)
    | some n0 =>
      refine ⟨n0, _, ⟨hf, rfl⟩, ?_, Or.inl rfl⟩
      unfold OptionsTree.getOption OptionsTree.getOptionD at hc
      rw [hf] at hc
      exact hc

theorem lateMigration_firstToolbar (env : Env) (st : MigrationState)
    (hgc : env.groupchatToolbarUuid ≠ env.chatToolbarUuid)
    (hold : ∀ base ∈ st.options.getChildOptionNames
      ["options", "ui", "contactlist", "toolbars"] true true,
      (st.options.getOption (base ++ ["key"])).toQString ≠ env.chatToolbarUuid)
    (hlate : ∀ tb ∈ QMap.value st.lateMigrationData.toolbars "mainWin",
      tb.id ≠ env.chatToolbarUuid ∧
        Variant.str tb.id ≠
          st.options.getOption ["options", "ui", "contactlist", "toolbars", "m0", "key"])
    (hpreset : ∀ sp o, (env.statusPresetToOptions sp o).removeOption
      ["options", "status", "presets"] true =
      o.removeOption ["options", "status", "presets"] true) :
    ((lateMigration env st).options.getOption
      ["options", "ui", "contactlist", "toolbars", "m0", "name"]).toQString = "Chat" := by
  obtain ⟨n0, k0, hF, hn, hk⟩ := firstToolbar_addDefaultToolbars env st.options hgc hold
  have hlk : ∀ tb ∈ QMap.value st.lateMigrationData.toolbars "mainWin",
      Variant.str tb.id ≠ k0 := by
    intro tb htb
    rcases hk with hk | hk
    · rw [hk]
      exact (hlate tb htb).2
    · rw [hk]
      simp only [ne_eq, Variant.str.injEq]
      exact (hlate tb htb).1
  have h1 : (lateMigration env st).options.FirstToolbar n0 k0 := by
    unfold lateMigration
    simp only
    split
    · exact hF
    · exact firstToolbar_flushLateData env _ _ n0 k0 hpreset hlk hF
  rw [getOption_of_find? _ _ _ h1.1]
  exact hn

/-- C10. When the ids drawn for the default toolbars are fresh (the group chat id differs
from the chat id, and neither a stored toolbar nor a toolbar waiting in the late migration
data has the chat id or the key of the first stored toolbar), and writing a status preset
touches nothing outside `options.status.presets`: if after one run of `lateMigration` some
option name lies below `options.status.presets`, `options.iconsets.service-status` or
`options.iconsets.custom-status`, a second run leaves the whole migration state, and with
it the option store, as the first run left it. -/
theorem lateMigration_idempotent (env : Env) (st : MigrationState)
    (hgc : env.groupchatToolbarUuid ≠ env.chatToolbarUuid)
    (hold : ∀ base ∈ st.options.getChildOptionNames
      ["options", "ui", "contactlist", "toolbars"] true true,
      (st.options.getOption (base ++ ["key"])).toQString ≠ env.chatToolbarUuid)
    (hlate : ∀ tb ∈ QMap.value st.lateMigrationData.toolbars "mainWin",
      tb.id ≠ env.chatToolbarUuid ∧
        Variant.str tb.id ≠
          st.options.getOption ["options", "ui", "contactlist", "toolbars", "m0", "key"])
    (hpreset : ∀ sp o, (env.statusPresetToOptions sp o).removeOption
      ["options", "status", "presets"] true =
      o.removeOption ["options", "status", "presets"] true)
    (hsent : alreadyMigrated (lateMigration env st).options = true) :
    lateMigration env (lateMigration env st) = lateMigration env st := by
  have hc := lateMigration_firstToolbar env st hgc hold hlate hpreset
  generalize lateMigration env st = st1 at hc hsent
  have hadd : addDefaultToolbars env st1.options = st1.options := by
    unfold addDefaultToolbars
    rw [if_neg (by rw [hc]; simp)]
  unfold lateMigration
  simp only [hadd, hsent, if_true]

set_option maxRecDepth 100000 in
theorem lateMigration_idempotent_witness :
    alreadyMigrated (lateMigration sampleEnv sampleLateState).options = true ∧
    (lateMigration sampleEnv sampleLateState).options ≠ sampleLateState.options ∧
    lateMigration sampleEnv (lateMigration sampleEnv sampleLateState) =
      lateMigration sampleEnv sampleLateState :=
  ⟨rfl, by decide,
    lateMigration_idempotent sampleEnv sampleLateState (by decide) (by decide) (by decide)
      (fun _ _ => rfl) rfl⟩

/-! ## The connection fields of `fromXml` -/

theorem fromXml_ssl_allow_plain (env : Env) (uuid : String) (a : XmlNode) (u0 : UserAccount) :
    (UserAccount.fromXml env uuid a u0).ssl =
        (UserAccount.fromXmlConnection a
          (UserAccount.fromXmlFlags a (UserAccount.reset env uuid u0))).ssl ∧
      (UserAccount.fromXml env uuid a u0).allow_plain =
        (UserAccount.fromXmlConnection a
          (UserAccount.fromXmlFlags a (UserAccount.reset env uuid u0))).allow_plain := by
  unfold UserAccount.fromXml
  generalize UserAccount.fromXmlConnection a
    (UserAccount.fromXmlFlags a (UserAccount.reset env uuid u0)) = u
  have h1 : ∀ v : UserAccount, (UserAccount.fromXmlProxy env a v).ssl = v.ssl ∧
      (UserAccount.fromXmlProxy env a v).allow_plain = v.allow_plain := fun v => ⟨rfl, rfl⟩
  have h2 : ∀ v : UserAccount, (UserAccount.fromXmlRoster env a v).ssl = v.ssl ∧
      (UserAccount.fromXmlRoster env a v).allow_plain = v.allow_plain := fun v => ⟨rfl, rfl⟩
  have h3 : ∀ v : UserAccount, (UserAccount.fromXmlPgp env a v).ssl = v.ssl ∧
      (UserAccount.fromXmlPgp env a v).allow_plain = v.allow_plain := by
    intro v
    unfold UserAccount.fromXmlPgp
    simp only
    split <;> exact ⟨rfl, rfl⟩
  have h4 : ∀ v : UserAccount, (UserAccount.fromXmlAuth a v).ssl = v.ssl ∧
      (UserAccount.fromXmlAuth a v).allow_plain = v.allow_plain := by
    intro v
    unfold UserAccount.fromXmlAuth
    simp only
    split <;> exact ⟨rfl, rfl⟩
  have h5 : ∀ v : UserAccount, (UserAccount.fromXmlPassword env a v).ssl = v.ssl ∧
      (UserAccount.fromXmlPassword env a v).allow_plain = v.allow_plain := by
    intro v
    unfold UserAccount.fromXmlPassword
    simp only
    split <;> exact ⟨rfl, rfl⟩
  have h6 : ∀ v : UserAccount, (UserAccount.fromXmlJid a v).ssl = v.ssl ∧
      (UserAccount.fromXmlJid a v).allow_plain = v.allow_plain := by
    intro v
    unfold UserAccount.fromXmlJid
    cases a.firstChildElement "jid" with
    | some j => exact ⟨rfl, rfl⟩
    | none => cases a.firstChildElement "vhost" <;> exact ⟨rfl, rfl⟩
  simp only [h1, h2, h3, h4, h5, h6, and_self]

/-- C18. For every legacy account element: when it has a child entry `ssl`, `fromXml`
sets `ssl` to the number read from that entry, and when it has a child entry
`allow-plain`, `fromXml` sets `allow_plain` to the number read from that entry; neither
value depends on the legacy boolean attributes `ssl` and `plain`. -/
theorem fromXml_numeric_entry_wins (env : Env) (uuid : String) (a : XmlNode)
    (u0 : UserAccount) :
    (∀ c, a.firstChildElement "ssl" = some c →
      (UserAccount.fromXml env uuid a u0).ssl = qStringToInt (tagContent c)) ∧
    (∀ c, a.firstChildElement "allow-plain" = some c →
      (UserAccount.fromXml env uuid a u0).allow_plain = qStringToInt (tagContent c)) := by
  obtain ⟨hs, hp⟩ := fromXml_ssl_allow_plain env uuid a u0
  constructor
  · intro c hc
    rw [hs]
    unfold UserAccount.fromXmlConnection readNumEntry
    simp only [hc]
  · intro c hc
    rw [hp]
    unfold UserAccount.fromXmlConnection readNumEntry
    simp only [hc]

theorem fromXml_numeric_entry_wins_witness :
    readBoolAttribute sampleSslAccount "ssl" false = true ∧
    readBoolAttribute sampleSslAccount "plain" false = true ∧
    (UserAccount.fromXml sampleEnv "account-0" sampleSslAccount UserAccount.blank).ssl =
      SSL_Yes ∧
    (UserAccount.fromXml sampleEnv "account-0" sampleSslAccount UserAccount.blank).allow_plain =
      AllowPlainOverTLS :=
  ⟨rfl, rfl,
    (fromXml_numeric_entry_wins sampleEnv "account-0" sampleSslAccount UserAccount.blank).1
      (XmlNode.textElem "ssl" [] "1") rfl,
    (fromXml_numeric_entry_wins sampleEnv "account-0" sampleSslAccount UserAccount.blank).2
      (XmlNode.textElem "allow-plain" [] "2") rfl⟩

/-! ## The `username` and `vhost` encoding of the Jabber id -/

/-- C19 (counterexample). The sample account has no `jid` child and spells the Jabber id
with `username` and `vhost`; `fromXml` keeps the host and the port of its `host` and
`port` entries and takes the host flag from the `manual` attribute of `vhost`: the host is
not empty, the port is not 0 and the flag is not false. -/
theorem fromXml_vhost_keeps_host :
    sampleVhostAccount.firstChildElement "jid" = none ∧
    sampleVhostAccount.firstChildElement "useHost" = none ∧
    (UserAccount.fromXml sampleEnv "account-0" sampleVhostAccount UserAccount.blank).jidTuple =
      ("alice@example.org", "talk.example.org", 5223, true) :=
  ⟨rfl, rfl, rfl⟩

/-- C19 (amended). For every legacy account element without a `jid` child and without a
`useHost` entry: when it has a `vhost` child, `fromXml` yields `jid = username@vhost`,
keeps the host and the port of the `host` and `port` entries (the `reset()` values `""`
and 5222 when they are absent) and takes the manual-host flag from the `manual` attribute
of `vhost` (false when it is absent); only when it has no `vhost` child is the host entry
used as the virtual host, `jid = username@host`, and the host reset to the empty string,
the port to 0 and the flag to false. -/
theorem fromXml_username_vhost (env : Env) (uuid : String) (a : XmlNode) (u0 : UserAccount)
    (hj : a.firstChildElement "jid" = none) (hu : a.firstChildElement "useHost" = none) :
    (UserAccount.fromXml env uuid a u0).jidTuple =
      match a.firstChildElement "vhost" with
      | some v =>
        (readEntry a "username" "" ++ "@" ++ tagContent v, readEntry a "host" "",
          readNumEntry a "port" 5222, readBoolAttribute v "manual" false)
      | none => (readEntry a "username" "" ++ "@" ++ readEntry a "host" "", "", 0, false) := by
  rw [fromXml_jidTuple, jidTuple_fromXmlJid, hj]
  simp only
  unfold readBoolEntry
  rw [hu]

theorem fromXml_username_vhost_witness :
    (UserAccount.fromXml sampleEnv "account-0" sampleVhostAccount UserAccount.blank).jidTuple =
      match sampleVhostAccount.firstChildElement "vhost" with
      | some v =>
        (readEntry sampleVhostAccount "username" "" ++ "@" ++ tagContent v,
          readEntry sampleVhostAccount "host" "", readNumEntry sampleVhostAccount "port" 5222,
          readBoolAttribute v "manual" false)
      | none =>
        (readEntry sampleVhostAccount "username" "" ++ "@" ++
          readEntry sampleVhostAccount "host" "", "", 0, false) :=
  fromXml_username_vhost sampleEnv "account-0" sampleVhostAccount UserAccount.blank rfl rfl

/-! ## The presence-checked reads of `fromOptions` -/

set_option maxRecDepth 100000 in
/-- C17 (failing input). The sample store sets none of `connect-after-sleep`,
`priority-depends-on-status` and `auto-same-status` under `accounts.a0`. `fromOptions`
leaves `opt_connectAfterSleep` and `opt_autoSameStatus` at their `reset()` values, false
and true, but sets `priority_dep_on_status` to false although `reset()` made it true: the
option is read with the default `false`, not under a presence check. -/
theorem fromOptions_overrides_priority_default :
    sampleForeignStore.find? ["accounts", "a0", "connect-after-sleep"] = none ∧
    sampleForeignStore.find? ["accounts", "a0", "priority-depends-on-status"] = none ∧
    sampleForeignStore.find? ["accounts", "a0", "auto-same-status"] = none ∧
    (UserAccount.init sampleEnv "account-2").opt_connectAfterSleep = false ∧
    (UserAccount.init sampleEnv "account-2").priority_dep_on_status = true ∧
    (UserAccount.init sampleEnv "account-2").opt_autoSameStatus = true ∧
    (UserAccount.fromOptions sampleEnv "account-2" sampleStore sampleForeignStore
      ["accounts", "a0"] (UserAccount.init sampleEnv "account-2")).1.opt_connectAfterSleep =
      false ∧
    (UserAccount.fromOptions sampleEnv "account-2" sampleStore sampleForeignStore
      ["accounts", "a0"] (UserAccount.init sampleEnv "account-2")).1.opt_autoSameStatus =
      true ∧
    (UserAccount.fromOptions sampleEnv "account-2" sampleStore sampleForeignStore
      ["accounts", "a0"] (UserAccount.init sampleEnv "account-2")).1.priority_dep_on_status =
      false :=
  ⟨rfl, rfl, rfl, rfl, rfl, rfl, rfl, rfl, rfl⟩

/-! ## `lateMigration` on a store that was migrated before -/

theorem any_filter_of_imp {α : Type} (P Q : α → Bool) (hPQ : ∀ x, P x = true → Q x = true) :
    ∀ l : List α, (l.filter Q).any P = l.any P
  | [] => rfl
  | x :: xs => by
    by_cases hq : Q x = true
    · simp only [List.filter_cons, hq, if_true, List.any_cons, any_filter_of_imp P Q hPQ xs]
    · have hp : P x = false := by
        cases hpx : P x
        · rfl
        · exact absurd (hPQ x hpx) hq
      simp only [List.filter_cons, hq, List.any_cons, hp, Bool.false_or, Bool.false_eq_true,
        if_false,
        any_filter_of_imp P Q hPQ xs]

theorem alreadyMigrated_congr (K : OptPath → Bool) (o o' : OptionsTree)
    (h : OptionsTree.AgreeOutside K o o')
    (hK : ∀ k, K k = true →
      ((["options", "status", "presets"].isPrefixOf k && decide (3 < k.length)) ||
        (["options", "iconsets", "service-status"].isPrefixOf k && decide (3 < k.length)) ||
        (["options", "iconsets", "custom-status"].isPrefixOf k && decide (3 < k.length))) =
        false) :
    alreadyMigrated o' = alreadyMigrated o := by
  have e : ∀ x : OptionsTree, alreadyMigrated x =
      (x.entries.filter (fun e => !K e.1)).any (fun e =>
        (["options", "status", "presets"].isPrefixOf e.1 && decide (3 < e.1.length)) ||
        (["options", "iconsets", "service-status"].isPrefixOf e.1 &&
          decide (3 < e.1.length)) ||
        (["options", "iconsets", "custom-status"].isPrefixOf e.1 &&
          decide (3 < e.1.length))) := by
    intro x
    rw [any_filter_of_imp]
    · unfold alreadyMigrated OptionsTree.allOptionNames
      induction x.entries with
      | nil => rfl
      | cons y ys ih => simp only [List.map_cons, List.any_cons, ih]
    · intro y hy
      cases hk : K y.1
      · rfl
      · rw [hK y.1 hk] at hy
        exact absurd hy (by simp)
  rw [e o', e o, h]

theorem agree_structToOptions (K : OptPath → Bool)
    (hK : ∀ k, ["options", "ui", "contactlist", "toolbars"].isPrefixOf k = true → K k = true)
    (x : OptionsTree) (tb : ToolbarPrefs) :
    OptionsTree.AgreeOutside K x (structToOptions x tb) := by
  obtain ⟨seg, hseg⟩ := OptionsTree.mapPut_fst_shape x
    ["options", "ui", "contactlist", "toolbars"] (Variant.str tb.id)
  have hu : ∀ f : OptPath,
      K ((x.mapPut ["options", "ui", "contactlist", "toolbars"] (Variant.str tb.id)).1 ++ f) =
        true := by
    intro f
    apply hK
    rw [hseg, List.append_assoc]
    exact isPrefixOf_append_self _ _
  unfold structToOptions
  simp only
  iterate 6 (refine OptionsTree.AgreeOutside.step _ _ ?_ (hu _))
  exact OptionsTree.AgreeOutside.mapPut K x _ _ hK

theorem agree_foldl_structToOptions (K : OptPath → Bool)
    (hK : ∀ k, ["options", "ui", "contactlist", "toolbars"].isPrefixOf k = true → K k = true)
    (g : ToolbarPrefs → ToolbarPrefs) :
    ∀ (tbs : List ToolbarPrefs) (x : OptionsTree),
      OptionsTree.AgreeOutside K x (tbs.foldl (fun o tb => structToOptions o (g tb)) x)
  | [], x => OptionsTree.AgreeOutside.refl K x
  | tb :: rest, x => by
    rw [List.foldl_cons]
    exact (agree_structToOptions K hK x (g tb)).trans
      (agree_foldl_structToOptions K hK g rest _)

theorem defaultToolbarPaths_of_under (k : OptPath)
    (h : ["options", "ui", "contactlist", "toolbars"].isPrefixOf k = true) :
    defaultToolbarPaths k = true := by
  unfold defaultToolbarPaths
  rw [h]
  rfl

/-- The default toolbar block changes the store only in the toolbar map and at the two
chat options. -/
theorem agree_addDefaultToolbars (env : Env) (o : OptionsTree) :
    OptionsTree.AgreeOutside defaultToolbarPaths o (addDefaultToolbars env o) := by
  unfold addDefaultToolbars
  split
  · simp only
    refine OptionsTree.AgreeOutside.trans ?_
      (agree_foldl_structToOptions _ defaultToolbarPaths_of_under _ _ _)
    refine ((OptionsTree.AgreeOutside.removeOption_single defaultToolbarPaths o
        ["options", "ui", "chat", "central-toolbar"] rfl).trans
      (OptionsTree.AgreeOutside.removeOption_single _ _
        ["options", "ui", "chat", "disable-paste-send"] rfl)).trans ?_
    exact (OptionsTree.agreeOutside_of_removeOption
        ["options", "ui", "contactlist", "toolbars"]
        (OptionsTree.removeOption_removeOption_of_under _
          ["options", "ui", "contactlist", "toolbars"] _ rfl)).mono
      defaultToolbarPaths_of_under
  · exact OptionsTree.AgreeOutside.refl _ _

theorem alreadyMigrated_addDefaultToolbars (env : Env) (o : OptionsTree) :
    alreadyMigrated (addDefaultToolbars env o) = alreadyMigrated o := by
  apply alreadyMigrated_congr defaultToolbarPaths o _ (agree_addDefaultToolbars env o)
  intro k hk
  unfold defaultToolbarPaths at hk
  simp only [Bool.or_eq_true, decide_eq_true_eq] at hk
  rcases hk with (hk | hk) | hk
  · rw [isPrefixOf_iff] at hk
    obtain ⟨t, rfl⟩ := hk
    rfl
  · subst hk
    rfl
  · subst hk
    rfl

set_option maxRecDepth 100000 in
/-- C11 (counterexample). The sample store holds the option
`options.status.presets.m0.name`, so it was migrated before, but its first toolbar is not
`Chat`. `lateMigration` still runs its default toolbar block: it removes
`options.ui.chat.central-toolbar` and writes the toolbar `Chat` under
`options.ui.contactlist.toolbars.m0`. -/
theorem lateMigration_writes_toolbars_on_migrated_store :
    alreadyMigrated sampleMigratedState.options = true ∧
    sampleMigratedState.options.find? ["options", "ui", "chat", "central-toolbar"] =
      some (Variant.bool true) ∧
    sampleMigratedState.options.find?
      ["options", "ui", "contactlist", "toolbars", "m0", "name"] = none ∧
    (lateMigration sampleEnv sampleMigratedState).options.find?
      ["options", "ui", "chat", "central-toolbar"] = none ∧
    (lateMigration sampleEnv sampleMigratedState).options.find?
      ["options", "ui", "contactlist", "toolbars", "m0", "name"] =
      some (Variant.str "Chat") :=
  ⟨rfl, rfl, rfl, rfl, rfl⟩

/-- C11 (amended). For every option store that already holds an option name below
`options.status.presets`, `options.iconsets.service-status` or
`options.iconsets.custom-status`: `lateMigration` flushes none of the late migration data
and leaves every option outside the toolbar map `options.ui.contactlist.toolbars` and
other than `options.ui.chat.central-toolbar` and `options.ui.chat.disable-paste-send`
unchanged; the store after the run is the one its default toolbar block leaves, and the
whole migration state is unchanged when the first toolbar is already named `Chat`. -/
theorem lateMigration_of_alreadyMigrated (env : Env) (st : MigrationState)
    (h : alreadyMigrated st.options = true) :
    lateMigration env st = { st with options := addDefaultToolbars env st.options } ∧
    OptionsTree.AgreeOutside defaultToolbarPaths st.options (lateMigration env st).options ∧
    ((st.options.getOption
        ["options", "ui", "contactlist", "toolbars", "m0", "name"]).toQString = "Chat" →
      lateMigration env st = st) := by
  have h1 : lateMigration env st = { st with options := addDefaultToolbars env st.options } := by
    unfold lateMigration
    simp only [alreadyMigrated_addDefaultToolbars, h, if_true]
  refine ⟨h1, ?_, ?_⟩
  · rw [h1]
    exact agree_addDefaultToolbars env st.options
  · intro hc
    rw [h1]
    unfold addDefaultToolbars
    rw [if_neg (by rw [hc]; simp)]

set_option maxRecDepth 100000 in
theorem lateMigration_of_alreadyMigrated_witness :
    alreadyMigrated sampleMigratedState.options = true ∧
    (lateMigration sampleEnv sampleMigratedState).lateMigrationData =
      sampleMigratedState.lateMigrationData ∧
    (lateMigration sampleEnv sampleMigratedState).options.find?
      ["options", "status", "presets", "m0", "name"] = some (Variant.str "Lunch") :=
  ⟨rfl,
    (congrArg MigrationState.lateMigrationData
      (lateMigration_of_alreadyMigrated sampleEnv sampleMigratedState rfl).1).trans rfl,
    ((lateMigration_of_alreadyMigrated sampleEnv sampleMigratedState rfl).2.1.find?
      ["options", "status", "presets", "m0", "name"] rfl)⟩

/-! ## The group state `toOptions` keeps -/

/-- C15. For every account whose `ssl` and `allow_plain` fields are enum values (so that
`toOptions` returns), every store and every non-empty base: after `toOptions` the group
state of the account holds exactly those of its previous entries whose group name is the
account-name pseudo-group, one of the two built-in group names or a group of some roster
item, each with the open flag and rank it had, and reading the map `<base>.group-state`
of the store back gives exactly these entries. The group state is a `QMap` (its keys
ascend), and writing the key bindings touches nothing outside
`<base>.pgp-key-bindings`. -/
theorem toOptions_prunes_groupState (env : Env) (u : UserAccount) (o : OptionsTree)
    (b : OptPath) (hb : b ≠ [])
    (hssl : u.ssl = SSL_No ∨ u.ssl = SSL_Yes ∨ u.ssl = SSL_Auto ∨ u.ssl = SSL_Legacy)
    (hplain : u.allow_plain = NoAllowPlain ∨ u.allow_plain = AllowPlain ∨
      u.allow_plain = AllowPlainOverTLS)
    (hwf : QMap.WF u.groupState)
    (hf : ∀ v o, (env.varListToOptions v o (b ++ ["pgp-key-bindings"])).removeOption
      (b ++ ["pgp-key-bindings"]) true = o.removeOption (b ++ ["pgp-key-bindings"]) true) :
    ∃ u' o', UserAccount.toOptions env u o b = Except.ok (u', o') ∧
      u'.groupState =
        u.groupState.filter (fun e => decide (e.1 ∈ UserAccount.groupList env u)) ∧
      UserAccount.groupStateFromOptions o' b = u'.groupState := by
  obtain ⟨ssl, hs⟩ := sslText_isSome u hssl
  obtain ⟨plain, hp⟩ := plainText_isSome u hplain
  refine ⟨_, _, toOptions_eq env u o b hb ssl plain hs hp, prunedGroupState_eq env u, ?_⟩
  exact groupStateFromOptions_groupStateToOptions b _ (prunedGroupState_wf env u hwf) _ _
    (sub_groupState_roster_nil env u ssl plain b _
      (OptionsTree.sub_removeOption_recursive o b b (by simp)))
    (sub_groupState_toOptionsWrite env u ssl plain b _ hb hf)

theorem toOptions_prunes_groupState_witness :
    sampleStoredAccount.groupState = [("Friends", ⟨true, 1⟩), ("Old", ⟨false, 2⟩)] ∧
    sampleStoredAccount.groupState.filter
      (fun e => decide (e.1 ∈ UserAccount.groupList sampleEnv sampleStoredAccount)) =
      [("Friends", ⟨true, 1⟩)] ∧
    ∃ u' o', UserAccount.toOptions sampleEnv sampleStoredAccount sampleStore
        ["accounts", "a0"] = Except.ok (u', o') ∧
      u'.groupState =
        sampleStoredAccount.groupState.filter
          (fun e => decide (e.1 ∈ UserAccount.groupList sampleEnv sampleStoredAccount)) ∧
      UserAccount.groupStateFromOptions o' ["accounts", "a0"] = u'.groupState :=
  ⟨rfl, by decide,
    toOptions_prunes_groupState sampleEnv sampleStoredAccount sampleStore ["accounts", "a0"]
      (by decide) (Or.inr (Or.inr (Or.inl rfl))) (Or.inr (Or.inr rfl))
      sampleStoredAccount_storable.groupState (fun _ _ => rfl)⟩

/-! ## `toOptions` rewrites the whole subtree -/

theorem OptionsTree.sub_sub_of_under (o : OptionsTree) (p q : OptPath)
    (h : p.isPrefixOf q = true) : (o.sub p).sub q = o.sub q := by
  unfold OptionsTree.sub
  simp only [List.filter_filter]
  congr 1
  apply List.filter_congr
  intro e _
  by_cases hq : q.isPrefixOf e.1 = true
  · simp [hq, isPrefixOf_trans p q e.1 h hq]
  · simp [hq]

theorem OptionsTree.sub_congr_under (o o' : OptionsTree) (p q : OptPath)
    (h : p.isPrefixOf q = true) (he : o.sub p = o'.sub p) : o.sub q = o'.sub q := by
  rw [← OptionsTree.sub_sub_of_under o p q h, he, OptionsTree.sub_sub_of_under o' p q h]

theorem OptionsTree.sub_setOption_congr (o o' : OptionsTree) (b k : OptPath) (v : Variant)
    (hk : b.isPrefixOf k = true) (he : o.sub b = o'.sub b) :
    (o.setOption k v).sub b = (o'.setOption k v).sub b := by
  rw [OptionsTree.sub_setOption_of_under o b k v hk,
    OptionsTree.sub_setOption_of_under o' b k v hk, he]

theorem OptionsTree.sub_removeOption_single (o : OptionsTree) (b k : OptPath) :
    (o.removeOption k).sub b = (o.sub b).removeOption k := by
  unfold OptionsTree.sub OptionsTree.removeOption
  simp only [List.filter_filter, Bool.and_comm]

theorem OptionsTree.sub_removeOption_congr (o o' : OptionsTree) (b k : OptPath)
    (he : o.sub b = o'.sub b) : (o.removeOption k).sub b = (o'.removeOption k).sub b := by
  rw [OptionsTree.sub_removeOption_single, OptionsTree.sub_removeOption_single, he]

theorem OptionsTree.sub_setAll_congr (b : OptPath) :
    ∀ (pairs : List (OptPath × Variant)) (o o' : OptionsTree), o.sub b = o'.sub b →
      (o.setAll b pairs).sub b = (o'.setAll b pairs).sub b
  | [], _, _, he => he
  | kv :: rest, o, o', he => by
    rw [setAll_cons, setAll_cons]
    exact OptionsTree.sub_setAll_congr b rest _ _
      (OptionsTree.sub_setOption_congr o o' b _ kv.2 (isPrefixOf_append_self b kv.1) he)

theorem OptionsTree.mapFind?_congr (o o' : OptionsTree) (p : OptPath) (key : Variant)
    (he : o.sub p = o'.sub p) : o.mapFind? p key = o'.mapFind? p key := by
  rw [← OptionsTree.mapFind?_sub o, he, OptionsTree.mapFind?_sub]

theorem OptionsTree.mapPut_fst_congr (o o' : OptionsTree) (p : OptPath) (key : Variant)
    (he : o.sub p = o'.sub p) : (o.mapPut p key).1 = (o'.mapPut p key).1 := by
  rw [← OptionsTree.mapPut_sub_fst o, he, OptionsTree.mapPut_sub_fst]

theorem OptionsTree.mapPut_snd_congr (o o' : OptionsTree) (b p : OptPath) (key : Variant)
    (hp : b.isPrefixOf p = true) (he : o.sub b = o'.sub b) :
    (o.mapPut p key).2.sub b = (o'.mapPut p key).2.sub b := by
  have hep := OptionsTree.sub_congr_under o o' b p hp he
  unfold OptionsTree.mapPut
  rw [OptionsTree.mapFind?_congr o o' p key hep,
    OptionsTree.getChildOptionNames_congr_sub o' o p hep]
  cases o'.mapFind? p key with
  | some path => exact he
  | none =>
    simp only
    apply OptionsTree.sub_setOption_congr _ _ _ _ _ _ he
    rw [List.append_assoc]
    exact isPrefixOf_trans b p _ hp (isPrefixOf_append_self p _)

theorem OptionsTree.mapPut_fst_under (o : OptionsTree) (p : OptPath) (key : Variant) :
    p.isPrefixOf (o.mapPut p key).1 = true := by
  unfold OptionsTree.mapPut
  cases h : o.mapFind? p key with
  | some path =>
    simp only
    unfold OptionsTree.mapFind? at h
    obtain ⟨seg, rfl⟩ := OptionsTree.child_shape o p path (List.mem_of_find?_eq_some h)
    exact isPrefixOf_append_self p _
  | none => exact isPrefixOf_append_self p _

theorem sub_rosterToOptions_congr (b : OptPath) :
    ∀ (l : List RosterItem) (idx : Nat) (o o' : OptionsTree), o.sub b = o'.sub b →
      (UserAccount.rosterToOptions b l idx o).sub b =
        (UserAccount.rosterToOptions b l idx o').sub b
  | [], _, _, _, he => he
  | ri :: rest, idx, o, o', he => by
    have hu : ∀ f : String, b.isPrefixOf
        (b ++ ["roster-cache", "a" ++ toString idx] ++ [f]) = true := by
      intro f
      rw [List.append_assoc]
      exact isPrefixOf_append_self b _
    unfold UserAccount.rosterToOptions
    simp only
    apply sub_rosterToOptions_congr b rest (idx + 1)
    exact OptionsTree.sub_setOption_congr _ _ b _ _ (hu _)
      (OptionsTree.sub_setOption_congr _ _ b _ _ (hu _)
        (OptionsTree.sub_setOption_congr _ _ b _ _ (hu _)
          (OptionsTree.sub_setOption_congr _ _ b _ _ (hu _)
            (OptionsTree.sub_setOption_congr _ _ b _ _ (hu _) he))))

theorem sub_groupStateToOptions_congr (b : OptPath) (gs : QMap GroupData) :
    ∀ (l : List String) (o o' : OptionsTree), o.sub b = o'.sub b →
      (UserAccount.groupStateToOptions b gs l o).sub b =
        (UserAccount.groupStateToOptions b gs l o').sub b
  | [], _, _, he => he
  | group :: rest, o, o', he => by
    have hp : b.isPrefixOf (b ++ ["group-state"]) = true := isPrefixOf_append_self b _
    have h1 := OptionsTree.mapPut_fst_congr o o' (b ++ ["group-state"]) (Variant.str group)
      (OptionsTree.sub_congr_under o o' b _ hp he)
    have h2 := OptionsTree.mapPut_snd_congr o o' b (b ++ ["group-state"]) (Variant.str group)
      hp he
    have hu : ∀ f : String, b.isPrefixOf
        ((o'.mapPut (b ++ ["group-state"]) (Variant.str group)).1 ++ [f]) = true := by
      intro f
      exact isPrefixOf_trans b _ _
        (isPrefixOf_trans b _ _ hp (OptionsTree.mapPut_fst_under o' _ _))
        (isPrefixOf_append_self _ _)
    unfold UserAccount.groupStateToOptions
    simp only
    apply sub_groupStateToOptions_congr b gs rest
    rw [h1]
    exact OptionsTree.sub_setOption_congr _ _ b _ _ (hu _)
      (OptionsTree.sub_setOption_congr _ _ b _ _ (hu _) h2)

theorem sub_toOptionsWrite_congr (env : Env) (u : UserAccount) (ssl plain : String)
    (b : OptPath) (hb : b ≠ [])
    (hloc : ∀ (v : VarList) (o o' : OptionsTree), o.sub b = o'.sub b →
      (env.varListToOptions v o (b ++ ["pgp-key-bindings"])).sub b =
        (env.varListToOptions v o' (b ++ ["pgp-key-bindings"])).sub b)
    (o o' : OptionsTree) (he : o.sub b = o'.sub b) :
    (UserAccount.toOptionsWrite env u ssl plain b o).sub b =
      (UserAccount.toOptionsWrite env u ssl plain b o').sub b := by
  unfold UserAccount.toOptionsWrite
  simp only
  rw [toOptionsTail_eq u b hb, toOptionsTail_eq u b hb]
  apply OptionsTree.sub_setAll_congr
  have h5 : (env.varListToOptions u.keybind
        ((UserAccount.groupStateToOptions b (UserAccount.prunedGroupState env u)
          (QMap.keys (UserAccount.prunedGroupState env u))
          (UserAccount.rosterToOptions b u.roster 0
            (UserAccount.toOptionsHead env u ssl plain b o))).setOption
          (b ++ ["proxy-id"]) (Variant.str u.proxyID)) (b ++ ["pgp-key-bindings"])).sub b =
      (env.varListToOptions u.keybind
        ((UserAccount.groupStateToOptions b (UserAccount.prunedGroupState env u)
          (QMap.keys (UserAccount.prunedGroupState env u))
          (UserAccount.rosterToOptions b u.roster 0
            (UserAccount.toOptionsHead env u ssl plain b o'))).setOption
          (b ++ ["proxy-id"]) (Variant.str u.proxyID)) (b ++ ["pgp-key-bindings"])).sub b := by
    apply hloc
    apply OptionsTree.sub_setOption_congr _ _ b _ _ (isPrefixOf_append_self b _)
    apply sub_groupStateToOptions_congr
    apply sub_rosterToOptions_congr
    rw [toOptionsHead_eq_setAll, toOptionsHead_eq_setAll]
    exact OptionsTree.sub_setAll_congr b _ o o' he
  split
  · exact OptionsTree.sub_setOption_congr _ _ b _ _ (isPrefixOf_append_self b _)
      (OptionsTree.sub_setAll_congr b _ _ _ h5)
  · exact OptionsTree.sub_removeOption_congr _ _ b _
      (OptionsTree.sub_setAll_congr b _ _ _ h5)

/-- C16. For every account whose `ssl` and `allow_plain` fields are enum values, every
non-empty base `b` and every two stores `o1` and `o2`: `toOptions` returns on both, with
the same account, and the options at or below `b` are afterwards the same in both
stores, in the same order: nothing that was below `b` before the call survives unless
`toOptions` writes it again. The writer of the key bindings is taken to look, below `b`,
only at the options below `b`. -/
theorem toOptions_rewrites_subtree (env : Env) (u : UserAccount) (o1 o2 : OptionsTree)
    (b : OptPath) (hb : b ≠ [])
    (hssl : u.ssl = SSL_No ∨ u.ssl = SSL_Yes ∨ u.ssl = SSL_Auto ∨ u.ssl = SSL_Legacy)
    (hplain : u.allow_plain = NoAllowPlain ∨ u.allow_plain = AllowPlain ∨
      u.allow_plain = AllowPlainOverTLS)
    (hloc : ∀ (v : VarList) (o o' : OptionsTree), o.sub b = o'.sub b →
      (env.varListToOptions v o (b ++ ["pgp-key-bindings"])).sub b =
        (env.varListToOptions v o' (b ++ ["pgp-key-bindings"])).sub b) :
    ∃ u' w1 w2, UserAccount.toOptions env u o1 b = Except.ok (u', w1) ∧
      UserAccount.toOptions env u o2 b = Except.ok (u', w2) ∧ w1.sub b = w2.sub b := by
  obtain ⟨ssl, hs⟩ := sslText_isSome u hssl
  obtain ⟨plain, hp⟩ := plainText_isSome u hplain
  refine ⟨_, _, _, toOptions_eq env u o1 b hb ssl plain hs hp,
    toOptions_eq env u o2 b hb ssl plain hs hp, ?_⟩
  apply sub_toOptionsWrite_congr env u ssl plain b hb hloc
  rw [OptionsTree.sub_removeOption_recursive o1 b b (by simp),
    OptionsTree.sub_removeOption_recursive o2 b b (by simp)]

set_option maxRecDepth 100000 in
theorem toOptions_rewrites_subtree_witness :
    sampleForeignStore.find? ["accounts", "a0", "note"] = some (Variant.str "keep me") ∧
    sampleStore.find? ["accounts", "a0", "note"] = none ∧
    ∃ u' w1 w2, UserAccount.toOptions sampleEnv sampleStoredAccount sampleForeignStore
        ["accounts", "a0"] = Except.ok (u', w1) ∧
      UserAccount.toOptions sampleEnv sampleStoredAccount sampleStore ["accounts", "a0"] =
        Except.ok (u', w2) ∧
      w1.sub ["accounts", "a0"] = w2.sub ["accounts", "a0"] :=
  ⟨rfl, rfl,
    toOptions_rewrites_subtree sampleEnv sampleStoredAccount sampleForeignStore sampleStore
      ["accounts", "a0"] (by decide) (Or.inr (Or.inr (Or.inl rfl))) (Or.inr (Or.inr rfl))
      (fun _ _ _ h => h)⟩

/-! ## Profile directories -/

theorem nameIsSane_eq_false (env : ProfileEnv) (name : String)
    (h : ∃ c ∈ name.toList, env.isLetterOrNumber c = false) : nameIsSane env name = false := by
  obtain ⟨c, hc, hf⟩ := h
  unfold nameIsSane
  rw [Bool.eq_false_iff]
  intro hall
  rw [List.all_eq_true] at hall
  rw [hall c hc] at hf
  exact Bool.noConfusion hf

/-- C12. For every name with at least one character that is not a letter or a number,
every file system and every old name: `profileNew(name)` and `profileRename(old, name)`
return false and leave the file system as it was, so that no directory is created or
renamed. -/
theorem profile_functions_reject_name (env : ProfileEnv) (name : String) (fs : FileSystem)
    (h : ∃ c ∈ name.toList, env.isLetterOrNumber c = false) :
    profileNew env name fs = (false, fs) ∧
      ∀ oldname : String, profileRename env oldname name fs = (false, fs) := by
  have hs := nameIsSane_eq_false env name h
  constructor
  · unfold profileNew
    by_cases he : name.isEmpty = true
    · rw [if_pos he]
    · rw [if_neg he, hs]
      rfl
  · intro oldname
    unfold profileRename
    rw [hs]
    rfl

theorem profile_functions_reject_name_witness :
    (profileNew sampleProfileEnv "my-profile" sampleFileSystem = (false, sampleFileSystem) ∧
      ∀ oldname : String, profileRename sampleProfileEnv oldname "my-profile"
        sampleFileSystem = (false, sampleFileSystem)) ∧
    (profileRename sampleProfileEnv "default" "work" sampleFileSystem).1 = true :=
  ⟨profile_functions_reject_name sampleProfileEnv "my-profile" sampleFileSystem
    ⟨'-', by decide, by decide⟩, by decide⟩

theorem FileSystem.isDir_append (fs : FileSystem) (l : List (FsPath × Bool)) (p : FsPath)
    (h : fs.isDir p = true) : (FileSystem.mk (fs.entries ++ l)).isDir p = true := by
  unfold FileSystem.isDir at *
  simp only [Bool.or_eq_true, List.contains_eq_any_beq, List.any_eq_true, List.mem_append] at *
  rcases h with h | ⟨x, hx, hb⟩
  · exact Or.inl h
  · exact Or.inr ⟨x, Or.inl hx, hb⟩

theorem FileSystem.mkdir_snd (env : ProfileEnv) (fs : FileSystem) (d : FsPath)
    (name : String) :
    (fs.mkdir env d name).2 = fs ∨
      (fs.mkdir env d name).2 = ⟨fs.entries ++ [(d ++ [name], true)]⟩ := by
  unfold FileSystem.mkdir
  split
  · exact Or.inl rfl
  · exact Or.inr rfl

theorem FileSystem.subdirectories_append (fs : FileSystem) (added : List (FsPath × Bool))
    (root : FsPath) (h : ∀ e ∈ added, ∀ x : String, e.1 ≠ root ++ [x]) :
    (FileSystem.mk (fs.entries ++ added)).subdirectories root = fs.subdirectories root := by
  have hl : (FileSystem.mk (fs.entries ++ added)).entryList root = fs.entryList root := by
    unfold FileSystem.entryList
    simp only [List.filterMap_append]
    have : added.filterMap (fun e =>
        match e.1.getLast? with
        | some name => if e.1 = root ++ [name] then some name else none
        | none => none) = [] := by
      rw [List.filterMap_eq_nil_iff]
      intro e he
      cases hg : e.1.getLast? with
      | none => rfl
      | some name => simp [h e he name]
    rw [this, List.append_nil]
  unfold FileSystem.subdirectories
  rw [hl]
  apply List.filter_congr
  intro name _
  congr 1
  unfold FileSystem.isDir
  congr 1
  simp only [List.contains_eq_any_beq, List.any_append]
  have : added.any (fun x => (root ++ [name], true) == x) = false := by
    rw [List.any_eq_false]
    intro e he hb
    have := eq_of_beq hb
    exact h e he name (by rw [← this])
  rw [this, Bool.or_false]

/-- C13. For every non-empty name made of letters and numbers and every file system in
which the config, data and cache directories exist and each holds a directory with that
name: `profileNew(name)` returns true, and the file system afterwards is the one before
with at most the directories `history` (in the data profile directory) and `vcard` (in the
cache profile directory) added. The list of subdirectories of every directory other than
these two profile directories, so of each root that is not the profile directory of
another root, is unchanged. -/
theorem profileNew_existing_profile (env : ProfileEnv) (name : String) (fs : FileSystem)
    (hne : name.isEmpty = false) (hs : ∀ c ∈ name.toList, env.isLetterOrNumber c = true)
    (hc : fs.isDir env.configProfilesDir = true) (hd : fs.isDir env.dataProfilesDir = true)
    (hk : fs.isDir env.cacheProfilesDir = true)
    (hcn : fs.isDir (env.configProfilesDir ++ [name]) = true)
    (hdn : fs.isDir (env.dataProfilesDir ++ [name]) = true)
    (hkn : fs.isDir (env.cacheProfilesDir ++ [name]) = true) :
    ∃ added : List (FsPath × Bool),
      added.Sublist [(env.dataProfilesDir ++ [name] ++ ["history"], true),
        (env.cacheProfilesDir ++ [name] ++ ["vcard"], true)] ∧
      profileNew env name fs = (true, ⟨fs.entries ++ added⟩) ∧
      ∀ root : FsPath, root ≠ env.dataProfilesDir ++ [name] →
        root ≠ env.cacheProfilesDir ++ [name] →
        (profileNew env name fs).2.subdirectories root = fs.subdirectories root := by
  have hsane : nameIsSane env name = true := by
    unfold nameIsSane
    rw [List.all_eq_true]
    exact hs
  have key : ∃ added : List (FsPath × Bool),
      added.Sublist [(env.dataProfilesDir ++ [name] ++ ["history"], true),
        (env.cacheProfilesDir ++ [name] ++ ["vcard"], true)] ∧
      profileNew env name fs = (true, ⟨fs.entries ++ added⟩) := by
    have h1 : ∃ a1 : List (FsPath × Bool),
        a1.Sublist [(env.dataProfilesDir ++ [name] ++ ["history"], true)] ∧
        (fs.mkdir env (env.dataProfilesDir ++ [name]) "history").2 = ⟨fs.entries ++ a1⟩ := by
      rcases FileSystem.mkdir_snd env fs (env.dataProfilesDir ++ [name]) "history" with h | h
      · exact ⟨[], List.nil_sublist _, by rw [h, List.append_nil]⟩
      · exact ⟨_, List.Sublist.refl _, h⟩
    obtain ⟨a1, hsub1, h1⟩ := h1
    have h2 : ∃ a2 : List (FsPath × Bool),
        a2.Sublist [(env.cacheProfilesDir ++ [name] ++ ["vcard"], true)] ∧
        ((FileSystem.mk (fs.entries ++ a1)).mkdir env (env.cacheProfilesDir ++ [name])
          "vcard").2 = ⟨fs.entries ++ a1 ++ a2⟩ := by
      rcases FileSystem.mkdir_snd env ⟨fs.entries ++ a1⟩ (env.cacheProfilesDir ++ [name])
        "vcard" with h | h
      · exact ⟨[], List.nil_sublist _, by rw [h, List.append_nil]⟩
      · exact ⟨_, List.Sublist.refl _, h⟩
    obtain ⟨a2, hsub2, h2⟩ := h2
    refine ⟨a1 ++ a2, List.Sublist.append hsub1 hsub2, ?_⟩
    unfold profileNew
    simp only [hne, hsane, hc, hd, hcn, hdn, Bool.not_true, Bool.false_eq_true, if_false, h1,
      FileSystem.isDir_append fs a1 _ hk, FileSystem.isDir_append fs a1 _ hkn, h2,
      List.append_assoc]
  obtain ⟨added, hsub, heq⟩ := key
  refine ⟨added, hsub, heq, ?_⟩
  intro root hrd hrk
  rw [heq]
  apply FileSystem.subdirectories_append
  intro e he x hx
  have hmem := hsub.subset he
  simp only [List.mem_cons, List.mem_singleton, List.not_mem_nil, or_false] at hmem
  rcases hmem with h | h
  · rw [h] at hx
    exact hrd (List.append_inj_left' hx rfl).symm
  · rw [h] at hx
    exact hrk (List.append_inj_left' hx rfl).symm

theorem profileNew_existing_profile_witness :
    ∃ added : List (FsPath × Bool),
      added.Sublist [(sampleProfileEnv.dataProfilesDir ++ ["default"] ++ ["history"], true),
        (sampleProfileEnv.cacheProfilesDir ++ ["default"] ++ ["vcard"], true)] ∧
      profileNew sampleProfileEnv "default" sampleFileSystem =
        (true, ⟨sampleFileSystem.entries ++ added⟩) ∧
      ∀ root : FsPath, root ≠ sampleProfileEnv.dataProfilesDir ++ ["default"] →
        root ≠ sampleProfileEnv.cacheProfilesDir ++ ["default"] →
        (profileNew sampleProfileEnv "default" sampleFileSystem).2.subdirectories root =
          sampleFileSystem.subdirectories root :=
  profileNew_existing_profile sampleProfileEnv "default" sampleFileSystem (by decide)
    (by decide) (by decide) (by decide) (by decide) (by decide) (by decide) (by decide)

/-- C20. A removal that fails does not make `profileDelete` fail. In the sample file system
the history log of the profile `default` cannot be removed (`remove` returns false on it,
and so does `rmdir` on the directories above it). `profileDelete` on the data and the
config directory of that profile still returns true; the data directory is left with its
history log, and the config directory, next in the list, is processed and removed. -/
theorem profileDelete_ignores_failed_removal :
    (sampleFileSystem.remove sampleProfileEnv
      ["home", "data", "profiles", "default", "history"] "log.txt") =
        (false, sampleFileSystem) ∧
    (sampleFileSystem.rmdir sampleProfileEnv
      ["home", "data", "profiles", "default"] "history") = (false, sampleFileSystem) ∧
    (sampleFileSystem.rmdir sampleProfileEnv
      ["home", "data", "profiles"] "default") = (false, sampleFileSystem) ∧
    profileDelete sampleProfileEnv
      [["home", "data", "profiles", "default"], ["home", "config", "profiles", "default"]]
      sampleFileSystem =
      some (true,
        ⟨[(["home"], true),
          (["home", "config"], true),
          (["home", "config", "profiles"], true),
          (["home", "data"], true),
          (["home", "data", "profiles"], true),
          (["home", "data", "profiles", "default"], true),
          (["home", "data", "profiles", "default", "history"], true),
          (["home", "data", "profiles", "default", "history", "log.txt"], false),
          (["home", "cache"], true),
          (["home", "cache", "profiles"], true),
          (["home", "cache", "profiles", "default"], true)]⟩) := by
  refine ⟨?_, ?_, ?_, ?_⟩ <;> decide

/-! ## The contact list toggles `fromFile` writes -/

theorem agree_migrateEntry {K : OptPath → Bool} {T : Type} {f : XmlNode → String → T → T}
    {toVariant : T → Variant} {init : T} {element : XmlNode} {entry : String}
    {option : OptPath} {o o1 : OptionsTree} (h : OptionsTree.AgreeOutside K o o1)
    (hk : K option = true) :
    OptionsTree.AgreeOutside K o (migrateEntry f toVariant init element entry option o1) := by
  unfold migrateEntry
  split
  · exact h.step _ _ hk
  · exact h

theorem agree_migrateBoolEntry {K : OptPath → Bool} {element : XmlNode} {entry : String}
    {option : OptPath} {o o1 : OptionsTree} {init : Bool}
    (h : OptionsTree.AgreeOutside K o o1) (hk : K option = true) :
    OptionsTree.AgreeOutside K o (migrateBoolEntry element entry option o1 init) :=
  agree_migrateEntry h hk

theorem agree_migrateIntEntry {K : OptPath → Bool} {element : XmlNode} {entry : String}
    {option : OptPath} {o o1 : OptionsTree} {init : Int}
    (h : OptionsTree.AgreeOutside K o o1) (hk : K option = true) :
    OptionsTree.AgreeOutside K o (migrateIntEntry element entry option o1 init) :=
  agree_migrateEntry h hk

theorem agree_migrateStringEntry {K : OptPath → Bool} {element : XmlNode} {entry : String}
    {option : OptPath} {o o1 : OptionsTree}
    (h : OptionsTree.AgreeOutside K o o1) (hk : K option = true) :
    OptionsTree.AgreeOutside K o (migrateStringEntry element entry option o1) :=
  agree_migrateEntry h hk

theorem agree_migrateStringList {K : OptPath → Bool} {element : XmlNode} {entry : String}
    {option : OptPath} {o o1 : OptionsTree}
    (h : OptionsTree.AgreeOutside K o o1) (hk : K option = true) :
    OptionsTree.AgreeOutside K o (migrateStringList element entry option o1) :=
  agree_migrateEntry h hk

theorem agree_migrateSizeEntry {K : OptPath → Bool} {element : XmlNode} {entry : String}
    {option : OptPath} {o o1 : OptionsTree}
    (h : OptionsTree.AgreeOutside K o o1) (hk : K option = true) :
    OptionsTree.AgreeOutside K o (migrateSizeEntry element entry option o1) :=
  agree_migrateEntry h hk

theorem agree_migrateColorEntry {K : OptPath → Bool} {namedColor : String → Option String}
    {element : XmlNode} {entry : String} {option : OptPath} {o o1 : OptionsTree}
    (h : OptionsTree.AgreeOutside K o o1) (hk : K option = true) :
    OptionsTree.AgreeOutside K o (migrateColorEntry namedColor element entry option o1) :=
  agree_migrateEntry h hk

theorem agree_optionStep {K : OptPath → Bool} {α : Type} (x : Option α)
    (f : α → OptionsTree → OptionsTree)
    (hf : ∀ a o2, OptionsTree.AgreeOutside K o2 (f a o2)) {o o1 : OptionsTree}
    (h : OptionsTree.AgreeOutside K o o1) :
    OptionsTree.AgreeOutside K o
      (match x with
      | some a => f a o1
      | none => o1) := by
  cases x with
  | none => exact h
  | some a => exact h.trans (hf a o1)

theorem showToggles_migrateRoster (env : Env) (p_roster : XmlNode) (o : OptionsTree) :
    OptionsTree.AgreeOutside outsideShowToggles o (migrateRoster env p_roster o) := by
  unfold migrateRoster
  simp only
  split <;>
  · repeat first
      | refine agree_migrateBoolEntry ?_ (by decide)
      | refine agree_migrateStringEntry ?_ (by decide)
      | refine OptionsTree.AgreeOutside.step _ _ ?_ (by decide)
    exact OptionsTree.AgreeOutside.refl _ _

theorem showToggles_migrateMisc (env : Env) (tag : XmlNode) (o : OptionsTree) :
    OptionsTree.AgreeOutside outsideShowToggles o (migrateMisc env tag o) := by
  unfold migrateMisc
  simp only
  repeat first
    | refine agree_migrateBoolEntry ?_ (by decide)
    | refine agree_migrateStringEntry ?_ (by decide)
    | refine OptionsTree.AgreeOutside.step _ _ ?_ (by decide)
  exact OptionsTree.AgreeOutside.refl _ _

theorem showToggles_migrateGeneral (env : Env) (p_general : XmlNode) (o : OptionsTree) :
    OptionsTree.AgreeOutside outsideShowToggles o (migrateGeneral env p_general o) := by
  unfold migrateGeneral
  lift_lets
  intro o1 o2
  have h1 : OptionsTree.AgreeOutside outsideShowToggles o o1 := by
    unfold o1
    split
    · exact showToggles_migrateRoster env _ o
    · exact OptionsTree.AgreeOutside.refl _ _
  have h2 : OptionsTree.AgreeOutside outsideShowToggles o o2 := by
    unfold o2
    split
    · exact h1.trans (showToggles_migrateMisc env _ o1)
    · exact h1
  split
  · repeat first
      | refine agree_migrateBoolEntry ?_ (by decide)
    exact h2
  · exact h2

theorem showToggles_migrateReceive (tag : XmlNode) (o o' : OptionsTree)
    (h : migrateReceive tag o = Except.ok o') :
    OptionsTree.AgreeOutside outsideShowToggles o o' := by
  unfold migrateReceive at h
  simp only at h
  split at h
  · simp only [Except.ok.injEq] at h
    subst h
    repeat first
      | refine agree_migrateBoolEntry ?_ (by decide)
      | refine OptionsTree.AgreeOutside.step _ _ ?_ (by decide)
    exact OptionsTree.AgreeOutside.refl _ _
  · exact absurd h (by simp)

theorem showToggles_migrateEvents (env : Env) (p_events : XmlNode) (o o' : OptionsTree)
    (h : migrateEvents env p_events o = Except.ok o') :
    OptionsTree.AgreeOutside outsideShowToggles o o' := by
  unfold migrateEvents at h
  simp only at h
  split at h
  · exact absurd h (by simp)
  · have h0 : OptionsTree.AgreeOutside outsideShowToggles o
        (migrateBoolEntry p_events "notifyAuth"
          ["options", "ui", "notifications", "successful-subscription"]
          (migrateBoolEntry p_events "autoAuth"
            ["options", "subscriptions", "automatically-allow-authorization"]
            (o.setOption ["options", "ui", "notifications", "alert-style"]
              (Variant.str ‹String›)))) := by
      repeat first
        | refine agree_migrateBoolEntry ?_ (by decide)
        | refine OptionsTree.AgreeOutside.step _ _ ?_ (by decide)
      exact OptionsTree.AgreeOutside.refl _ _
    split at h
    · exact h0.trans (showToggles_migrateReceive _ _ _ h)
    · simp only [Except.ok.injEq] at h
      subst h
      exact h0

theorem showToggles_migrateAutostatus (env : Env) (tag : XmlNode) (o : OptionsTree) :
    OptionsTree.AgreeOutside outsideShowToggles o (migrateAutostatus env tag o) := by
  unfold migrateAutostatus
  simp only
  repeat first
    | refine agree_migrateIntEntry ?_ (by decide)
    | refine agree_migrateStringEntry ?_ (by decide)
  repeat' first
    | exact OptionsTree.AgreeOutside.refl _ _
    | refine OptionsTree.AgreeOutside.step _ _ ?_ (by decide)
    | split

theorem showToggles_migratePresence (env : Env) (p_pres : XmlNode) (o : OptionsTree) :
    OptionsTree.AgreeOutside outsideShowToggles o (migratePresence env p_pres o) := by
  unfold migratePresence
  lift_lets
  intro o1
  have h1 : OptionsTree.AgreeOutside outsideShowToggles o o1 := by
    unfold o1
    split
    · repeat first
        | refine agree_migrateBoolEntry ?_ (by decide)
      exact OptionsTree.AgreeOutside.refl _ _
    · exact OptionsTree.AgreeOutside.refl _ _
  split
  · exact h1.trans (showToggles_migrateAutostatus env _ o1)
  · exact h1

theorem showToggles_migrateLookAndFeel (env : Env) (p_lnf : XmlNode) (o : OptionsTree) :
    OptionsTree.AgreeOutside outsideShowToggles o (migrateLookAndFeel env p_lnf o) := by
  unfold migrateLookAndFeel
  lift_lets
  intro o1 o2 o3 o4 o5
  have h4 : OptionsTree.AgreeOutside outsideShowToggles o o4 := by
    unfold o4 o3 o2 o1
    repeat first
      | refine agree_migrateBoolEntry ?_ (by decide)
      | refine agree_migrateIntEntry ?_ (by decide)
    exact OptionsTree.AgreeOutside.refl _ _
  have h5 : OptionsTree.AgreeOutside outsideShowToggles o o5 := by
    unfold o5
    split
    · repeat first
        | refine agree_migrateColorEntry ?_ (by decide)
      exact h4
    · exact h4
  split
  · repeat first
      | refine agree_migrateStringEntry ?_ (by decide)
    exact h5
  · exact h5

theorem showToggles_migrateSound (env : Env) (p_sound : XmlNode) (o : OptionsTree) :
    OptionsTree.AgreeOutside outsideShowToggles o (migrateSound env p_sound o) := by
  unfold migrateSound
  simp only
  have h1 : OptionsTree.AgreeOutside outsideShowToggles o
      (if readEntry p_sound "player" "" ≠ env.soundDetectPlayer ∧
          readEntry p_sound "player" "" ≠ "play" then
        o.setOption ["options", "ui", "notifications", "sounds", "unix-sound-player"]
          (Variant.str (readEntry p_sound "player" ""))
      else
        o.setOption ["options", "ui", "notifications", "sounds", "unix-sound-player"]
          (Variant.str "")) := by
    split <;> exact OptionsTree.AgreeOutside.setOption _ _ _ _ (by decide)
  split <;>
  · repeat first
      | refine agree_migrateBoolEntry ?_ (by decide)
      | refine agree_migrateStringEntry ?_ (by decide)
      | refine OptionsTree.AgreeOutside.step _ _ ?_ (by decide)
    exact h1

theorem showToggles_migratePopups (env : Env) (p_popup : XmlNode) (o : OptionsTree) :
    OptionsTree.AgreeOutside outsideShowToggles o (migratePopups env p_popup o) := by
  unfold migratePopups
  simp only
  repeat first
    | refine agree_migrateBoolEntry ?_ (by decide)
    | refine agree_migrateIntEntry ?_ (by decide)
    | refine agree_migrateColorEntry ?_ (by decide)
  exact OptionsTree.AgreeOutside.refl _ _

theorem showToggles_migrateIconset (p_iconset : XmlNode) (o : OptionsTree) :
    OptionsTree.AgreeOutside outsideShowToggles o (migrateIconset p_iconset o) := by
  unfold migrateIconset
  simp only
  repeat' first
    | exact OptionsTree.AgreeOutside.refl _ _
    | refine agree_migrateStringEntry ?_ (by decide)
    | refine OptionsTree.AgreeOutside.step _ _ ?_ (by decide)
    | split

theorem showToggles_foldl_globalAccel (env : Env) :
    ∀ (l : List XmlNode) (o o1 : OptionsTree),
      OptionsTree.AgreeOutside outsideShowToggles o o1 →
      OptionsTree.AgreeOutside outsideShowToggles o
        (l.foldl
          (fun o i =>
            let k := Variant.keySeq (env.keySequence i.allText)
            let shortcut :=
              if i.attributeValue "type" = "processNextEvent" then "event"
              else "toggle-visibility"
            o.setOption (["options", "shortcuts", "global"] ++ [shortcut]) k)
          o1)
  | [], _, _, h => h
  | i :: rest, o, o1, h => by
    rw [List.foldl_cons]
    exact showToggles_foldl_globalAccel env rest o _ (h.step _ _ rfl)

theorem showToggles_migrateGlobalAccel (env : Env) (p_globalAccel : XmlNode)
    (o : OptionsTree) :
    OptionsTree.AgreeOutside outsideShowToggles o (migrateGlobalAccel env p_globalAccel o) :=
  showToggles_foldl_globalAccel env _ o o (OptionsTree.AgreeOutside.refl _ _)

theorem showToggles_migratePreferencesRest (env : Env) (p : XmlNode) (o : OptionsTree) :
    OptionsTree.AgreeOutside outsideShowToggles o (migratePreferencesRest env p o) := by
  unfold migratePreferencesRest
  lift_lets
  intro o1 o2 o3 o4 o5 o6 o7 o8 o9 o10 o11 o12
  have h1 : OptionsTree.AgreeOutside outsideShowToggles o o1 := by
    unfold o1
    split
    · exact showToggles_migratePresence env _ o
    · exact OptionsTree.AgreeOutside.refl _ _
  have h2 : OptionsTree.AgreeOutside outsideShowToggles o o2 := by
    unfold o2
    split
    · exact h1.trans (showToggles_migrateLookAndFeel env _ o1)
    · exact h1
  have h3 : OptionsTree.AgreeOutside outsideShowToggles o o3 := by
    unfold o3
    split
    · exact h2.trans (showToggles_migrateSound env _ o2)
    · exact h2
  have h4 : OptionsTree.AgreeOutside outsideShowToggles o o4 := by
    unfold o4
    split
    · repeat first
        | refine agree_migrateSizeEntry ?_ (by decide)
      exact h3
    · exact h3
  have h5 : OptionsTree.AgreeOutside outsideShowToggles o o5 := by
    unfold o5
    split
    · repeat first
        | refine agree_migrateBoolEntry ?_ (by decide)
        | refine agree_migrateStringList ?_ (by decide)
      exact h4
    · exact h4
  have h6 : OptionsTree.AgreeOutside outsideShowToggles o o6 := by
    unfold o6
    split
    · exact h5.step _ _ (by decide)
    · exact h5
  have h7 : OptionsTree.AgreeOutside outsideShowToggles o o7 := by
    unfold o7
    split
    · exact h6.trans (showToggles_migratePopups env _ o6)
    · exact h6
  have h8 : OptionsTree.AgreeOutside outsideShowToggles o o8 := by
    unfold o8
    split
    · repeat first
        | refine agree_migrateBoolEntry ?_ (by decide)
      exact h7
    · exact h7
  have h9 : OptionsTree.AgreeOutside outsideShowToggles o o9 := by
    unfold o9
    split
    · exact h8.trans (showToggles_migrateIconset _ o8)
    · exact h8
  have h10 : OptionsTree.AgreeOutside outsideShowToggles o o10 := by
    unfold o10
    split
    · repeat first
        | refine agree_migrateBoolEntry ?_ (by decide)
        | refine agree_migrateIntEntry ?_ (by decide)
      exact h9
    · exact h9
  have h11 : OptionsTree.AgreeOutside outsideShowToggles o o11 := by
    unfold o11
    split
    · repeat first
        | refine agree_migrateBoolEntry ?_ (by decide)
      exact h10
    · exact h10
  have h12 : OptionsTree.AgreeOutside outsideShowToggles o o12 := by
    unfold o12
    split
    · repeat first
        | refine agree_migrateStringEntry ?_ (by decide)
        | refine agree_migrateIntEntry ?_ (by decide)
      exact h11
    · exact h11
  split
  · exact h12.trans (showToggles_migrateGlobalAccel env _ o12)
  · exact h12

theorem showToggles_migratePreferences (env : Env) (progver : String) (p : XmlNode)
    (st st' : MigrationState) (h : migratePreferences env progver p st = Except.ok st') :
    OptionsTree.AgreeOutside outsideShowToggles st.options st'.options := by
  revert h
  unfold migratePreferences
  lift_lets
  intro o1 events h
  have h1 : OptionsTree.AgreeOutside outsideShowToggles st.options o1 := by
    unfold o1
    split
    · exact showToggles_migrateGeneral env _ _
    · exact OptionsTree.AgreeOutside.refl _ _
  generalize he : events = ev at h
  cases ev with
  | error e => exact absurd h (by simp)
  | ok o2 =>
    have h2 : OptionsTree.AgreeOutside outsideShowToggles st.options o2 := by
      unfold events at he
      split at he
      · exact h1.trans (showToggles_migrateEvents env _ _ _ he)
      · simp only [Except.ok.injEq] at he
        rw [← he]
        exact h1
    simp only [Except.ok.injEq] at h
    rw [← h]
    exact h2.trans (showToggles_migratePreferencesRest env p o2)

theorem convertProxies_fst_toggleView (env : Env) :
    ∀ (accs : List UserAccount) (proxies : List ProxyItem),
      (convertProxies env accs proxies).1.map UserAccount.toggleView =
        accs.map UserAccount.toggleView
  | [], _ => rfl
  | a :: rest, proxies => by
    unfold convertProxies
    split
    · simp only [List.map_cons, convertProxies_fst_toggleView env rest]
      rfl
    · simp only [List.map_cons, convertProxies_fst_toggleView env rest]

theorem updateAccountProxies_toggleView (proxies : List ProxyItem) :
    ∀ (l r : List UserAccount), updateAccountProxies proxies l = Except.ok r →
      r.map UserAccount.toggleView = l.map UserAccount.toggleView
  | [], r, h => by
    simp only [updateAccountProxies, Except.ok.injEq] at h
    rw [← h]
  | a :: rest, r, h => by
    unfold updateAccountProxies at h
    split at h
    · split at h
      · exact absurd h (by simp)
      · split at h
        · split at h
          · rename_i r' hr
            simp only [Except.ok.injEq] at h
            rw [← h, List.map_cons, List.map_cons,
              updateAccountProxies_toggleView proxies rest r' hr]
            rfl
          · exact absurd h (by simp)
        · exact absurd h (by simp)
    · split at h
      · rename_i r' hr
        simp only [Except.ok.injEq] at h
        rw [← h, List.map_cons, List.map_cons,
          updateAccountProxies_toggleView proxies rest r' hr]
      · exact absurd h (by simp)

theorem find?_enabled_toggleView (l : List UserAccount) :
    (l.find? (fun a => a.opt_enabled)).map UserAccount.toggleView =
      (l.map UserAccount.toggleView).find? (fun t => t.1) := by
  induction l with
  | nil => rfl
  | cons a rest ih =>
    by_cases ha : a.opt_enabled = true
    · simp [List.find?_cons, ha, UserAccount.toggleView]
    · have ha2 : a.opt_enabled = false := by simpa using ha
      simp only [List.find?_cons, ha2, List.map_cons]
      rw [ih]
      simp [UserAccount.toggleView, ha2]

theorem migrateToggles_find? (accs : List UserAccount) (o : OptionsTree) :
    match accs.find? (fun a => a.opt_enabled) with
    | some a =>
      (migrateToggles accs o).find? ["options", "ui", "contactlist", "show", "offline-contacts"] =
        some (Variant.bool a.tog_offline) ∧
      (migrateToggles accs o).find? ["options", "ui", "contactlist", "show", "away-contacts"] =
        some (Variant.bool a.tog_away) ∧
      (migrateToggles accs o).find?
          ["options", "ui", "contactlist", "show", "hidden-contacts-group"] =
        some (Variant.bool a.tog_hidden) ∧
      (migrateToggles accs o).find? ["options", "ui", "contactlist", "show", "agent-contacts"] =
        some (Variant.bool a.tog_agents) ∧
      (migrateToggles accs o).find? ["options", "ui", "contactlist", "show", "self-contact"] =
        some (Variant.bool a.tog_self)
    | none =>
      (migrateToggles accs o).find? ["options", "ui", "contactlist", "show", "offline-contacts"] =
        some (Variant.bool true) ∧
      (migrateToggles accs o).find? ["options", "ui", "contactlist", "show", "away-contacts"] =
        some (Variant.bool true) ∧
      (migrateToggles accs o).find?
          ["options", "ui", "contactlist", "show", "hidden-contacts-group"] =
        some (Variant.bool true) ∧
      (migrateToggles accs o).find? ["options", "ui", "contactlist", "show", "agent-contacts"] =
        some (Variant.bool true) ∧
      (migrateToggles accs o).find? ["options", "ui", "contactlist", "show", "self-contact"] =
        some (Variant.bool true) := by
  unfold migrateToggles
  cases accs.find? (fun a => a.opt_enabled) <;>
    simp [OptionsTree.find?_setOption]

theorem migrateDocument_showToggles (env : Env) (base : XmlNode) (st st' : MigrationState)
    (h : migrateDocument env base st = Except.ok st') :
    ∃ accs : List UserAccount,
      accs.map UserAccount.toggleView =
        (st.accMigration ++ documentAccounts env base).map UserAccount.toggleView ∧
      OptionsTree.AgreeOutside outsideShowToggles
        (migrateToggles accs (migrateTopLevel base st.options)) st'.options := by
  unfold migrateDocument at h
  simp only at h
  split at h
  · exact absurd h (by simp)
  · rename_i accs hacc
    refine ⟨accs, ?_, ?_⟩
    · rw [updateAccountProxies_toggleView _ _ _ hacc, convertProxies_fst_toggleView]
    · split at h
      · exact showToggles_migratePreferences env _ _ _ _ h
      · simp only [Except.ok.injEq] at h
        rw [← h]
        exact OptionsTree.AgreeOutside.refl _ _

/-- C14. For a header-valid document read into a fresh migration object: when `fromFile`
returns, the five options `options.ui.contactlist.show.offline-contacts`, `away-contacts`,
`hidden-contacts-group`, `agent-contacts` and `self-contact` hold the values of
`tog_offline`, `tog_away`, `tog_hidden`, `tog_agents` and `tog_self` of the first account
of the document, in document order, whose `opt_enabled` is true, and all hold true when
the document has no enabled account. Accounts after the first enabled one have no
influence. -/
theorem fromFile_show_toggles (env : Env) (base : XmlNode) (st : MigrationState)
    (ret : Bool) (st' : MigrationState)
    (hv : headerValid (some base) = true) (hacc : st.accMigration = [])
    (h : fromFile env (some base) st = Except.ok (ret, st')) :
    match (documentAccounts env base).find? (fun a => a.opt_enabled) with
    | some a =>
      st'.options.find? ["options", "ui", "contactlist", "show", "offline-contacts"] =
        some (Variant.bool a.tog_offline) ∧
      st'.options.find? ["options", "ui", "contactlist", "show", "away-contacts"] =
        some (Variant.bool a.tog_away) ∧
      st'.options.find? ["options", "ui", "contactlist", "show", "hidden-contacts-group"] =
        some (Variant.bool a.tog_hidden) ∧
      st'.options.find? ["options", "ui", "contactlist", "show", "agent-contacts"] =
        some (Variant.bool a.tog_agents) ∧
      st'.options.find? ["options", "ui", "contactlist", "show", "self-contact"] =
        some (Variant.bool a.tog_self)
    | none =>
      st'.options.find? ["options", "ui", "contactlist", "show", "offline-contacts"] =
        some (Variant.bool true) ∧
      st'.options.find? ["options", "ui", "contactlist", "show", "away-contacts"] =
        some (Variant.bool true) ∧
      st'.options.find? ["options", "ui", "contactlist", "show", "hidden-contacts-group"] =
        some (Variant.bool true) ∧
      st'.options.find? ["options", "ui", "contactlist", "show", "agent-contacts"] =
        some (Variant.bool true) ∧
      st'.options.find? ["options", "ui", "contactlist", "show", "self-contact"] =
        some (Variant.bool true) := by
  obtain ⟨-, base', hb, hdoc⟩ := fromFile_ok_of_headerValid env _ st ret st' hv h
  cases hb
  obtain ⟨accs, hmap, hagree⟩ := migrateDocument_showToggles env base st st' hdoc
  rw [hacc, List.nil_append] at hmap
  have hfind : (accs.find? (fun a => a.opt_enabled)).map UserAccount.toggleView =
      ((documentAccounts env base).find? (fun a => a.opt_enabled)).map
        UserAccount.toggleView := by
    rw [find?_enabled_toggleView, find?_enabled_toggleView, hmap]
  have hm := migrateToggles_find? accs (migrateTopLevel base st.options)
  rw [hagree.find? ["options", "ui", "contactlist", "show", "offline-contacts"] rfl,
    hagree.find? ["options", "ui", "contactlist", "show", "away-contacts"] rfl,
    hagree.find? ["options", "ui", "contactlist", "show", "hidden-contacts-group"] rfl,
    hagree.find? ["options", "ui", "contactlist", "show", "agent-contacts"] rfl,
    hagree.find? ["options", "ui", "contactlist", "show", "self-contact"] rfl]
  cases ha : accs.find? (fun a => a.opt_enabled) with
  | none =>
    rw [ha] at hm hfind
    cases hd : (documentAccounts env base).find? (fun a => a.opt_enabled) with
    | none => exact hm
    | some d =>
      rw [hd] at hfind
      exact absurd hfind (by simp)
  | some a =>
    rw [ha] at hm hfind
    cases hd : (documentAccounts env base).find? (fun a => a.opt_enabled) with
    | none =>
      rw [hd] at hfind
      exact absurd hfind (by simp)
    | some d =>
      rw [hd] at hfind
      simp only [Option.map_some', Option.some.injEq, UserAccount.toggleView,
        Prod.mk.injEq] at hfind
      obtain ⟨-, h1, h2, h3, h4, h5⟩ := hfind
      simp only at hm ⊢
      rw [← h1, ← h2, ← h3, ← h4, ← h5]
      exact hm

set_option maxRecDepth 100000 in
theorem fromFile_show_toggles_witness :
    headerValid (some sampleTogglesDocument) = true ∧
    (documentAccounts sampleEnv sampleTogglesDocument).map
        (fun a => (a.name, a.opt_enabled)) =
      [("Old", false), ("Home", true), ("Work", true)] ∧
    (fromFileState sampleEnv (some sampleTogglesDocument)
        (MigrationState.fresh sampleStore)).options.find?
      ["options", "ui", "contactlist", "show", "offline-contacts"] =
        some (Variant.bool false) ∧
    (fromFileState sampleEnv (some sampleTogglesDocument)
        (MigrationState.fresh sampleStore)).options.find?
      ["options", "ui", "contactlist", "show", "away-contacts"] =
        some (Variant.bool true) ∧
    (fromFileState sampleEnv (some sampleTogglesDocument)
        (MigrationState.fresh sampleStore)).options.find?
      ["options", "ui", "contactlist", "show", "hidden-contacts-group"] =
        some (Variant.bool false) ∧
    (fromFileState sampleEnv (some sampleTogglesDocument)
        (MigrationState.fresh sampleStore)).options.find?
      ["options", "ui", "contactlist", "show", "agent-contacts"] =
        some (Variant.bool true) ∧
    (fromFileState sampleEnv (some sampleTogglesDocument)
        (MigrationState.fresh sampleStore)).options.find?
      ["options", "ui", "contactlist", "show", "self-contact"] =
        some (Variant.bool false) :=
  ⟨rfl, rfl,
    fromFile_show_toggles sampleEnv sampleTogglesDocument (MigrationState.fresh sampleStore)
      true
      (fromFileState sampleEnv (some sampleTogglesDocument) (MigrationState.fresh sampleStore))
      rfl rfl rfl⟩

/-! ## `folderRemove` returns -/

theorem FileSystem.remove_sublist (env : ProfileEnv) (fs : FileSystem) (d : FsPath)
    (name : String) : (fs.remove env d name).2.entries.Sublist fs.entries := by
  unfold FileSystem.remove
  split
  · exact List.Sublist.refl _
  · exact List.filter_sublist _

theorem FileSystem.rmdir_sublist (env : ProfileEnv) (fs : FileSystem) (d : FsPath)
    (name : String) : (fs.rmdir env d name).2.entries.Sublist fs.entries := by
  unfold FileSystem.rmdir
  split
  · exact List.Sublist.refl _
  · exact List.filter_sublist _

theorem entriesBelow_child_lt (fs : FileSystem) (d : FsPath) (name : String)
    (h : fs.isDir (d ++ [name]) = true) :
    (fs.entries.filter (fun e => (d ++ [name]).isPrefixOf e.1 &&
        decide ((d ++ [name]).length < e.1.length))).length <
      (fs.entries.filter (fun e => d.isPrefixOf e.1 && decide (d.length < e.1.length))).length := by
  have hmem : (d ++ [name], true) ∈ fs.entries := by
    unfold FileSystem.isDir at h
    simpa using h
  have hsub : fs.entries.filter (fun e => (d ++ [name]).isPrefixOf e.1 &&
        decide ((d ++ [name]).length < e.1.length)) =
      (fs.entries.filter (fun e => d.isPrefixOf e.1 && decide (d.length < e.1.length))).filter
        (fun e => (d ++ [name]).isPrefixOf e.1 &&
          decide ((d ++ [name]).length < e.1.length)) := by
    rw [List.filter_filter]
    apply List.filter_congr
    intro e _
    by_cases hp : (d ++ [name]).isPrefixOf e.1 = true
    · have hd : d.isPrefixOf e.1 = true :=
        isPrefixOf_trans d (d ++ [name]) e.1 (isPrefixOf_append_self d _) hp
      by_cases hl : (d ++ [name]).length < e.1.length
      · have hl2 : d.length < e.1.length := by
          rw [List.length_append] at hl
          omega
        simp [hp, hd, hl, hl2]
      · have hl3 : decide ((d ++ [name]).length < e.1.length) = false := by simpa using hl
        rw [hl3, Bool.and_false]
        rfl
    · have hp2 : (d ++ [name]).isPrefixOf e.1 = false := Bool.eq_false_iff.mpr hp
      rw [hp2]
      rfl
  rw [hsub]
  apply List.length_filter_lt_length_iff_exists.mpr
  refine ⟨(d ++ [name], true), ?_, ?_⟩
  · rw [List.mem_filter]
    refine ⟨hmem, ?_⟩
    simp [isPrefixOf_append_self]
  · simp

theorem folderRemoveEntries_returns (env : ProfileEnv) (fuel : Nat) (d : FsPath)
    (ih : ∀ (fs : FileSystem) (d : FsPath),
      (fs.entries.filter (fun e => d.isPrefixOf e.1 &&
        decide (d.length < e.1.length))).length < fuel →
      ∃ r, folderRemoveFuel env fuel fs d = some r ∧ r.2.entries.Sublist fs.entries) :
    ∀ (names : List String) (fs : FileSystem),
      (fs.entries.filter (fun e => d.isPrefixOf e.1 &&
        decide (d.length < e.1.length))).length < fuel + 1 →
      ∃ r, folderRemoveEntries env (folderRemoveFuel env fuel) d names fs = some r ∧
        r.2.entries.Sublist fs.entries
  | [], fs, _ => ⟨(true, fs), rfl, List.Sublist.refl _⟩
  | name :: rest, fs, hlt => by
    unfold folderRemoveEntries
    split
    · exact folderRemoveEntries_returns env fuel d ih rest fs hlt
    · split
      · rename_i hdir
        have hchild := entriesBelow_child_lt fs d name hdir
        obtain ⟨r, hr, hsub⟩ := ih fs (d ++ [name]) (by omega)
        rw [hr]
        obtain ⟨b, fs1⟩ := r
        cases b with
        | false => exact ⟨_, rfl, hsub⟩
        | true =>
          simp only
          have hlt1 : (fs1.entries.filter (fun e => d.isPrefixOf e.1 &&
              decide (d.length < e.1.length))).length < fuel + 1 :=
            Nat.lt_of_le_of_lt (List.Sublist.length_le (List.Sublist.filter _ hsub)) hlt
          obtain ⟨r2, hr2, hsub2⟩ := folderRemoveEntries_returns env fuel d ih rest fs1 hlt1
          exact ⟨r2, hr2, hsub2.trans hsub⟩
      · have hsub := FileSystem.remove_sublist env fs d name
        have hlt1 : (((fs.remove env d name).2).entries.filter (fun e => d.isPrefixOf e.1 &&
            decide (d.length < e.1.length))).length < fuel + 1 :=
          Nat.lt_of_le_of_lt (List.Sublist.length_le (List.Sublist.filter _ hsub)) hlt
        obtain ⟨r2, hr2, hsub2⟩ :=
          folderRemoveEntries_returns env fuel d ih rest (fs.remove env d name).2 hlt1
        exact ⟨r2, hr2, hsub2.trans hsub⟩

theorem folderRemoveFuel_returns (env : ProfileEnv) :
    ∀ (fuel : Nat) (fs : FileSystem) (d : FsPath),
      (fs.entries.filter (fun e => d.isPrefixOf e.1 &&
        decide (d.length < e.1.length))).length < fuel →
      ∃ r, folderRemoveFuel env fuel fs d = some r ∧ r.2.entries.Sublist fs.entries
  | 0, _, _, h => absurd h (Nat.not_lt_zero _)
  | fuel + 1, fs, d, h => by
    obtain ⟨r, hr, hsub⟩ := folderRemoveEntries_returns env fuel d
      (folderRemoveFuel_returns env fuel) (fs.entryList d) fs h
    unfold folderRemoveFuel
    rw [hr]
    obtain ⟨b, fs1⟩ := r
    cases b with
    | false => exact ⟨_, rfl, hsub⟩
    | true =>
      simp only
      split
      · exact ⟨_, rfl, hsub⟩
      · split
        · exact ⟨_, rfl, hsub⟩
        · exact ⟨_, rfl, (FileSystem.rmdir_sublist env fs1 _ _).trans hsub⟩

theorem folderRemove_returns (env : ProfileEnv) (fs : FileSystem) (d : FsPath) :
    ∃ r, folderRemove env fs d = some r ∧ r.2.entries.Sublist fs.entries := by
  unfold folderRemove
  apply folderRemoveFuel_returns
  exact Nat.lt_succ_of_le (List.length_filter_le _ _)

theorem profileDelete_returns (env : ProfileEnv) :
    ∀ (paths : List FsPath) (fs : FileSystem), ∃ r, profileDelete env paths fs = some r
  | [], fs => ⟨(true, fs), rfl⟩
  | path :: rest, fs => by
    unfold profileDelete
    split
    · exact profileDelete_returns env rest fs
    · obtain ⟨r, hr, -⟩ := folderRemove_returns env fs path
      rw [hr]
      obtain ⟨b, fs1⟩ := r
      cases b with
      | false => exact ⟨_, rfl⟩
      | true => exact profileDelete_returns env rest fs1

/-! ## The SSL mode `fromXml` reads -/

/-- C28. For every legacy account element without a child entry `ssl`: `fromXml` yields
`ssl = SSL_Legacy` when the boolean attribute `ssl` is absent or reads `true`, and
`ssl = SSL_Auto`, the value `reset()` sets, when the attribute is present and does not
read `true`. An element that mentions `ssl` nowhere is therefore read as `SSL_Legacy`,
which differs from the `reset()` value. -/
theorem fromXml_ssl_without_entry (env : Env) (uuid : String) (a : XmlNode)
    (u0 : UserAccount) (h : a.firstChildElement "ssl" = none) :
    (UserAccount.reset env uuid u0).ssl = SSL_Auto ∧
    (a.hasAttribute "ssl" = false ∨ a.attributeValue "ssl" = "true" →
      (UserAccount.fromXml env uuid a u0).ssl = SSL_Legacy) ∧
    (a.hasAttribute "ssl" = true → a.attributeValue "ssl" ≠ "true" →
      (UserAccount.fromXml env uuid a u0).ssl = SSL_Auto) ∧
    SSL_Legacy ≠ SSL_Auto := by
  have hs := (fromXml_ssl_allow_plain env uuid a u0).1
  have hc : (UserAccount.fromXmlConnection a
      (UserAccount.fromXmlFlags a (UserAccount.reset env uuid u0))).ssl =
      if readBoolAttribute a "ssl" true then SSL_Legacy else SSL_Auto := by
    unfold UserAccount.fromXmlConnection readNumEntry
    simp only [h]
    rfl
  refine ⟨rfl, ?_, ?_, by decide⟩
  · intro hattr
    rw [hs, hc]
    unfold readBoolAttribute
    rcases hattr with hattr | hattr
    · simp [hattr]
    · simp [hattr]
  · intro hattr hne
    rw [hs, hc]
    unfold readBoolAttribute
    simp [hattr, hne]

theorem fromXml_ssl_without_entry_witness :
    (UserAccount.fromXml sampleEnv "account-0" samplePlainAccount UserAccount.blank).ssl =
      SSL_Legacy ∧
    (UserAccount.fromXml sampleEnv "account-0" sampleNoSslAccount UserAccount.blank).ssl =
      SSL_Auto :=
  ⟨(fromXml_ssl_without_entry sampleEnv "account-0" samplePlainAccount UserAccount.blank
      rfl).2.1 (Or.inl rfl),
    (fromXml_ssl_without_entry sampleEnv "account-0" sampleNoSslAccount UserAccount.blank
      rfl).2.2.1 rfl (by decide)⟩

set_option maxRecDepth 100000 in
/-- C27. The sample account element carries the numeric entries `ssl` 7 and `allow-plain`
-1. `fromXml` stores both numbers as they are, outside the two enumerations, and
`toOptions` on the account it returns ends in the fatal branch for the unknown `ssl`
value. -/
theorem fromXml_keeps_unknown_enum_values :
    (UserAccount.fromXml sampleEnv "account-0" sampleBadEnumAccount UserAccount.blank).ssl = 7 ∧
    (UserAccount.fromXml sampleEnv "account-0" sampleBadEnumAccount
      UserAccount.blank).allow_plain = -1 ∧
    (7 : Int) ∉ [SSL_No, SSL_Yes, SSL_Auto, SSL_Legacy] ∧
    (-1 : Int) ∉ [NoAllowPlain, AllowPlain, AllowPlainOverTLS] ∧
    UserAccount.toOptions sampleEnv
      (UserAccount.fromXml sampleEnv "account-0" sampleBadEnumAccount UserAccount.blank)
      sampleStore ["accounts", "a0"] =
        Except.error "unknown ssl enum value in UserAccount::toOptions" :=
  ⟨rfl, rfl, by decide, by decide, rfl⟩

/-! ## The texts of the SSL mode and the plain-auth policy -/

theorem fromOptions_ssl (env : Env) (uuid : String) (psi o : OptionsTree) (b : OptPath)
    (u0 : UserAccount) :
    (UserAccount.fromOptions env uuid psi o b u0).1.ssl =
      (if (o.getOption (b ++ ["ssl"])).toQString = "no" then SSL_No
      else if (o.getOption (b ++ ["ssl"])).toQString = "yes" then SSL_Yes
      else if (o.getOption (b ++ ["ssl"])).toQString = "auto" then SSL_Auto
      else if (o.getOption (b ++ ["ssl"])).toQString = "legacy" then SSL_Legacy
      else SSL_Yes) := by
  have hg : ∀ u : UserAccount, (UserAccount.fromOptionsSleepStore o b u).getOption
      (b ++ ["ssl"]) = o.getOption (b ++ ["ssl"]) := by
    intro u
    unfold UserAccount.fromOptionsSleepStore
    split
    · rfl
    · exact OptionsTree.getOption_setOption_of_ne _ _ _ _ (by simp)
  have h1 : ∀ (l : List OptPath) (o1 : OptionsTree) (v : UserAccount),
      (UserAccount.fromOptionsLastStatus env psi l o1 b v).ssl = v.ssl := by
    intro l o1 v
    unfold UserAccount.fromOptionsLastStatus
    split <;> rfl
  have h2 : ∀ (l : List OptPath) (o1 : OptionsTree) (v : UserAccount),
      (UserAccount.fromOptionsTail l o1 b v).ssl = v.ssl := fun _ _ _ => rfl
  have h3 : ∀ (o1 : OptionsTree) (v : UserAccount),
      (UserAccount.fromOptionsRoster env o1 b v).ssl = v.ssl := fun _ _ => rfl
  have h4 : ∀ (o1 : OptionsTree) (v : UserAccount),
      (UserAccount.fromOptionsPgp env o1 b v).ssl = v.ssl := fun _ _ => rfl
  have h5 : ∀ (o1 : OptionsTree) (v : UserAccount),
      (UserAccount.fromOptionsConnection o1 b v).ssl =
        (if (o1.getOption (b ++ ["ssl"])).toQString = "no" then SSL_No
        else if (o1.getOption (b ++ ["ssl"])).toQString = "yes" then SSL_Yes
        else if (o1.getOption (b ++ ["ssl"])).toQString = "auto" then SSL_Auto
        else if (o1.getOption (b ++ ["ssl"])).toQString = "legacy" then SSL_Legacy
        else SSL_Yes) := fun _ _ => rfl
  unfold UserAccount.fromOptions
  simp only [h1, h2, h3, h4, h5, hg]

theorem fromOptions_allow_plain (env : Env) (uuid : String) (psi o : OptionsTree)
    (b : OptPath) (u0 : UserAccount) :
    (UserAccount.fromOptions env uuid psi o b u0).1.allow_plain =
      (if (o.getOption (b ++ ["allow-plain"])).toQString = "never" then NoAllowPlain
      else if (o.getOption (b ++ ["allow-plain"])).toQString = "always" then AllowPlain
      else if (o.getOption (b ++ ["allow-plain"])).toQString = "over encryped" then
        AllowPlainOverTLS
      else NoAllowPlain) := by
  have hg : ∀ u : UserAccount, (UserAccount.fromOptionsSleepStore o b u).getOption
      (b ++ ["allow-plain"]) = o.getOption (b ++ ["allow-plain"]) := by
    intro u
    unfold UserAccount.fromOptionsSleepStore
    split
    · rfl
    · exact OptionsTree.getOption_setOption_of_ne _ _ _ _ (by simp)
  have h2 : ∀ (l : List OptPath) (o1 : OptionsTree) (v : UserAccount),
      (UserAccount.fromOptionsTail l o1 b v).allow_plain = v.allow_plain := fun _ _ _ => rfl
  have h3 : ∀ (o1 : OptionsTree) (v : UserAccount),
      (UserAccount.fromOptionsRoster env o1 b v).allow_plain = v.allow_plain :=
    fun _ _ => rfl
  have h4 : ∀ (o1 : OptionsTree) (v : UserAccount),
      (UserAccount.fromOptionsPgp env o1 b v).allow_plain =
        (if (o1.getOption (b ++ ["allow-plain"])).toQString = "never" then NoAllowPlain
        else if (o1.getOption (b ++ ["allow-plain"])).toQString = "always" then AllowPlain
        else if (o1.getOption (b ++ ["allow-plain"])).toQString = "over encryped" then
          AllowPlainOverTLS
        else NoAllowPlain) := fun _ _ => rfl
  unfold UserAccount.fromOptions
  simp only [h2, h3, h4, hg]

/-- C26. For every account whose `ssl` and `allow_plain` fields are enum values, every
store and every non-empty base: `toOptions` returns and stores under `<base>.ssl` and
`<base>.allow-plain` the texts of the two values; an account with another enum value gets
another text, and `fromOptions` on the store `toOptions` leaves reads the two fields back
with the values they had. Writing the key bindings touches nothing outside
`<base>.pgp-key-bindings`. -/
theorem toOptions_enum_texts_read_back (env : Env) (uuid : String) (psi : OptionsTree)
    (u u0 : UserAccount) (o : OptionsTree) (b : OptPath) (hb : b ≠ [])
    (hssl : u.ssl = SSL_No ∨ u.ssl = SSL_Yes ∨ u.ssl = SSL_Auto ∨ u.ssl = SSL_Legacy)
    (hplain : u.allow_plain = NoAllowPlain ∨ u.allow_plain = AllowPlain ∨
      u.allow_plain = AllowPlainOverTLS)
    (hf : ∀ v o, (env.varListToOptions v o (b ++ ["pgp-key-bindings"])).removeOption
      (b ++ ["pgp-key-bindings"]) true = o.removeOption (b ++ ["pgp-key-bindings"]) true) :
    ∃ ssl plain u' w,
      UserAccount.sslText u = some ssl ∧ UserAccount.plainText u = some plain ∧
      UserAccount.toOptions env u o b = Except.ok (u', w) ∧
      w.find? (b ++ ["ssl"]) = some (Variant.str ssl) ∧
      w.find? (b ++ ["allow-plain"]) = some (Variant.str plain) ∧
      (∀ u2 : UserAccount, UserAccount.sslText u2 = some ssl → u2.ssl = u.ssl) ∧
      (∀ u2 : UserAccount, UserAccount.plainText u2 = some plain →
        u2.allow_plain = u.allow_plain) ∧
      (UserAccount.fromOptions env uuid psi w b u0).1.ssl = u.ssl ∧
      (UserAccount.fromOptions env uuid psi w b u0).1.allow_plain = u.allow_plain := by
  obtain ⟨ssl, hs⟩ := sslText_isSome u hssl
  obtain ⟨plain, hp⟩ := plainText_isSome u hplain
  have h1 : (UserAccount.toOptionsWrite env u ssl plain b (o.removeOption b true)).find?
      (b ++ ["ssl"]) = some (Variant.str ssl) :=
    find?_toOptionsWrite_head env u ssl plain b _ hb hf ["ssl"] _
      (by simp [UserAccount.headPairs])
  have h2 : (UserAccount.toOptionsWrite env u ssl plain b (o.removeOption b true)).find?
      (b ++ ["allow-plain"]) = some (Variant.str plain) :=
    find?_toOptionsWrite_head env u ssl plain b _ hb hf ["allow-plain"] _
      (by simp [UserAccount.headPairs])
  refine ⟨ssl, plain, _, _, hs, hp, toOptions_eq env u o b hb ssl plain hs hp, h1, h2,
    ?_, ?_, ?_, ?_⟩
  · intro u2 h2s
    rw [← sslText_read u2 ssl h2s, sslText_read u ssl hs]
  · intro u2 h2p
    rw [← plainText_read u2 plain h2p, plainText_read u plain hp]
  · rw [fromOptions_ssl, getOption_of_find? _ _ _ h1]
    exact sslText_read u ssl hs
  · rw [fromOptions_allow_plain, getOption_of_find? _ _ _ h2]
    exact plainText_read u plain hp

set_option maxRecDepth 100000 in
theorem toOptions_enum_texts_read_back_witness :
    sampleStoredAccount.ssl = SSL_Auto ∧ sampleStoredAccount.allow_plain = AllowPlainOverTLS ∧
    ∃ ssl plain u' w,
      UserAccount.sslText sampleStoredAccount = some ssl ∧
      UserAccount.plainText sampleStoredAccount = some plain ∧
      UserAccount.toOptions sampleEnv sampleStoredAccount sampleStore ["accounts", "a0"] =
        Except.ok (u', w) ∧
      w.find? (["accounts", "a0"] ++ ["ssl"]) = some (Variant.str ssl) ∧
      w.find? (["accounts", "a0"] ++ ["allow-plain"]) = some (Variant.str plain) ∧
      (∀ u2 : UserAccount, UserAccount.sslText u2 = some ssl →
        u2.ssl = sampleStoredAccount.ssl) ∧
      (∀ u2 : UserAccount, UserAccount.plainText u2 = some plain →
        u2.allow_plain = sampleStoredAccount.allow_plain) ∧
      (UserAccount.fromOptions sampleEnv "account-1" sampleStore w ["accounts", "a0"]
        UserAccount.blank).1.ssl = sampleStoredAccount.ssl ∧
      (UserAccount.fromOptions sampleEnv "account-1" sampleStore w ["accounts", "a0"]
        UserAccount.blank).1.allow_plain = sampleStoredAccount.allow_plain :=
  ⟨rfl, rfl,
    toOptions_enum_texts_read_back sampleEnv "account-1" sampleStore sampleStoredAccount
      UserAccount.blank sampleStore ["accounts", "a0"] (by decide)
      (Or.inr (Or.inr (Or.inl rfl))) (Or.inr (Or.inr rfl)) (fun _ _ => rfl)⟩

/-! ## The store after `fromOptions` -/

theorem fromOptions_snd (env : Env) (uuid : String) (psi o : OptionsTree) (b : OptPath)
    (u0 : UserAccount) :
    (UserAccount.fromOptions env uuid psi o b u0).2 =
      if UserAccount.connectAfterSleepSet o b then o
      else o.setOption (b ++ ["connect-after-sleep"]) (Variant.bool false) := by
  have h1 : ∀ v : UserAccount,
      (UserAccount.fromOptionsFlags o b v).opt_connectAfterSleep = v.opt_connectAfterSleep :=
    fun _ => rfl
  have h2 : ∀ v : UserAccount, (UserAccount.reset env uuid v).opt_connectAfterSleep = false :=
    fun _ => rfl
  unfold UserAccount.fromOptions
  simp only
  unfold UserAccount.fromOptionsSleepStore UserAccount.fromOptionsSleep
  split
  · rfl
  · simp only [Bool.false_eq_true, if_false, h1, h2]

/-- C29. For every store `o` and base `b`, `fromOptions(o, b)` changes the store at most
at the path `<b>.connect-after-sleep`. When that path is among the names
`getChildOptionNames()` returns, which for a non-empty base are the names of the set
options, the store is returned as it was. When it is not, the option is set to false,
the value `reset()` gives the field, and every other option path keeps its value. -/
theorem fromOptions_store_change (env : Env) (uuid : String) (psi o : OptionsTree)
    (b : OptPath) (u0 : UserAccount) :
    (b ++ ["connect-after-sleep"] ∈ o.getChildOptionNames →
      (UserAccount.fromOptions env uuid psi o b u0).2 = o) ∧
    (b ++ ["connect-after-sleep"] ∉ o.getChildOptionNames →
      (UserAccount.fromOptions env uuid psi o b u0).2 =
          o.setOption (b ++ ["connect-after-sleep"]) (Variant.bool false) ∧
        (UserAccount.fromOptions env uuid psi o b u0).2.find? (b ++ ["connect-after-sleep"]) =
          some (Variant.bool false)) ∧
    (∀ k : OptPath, k ≠ b ++ ["connect-after-sleep"] →
      (UserAccount.fromOptions env uuid psi o b u0).2.find? k = o.find? k) ∧
    (b ++ ["connect-after-sleep"] ∈ o.getChildOptionNames ↔
      (o.find? (b ++ ["connect-after-sleep"])).isSome = true) ∧
    (UserAccount.reset env uuid u0).opt_connectAfterSleep = false := by
  have hs := fromOptions_snd env uuid psi o b u0
  unfold UserAccount.connectAfterSleepSet at hs
  refine ⟨?_, ?_, ?_, ?_, rfl⟩
  · intro h
    rw [hs]
    simp [h]
  · intro h
    rw [hs]
    simp only [h, decide_False, Bool.false_eq_true, if_false, true_and]
    rw [OptionsTree.find?_setOption]
    simp
  · intro k hk
    rw [hs]
    split
    · rfl
    · rw [OptionsTree.find?_setOption, if_neg hk]
  · rw [OptionsTree.mem_getChildOptionNames_all o _ (by simp)]
    constructor
    · exact OptionsTree.find?_isSome_of_mem o _
    · intro h
      obtain ⟨v, hv⟩ := Option.isSome_iff_exists.mp h
      exact OptionsTree.mem_allOptionNames_of_find? o _ v hv

set_option maxRecDepth 100000 in
theorem fromOptions_store_change_witness :
    sampleForeignStore.find? ["accounts", "a0", "connect-after-sleep"] = none ∧
    (UserAccount.fromOptions sampleEnv "account-1" sampleStore sampleForeignStore
        ["accounts", "a0"] UserAccount.blank).2 =
      sampleForeignStore.setOption (["accounts", "a0"] ++ ["connect-after-sleep"])
        (Variant.bool false) ∧
    (UserAccount.fromOptions sampleEnv "account-1" sampleStore
        (sampleForeignStore.setOption ["accounts", "a0", "connect-after-sleep"]
          (Variant.bool true))
        ["accounts", "a0"] UserAccount.blank).2 =
      sampleForeignStore.setOption ["accounts", "a0", "connect-after-sleep"]
        (Variant.bool true) :=
  ⟨rfl,
    ((fromOptions_store_change sampleEnv "account-1" sampleStore sampleForeignStore
      ["accounts", "a0"] UserAccount.blank).2.1 (by decide)).1,
    (fromOptions_store_change sampleEnv "account-1" sampleStore
      (sampleForeignStore.setOption ["accounts", "a0", "connect-after-sleep"]
        (Variant.bool true))
      ["accounts", "a0"] UserAccount.blank).1 (by decide)⟩

/-! ## The keys of the default toolbars -/

theorem plugin_key_ne (s : String) :
    s ++ "-plugin" ≠ "chat_ps" ∧ s ++ "-plugin" ≠ "gchat_ps" := by
  constructor <;>
  · intro h
    have h2 := congrArg (fun t : String => t.data.reverse.head?) h
    simp at h2

theorem not_mem_pluginsKeys (env : Env) :
    "chat_ps" ∉ pluginsKeys env ∧ "gchat_ps" ∉ pluginsKeys env := by
  unfold pluginsKeys
  split
  · constructor <;>
    · intro h
      obtain ⟨p, -, hp⟩ := List.mem_map.mp h
      first
        | exact (plugin_key_ne _).1 hp
        | exact (plugin_key_ne _).2 hp
  · exact ⟨List.not_mem_nil _, List.not_mem_nil _⟩

theorem qIndexOf_of_not_mem (l : List String) (s : String) (h : s ∉ l) :
    qIndexOf l s = -1 := by
  unfold qIndexOf
  have : l.indexOf? s = none := by
    unfold List.indexOf?
    rw [List.findIdx?_eq_none_iff]
    intro x hx
    rw [beq_eq_false_iff_ne]
    rintro rfl
    exact h hx
  rw [this]

theorem qRemoveAt_neg_one (l : List String) : qRemoveAt l (-1) = l := by
  unfold qRemoveAt
  simp

theorem chat_ps_not_mem (env : Env) :
    "chat_ps" ∉ ["chat_clear", "chat_find", "chat_html_text", "chat_add_contact"] ++
      pluginsKeys env ++
      ["spacer", "chat_icon", "chat_file", "chat_pgp", "chat_info", "chat_history",
        "chat_voice", "chat_active_contacts"] := by
  intro h
  rw [List.mem_append, List.mem_append] at h
  rcases h with (h | h) | h
  · exact absurd h (by decide)
  · exact (not_mem_pluginsKeys env).1 h
  · exact absurd h (by decide)

theorem gchat_ps_not_mem (env : Env) :
    "gchat_ps" ∉ ["gchat_clear", "gchat_find", "gchat_html_text", "gchat_configure"] ++
      pluginsKeys env ++ ["spacer", "gchat_icon"] := by
  intro h
  rw [List.mem_append, List.mem_append] at h
  rcases h with (h | h) | h
  · exact absurd h (by decide)
  · exact (not_mem_pluginsKeys env).2 h
  · exact absurd h (by decide)

theorem chatToolbar_keys (env : Env) (o : OptionsTree) :
    (chatToolbar env o).keys =
      ["chat_clear", "chat_find", "chat_html_text", "chat_add_contact"] ++ pluginsKeys env ++
        ["spacer", "chat_icon", "chat_file", "chat_pgp", "chat_info", "chat_history",
          "chat_voice", "chat_active_contacts"] := by
  unfold chatToolbar
  simp only
  split
  · rw [qIndexOf_of_not_mem _ _ (chat_ps_not_mem env), qRemoveAt_neg_one]
  · rfl

theorem groupchatToolbar_keys (env : Env) (o : OptionsTree) (isOn : Bool) :
    (groupchatToolbar env o isOn).keys =
      ["gchat_clear", "gchat_find", "gchat_html_text", "gchat_configure"] ++
        pluginsKeys env ++ ["spacer", "gchat_icon"] := by
  unfold groupchatToolbar
  simp only
  split
  · rw [qIndexOf_of_not_mem _ _ (gchat_ps_not_mem env), qRemoveAt_neg_one]
  · rfl

theorem chatToolbar_congr (env : Env) (o o' : OptionsTree)
    (h : o'.getOption ["options", "ui", "chat", "central-toolbar"] =
      o.getOption ["options", "ui", "chat", "central-toolbar"]) :
    chatToolbar env o' = chatToolbar env o := by
  have hk := chatToolbar_keys env o
  have hk' := chatToolbar_keys env o'
  unfold chatToolbar at hk hk' ⊢
  simp only at hk hk' ⊢
  rw [hk, hk', h]

theorem groupchatToolbar_congr (env : Env) (o o' : OptionsTree) (isOn : Bool) :
    groupchatToolbar env o' isOn = groupchatToolbar env o isOn := by
  have hk := groupchatToolbar_keys env o isOn
  have hk' := groupchatToolbar_keys env o' isOn
  unfold groupchatToolbar at hk hk' ⊢
  simp only at hk hk' ⊢
  rw [hk, hk']

theorem OptionsTree.removeOption_single_comm (o : OptionsTree) (k k' : OptPath) :
    (o.removeOption k).removeOption k' = (o.removeOption k').removeOption k := by
  unfold OptionsTree.removeOption
  simp only [List.filter_filter, Bool.and_comm]

theorem OptionsTree.removeOption_setOption_self (o : OptionsTree) (k : OptPath)
    (v : Variant) : (o.setOption k v).removeOption k = o.removeOption k := by
  apply OptionsTree.eq_of_entries
  unfold OptionsTree.removeOption
  exact OptionsTree.filter_setOption_of_false
    (fun q => !(decide (q = k) || (false && k.isPrefixOf q))) o k v (by simp)

theorem OptionsTree.getOption_of_removeOption_eq (o o' : OptionsTree) (p k : OptPath)
    (h : o'.removeOption p = o.removeOption p) (hk : k ≠ p) :
    o'.getOption k = o.getOption k := by
  have h1 := find?_removeOption_single o p k
  have h2 := find?_removeOption_single o' p k
  rw [if_neg hk] at h1 h2
  unfold OptionsTree.getOption OptionsTree.getOptionD
  rw [← h1, ← h2, h]

theorem addDefaultToolbars_congr (env : Env) (o o' : OptionsTree)
    (h : o'.removeOption ["options", "ui", "chat", "disable-paste-send"] =
      o.removeOption ["options", "ui", "chat", "disable-paste-send"])
    (hrun : (o.getOption
      ["options", "ui", "contactlist", "toolbars", "m0", "name"]).toQString ≠ "Chat") :
    addDefaultToolbars env o' = addDefaultToolbars env o := by
  have hn := OptionsTree.getOption_of_removeOption_eq o o' _
    ["options", "ui", "contactlist", "toolbars", "m0", "name"] h (by decide)
  have hc := OptionsTree.getOption_of_removeOption_eq o o' _
    ["options", "ui", "chat", "central-toolbar"] h (by decide)
  have h2 : (o'.removeOption ["options", "ui", "chat", "central-toolbar"]).removeOption
        ["options", "ui", "chat", "disable-paste-send"] =
      (o.removeOption ["options", "ui", "chat", "central-toolbar"]).removeOption
        ["options", "ui", "chat", "disable-paste-send"] := by
    rw [OptionsTree.removeOption_single_comm o', h, OptionsTree.removeOption_single_comm o]
  unfold addDefaultToolbars
  rw [hn, if_pos hrun, if_pos hrun]
  simp only
  rw [h2, chatToolbar_congr env o o' hc,
    groupchatToolbar_congr env (o.removeOption ["options", "ui", "chat", "central-toolbar"])
      (o'.removeOption ["options", "ui", "chat", "central-toolbar"])]

theorem addDefaultToolbars_removes (env : Env) (o : OptionsTree)
    (hrun : (o.getOption
      ["options", "ui", "contactlist", "toolbars", "m0", "name"]).toQString ≠ "Chat") :
    (addDefaultToolbars env o).find? ["options", "ui", "chat", "disable-paste-send"] = none ∧
    (addDefaultToolbars env o).find? ["options", "ui", "chat", "central-toolbar"] = none := by
  have hagree : OptionsTree.AgreeOutside
      (fun k => ["options", "ui", "contactlist", "toolbars"].isPrefixOf k)
      (((o.removeOption ["options", "ui", "chat", "central-toolbar"]).removeOption
        ["options", "ui", "chat", "disable-paste-send"]).removeOption
        ["options", "ui", "contactlist", "toolbars"] true)
      (addDefaultToolbars env o) := by
    unfold addDefaultToolbars
    rw [if_pos hrun]
    exact agree_foldl_structToOptions _ (fun _ hk => hk) _ _ _
  constructor
  · rw [hagree.find? ["options", "ui", "chat", "disable-paste-send"] rfl,
      OptionsTree.find?_removeOption_of_not_under _
        ["options", "ui", "contactlist", "toolbars"]
        ["options", "ui", "chat", "disable-paste-send"] rfl,
      OptionsTree.find?_removeOption_single, if_pos rfl]
  · rw [hagree.find? ["options", "ui", "chat", "central-toolbar"] rfl,
      OptionsTree.find?_removeOption_of_not_under _
        ["options", "ui", "contactlist", "toolbars"]
        ["options", "ui", "chat", "central-toolbar"] rfl,
      OptionsTree.find?_removeOption_single, if_neg (by decide),
      OptionsTree.find?_removeOption_single, if_pos rfl]

/-- C30. For every store and every list of available plugins: the key `chat_ps` does not
occur in the key list of the synthesized `Chat` toolbar and `gchat_ps` does not occur in
that of the `Groupchat` toolbar, so `indexOf` gives -1, `removeAt` removes nothing and
both key lists are the same whatever `options.ui.chat.disable-paste-send` holds. When the
default toolbar block runs (the first toolbar is not named `Chat`) it leaves the same
store for every two stores that differ only in that option, and
`options.ui.chat.disable-paste-send` and `options.ui.chat.central-toolbar` are not set
afterwards. -/
theorem default_toolbar_keys_ignore_paste_send (env : Env) (o : OptionsTree)
    (hrun : (o.getOption
      ["options", "ui", "contactlist", "toolbars", "m0", "name"]).toQString ≠ "Chat") :
    qIndexOf (["chat_clear", "chat_find", "chat_html_text", "chat_add_contact"] ++
      pluginsKeys env ++
      ["spacer", "chat_icon", "chat_file", "chat_pgp", "chat_info", "chat_history",
        "chat_voice", "chat_active_contacts"]) "chat_ps" = -1 ∧
    qIndexOf (["gchat_clear", "gchat_find", "gchat_html_text", "gchat_configure"] ++
      pluginsKeys env ++ ["spacer", "gchat_icon"]) "gchat_ps" = -1 ∧
    (chatToolbar env o).keys =
      ["chat_clear", "chat_find", "chat_html_text", "chat_add_contact"] ++ pluginsKeys env ++
        ["spacer", "chat_icon", "chat_file", "chat_pgp", "chat_info", "chat_history",
          "chat_voice", "chat_active_contacts"] ∧
    (∀ (o1 : OptionsTree) (isOn : Bool), (groupchatToolbar env o1 isOn).keys =
      ["gchat_clear", "gchat_find", "gchat_html_text", "gchat_configure"] ++
        pluginsKeys env ++ ["spacer", "gchat_icon"]) ∧
    (∀ o' : OptionsTree,
      o'.removeOption ["options", "ui", "chat", "disable-paste-send"] =
        o.removeOption ["options", "ui", "chat", "disable-paste-send"] →
      addDefaultToolbars env o' = addDefaultToolbars env o) ∧
    (addDefaultToolbars env o).find? ["options", "ui", "chat", "disable-paste-send"] = none ∧
    (addDefaultToolbars env o).find? ["options", "ui", "chat", "central-toolbar"] = none :=
  ⟨qIndexOf_of_not_mem _ _ (chat_ps_not_mem env),
    qIndexOf_of_not_mem _ _ (gchat_ps_not_mem env),
    chatToolbar_keys env o,
    fun o1 isOn => groupchatToolbar_keys env o1 isOn,
    fun o' h => addDefaultToolbars_congr env o o' h hrun,
    (addDefaultToolbars_removes env o hrun).1,
    (addDefaultToolbars_removes env o hrun).2⟩

set_option maxRecDepth 100000 in
theorem default_toolbar_keys_ignore_paste_send_witness :
    samplePasteSendStore.find? ["options", "ui", "chat", "disable-paste-send"] =
      some (Variant.bool true) ∧
    addDefaultToolbars sampleEnv
        (samplePasteSendStore.setOption ["options", "ui", "chat", "disable-paste-send"]
          (Variant.bool false)) =
      addDefaultToolbars sampleEnv samplePasteSendStore ∧
    (addDefaultToolbars sampleEnv samplePasteSendStore).find?
        ["options", "ui", "contactlist", "toolbars", "m0", "actions"] =
      some (Variant.strList
        ["chat_clear", "chat_find", "chat_html_text", "chat_add_contact", "spacer",
          "chat_icon", "chat_file", "chat_pgp", "chat_info", "chat_history", "chat_voice",
          "chat_active_contacts"]) ∧
    (addDefaultToolbars sampleEnv samplePasteSendStore).find?
        ["options", "ui", "chat", "disable-paste-send"] = none :=
  ⟨rfl,
    (default_toolbar_keys_ignore_paste_send sampleEnv samplePasteSendStore
      (by decide)).2.2.2.2.1 _ (OptionsTree.removeOption_setOption_self _ _ _),
    rfl,
    (default_toolbar_keys_ignore_paste_send sampleEnv samplePasteSendStore
      (by decide)).2.2.2.2.2.1⟩

/-! ## Unchecked reads in `fromFile` -/

set_option maxRecDepth 100000 in
/-- C21. The sample document has the sections `roster`, `misc` and `sound` without any
field. `fromFile` returns true on it and has overwritten the six options these sections
write without testing for the field: the values the user had set are replaced by values
made from the uninitialised locals `hideMenu`, `defaultAction`, `delafterint`, `soft` and
`noGCSound` and from the empty player name. -/
theorem fromFile_writes_options_of_absent_fields :
    (fromFile sampleEnv (some sampleEmptySectionsDocument)
      (MigrationState.fresh sampleSectionsStore)).toOption.map (fun r => r.1) = some true ∧
    sampleSectionsStore.entries.map
      (fun e => (e, (fromFileState sampleEnv (some sampleEmptySectionsDocument)
        (MigrationState.fresh sampleSectionsStore)).options.find? e.1)) =
      [((["options", "ui", "contactlist", "show-menubar"], Variant.bool false),
          some (Variant.bool true)),
        ((["options", "messages", "default-outgoing-message-type"], Variant.str "chat"),
          some (Variant.str "message")),
        ((["options", "ui", "chat", "delete-contents-after"], Variant.str "day"),
          some (Variant.str "instant")),
        ((["options", "shortcuts", "chat", "send"], Variant.keySeqList ["Enter", "Return"]),
          some (Variant.keySeqList ["Ctrl+Enter", "Ctrl+Return"])),
        ((["options", "ui", "notifications", "sounds", "unix-sound-player"],
            Variant.str "aplay"),
          some (Variant.str "")),
        ((["options", "ui", "notifications", "sounds", "notify-every-muc-message"],
            Variant.bool false),
          some (Variant.bool true))] :=
  ⟨rfl, rfl⟩

set_option maxRecDepth 100000 in
/-- C23. The only account of the sample document carries `proxyindex` 5 and no inline
proxy, and the document has no proxy list: no proxy is migrated, the account reaches the
rewriting loop with `proxy_index = 5`, and the lookup `proxyMigration[4]` is outside the
list. -/
theorem fromFile_proxy_index_out_of_range :
    (documentAccounts sampleEnv sampleDanglingProxyDocument).map
      (fun a => (a.proxy_index, a.proxy_type)) = [(5, 0)] ∧
    (convertProxies sampleEnv (documentAccounts sampleEnv sampleDanglingProxyDocument) []).1.map
      (fun a => a.proxy_index) = [5] ∧
    assignProxyIds
      ((convertProxies sampleEnv (documentAccounts sampleEnv sampleDanglingProxyDocument)
        []).2 ++ parseProxies sampleEnv sampleDanglingProxyDocument) = [] ∧
    headerValid (some sampleDanglingProxyDocument) = true ∧
    fromFile sampleEnv (some sampleDanglingProxyDocument) (MigrationState.fresh sampleStore) =
      Except.error "proxyMigration index out of range" :=
  ⟨rfl, rfl, rfl, rfl, rfl⟩

set_option maxRecDepth 100000 in
/-- C24. Neither table index is checked. With the alert style 7 the lookup in the table
of three alert styles is outside the table, and with the value -1 for `incomingAs` so is
the lookup in the table of four message types; `fromFile` faults on both documents. -/
theorem fromFile_table_index_out_of_range :
    headerValid (some sampleAlertStyleDocument) = true ∧
    arrayAt ["no", "blink", "animate"] 7 = Except.error "array index out of range" ∧
    fromFile sampleEnv (some sampleAlertStyleDocument) (MigrationState.fresh sampleStore) =
      Except.error "array index out of range" ∧
    headerValid (some sampleIncomingAsDocument) = true ∧
    arrayAt ["no", "message", "chat", "current-open"] (-1) =
      Except.error "array index out of range" ∧
    fromFile sampleEnv (some sampleIncomingAsDocument) (MigrationState.fresh sampleStore) =
      Except.error "array index out of range" :=
  ⟨rfl, rfl, rfl, rfl, rfl, rfl⟩

/-! ## The options written from the value tables -/

theorem tableOptions_migrateAutostatus (env : Env) (tag : XmlNode) (o : OptionsTree) :
    OptionsTree.AgreeOutside outsideTableOptions o (migrateAutostatus env tag o) := by
  unfold migrateAutostatus
  simp only
  repeat first
    | refine agree_migrateIntEntry ?_ (by decide)
    | refine agree_migrateStringEntry ?_ (by decide)
  repeat' first
    | exact OptionsTree.AgreeOutside.refl _ _
    | refine OptionsTree.AgreeOutside.step _ _ ?_ (by decide)
    | split

theorem tableOptions_migratePresence (env : Env) (p_pres : XmlNode) (o : OptionsTree) :
    OptionsTree.AgreeOutside outsideTableOptions o (migratePresence env p_pres o) := by
  unfold migratePresence
  lift_lets
  intro o1
  have h1 : OptionsTree.AgreeOutside outsideTableOptions o o1 := by
    unfold o1
    split
    · repeat first
        | refine agree_migrateBoolEntry ?_ (by decide)
      exact OptionsTree.AgreeOutside.refl _ _
    · exact OptionsTree.AgreeOutside.refl _ _
  split
  · exact h1.trans (tableOptions_migrateAutostatus env _ o1)
  · exact h1

theorem tableOptions_migrateLookAndFeel (env : Env) (p_lnf : XmlNode) (o : OptionsTree) :
    OptionsTree.AgreeOutside outsideTableOptions o (migrateLookAndFeel env p_lnf o) := by
  unfold migrateLookAndFeel
  lift_lets
  intro o1 o2 o3 o4 o5
  have h4 : OptionsTree.AgreeOutside outsideTableOptions o o4 := by
    unfold o4 o3 o2 o1
    repeat first
      | refine agree_migrateBoolEntry ?_ (by decide)
      | refine agree_migrateIntEntry ?_ (by decide)
    exact OptionsTree.AgreeOutside.refl _ _
  have h5 : OptionsTree.AgreeOutside outsideTableOptions o o5 := by
    unfold o5
    split
    · repeat first
        | refine agree_migrateColorEntry ?_ (by decide)
      exact h4
    · exact h4
  split
  · repeat first
      | refine agree_migrateStringEntry ?_ (by decide)
    exact h5
  · exact h5

theorem tableOptions_migrateSound (env : Env) (p_sound : XmlNode) (o : OptionsTree) :
    OptionsTree.AgreeOutside outsideTableOptions o (migrateSound env p_sound o) := by
  unfold migrateSound
  simp only
  have h1 : OptionsTree.AgreeOutside outsideTableOptions o
      (if readEntry p_sound "player" "" ≠ env.soundDetectPlayer ∧
          readEntry p_sound "player" "" ≠ "play" then
        o.setOption ["options", "ui", "notifications", "sounds", "unix-sound-player"]
          (Variant.str (readEntry p_sound "player" ""))
      else
        o.setOption ["options", "ui", "notifications", "sounds", "unix-sound-player"]
          (Variant.str "")) := by
    split <;> exact OptionsTree.AgreeOutside.setOption _ _ _ _ (by decide)
  split <;>
  · repeat first
      | refine agree_migrateBoolEntry ?_ (by decide)
      | refine agree_migrateStringEntry ?_ (by decide)
      | refine OptionsTree.AgreeOutside.step _ _ ?_ (by decide)
    exact h1

theorem tableOptions_migratePopups (env : Env) (p_popup : XmlNode) (o : OptionsTree) :
    OptionsTree.AgreeOutside outsideTableOptions o (migratePopups env p_popup o) := by
  unfold migratePopups
  simp only
  repeat first
    | refine agree_migrateBoolEntry ?_ (by decide)
    | refine agree_migrateIntEntry ?_ (by decide)
    | refine agree_migrateColorEntry ?_ (by decide)
  exact OptionsTree.AgreeOutside.refl _ _

theorem tableOptions_migrateIconset (p_iconset : XmlNode) (o : OptionsTree) :
    OptionsTree.AgreeOutside outsideTableOptions o (migrateIconset p_iconset o) := by
  unfold migrateIconset
  simp only
  repeat' first
    | exact OptionsTree.AgreeOutside.refl _ _
    | refine agree_migrateStringEntry ?_ (by decide)
    | refine OptionsTree.AgreeOutside.step _ _ ?_ (by decide)
    | split

theorem tableOptions_foldl_globalAccel (env : Env) :
    ∀ (l : List XmlNode) (o o1 : OptionsTree),
      OptionsTree.AgreeOutside outsideTableOptions o o1 →
      OptionsTree.AgreeOutside outsideTableOptions o
        (l.foldl
          (fun o i =>
            let k := Variant.keySeq (env.keySequence i.allText)
            let shortcut :=
              if i.attributeValue "type" = "processNextEvent" then "event"
              else "toggle-visibility"
            o.setOption (["options", "shortcuts", "global"] ++ [shortcut]) k)
          o1)
  | [], _, _, h => h
  | i :: rest, o, o1, h => by
    rw [List.foldl_cons]
    exact tableOptions_foldl_globalAccel env rest o _ (h.step _ _ rfl)

theorem tableOptions_migrateGlobalAccel (env : Env) (p_globalAccel : XmlNode)
    (o : OptionsTree) :
    OptionsTree.AgreeOutside outsideTableOptions o (migrateGlobalAccel env p_globalAccel o) :=
  tableOptions_foldl_globalAccel env _ o o (OptionsTree.AgreeOutside.refl _ _)

theorem tableOptions_migratePreferencesRest (env : Env) (p : XmlNode) (o : OptionsTree) :
    OptionsTree.AgreeOutside outsideTableOptions o (migratePreferencesRest env p o) := by
  unfold migratePreferencesRest
  lift_lets
  intro o1 o2 o3 o4 o5 o6 o7 o8 o9 o10 o11 o12
  have h1 : OptionsTree.AgreeOutside outsideTableOptions o o1 := by
    unfold o1
    split
    · exact tableOptions_migratePresence env _ o
    · exact OptionsTree.AgreeOutside.refl _ _
  have h2 : OptionsTree.AgreeOutside outsideTableOptions o o2 := by
    unfold o2
    split
    · exact h1.trans (tableOptions_migrateLookAndFeel env _ o1)
    · exact h1
  have h3 : OptionsTree.AgreeOutside outsideTableOptions o o3 := by
    unfold o3
    split
    · exact h2.trans (tableOptions_migrateSound env _ o2)
    · exact h2
  have h4 : OptionsTree.AgreeOutside outsideTableOptions o o4 := by
    unfold o4
    split
    · repeat first
        | refine agree_migrateSizeEntry ?_ (by decide)
      exact h3
    · exact h3
  have h5 : OptionsTree.AgreeOutside outsideTableOptions o o5 := by
    unfold o5
    split
    · repeat first
        | refine agree_migrateBoolEntry ?_ (by decide)
        | refine agree_migrateStringList ?_ (by decide)
      exact h4
    · exact h4
  have h6 : OptionsTree.AgreeOutside outsideTableOptions o o6 := by
    unfold o6
    split
    · exact h5.step _ _ (by decide)
    · exact h5
  have h7 : OptionsTree.AgreeOutside outsideTableOptions o o7 := by
    unfold o7
    split
    · exact h6.trans (tableOptions_migratePopups env _ o6)
    · exact h6
  have h8 : OptionsTree.AgreeOutside outsideTableOptions o o8 := by
    unfold o8
    split
    · repeat first
        | refine agree_migrateBoolEntry ?_ (by decide)
      exact h7
    · exact h7
  have h9 : OptionsTree.AgreeOutside outsideTableOptions o o9 := by
    unfold o9
    split
    · exact h8.trans (tableOptions_migrateIconset _ o8)
    · exact h8
  have h10 : OptionsTree.AgreeOutside outsideTableOptions o o10 := by
    unfold o10
    split
    · repeat first
        | refine agree_migrateBoolEntry ?_ (by decide)
        | refine agree_migrateIntEntry ?_ (by decide)
      exact h9
    · exact h9
  have h11 : OptionsTree.AgreeOutside outsideTableOptions o o11 := by
    unfold o11
    split
    · repeat first
        | refine agree_migrateBoolEntry ?_ (by decide)
      exact h10
    · exact h10
  have h12 : OptionsTree.AgreeOutside outsideTableOptions o o12 := by
    unfold o12
    split
    · repeat first
        | refine agree_migrateStringEntry ?_ (by decide)
        | refine agree_migrateIntEntry ?_ (by decide)
      exact h11
    · exact h11
  split
  · exact h12.trans (tableOptions_migrateGlobalAccel env _ o12)
  · exact h12

theorem migrateMisc_find?_deleteAfter (env : Env) (tag : XmlNode) (o : OptionsTree) :
    (migrateMisc env tag o).find? ["options", "ui", "chat", "delete-contents-after"] =
      some (Variant.str
        (if readNumEntry tag "delChats" env.uninitDelafterint = 0 then "instant"
        else if readNumEntry tag "delChats" env.uninitDelafterint = 1 then "hour"
        else if readNumEntry tag "delChats" env.uninitDelafterint = 2 then "day"
        else if readNumEntry tag "delChats" env.uninitDelafterint = 3 then "never"
        else "")) := by
  have hagree : OptionsTree.AgreeOutside outsideTableOptions
      (o.setOption ["options", "ui", "chat", "delete-contents-after"]
        (Variant.str
          (if readNumEntry tag "delChats" env.uninitDelafterint = 0 then "instant"
          else if readNumEntry tag "delChats" env.uninitDelafterint = 1 then "hour"
          else if readNumEntry tag "delChats" env.uninitDelafterint = 2 then "day"
          else if readNumEntry tag "delChats" env.uninitDelafterint = 3 then "never"
          else "")))
      (migrateMisc env tag o) := by
    unfold migrateMisc
    simp only
    repeat first
      | refine agree_migrateBoolEntry ?_ (by decide)
      | refine agree_migrateStringEntry ?_ (by decide)
      | refine OptionsTree.AgreeOutside.step _ _ ?_ (by decide)
    exact OptionsTree.AgreeOutside.refl _ _
  rw [hagree.find? ["options", "ui", "chat", "delete-contents-after"] rfl,
    OptionsTree.find?_setOption, if_pos rfl]

theorem migrateGeneral_find?_deleteAfter (env : Env) (p_general tag : XmlNode)
    (o : OptionsTree) (h : p_general.firstChildElement "misc" = some tag) :
    (migrateGeneral env p_general o).find? ["options", "ui", "chat", "delete-contents-after"] =
      some (Variant.str
        (if readNumEntry tag "delChats" env.uninitDelafterint = 0 then "instant"
        else if readNumEntry tag "delChats" env.uninitDelafterint = 1 then "hour"
        else if readNumEntry tag "delChats" env.uninitDelafterint = 2 then "day"
        else if readNumEntry tag "delChats" env.uninitDelafterint = 3 then "never"
        else "")) := by
  unfold migrateGeneral
  lift_lets
  intro o1 o2
  have ho2 : o2 = migrateMisc env tag o1 := by
    unfold o2
    rw [h]
  have h2 := migrateMisc_find?_deleteAfter env tag o1
  rw [← ho2] at h2
  split
  · refine Eq.trans (OptionsTree.AgreeOutside.find?
      (?_ : OptionsTree.AgreeOutside outsideTableOptions o2 _)
      ["options", "ui", "chat", "delete-contents-after"] rfl) h2
    repeat first
      | refine agree_migrateBoolEntry ?_ (by decide)
    exact OptionsTree.AgreeOutside.refl _ _
  · exact h2

theorem migrateReceive_find? (tag : XmlNode) (o o' : OptionsTree)
    (h : migrateReceive tag o = Except.ok o') :
    (∃ s, arrayAt ["no", "message", "chat", "current-open"]
        (readNumEntry tag "incomingAs" 0) = Except.ok s ∧
      o'.find? ["options", "messages", "force-incoming-message-type"] =
        some (Variant.str s)) ∧
    o'.find? ["options", "ui", "chat", "delete-contents-after"] =
      o.find? ["options", "ui", "chat", "delete-contents-after"] ∧
    o'.find? ["options", "ui", "notifications", "alert-style"] =
      o.find? ["options", "ui", "notifications", "alert-style"] := by
  unfold migrateReceive at h
  simp only at h
  split at h
  · rename_i s hs
    simp only [Except.ok.injEq] at h
    subst h
    have hagree : OptionsTree.AgreeOutside outsideTableOptions o
        (migrateBoolEntry tag "raise" ["options", "ui", "contactlist", "raise-on-new-event"]
          (migrateBoolEntry tag "noUnlistedPopup"
            ["options", "ui", "notifications", "popup-dialogs", "suppress-when-not-on-roster"]
            (migrateBoolEntry tag "noAwayPopup"
              ["options", "ui", "notifications", "popup-dialogs", "suppress-while-away"]
              (migrateBoolEntry tag "popupFiles" ["options", "ui", "file-transfer", "auto-popup"]
                (migrateBoolEntry tag "popupHeadlines"
                  ["options", "ui", "message", "auto-popup-headlines"]
                  (migrateBoolEntry tag "popupChats" ["options", "ui", "chat", "auto-popup"]
                    (migrateBoolEntry tag "popupMsgs"
                      ["options", "ui", "message", "auto-popup"] o))))))) := by
      repeat first
        | refine agree_migrateBoolEntry ?_ (by decide)
      exact OptionsTree.AgreeOutside.refl _ _
    refine ⟨⟨s, hs, ?_⟩, ?_, ?_⟩
    · rw [OptionsTree.find?_setOption, if_pos rfl]
    · rw [OptionsTree.find?_setOption, if_neg (by decide),
        hagree.find? ["options", "ui", "chat", "delete-contents-after"] rfl]
    · rw [OptionsTree.find?_setOption, if_neg (by decide),
        hagree.find? ["options", "ui", "notifications", "alert-style"] rfl]
  · exact absurd h (by simp)

theorem migrateEvents_find? (env : Env) (p_events : XmlNode) (o o' : OptionsTree)
    (h : migrateEvents env p_events o = Except.ok o') :
    (∃ s, arrayAt ["no", "blink", "animate"]
        (readNumEntry p_events "alertstyle" env.uninitAlertstyle) = Except.ok s ∧
      o'.find? ["options", "ui", "notifications", "alert-style"] = some (Variant.str s)) ∧
    o'.find? ["options", "ui", "chat", "delete-contents-after"] =
      o.find? ["options", "ui", "chat", "delete-contents-after"] ∧
    (∀ tag, p_events.firstChildElement "receive" = some tag →
      ∃ s, arrayAt ["no", "message", "chat", "current-open"]
          (readNumEntry tag "incomingAs" 0) = Except.ok s ∧
        o'.find? ["options", "messages", "force-incoming-message-type"] =
          some (Variant.str s)) := by
  unfold migrateEvents at h
  simp only at h
  split at h
  · exact absurd h (by simp)
  · rename_i s hs
    have hagree : OptionsTree.AgreeOutside outsideTableOptions
        (o.setOption ["options", "ui", "notifications", "alert-style"] (Variant.str s))
        (migrateBoolEntry p_events "notifyAuth"
          ["options", "ui", "notifications", "successful-subscription"]
          (migrateBoolEntry p_events "autoAuth"
            ["options", "subscriptions", "automatically-allow-authorization"]
            (o.setOption ["options", "ui", "notifications", "alert-style"]
              (Variant.str s)))) := by
      repeat first
        | refine agree_migrateBoolEntry ?_ (by decide)
      exact OptionsTree.AgreeOutside.refl _ _
    have h1 := hagree.find? ["options", "ui", "notifications", "alert-style"] rfl
    have h2 := hagree.find? ["options", "ui", "chat", "delete-contents-after"] rfl
    rw [OptionsTree.find?_setOption, if_pos rfl] at h1
    rw [OptionsTree.find?_setOption, if_neg (by decide)] at h2
    cases hr : p_events.firstChildElement "receive" with
    | none =>
      rw [hr] at h
      simp only [Except.ok.injEq] at h
      subst h
      exact ⟨⟨s, hs, h1⟩, h2, fun tag ht => absurd ht (by simp)⟩
    | some tag =>
      rw [hr] at h
      obtain ⟨hf, hd, ha⟩ := migrateReceive_find? tag _ o' h
      refine ⟨⟨s, hs, by rw [ha, h1]⟩, by rw [hd, h2], ?_⟩
      intro tag2 ht
      simp only [Option.some.injEq] at ht
      subst ht
      exact hf

theorem migratePreferences_find? (env : Env) (progver : String) (p : XmlNode)
    (st st' : MigrationState) (h : migratePreferences env progver p st = Except.ok st') :
    (∀ p_general tag, p.firstChildElement "general" = some p_general →
      p_general.firstChildElement "misc" = some tag →
      st'.options.find? ["options", "ui", "chat", "delete-contents-after"] =
        some (Variant.str
          (if readNumEntry tag "delChats" env.uninitDelafterint = 0 then "instant"
          else if readNumEntry tag "delChats" env.uninitDelafterint = 1 then "hour"
          else if readNumEntry tag "delChats" env.uninitDelafterint = 2 then "day"
          else if readNumEntry tag "delChats" env.uninitDelafterint = 3 then "never"
          else ""))) ∧
    (∀ p_events, p.firstChildElement "events" = some p_events →
      (∃ s, arrayAt ["no", "blink", "animate"]
          (readNumEntry p_events "alertstyle" env.uninitAlertstyle) = Except.ok s ∧
        st'.options.find? ["options", "ui", "notifications", "alert-style"] =
          some (Variant.str s)) ∧
      (∀ tag, p_events.firstChildElement "receive" = some tag →
        ∃ s, arrayAt ["no", "message", "chat", "current-open"]
            (readNumEntry tag "incomingAs" 0) = Except.ok s ∧
          st'.options.find? ["options", "messages", "force-incoming-message-type"] =
            some (Variant.str s))) := by
  revert h
  unfold migratePreferences
  lift_lets
  intro o1 events h
  generalize he : events = ev at h
  cases ev with
  | error e => exact absurd h (by simp)
  | ok o2 =>
    simp only [Except.ok.injEq] at h
    rw [← h]
    simp only
    have hrest := tableOptions_migratePreferencesRest env p o2
    rw [hrest.find? ["options", "ui", "chat", "delete-contents-after"] rfl,
      hrest.find? ["options", "ui", "notifications", "alert-style"] rfl,
      hrest.find? ["options", "messages", "force-incoming-message-type"] rfl]
    unfold events at he
    constructor
    · intro p_general tag hg hm
      have ho1 : o1 = migrateGeneral env p_general st.options := by
        unfold o1
        rw [hg]
      have h1 := migrateGeneral_find?_deleteAfter env p_general tag st.options hm
      rw [← ho1] at h1
      cases hev : p.firstChildElement "events" with
      | none =>
        rw [hev] at he
        simp only [Except.ok.injEq] at he
        rw [← he]
        exact h1
      | some p_events =>
        rw [hev] at he
        rw [(migrateEvents_find? env p_events o1 o2 he).2.1]
        exact h1
    · intro p_events hev
      rw [hev] at he
      obtain ⟨ha, -, hf⟩ := migrateEvents_find? env p_events o1 o2 he
      exact ⟨ha, hf⟩

theorem arrayAt_ok (table : List String) (index : Int) (s : String)
    (h : arrayAt table index = Except.ok s) : table.get? index.toNat = some s := by
  unfold arrayAt at h
  split at h
  · exact absurd h (by simp)
  · split at h
    · rename_i s' hs
      simp only [Except.ok.injEq] at h
      rw [hs, h]
    · exact absurd h (by simp)

theorem readNumEntry_of_child (e : XmlNode) (name : String) (v : Int) (c : XmlNode)
    (h : e.firstChildElement name = some c) :
    readNumEntry e name v = qStringToInt (tagContent c) := by
  unfold readNumEntry
  rw [h]

theorem migrateDocument_preferences (env : Env) (base : XmlNode) (st st' : MigrationState)
    (p : XmlNode) (h : migrateDocument env base st = Except.ok st')
    (hp : base.firstChildElement "preferences" = some p) :
    ∃ st1, migratePreferences env (readEntry base "progver" "") p st1 = Except.ok st' := by
  unfold migrateDocument at h
  simp only [hp] at h
  split at h
  · exact absurd h (by simp)
  · exact ⟨_, h⟩

/-- C22. For a header-valid document with a `preferences` element, when `fromFile`
returns: an `alertstyle` entry with a value `i` in 0..2 under `events` leaves
`options.ui.notifications.alert-style` at entry `i` of `no`, `blink`, `animate`; a
`delChats` entry with a value `i` in 0..3 under `general/misc` leaves
`options.ui.chat.delete-contents-after` at entry `i` of `instant`, `hour`, `day`, `never`;
an `incomingAs` entry with a value `i` in 0..3 under `events/receive` leaves
`options.messages.force-incoming-message-type` at entry `i` of `no`, `message`, `chat`,
`current-open`. -/
theorem fromFile_table_values (env : Env) (base : XmlNode) (st : MigrationState)
    (ret : Bool) (st' : MigrationState) (p : XmlNode)
    (hv : headerValid (some base) = true)
    (h : fromFile env (some base) st = Except.ok (ret, st'))
    (hp : base.firstChildElement "preferences" = some p) :
    (∀ p_events c, p.firstChildElement "events" = some p_events →
      p_events.firstChildElement "alertstyle" = some c →
      0 ≤ qStringToInt (tagContent c) → qStringToInt (tagContent c) ≤ 2 →
      st'.options.find? ["options", "ui", "notifications", "alert-style"] =
        (["no", "blink", "animate"].get? (qStringToInt (tagContent c)).toNat).map
          Variant.str) ∧
    (∀ p_general tag c, p.firstChildElement "general" = some p_general →
      p_general.firstChildElement "misc" = some tag →
      tag.firstChildElement "delChats" = some c →
      0 ≤ qStringToInt (tagContent c) → qStringToInt (tagContent c) ≤ 3 →
      st'.options.find? ["options", "ui", "chat", "delete-contents-after"] =
        (["instant", "hour", "day", "never"].get? (qStringToInt (tagContent c)).toNat).map
          Variant.str) ∧
    (∀ p_events tag c, p.firstChildElement "events" = some p_events →
      p_events.firstChildElement "receive" = some tag →
      tag.firstChildElement "incomingAs" = some c →
      0 ≤ qStringToInt (tagContent c) → qStringToInt (tagContent c) ≤ 3 →
      st'.options.find? ["options", "messages", "force-incoming-message-type"] =
        (["no", "message", "chat", "current-open"].get?
          (qStringToInt (tagContent c)).toNat).map Variant.str) := by
  obtain ⟨-, base', hb, hdoc⟩ := fromFile_ok_of_headerValid env _ st ret st' hv h
  cases hb
  obtain ⟨st1, hpref⟩ := migrateDocument_preferences env base st st' p hdoc hp
  obtain ⟨hdel, hev⟩ := migratePreferences_find? env _ p st1 st' hpref
  refine ⟨?_, ?_, ?_⟩
  · intro p_events c he hc _ _
    obtain ⟨⟨s, hs, hf⟩, -⟩ := hev p_events he
    rw [readNumEntry_of_child _ _ _ c hc] at hs
    rw [hf, arrayAt_ok _ _ _ hs]
    rfl
  · intro p_general tag c hg hm hc h0 h3
    rw [hdel p_general tag hg hm, readNumEntry_of_child _ _ _ c hc]
    generalize qStringToInt (tagContent c) = i at h0 h3
    interval_cases i <;> rfl
  · intro p_events tag c he ht hc _ _
    obtain ⟨-, hr⟩ := hev p_events he
    obtain ⟨s, hs, hf⟩ := hr tag ht
    rw [readNumEntry_of_child _ _ _ c hc] at hs
    rw [hf, arrayAt_ok _ _ _ hs]
    rfl

set_option maxRecDepth 100000 in
theorem fromFile_table_values_witness :
    headerValid (some sampleTablesDocument) = true ∧
    (fromFileState sampleEnv (some sampleTablesDocument)
        (MigrationState.fresh sampleStore)).options.find?
      ["options", "ui", "notifications", "alert-style"] = some (Variant.str "animate") ∧
    (fromFileState sampleEnv (some sampleTablesDocument)
        (MigrationState.fresh sampleStore)).options.find?
      ["options", "ui", "chat", "delete-contents-after"] = some (Variant.str "hour") ∧
    (fromFileState sampleEnv (some sampleTablesDocument)
        (MigrationState.fresh sampleStore)).options.find?
      ["options", "messages", "force-incoming-message-type"] =
        some (Variant.str "current-open") :=
  ⟨rfl,
    (fromFile_table_values sampleEnv sampleTablesDocument (MigrationState.fresh sampleStore)
      true
      (fromFileState sampleEnv (some sampleTablesDocument) (MigrationState.fresh sampleStore))
      _ rfl rfl rfl).1 _ (XmlNode.textElem "alertstyle" [] "2") rfl rfl (by decide)
        (by decide),
    (fromFile_table_values sampleEnv sampleTablesDocument (MigrationState.fresh sampleStore)
      true
      (fromFileState sampleEnv (some sampleTablesDocument) (MigrationState.fresh sampleStore))
      _ rfl rfl rfl).2.1 _ _ (XmlNode.textElem "delChats" [] "1") rfl rfl rfl (by decide)
        (by decide),
    (fromFile_table_values sampleEnv sampleTablesDocument (MigrationState.fresh sampleStore)
      true
      (fromFileState sampleEnv (some sampleTablesDocument) (MigrationState.fresh sampleStore))
      _ rfl rfl rfl).2.2 _ _ (XmlNode.textElem "incomingAs" [] "3") rfl rfl rfl (by decide)
        (by decide)⟩

/-! ## The two shapes of the `toolbars` element -/

theorem QMap.value_insert_self {β : Type} [Inhabited β] (k : String) (v : β) :
    ∀ m : QMap β, QMap.value (QMap.insert k v m) k = v
  | [] => by simp [QMap.insert, QMap.value, QMap.lookup]
  | e :: es => by
    unfold QMap.insert
    by_cases h1 : e.1 = k
    · simp [h1, QMap.value, QMap.lookup]
    · by_cases h2 : k < e.1
      · simp [h1, h2, QMap.value, QMap.lookup]
      · have ih := QMap.value_insert_self k v es
        unfold QMap.value QMap.lookup at ih ⊢
        simp only [h1, h2, if_false, List.find?_cons, decide_False]
        exact ih

theorem loadToolbarData_congr (uuid : String) (e1 e2 : XmlNode)
    (h : e1.children = e2.children) : loadToolbarData uuid e1 = loadToolbarData uuid e2 := by
  have hf : ∀ name, e1.firstChildElement name = e2.firstChildElement name := by
    intro name
    unfold XmlNode.firstChildElement
    rw [h]
  unfold loadToolbarData readEntry readBoolEntry xmlToStringList
  simp only [hf]

theorem loadToolbars_congr (env : Env) :
    ∀ (n : Nat) (l1 l2 : List XmlNode),
      l1.map XmlNode.children = l2.map XmlNode.children →
      loadToolbars env n l1 = loadToolbars env n l2
  | _, [], [], _ => rfl
  | _, [], _ :: _, h => by simp at h
  | _, _ :: _, [], h => by simp at h
  | n, e1 :: r1, e2 :: r2, h => by
    simp only [List.map_cons, List.cons.injEq] at h
    unfold loadToolbars
    rw [loadToolbarData_congr _ e1 e2 h.1, loadToolbars_congr env (n + 1) r1 r2 h.2]

theorem loadToolbars_length (env : Env) :
    ∀ (n : Nat) (l : List XmlNode), (loadToolbars env n l).length = l.length
  | _, [] => rfl
  | n, e :: es => by
    unfold loadToolbars
    rw [List.length_cons, List.length_cons, loadToolbars_length env (n + 1) es]

theorem enumFrom_map_load (env : Env) (b : Nat) :
    ∀ (l : List XmlNode) (k : Nat),
      (l.enumFrom k).map (fun iee => loadToolbarData (env.toolbarUuid (b + iee.1)) iee.2) =
        loadToolbars env (b + k) l
  | [], _ => rfl
  | e :: es, k => by
    rw [List.enumFrom_cons, List.map_cons, enumFrom_map_load env b es (k + 1)]
    rfl

theorem toolbarStep_flat (env : Env) (s : ToolbarLoop) (e : XmlNode)
    (he : qLeft e.tagName 7 = "toolbar") (hs : s.oldStyle = true) :
    (toolbarStep env s e).oldStyle = true ∧
    (toolbarStep env s e).mainWinCleared = true ∧
    (toolbarStep env s e).built = s.built + 1 ∧
    QMap.value (toolbarStep env s e).toolbars "mainWin" =
      (if s.mainWinCleared then QMap.value s.toolbars "mainWin" else []) ++
        [loadToolbarData (env.toolbarUuid s.built) e] := by
  have hfind : (["toolbar", "mainWin"].find?
      (fun it => decide (qLeft e.tagName it.length = it))) = some "toolbar" := by
    have : qLeft e.tagName "toolbar".length = "toolbar" := he
    simp [List.find?_cons, this]
  unfold toolbarStep
  simp only [hfind, he, hs, decide_True, if_true, ne_eq, not_true_eq_false, decide_False,
    Bool.false_or, Bool.and_true]
  refine ⟨trivial, ?_, trivial, ?_⟩
  · cases s.mainWinCleared <;> rfl
  · rw [QMap.value_insert_self]
    cases s.mainWinCleared
    · simp only [Bool.not_false, if_true, Bool.false_eq_true, if_false]
      rw [QMap.value_insert_self]
    · simp only [Bool.not_true, Bool.false_eq_true, if_false, if_true]

theorem foldl_toolbarStep_flat (env : Env) :
    ∀ (l : List XmlNode) (s : ToolbarLoop),
      (∀ e ∈ l, qLeft e.tagName 7 = "toolbar") → s.oldStyle = true →
      (l.foldl (toolbarStep env) s).built = s.built + l.length ∧
      (if (l.foldl (toolbarStep env) s).mainWinCleared then
          QMap.value (l.foldl (toolbarStep env) s).toolbars "mainWin"
        else []) =
        (if s.mainWinCleared then QMap.value s.toolbars "mainWin" else []) ++
          loadToolbars env s.built l ∧
      (l ≠ [] → (l.foldl (toolbarStep env) s).mainWinCleared = true)
  | [], s, _, _ => ⟨rfl, by simp [loadToolbars], fun h => absurd rfl h⟩
  | e :: es, s, hl, hs => by
    obtain ⟨h1, h2, h3, h4⟩ := toolbarStep_flat env s e (hl e (List.mem_cons_self e es)) hs
    obtain ⟨i1, i2, i3⟩ := foldl_toolbarStep_flat env es (toolbarStep env s e)
      (fun x hx => hl x (List.mem_cons_of_mem e hx)) h1
    rw [List.foldl_cons]
    refine ⟨?_, ?_, ?_⟩
    · rw [i1, h3, List.length_cons]
      omega
    · rw [i2, h2, if_pos rfl, h4, h3, List.append_assoc]
      rfl
    · intro _
      cases es with
      | nil => exact h2
      | cons x xs => exact i3 (by simp)

theorem foldl_toolbarStep_nested (env : Env) (attrs : List (String × String))
    (nested : List XmlNode) (toolbars : QMap (List ToolbarPrefs))
    (hn : ∀ e ∈ nested, e.isElem = true ∧ e.tagName = "toolbar") :
    ([XmlNode.elem "mainWin" attrs nested].foldl (toolbarStep env)
        { toolbars := toolbars, mainWinCleared := false, oldStyle := true, built := 0 }).built =
      nested.length ∧
    QMap.value ([XmlNode.elem "mainWin" attrs nested].foldl (toolbarStep env)
        { toolbars := toolbars, mainWinCleared := false, oldStyle := true,
          built := 0 }).toolbars "mainWin" = loadToolbars env 0 nested := by
  have hfind : (["toolbar", "mainWin"].find?
      (fun it => decide (qLeft (XmlNode.elem "mainWin" attrs nested).tagName it.length = it))) =
      some "mainWin" := rfl
  have hflat : decide (qLeft (XmlNode.elem "mainWin" attrs nested).tagName 7 = "toolbar") =
      false := rfl
  have hinner : (XmlNode.elem "mainWin" attrs nested).childElements.filter
      (fun ee => decide (ee.tagName = "toolbar")) = nested := by
    unfold XmlNode.childElements
    rw [List.filter_filter]
    apply List.filter_eq_self.mpr
    intro e he
    simp [(hn e he).1, (hn e he).2]
  rw [List.foldl_cons, List.foldl_nil]
  unfold toolbarStep
  simp only [hfind, hflat, hinner, Bool.false_eq_true, if_false, Bool.not_false, Bool.or_true,
    if_true, decide_True, Bool.and_self]
  refine ⟨by simp, ?_⟩
  cases nested with
  | nil =>
    simp only [List.isEmpty_nil, if_true]
    rw [QMap.value_insert_self]
    rfl
  | cons e es =>
    simp only [List.isEmpty_cons, Bool.false_eq_true, if_false]
    rw [QMap.value_insert_self, QMap.value_insert_self, List.nil_append]
    exact enumFrom_map_load env 0 (e :: es) 0

theorem migrateToolbars_value (env : Env) (progver : String) (p_toolbars : XmlNode)
    (toolbars : QMap (List ToolbarPrefs)) :
    QMap.value (migrateToolbars env progver p_toolbars toolbars) "mainWin" =
      (if progver = "0.9" ∨ progver = "0.9-CVS" then
        if (QMap.value (p_toolbars.childElements.foldl (toolbarStep env)
            { toolbars := toolbars, mainWinCleared := false, oldStyle := true,
              built := 0 }).toolbars "mainWin").any
            (fun tb => tb.keys.any (fun k => k = "event_notifier")) then
          QMap.value (p_toolbars.childElements.foldl (toolbarStep env)
            { toolbars := toolbars, mainWinCleared := false, oldStyle := true,
              built := 0 }).toolbars "mainWin"
        else
          QMap.value (p_toolbars.childElements.foldl (toolbarStep env)
            { toolbars := toolbars, mainWinCleared := false, oldStyle := true,
              built := 0 }).toolbars "mainWin" ++
            [{ ToolbarPrefs.init (env.toolbarUuid (p_toolbars.childElements.foldl
                  (toolbarStep env)
                  { toolbars := toolbars, mainWinCleared := false, oldStyle := true,
                    built := 0 }).built) with
                name := env.trEventNotifier
                isOn := false
                locked := true
                keys := ["event_notifier"]
                dock := Qt3Dock_Bottom }]
      else
        QMap.value (p_toolbars.childElements.foldl (toolbarStep env)
          { toolbars := toolbars, mainWinCleared := false, oldStyle := true,
            built := 0 }).toolbars "mainWin") := by
  unfold migrateToolbars
  simp only
  split
  · split
    · rw [if_neg (by simp_all), QMap.value_insert_self]
    · rw [if_pos (by simp_all), QMap.value_insert_self]
  · rfl

/-- The main window toolbars are the same for the flat and the nested shape. -/
theorem migrateToolbars_shapes (env : Env) (progver : String)
    (a1 a2 a3 : List (String × String)) (flat nested : List XmlNode)
    (toolbars : QMap (List ToolbarPrefs))
    (hfresh : QMap.value toolbars "mainWin" = [])
    (hf : ∀ e ∈ flat, e.isElem = true ∧ qLeft e.tagName 7 = "toolbar")
    (hn : ∀ e ∈ nested, e.isElem = true ∧ e.tagName = "toolbar")
    (hsame : flat.map XmlNode.children = nested.map XmlNode.children) :
    QMap.value (migrateToolbars env progver (XmlNode.elem "toolbars" a1 flat) toolbars)
        "mainWin" =
      QMap.value (migrateToolbars env progver
        (XmlNode.elem "toolbars" a2 [XmlNode.elem "mainWin" a3 nested]) toolbars) "mainWin" ∧
    (¬ (progver = "0.9" ∨ progver = "0.9-CVS") →
      QMap.value (migrateToolbars env progver
        (XmlNode.elem "toolbars" a2 [XmlNode.elem "mainWin" a3 nested]) toolbars) "mainWin" =
        loadToolbars env 0 nested) := by
  have hce1 : (XmlNode.elem "toolbars" a1 flat).childElements = flat := by
    unfold XmlNode.childElements
    exact List.filter_eq_self.mpr (fun e he => (hf e he).1)
  have hce2 : (XmlNode.elem "toolbars" a2 [XmlNode.elem "mainWin" a3 nested]).childElements =
      [XmlNode.elem "mainWin" a3 nested] := rfl
  obtain ⟨n1, n2⟩ := foldl_toolbarStep_nested env a3 nested toolbars hn
  obtain ⟨f1, f2, f3⟩ := foldl_toolbarStep_flat env flat
    { toolbars := toolbars, mainWinCleared := false, oldStyle := true, built := 0 }
    (fun e he => (hf e he).2) rfl
  have hlen : flat.length = nested.length := by
    have := congrArg List.length hsame
    simpa using this
  have hfv : QMap.value (flat.foldl (toolbarStep env)
      { toolbars := toolbars, mainWinCleared := false, oldStyle := true,
        built := 0 }).toolbars "mainWin" = loadToolbars env 0 nested := by
    cases flat with
    | nil =>
      cases nested with
      | nil => exact hfresh
      | cons e es => simp at hlen
    | cons e es =>
      rw [f3 (by simp), if_pos rfl] at f2
      rw [f2]
      exact loadToolbars_congr env 0 _ _ hsame
  have hfb : (flat.foldl (toolbarStep env)
      { toolbars := toolbars, mainWinCleared := false, oldStyle := true,
        built := 0 }).built = nested.length := by
    rw [f1, ← hlen]
    simp
  rw [migrateToolbars_value, migrateToolbars_value, hce1, hce2, hfv, hfb, n1, n2]
  refine ⟨rfl, ?_⟩
  intro hver
  rw [if_neg hver]

theorem migratePreferencesLate_toolbars (env : Env) (progver : String) (p t : XmlNode)
    (late : LateMigrationData) (ht : p.firstChildElement "toolbars" = some t) :
    (migratePreferencesLate env progver p late).toolbars =
      migrateToolbars env progver t late.toolbars := by
  have h1 : ∀ (x : XmlNode) (l : LateMigrationData),
      (migratePresenceLate env x l).toolbars = l.toolbars := by
    intro x l
    unfold migratePresenceLate
    split <;> rfl
  have h2 : ∀ (x : XmlNode) (l : LateMigrationData),
      (migrateIconsetLate x l).toolbars = l.toolbars := by
    intro x l
    unfold migrateIconsetLate
    split
    · split <;> split <;> rfl
    · rfl
  unfold migratePreferencesLate
  simp only [ht]
  split
  · rw [h2]
    split <;> simp only [h1]
  · split <;> simp only [h1]

theorem migrateDocument_toolbars (env : Env) (base : XmlNode) (st st' : MigrationState)
    (p t : XmlNode) (h : migrateDocument env base st = Except.ok st')
    (hp : base.firstChildElement "preferences" = some p)
    (ht : p.firstChildElement "toolbars" = some t) :
    st'.lateMigrationData.toolbars =
      migrateToolbars env (readEntry base "progver" "") t st.lateMigrationData.toolbars := by
  unfold migrateDocument at h
  simp only [hp] at h
  split at h
  · exact absurd h (by simp)
  · revert h
    unfold migratePreferences
    lift_lets
    intro o1 events h
    generalize events = ev at h
    cases ev with
    | error e => exact absurd h (by simp)
    | ok o2 =>
      simp only [Except.ok.injEq] at h
      rw [← h]
      exact migratePreferencesLate_toolbars env _ p t _ ht

/-- C25. Two header-valid documents read into a fresh migration object, of the same
program version, one holding a `toolbars` element in the flat shape (children whose tag
starts with `toolbar`) and one in the nested shape (one `mainWin` child with `toolbar`
children), the children holding the same records in the same order: when `fromFile`
returns on both, the list of main window toolbars in the late migration data is the same,
and for a program version other than `0.9` and `0.9-CVS` it is the list of the records in
document order. The record at position `i` draws the `i`-th id in both shapes. -/
theorem fromFile_toolbar_shapes (env : Env) (base1 base2 : XmlNode) (st : MigrationState)
    (ret1 ret2 : Bool) (st1 st2 : MigrationState) (p1 p2 : XmlNode)
    (a1 a2 a3 : List (String × String)) (flat nested : List XmlNode)
    (hv1 : headerValid (some base1) = true) (hv2 : headerValid (some base2) = true)
    (hfresh : st.lateMigrationData.toolbars = [])
    (h1 : fromFile env (some base1) st = Except.ok (ret1, st1))
    (h2 : fromFile env (some base2) st = Except.ok (ret2, st2))
    (hver : readEntry base1 "progver" "" = readEntry base2 "progver" "")
    (hp1 : base1.firstChildElement "preferences" = some p1)
    (hp2 : base2.firstChildElement "preferences" = some p2)
    (ht1 : p1.firstChildElement "toolbars" = some (XmlNode.elem "toolbars" a1 flat))
    (ht2 : p2.firstChildElement "toolbars" =
      some (XmlNode.elem "toolbars" a2 [XmlNode.elem "mainWin" a3 nested]))
    (hf : ∀ e ∈ flat, e.isElem = true ∧ qLeft e.tagName 7 = "toolbar")
    (hn : ∀ e ∈ nested, e.isElem = true ∧ e.tagName = "toolbar")
    (hsame : flat.map XmlNode.children = nested.map XmlNode.children) :
    QMap.value st1.lateMigrationData.toolbars "mainWin" =
      QMap.value st2.lateMigrationData.toolbars "mainWin" ∧
    (¬ (readEntry base2 "progver" "" = "0.9" ∨ readEntry base2 "progver" "" = "0.9-CVS") →
      QMap.value st2.lateMigrationData.toolbars "mainWin" = loadToolbars env 0 nested) := by
  obtain ⟨-, b1, hb1, hdoc1⟩ := fromFile_ok_of_headerValid env _ st ret1 st1 hv1 h1
  obtain ⟨-, b2, hb2, hdoc2⟩ := fromFile_ok_of_headerValid env _ st ret2 st2 hv2 h2
  cases hb1
  cases hb2
  rw [migrateDocument_toolbars env base1 st st1 p1 _ hdoc1 hp1 ht1,
    migrateDocument_toolbars env base2 st st2 p2 _ hdoc2 hp2 ht2, hver, hfresh]
  exact migrateToolbars_shapes env _ a1 a2 a3 flat nested [] rfl hf hn hsame

set_option maxRecDepth 100000 in
theorem fromFile_toolbar_shapes_witness :
    QMap.value (fromFileState sampleEnv (some sampleFlatToolbarsDocument)
        (MigrationState.fresh sampleStore)).lateMigrationData.toolbars "mainWin" =
      QMap.value (fromFileState sampleEnv (some sampleNestedToolbarsDocument)
        (MigrationState.fresh sampleStore)).lateMigrationData.toolbars "mainWin" ∧
    (QMap.value (fromFileState sampleEnv (some sampleNestedToolbarsDocument)
        (MigrationState.fresh sampleStore)).lateMigrationData.toolbars "mainWin").map
      (fun tb => (tb.id, tb.name, tb.isOn, tb.locked, tb.dock)) =
      [("toolbar-0", "Buttons", true, false, Qt3Dock_Bottom),
        ("toolbar-1", "Status", false, true, Qt3Dock_Top)] :=
  ⟨(fromFile_toolbar_shapes sampleEnv sampleFlatToolbarsDocument sampleNestedToolbarsDocument
      (MigrationState.fresh sampleStore) true true
      (fromFileState sampleEnv (some sampleFlatToolbarsDocument)
        (MigrationState.fresh sampleStore))
      (fromFileState sampleEnv (some sampleNestedToolbarsDocument)
        (MigrationState.fresh sampleStore))
      _ _ [] [] []
      [XmlNode.elem "toolbar0" [] (sampleToolbarRecords.getD 0 []),
        XmlNode.elem "toolbar1" [] (sampleToolbarRecords.getD 1 [])]
      [XmlNode.elem "toolbar" [] (sampleToolbarRecords.getD 0 []),
        XmlNode.elem "toolbar" [] (sampleToolbarRecords.getD 1 [])]
      rfl rfl rfl rfl rfl rfl rfl rfl rfl rfl
      (by
        intro e he
        simp only [List.mem_cons, List.mem_singleton, List.not_mem_nil, or_false] at he
        rcases he with rfl | rfl <;> exact ⟨rfl, rfl⟩)
      (by
        intro e he
        simp only [List.mem_cons, List.mem_singleton, List.not_mem_nil, or_false] at he
        rcases he with rfl | rfl <;> exact ⟨rfl, rfl⟩)
      rfl).1,
    rfl⟩

end Psi
